import Mathlib

/-!
# Landslide arbiter, preemption-point registry, guest memory access and job controller

A shallow embedding of `src/landslide/arbiter.c`, `src/landslide/pp.c`,
`instrument/landslide/x86.c` and `id/job.c`.

* Pointers to `struct agent` are addresses (`agent_ptr`); the agent structs live in
  `sched_state.agents`, a map from address to struct, so that the C comparison
  `a == current` is equality of addresses and a store through a pointer is an update
  of the map.
* A C function that can trip an `assert` returns an `Option`: `none` is the failed
  assertion (the checker aborts), `some r` is a normal return.
* Output parameters are passed in with their previous value and handed back in the
  result record, so "not written" is "same value as passed in".
* Macros, constants and helper functions that arbiter.c and pp.c use but that are
  declared in headers outside `src/` are the fields of `landslide_env`.
-/

namespace Landslide

/-! ## Data model -/

/-- An address of a `struct agent`. -/
abbrev agent_ptr := Nat

/-- The compile-time symbols that select code in arbiter.c and pp.c. -/
structure build_config where
  EXPLORE_BACKWARDS : Nat
  BUG_ON_THREADS_WEDGED : Nat
  ICB : Bool
  PINTOS_KERNEL : Bool
  PREEMPT_EVERYWHERE : Bool
  DR_PPS_RESPECT_WITHIN_FUNCTIONS : Bool
  HTM_WEAK_ATOMICITY : Bool
  HTM_ABORT_SETS : Bool
  /-- `GUEST_YIELD_ENTER` and `GUEST_YIELD_EXIT`, when defined. -/
  GUEST_YIELD : Option (Nat × Nat)
  USER_MAKE_RUNNABLE_EXIT : Option Nat
  TRUSTED_THR_JOIN : Bool
  GUEST_SEMA_DOWN_ENTER : Nat
  GUEST_SEMA_UP_EXIT : Nat
  GUEST_CLI_ENTER : Nat
  GUEST_STI_EXIT : Nat

/-- The fields of `struct user_yield_state` that arbiter.c touches. -/
structure user_yield_state where
  loop_count : Nat
  blocked : Bool
deriving DecidableEq, Repr

/-- The fields of an agent's `action` that arbiter.c reads. -/
structure agent_action where
  handling_timer : Bool
  disk_io : Bool
  user_txn : Bool
  kern_mutex_locking : Bool
  kern_mutex_unlocking : Bool
deriving DecidableEq, Repr

/-- The fields of `struct agent` that arbiter.c and pp.c touch; `other` stands for the
rest of the struct, which they never access themselves but the macros of schedule.h
may read. -/
structure agent where
  tid : Nat
  action : agent_action
  user_blocked_on_addr : Nat
  user_yield : user_yield_state
  last_call : Nat
  most_recent_syscall : Nat
  preempt_for_shm_here : Bool
  other : Nat
deriving DecidableEq, Repr

/-- An abort set: the tid of the preempted evil ancestor, and the rest of the struct
(which arbiter.c only copies). -/
structure abort_set where
  preempted_evil_ancestor_tid : Nat
  rest : List Nat
deriving DecidableEq, Repr

/-- One entry of the arbiter's choice queue (`struct choice`). -/
structure choice where
  tid : Nat
  txn : Bool
  xabort_code : Nat
  aborts : abort_set
deriving DecidableEq, Repr

/-- The `struct arbiter_state`: the queue `choices`, head (front) of the queue first. -/
structure arbiter_state where
  choices : List choice
deriving DecidableEq, Repr

/-- A within-function directive (`struct pp_within`). -/
structure pp_within where
  func_start : Nat
  func_end : Nat
  within : Bool
deriving DecidableEq, Repr

/-- A data-race fingerprint (`struct pp_data_race`). -/
structure pp_data_race where
  addr : Nat
  tid : Nat
  last_call : Nat
  most_recent_syscall : Nat
deriving DecidableEq, Repr

/-- The PP registry (`struct pp_config`). -/
structure pp_config where
  dynamic_pps_loaded : Bool
  kern_withins : List pp_within
  user_withins : List pp_within
  data_races : List pp_data_race
  output_pipe_filename : Option String
  input_pipe_filename : Option String
deriving DecidableEq, Repr

/-- The scheduler model as far as arbiter.c sees it. `runnable` lists the agents in the
order in which `FOR_EACH_RUNNABLE_AGENT` visits them, `dq` is the queue of descheduled
agents that `report_deadlock` walks with `Q_FOREACH`; `other` stands for the fields
arbiter.c never accesses itself. -/
structure sched_state where
  agents : agent_ptr → agent
  runnable : List agent_ptr
  dq : List agent_ptr
  cur_agent : agent_ptr
  last_agent : Option agent_ptr
  voluntary_resched_tid : Nat
  most_agents_ever : Nat
  icb_preemption_count : Nat
  deadlock_fp_avoidance_count : Nat
  dpor_preferred_tids : List Nat
  upcoming_aborts : abort_set
  other : Nat

/-- The fields of `struct test_state` that arbiter.c reads. -/
structure test_state where
  test_ever_caused : Bool
  start_population : Nat
deriving DecidableEq, Repr

/-- The fields of `struct save_state` (save.h) that arbiter.c reads; `next_tid` is kept
as the unsigned value it is compared as, `current` as the address of the node. -/
structure save_state where
  current : Nat
  next_tid : Nat
deriving DecidableEq, Repr

/-- Calls that arbiter.c makes into other modules for their effect. -/
inductive effect where
  | abort_transaction (tid : Nat) (h2 : Nat) (code : Nat)
  | save_setjmp (next_tid : Nat) (our_choice end_of_test is_preemption_point : Bool)
      (data_race_eip : Nat) (voluntary : Bool) (joined_tid : Nat)
      (xbegin prune_aborts check_retry : Bool)
  | found_a_bug (msg : String)
deriving DecidableEq, Repr

/-- The `struct ls_state` as far as arbiter.c and pp.c see it. `eax` is
`GET_CPU_ATTR(ls->cpu0, eax)`; `effects` records, oldest first, the calls made into the
save engine and the bug reporter; `other` stands for the parts arbiter.c and pp.c only
pass on (`cpu0`, `user_sync`, ...). -/
structure ls_state where
  sched : sched_state
  arbiter : arbiter_state
  save : save_state
  test : test_state
  pps : pp_config
  icb_bound : Nat
  eip : Nat
  eax : Nat
  instruction_text : Nat → Nat
  end_branch_early : Bool
  effects : List effect
  other : Nat

/-- Macros, constants and functions used by arbiter.c and pp.c whose definitions are in
headers and modules outside `src/` (schedule.h, user_sync.h, kernel_specifics.h,
stack.h, x86.h, ...). Each takes what the C call site passes; where that is a part of
`ls` that is not modelled field by field (`ls->cpu0`, `&ls->user_sync`), it takes `ls`. -/
structure landslide_env where
  cfg : build_config
  TID_NONE : Nat
  ADDR_NONE : Nat
  DR_TID_WILDCARD : Nat
  OPCODE_HLT : Nat
  XABORT_CAPACITY : Nat
  TID_IS_IDLE : Nat → Bool
  KERNEL_MEMORY : Nat → Bool
  BLOCKED : agent → Bool
  HTM_BLOCKED : sched_state → agent_ptr → Bool
  ABORT_SET_BLOCKED : abort_set → Nat → Bool
  ICB_BLOCKED : sched_state → Nat → Bool → agent_ptr → Bool
  NO_PREEMPTION_REQUIRED : sched_state → Bool → agent_ptr → Bool
  XCHG_BLOCKED : user_yield_state → Bool
  agent_has_yielded : user_yield_state → Bool
  agent_is_user_yield_blocked : user_yield_state → Bool
  agent_has_xchged : ls_state → Bool
  anybody_alive : ls_state → Bool
  testing_userspace : Bool
  check_user_address_space : ls_state → Bool
  READ_STACK : ls_state → Nat → Nat
  user_mutex_lock_entering : ls_state → Nat → Bool
  user_mutex_unlock_exiting : Nat → Bool
  user_thr_join_exiting : Nat → Bool
  user_xbegin_entering : Nat → Bool
  user_xend_entering : Nat → Bool
  kern_decision_point : Nat → Bool
  /-- The pair `stack_trace(ls)` then `within_function_st(st, func_start, func_end)`. -/
  within_function_st : ls_state → Nat → Nat → Bool

/-! ## arbiter.c: the choice queue -/

/-- The `arbiter_init`: `Q_INIT_HEAD(&r->choices)`. -/
def arbiter_init : arbiter_state :=
  { choices := [] }

/-- The `arbiter_append_choice`: allocate a choice and `Q_INSERT_FRONT` it. -/
def arbiter_append_choice (r : arbiter_state) (tid : Nat) (txn : Bool) (xabort_code : Nat)
    (aborts : abort_set) : arbiter_state :=
  let c : choice := { tid := tid, txn := txn, xabort_code := xabort_code, aborts := aborts }
  { choices := c :: r.choices }

/-- What `arbiter_pop_choice` hands back: its return value, the queue, and the four
output parameters. -/
structure pop_result where
  ret : Bool
  r : arbiter_state
  tid : Nat
  txn : Bool
  xabort_code : Nat
  aborts : abort_set
deriving DecidableEq, Repr

/-- The `arbiter_pop_choice`: take `Q_GET_TAIL`; if there is one, `Q_REMOVE` it and copy
it to the output parameters, else return false. -/
def arbiter_pop_choice (r : arbiter_state) (tid : Nat) (txn : Bool) (xabort_code : Nat)
    (aborts : abort_set) : pop_result :=
  match r.choices.getLast? with
  | some c =>
    { ret := true, r := { choices := r.choices.dropLast },
      tid := c.tid, txn := c.txn, xabort_code := c.xabort_code, aborts := c.aborts }
  | none =>
    { ret := false, r := r, tid := tid, txn := txn, xabort_code := xabort_code,
      aborts := aborts }

/-! ## pp.c: within-function directives and data-race fingerprints -/

/-- The locals of `check_withins` that its loop updates. -/
structure withins_locals where
  any_withins : Bool
  answer : Bool
deriving DecidableEq, Repr

/-- One iteration of the `ARRAY_LIST_FOREACH` in `check_withins`; `inside` is the value of
`within_function_st(st, pp->func_start, pp->func_end)`. The switch to whitelist mode is
compiled only without `PREEMPT_EVERYWHERE`. -/
def check_withins_step (preempt_everywhere : Bool) (inside : Bool) (pp : pp_within)
    (l : withins_locals) : withins_locals :=
  if pp.within then
    let l1 : withins_locals :=
      if !preempt_everywhere && !l.any_withins then { any_withins := true, answer := false }
      else l
    if inside then { l1 with answer := true } else l1
  else
    if inside then { l with answer := false } else l

/-- The loop of `check_withins` over the directive list, from given locals. -/
def check_withins_loop (preempt_everywhere : Bool) (inside : pp_within → Bool) :
    List pp_within → withins_locals → withins_locals
  | [], l => l
  | pp :: rest, l =>
    check_withins_loop preempt_everywhere inside rest
      (check_withins_step preempt_everywhere (inside pp) pp l)

/-- The `check_withins`: `answer` starts true, `any_withins` false; every directive is
compared against the current stack trace, in list order. -/
def check_withins (X : landslide_env) (ls : ls_state) (pps : List pp_within) : Bool :=
  (check_withins_loop X.cfg.PREEMPT_EVERYWHERE
    (fun pp => X.within_function_st ls pp.func_start pp.func_end) pps
    { any_withins := false, answer := true }).answer

/-- The `kern_within_functions`. -/
def kern_within_functions (X : landslide_env) (ls : ls_state) : Bool :=
  check_withins X ls ls.pps.kern_withins

/-- The `user_within_functions`. -/
def user_within_functions (X : landslide_env) (ls : ls_state) : Bool :=
  check_withins X ls ls.pps.user_withins

/-- The two assertions at the top of the loop body of `suspected_data_race`: a kernel
address must come with a syscall number (unless the guest is Pintos), a user address
with none. True when they hold. -/
def data_race_asserts (X : landslide_env) (pp : pp_data_race) : Bool :=
  if X.KERNEL_MEMORY pp.addr then
    X.cfg.PINTOS_KERNEL || pp.most_recent_syscall != 0
  else
    pp.most_recent_syscall == 0

/-- The condition under which the loop of `suspected_data_race` returns true. -/
def data_race_matches (X : landslide_env) (ls : ls_state) (pp : pp_data_race) : Bool :=
  pp.addr == ls.eip &&
  (pp.tid == X.DR_TID_WILDCARD || pp.tid == (ls.sched.agents ls.sched.cur_agent).tid) &&
  (pp.last_call == 0 || pp.last_call == (ls.sched.agents ls.sched.cur_agent).last_call) &&
  pp.most_recent_syscall == (ls.sched.agents ls.sched.cur_agent).most_recent_syscall

/-- The `ARRAY_LIST_FOREACH` of `suspected_data_race`. -/
def suspected_data_race_loop (X : landslide_env) (ls : ls_state) :
    List pp_data_race → Option Bool
  | [] => some false
  | pp :: rest =>
    if !data_race_asserts X pp then none
    else if data_race_matches X ls pp then some true
    else suspected_data_race_loop X ls rest

/-- The `suspected_data_race`, in both builds: with `PREEMPT_EVERYWHERE` it is the
current agent's `preempt_for_shm_here` flag, without it the registry lookup. -/
def suspected_data_race (X : landslide_env) (ls : ls_state) : Option Bool :=
  if X.cfg.PREEMPT_EVERYWHERE then
    if !X.cfg.DR_PPS_RESPECT_WITHIN_FUNCTIONS then none
    else some (ls.sched.agents ls.sched.cur_agent).preempt_for_shm_here
  else
    if !X.cfg.PINTOS_KERNEL && !X.check_user_address_space ls then some false
    else suspected_data_race_loop X ls ls.pps.data_races

/-! ## arbiter.c: is this instruction a preemption point -/

/-- The condition asserted by `ASSERT_ONE_THREAD_PER_PP`. -/
def ASSERT_ONE_THREAD_PER_PP (X : landslide_env) (ls : ls_state) : Bool :=
  ls.save.next_tid == X.TID_NONE ||
  ls.save.next_tid == (ls.sched.agents ls.sched.cur_agent).tid

/-- What `arbiter_interested` hands back: its return value, the state, and the five
output flags. -/
structure interested_result where
  ret : Bool
  ls : ls_state
  voluntary : Bool
  need_handle_sleep : Bool
  data_race : Bool
  joined : Bool
  xbegin : Bool

/-- A return of `arbiter_interested` with no output flag set. -/
def interested_plain (ls : ls_state) (ret : Bool) : interested_result :=
  { ret := ret, ls := ls, voluntary := false, need_handle_sleep := false,
    data_race := false, joined := false, xbegin := false }

/-- A return of `arbiter_interested` that is preceded by `ASSERT_ONE_THREAD_PER_PP`. -/
def interested_checked (X : landslide_env) (ls : ls_state) (r : interested_result) :
    Option interested_result :=
  if ASSERT_ONE_THREAD_PER_PP X ls then some r else none

/-- The first condition of `arbiter_interested`: a voluntary reschedule is just ending. -/
def voluntary_resched_ending (ls : ls_state) (just_finished_reschedule : Bool) : Bool :=
  match ls.sched.last_agent with
  | none => false
  | some last =>
    !(ls.sched.agents last).action.handling_timer &&
    last != ls.sched.cur_agent &&
    just_finished_reschedule

/-- The branch of `arbiter_interested` for user-mode-only preemption points
(`testing_userspace()` holds). -/
def interested_userspace (X : landslide_env) (ls : ls_state) : Option interested_result :=
  let cur := ls.sched.agents ls.sched.cur_agent
  if X.KERNEL_MEMORY ls.eip then
    match X.cfg.GUEST_YIELD with
    | some (enter, exit) =>
      if (ls.eip == enter && X.READ_STACK ls 1 == cur.tid) ||
         (ls.eip == exit && ls.eax ≥ 2147483648) then
        interested_checked X ls (interested_plain ls true)
      else some (interested_plain ls false)
    | none => some (interested_plain ls false)
  else if X.XCHG_BLOCKED cur.user_yield then
    if !ASSERT_ONE_THREAD_PER_PP X ls then none
    else if !X.cfg.HTM_WEAK_ATOMICITY && cur.action.user_txn then
      some (interested_plain
        { ls with
          effects := ls.effects ++
            [effect.abort_transaction cur.tid ls.save.current X.XABORT_CAPACITY],
          end_branch_early := true } false)
    else some (interested_plain ls true)
  else if !X.cfg.PINTOS_KERNEL && !X.check_user_address_space ls then
    some (interested_plain ls false)
  else if (X.user_mutex_lock_entering ls ls.eip || X.user_mutex_unlock_exiting ls.eip) &&
      user_within_functions X ls then
    if !ASSERT_ONE_THREAD_PER_PP X ls then none
    else if !X.cfg.HTM_WEAK_ATOMICITY && cur.action.user_txn then
      some (interested_plain ls false)
    else some (interested_plain ls true)
  else if X.cfg.USER_MAKE_RUNNABLE_EXIT == some ls.eip then
    interested_checked X ls (interested_plain ls true)
  else if X.cfg.TRUSTED_THR_JOIN && X.user_thr_join_exiting ls.eip then
    interested_checked X ls { interested_plain ls true with joined := true }
  else if X.cfg.TRUSTED_THR_JOIN && X.cfg.USER_MAKE_RUNNABLE_EXIT == none then
    none
  else if X.user_xbegin_entering ls.eip || X.user_xend_entering ls.eip then
    interested_checked X ls
      { interested_plain ls true with xbegin := X.user_xbegin_entering ls.eip }
  else some (interested_plain ls false)

/-- The branch of `arbiter_interested` for kernel-mode-only preemption points. -/
def interested_kernel (X : landslide_env) (ls : ls_state) : Option interested_result :=
  let cur := ls.sched.agents ls.sched.cur_agent
  if X.cfg.PINTOS_KERNEL &&
      (ls.eip == X.cfg.GUEST_SEMA_DOWN_ENTER || ls.eip == X.cfg.GUEST_SEMA_UP_EXIT) &&
      kern_within_functions X ls then
    interested_checked X ls (interested_plain ls true)
  else if X.cfg.PINTOS_KERNEL &&
      (ls.eip == X.cfg.GUEST_CLI_ENTER || ls.eip == X.cfg.GUEST_STI_EXIT) &&
      !cur.action.kern_mutex_locking && !cur.action.kern_mutex_unlocking &&
      kern_within_functions X ls then
    interested_checked X ls (interested_plain ls true)
  else if X.kern_decision_point ls.eip && kern_within_functions X ls then
    interested_checked X ls (interested_plain ls true)
  else some (interested_plain ls false)

/-- The data-race condition of `arbiter_interested`, given the value `dr` that
`suspected_data_race(ls)` returned. -/
def data_race_pp (X : landslide_env) (ls : ls_state) (dr : Bool) : Bool :=
  dr &&
  !X.XCHG_BLOCKED (ls.sched.agents ls.sched.cur_agent).user_yield &&
  (!X.cfg.DR_PPS_RESPECT_WITHIN_FUNCTIONS ||
    ((!X.KERNEL_MEMORY ls.eip && user_within_functions X ls) ||
     (X.KERNEL_MEMORY ls.eip && kern_within_functions X ls))) &&
  (X.cfg.HTM_WEAK_ATOMICITY || !(ls.sched.agents ls.sched.cur_agent).action.user_txn)

/-- The `arbiter_interested`. The five output flags are cleared on entry; the chain of
`if`/`else if` is followed in source order. -/
def arbiter_interested (X : landslide_env) (ls : ls_state) (just_finished_reschedule : Bool) :
    Option interested_result :=
  if voluntary_resched_ending ls just_finished_reschedule then
    match ls.sched.last_agent with
    | none => none
    | some last =>
      if !X.cfg.PINTOS_KERNEL && ls.save.next_tid != (ls.sched.agents last).tid &&
          !ASSERT_ONE_THREAD_PER_PP X ls then none
      else if ls.sched.voluntary_resched_tid == X.TID_NONE then none
      else some { interested_plain ls true with voluntary := true }
  else if ls.instruction_text 0 == X.OPCODE_HLT then
    interested_checked X ls { interested_plain ls true with need_handle_sleep := true }
  else if !ls.test.test_ever_caused ||
      ls.test.start_population == ls.sched.most_agents_ever then
    some (interested_plain ls false)
  else
    match suspected_data_race X ls with
    | none => none
    | some dr =>
      if data_race_pp X ls dr then
        interested_checked X ls { interested_plain ls true with data_race := true }
      else if X.testing_userspace then interested_userspace X ls
      else interested_kernel X ls

/-! ## arbiter.c: deadlock report and false-positive avoidance -/

/-- The `report_deadlock`: false when `BUG_ON_THREADS_WEDGED` is 0, when nobody is
alive, when an enumerated agent is `BLOCKED` with `disk_io` set, or when an agent on the
deschedule queue has `disk_io` set; true otherwise. -/
def report_deadlock (X : landslide_env) (ls : ls_state) : Bool :=
  if X.cfg.BUG_ON_THREADS_WEDGED == 0 then false
  else if !X.anybody_alive ls then false
  else if ls.sched.runnable.any
      (fun a => X.BLOCKED (ls.sched.agents a) && (ls.sched.agents a).action.disk_io) then false
  else if ls.sched.dq.any (fun a => (ls.sched.agents a).action.disk_io) then false
  else true

/-- The macro `IS_IDLE(ls, a)`. -/
def IS_IDLE (X : landslide_env) (ls : ls_state) (a : agent_ptr) : Bool :=
  X.TID_IS_IDLE (ls.sched.agents a).tid &&
  X.cfg.BUG_ON_THREADS_WEDGED != 0 && ls.test.test_ever_caused &&
  ls.test.start_population != ls.sched.most_agents_ever

/-- The constant `DEADLOCK_FP_MAX_ATTEMPTS`. -/
def DEADLOCK_FP_MAX_ATTEMPTS : Nat := 128

/-- A store `*a = v` through an agent pointer. -/
def store_agent (ls : ls_state) (a : agent_ptr) (v : agent) : ls_state :=
  { ls with sched := { ls.sched with agents := Function.update ls.sched.agents a v } }

/-- The locals `found_one` and `*result` of `try_avoid_fp_deadlock`. -/
structure fp_locals where
  found_one : Bool
  result : agent_ptr
deriving DecidableEq, Repr

/-- First loop of `try_avoid_fp_deadlock`: every ICB-blocked agent that is neither
blocked on an address nor yield-blocked becomes the result (the last one stays). -/
def fp_icb_loop (X : landslide_env) (ls : ls_state) (voluntary : Bool) :
    List agent_ptr → fp_locals → Option fp_locals
  | [], l => some l
  | a :: rest, l =>
    if X.ICB_BLOCKED ls.sched ls.icb_bound voluntary a then
      if IS_IDLE X ls a then none
      else if (ls.sched.agents a).user_blocked_on_addr == X.ADDR_NONE &&
          !X.agent_is_user_yield_blocked (ls.sched.agents a).user_yield then
        fp_icb_loop X ls voluntary rest { found_one := true, result := a }
      else fp_icb_loop X ls voluntary rest l
    else fp_icb_loop X ls voluntary rest l

/-- Second loop of `try_avoid_fp_deadlock` (built with `HTM_ABORT_SETS`): every agent
that is abort-set-blocked clears the preempted evil ancestor and becomes the result. -/
def fp_abort_set_loop (X : landslide_env) :
    List agent_ptr → ls_state → fp_locals → ls_state × fp_locals
  | [], ls, l => (ls, l)
  | a :: rest, ls, l =>
    if X.ABORT_SET_BLOCKED ls.sched.upcoming_aborts (ls.sched.agents a).tid then
      fp_abort_set_loop X rest
        { ls with sched := { ls.sched with upcoming_aborts :=
            { ls.sched.upcoming_aborts with preempted_evil_ancestor_tid := X.TID_NONE } } }
        { found_one := true, result := a }
    else fp_abort_set_loop X rest ls l

/-- Third loop of `try_avoid_fp_deadlock`: every agent blocked on an address, or else
yield-blocked, is woken and becomes the result. -/
def fp_wake_loop (X : landslide_env) :
    List agent_ptr → ls_state → fp_locals → Option (ls_state × fp_locals)
  | [], ls, l => some (ls, l)
  | a :: rest, ls, l =>
    if (ls.sched.agents a).user_blocked_on_addr != X.ADDR_NONE then
      if IS_IDLE X ls a then none
      else
        fp_wake_loop X rest
          (store_agent ls a { ls.sched.agents a with user_blocked_on_addr := X.ADDR_NONE })
          { found_one := true, result := a }
    else if X.agent_is_user_yield_blocked (ls.sched.agents a).user_yield then
      if IS_IDLE X ls a then none
      else
        fp_wake_loop X rest
          (store_agent ls a
            { ls.sched.agents a with user_yield := { loop_count := 0, blocked := false } })
          { found_one := true, result := a }
    else fp_wake_loop X rest ls l

/-- What `try_avoid_fp_deadlock` hands back: return value, state and `*result`. -/
structure fp_result where
  ret : Bool
  ls : ls_state
  result : agent_ptr

/-- The part of `try_avoid_fp_deadlock` after the ICB loop found nothing. -/
def fp_after_icb (X : landslide_env) (ls : ls_state) (l : fp_locals) : Option fp_result :=
  let p : ls_state × fp_locals :=
    if X.cfg.HTM_ABORT_SETS then fp_abort_set_loop X ls.sched.runnable ls l else (ls, l)
  if X.cfg.HTM_ABORT_SETS && p.2.found_one then
    some { ret := true, ls := p.1, result := p.2.result }
  else
    match fp_wake_loop X p.1.sched.runnable p.1 p.2 with
    | none => none
    | some q => some { ret := q.2.found_one, ls := q.1, result := q.2.result }

/-- The `try_avoid_fp_deadlock`. The attempt counter is an unsigned int. -/
def try_avoid_fp_deadlock (X : landslide_env) (ls : ls_state) (voluntary : Bool)
    (result : agent_ptr) : Option fp_result :=
  if ls.sched.deadlock_fp_avoidance_count == DEADLOCK_FP_MAX_ATTEMPTS then
    some { ret := false, ls := ls, result := result }
  else
    let ls1 : ls_state :=
      { ls with sched := { ls.sched with deadlock_fp_avoidance_count :=
          (ls.sched.deadlock_fp_avoidance_count + 1) % 4294967296 } }
    match fp_icb_loop X ls1 voluntary ls1.sched.runnable
        { found_one := false, result := result } with
    | none => none
    | some l =>
      if l.found_one then some { ret := true, ls := ls1, result := l.result }
      else fp_after_icb X ls1 l

/-! ## arbiter.c: choosing the next thread -/

/-- The test both loops of `arbiter_choose` apply to an enumerated agent: not `BLOCKED`,
not `IS_IDLE`, not HTM-blocked, not abort-set-blocked, not ICB-blocked. -/
def eligible (X : landslide_env) (ls : ls_state) (voluntary : Bool) (a : agent_ptr) : Bool :=
  !X.BLOCKED (ls.sched.agents a) && !IS_IDLE X ls a &&
  !X.HTM_BLOCKED ls.sched a &&
  !X.ABORT_SET_BLOCKED ls.sched.upcoming_aborts (ls.sched.agents a).tid &&
  !X.ICB_BLOCKED ls.sched ls.icb_bound voluntary a

/-- The locals of `arbiter_choose` that its counting loop updates. The C code leaves
`dpor_preferred_count` uninitialised; it is read only after it was written. -/
structure choose_locals where
  count : Nat
  current_is_legal_choice : Bool
  dpor_preferred_is_legal_choice : Bool
  dpor_preferred_count : Nat
  dpor_preference : Nat
deriving DecidableEq, Repr

/-- The `ARRAY_LIST_FOREACH` over `dpor_preferred_tids` inside the counting loop, for an
agent with tid `a_tid`; `size` is `ARRAY_LIST_SIZE`, `i` the index of the head of the
remaining list. Only the most recent entry (index `size - 1`) is considered. -/
def dpor_scan (size a_tid : Nat) : Nat → List Nat → choose_locals → choose_locals
  | _, [], l => l
  | i, t :: rest, l =>
    if i < size - 1 then dpor_scan size a_tid (i + 1) rest l
    else if a_tid == t && i ≥ l.dpor_preference then
      dpor_scan size a_tid (i + 1) rest
        { l with dpor_preferred_is_legal_choice := true,
                 dpor_preferred_count := l.count,
                 dpor_preference := i }
    else dpor_scan size a_tid (i + 1) rest l

/-- The body of the counting loop of `arbiter_choose` for one enumerated agent; `count`
is an unsigned int. -/
def count_step (X : landslide_env) (ls : ls_state) (current : agent_ptr) (voluntary : Bool)
    (l : choose_locals) (a : agent_ptr) : choose_locals :=
  if eligible X ls voluntary a then
    let l1 : choose_locals := { l with count := (l.count + 1) % 4294967296 }
    let l2 : choose_locals :=
      if a == current then { l1 with current_is_legal_choice := true } else l1
    dpor_scan ls.sched.dpor_preferred_tids.length (ls.sched.agents a).tid 0
      ls.sched.dpor_preferred_tids l2
  else l

/-- The counting loop of `arbiter_choose` over the enumeration. -/
def count_loop (X : landslide_env) (ls : ls_state) (current : agent_ptr) (voluntary : Bool) :
    List agent_ptr → choose_locals → choose_locals
  | [], l => l
  | a :: rest, l => count_loop X ls current voluntary rest (count_step X ls current voluntary l a)

/-- The second loop of `arbiter_choose`: the agent at which `++i == count` holds, `i`
(an unsigned int) being incremented at eligible agents only. -/
def find_choice (X : landslide_env) (ls : ls_state) (voluntary : Bool) (count : Nat) :
    Nat → List agent_ptr → Option agent_ptr
  | _, [] => none
  | i, a :: rest =>
    if eligible X ls voluntary a then
      if (i + 1) % 4294967296 == count then some a
      else find_choice X ls voluntary count ((i + 1) % 4294967296) rest
    else find_choice X ls voluntary count i rest

/-- What `arbiter_choose` hands back: return value, state, `*result`, `*our_choice`. -/
structure choose_result where
  ret : Bool
  ls : ls_state
  result : agent_ptr
  our_choice : Bool

/-- The value of `count` after the `EXPLORE_BACKWARDS` test and the DPOR preference. -/
def chosen_count (X : landslide_env) (l : choose_locals) : Nat :=
  let count := if X.cfg.EXPLORE_BACKWARDS == 0 then 1 else l.count
  if l.dpor_preferred_is_legal_choice && !l.current_is_legal_choice then
    l.dpor_preferred_count
  else count

/-- The tail of `arbiter_choose` from "Find the count-th thread" on. -/
def choose_tail (X : landslide_env) (ls : ls_state) (voluntary : Bool) (count : Nat)
    (result : agent_ptr) (our_choice : Bool) : Option choose_result :=
  match find_choice X ls voluntary count 0 ls.sched.runnable with
  | some a =>
    let ls1 : ls_state :=
      if !X.NO_PREEMPTION_REQUIRED ls.sched voluntary a then
        { ls with sched := { ls.sched with icb_preemption_count :=
            (ls.sched.icb_preemption_count + 1) % 4294967296 } }
      else ls
    some { ret := true, ls := ls1, result := a, our_choice := true }
  | none =>
    if report_deadlock X ls then
      match try_avoid_fp_deadlock X ls voluntary result with
      | none => none
      | some r =>
        if r.ret then some { ret := true, ls := r.ls, result := r.result, our_choice := true }
        else
          let saved : List effect :=
            if voluntary then
              [effect.save_setjmp X.TID_NONE true true true X.ADDR_NONE true X.TID_NONE
                false false false]
            else []
          some { ret := false,
                 ls := { r.ls with effects := r.ls.effects ++ saved ++
                   [effect.found_a_bug "Deadlock -- no threads are runnable!\n"] },
                 result := r.result, our_choice := our_choice }
    else some { ret := false, ls := ls, result := result, our_choice := our_choice }

/-- The `arbiter_choose`. -/
def arbiter_choose (X : landslide_env) (ls : ls_state) (current : agent_ptr)
    (voluntary : Bool) (result : agent_ptr) (our_choice : Bool) : Option choose_result :=
  if ls.arbiter.choices.length != 0 then none
  else
    let l := count_loop X ls current voluntary ls.sched.runnable
      { count := 0, current_is_legal_choice := false,
        dpor_preferred_is_legal_choice := false,
        dpor_preferred_count := 0, dpor_preference := 0 }
    if X.cfg.EXPLORE_BACKWARDS != 0 && X.cfg.ICB then none
    else
      let count := chosen_count X l
      let cur := ls.sched.agents current
      if X.agent_has_yielded cur.user_yield || X.agent_has_xchged ls then
        if l.current_is_legal_choice then
          some { ret := true, ls := ls, result := current, our_choice := true }
        else if !X.agent_is_user_yield_blocked cur.user_yield then
          if cur.user_yield.blocked then none
          else
            choose_tail X
              (store_agent ls current
                { cur with user_yield := { cur.user_yield with loop_count := 0 } })
              voluntary count result our_choice
        else choose_tail X ls voluntary count result our_choice
      else choose_tail X ls voluntary count result our_choice

/-- The state in which `arbiter_choose` reaches "Find the count-th thread" when it has
not returned the yielding current agent: the entry state, except that the current
agent's `user_yield.loop_count` has been set to 0 if it has yielded (or an xchg-yield is
reported) and it is not yield-blocked. -/
def yield_path_state (X : landslide_env) (ls : ls_state) (current : agent_ptr) : ls_state :=
  if (X.agent_has_yielded (ls.sched.agents current).user_yield || X.agent_has_xchged ls) &&
      !X.agent_is_user_yield_blocked (ls.sched.agents current).user_yield then
    store_agent ls current
      { ls.sched.agents current with
        user_yield := { (ls.sched.agents current).user_yield with loop_count := 0 } }
  else ls

/-! ## Drivers used to state properties of call sequences -/

/-- A sequence of `arbiter_append_choice` calls, one per element of `cs`, first
element first. -/
def append_choices (r : arbiter_state) (cs : List choice) : arbiter_state :=
  cs.foldl (fun q c => arbiter_append_choice q c.tid c.txn c.xabort_code c.aborts) r

/-- The choice held by the output parameters after a pop. -/
def pop_result.outputs (p : pop_result) : choice :=
  { tid := p.tid, txn := p.txn, xabort_code := p.xabort_code, aborts := p.aborts }

/-- The first `n` of successive `arbiter_pop_choice` calls on the same queue and the
same four output variables, starting from the queue and variables held in `p`. -/
def pop_choices : Nat → pop_result → List pop_result
  | 0, _ => []
  | n + 1, p =>
    let q := arbiter_pop_choice p.r p.tid p.txn p.xabort_code p.aborts
    q :: pop_choices n q

/-! ## A concrete environment and concrete states

An instance of `landslide_env` for a Pebbles guest tested in user space, and small
states, on which the definitions above are evaluated. -/

/-- A build for a Pebbles guest: forward exploration, ICB on, strong atomicity. -/
def pebbles_cfg : build_config :=
  { EXPLORE_BACKWARDS := 0, BUG_ON_THREADS_WEDGED := 1, ICB := true,
    PINTOS_KERNEL := false, PREEMPT_EVERYWHERE := false,
    DR_PPS_RESPECT_WITHIN_FUNCTIONS := true, HTM_WEAK_ATOMICITY := false,
    HTM_ABORT_SETS := false, GUEST_YIELD := none, USER_MAKE_RUNNABLE_EXIT := none,
    TRUSTED_THR_JOIN := false, GUEST_SEMA_DOWN_ENTER := 0, GUEST_SEMA_UP_EXIT := 0,
    GUEST_CLI_ENTER := 0, GUEST_STI_EXIT := 0 }

/-- An environment for `pebbles_cfg`: user memory starts at 0x01000000, tid 0 is the
idle thread, a thread is blocked when it waits on an address or is yield-blocked, and a
switch away from the current agent is ICB-blocked once the preemption count has
reached the bound. -/
def pebbles_env : landslide_env :=
  { cfg := pebbles_cfg
    TID_NONE := 4294967295
    ADDR_NONE := 4294967295
    DR_TID_WILDCARD := 356585952
    OPCODE_HLT := 244
    XABORT_CAPACITY := 8
    TID_IS_IDLE := fun t => t == 0
    KERNEL_MEMORY := fun a => decide (a < 16777216)
    BLOCKED := fun a => a.user_blocked_on_addr != 4294967295 || a.user_yield.blocked
    HTM_BLOCKED := fun _ _ => false
    ABORT_SET_BLOCKED := fun ab t =>
      ab.preempted_evil_ancestor_tid != 4294967295 && ab.rest.contains t
    ICB_BLOCKED := fun s bound voluntary a =>
      decide (bound ≤ s.icb_preemption_count) && !(voluntary || a == s.cur_agent)
    NO_PREEMPTION_REQUIRED := fun s voluntary a => voluntary || a == s.cur_agent
    XCHG_BLOCKED := fun y => y.blocked
    agent_has_yielded := fun y => decide (0 < y.loop_count) || y.blocked
    agent_is_user_yield_blocked := fun y => decide (10 ≤ y.loop_count) || y.blocked
    agent_has_xchged := fun _ => false
    anybody_alive := fun ls => !ls.sched.runnable.isEmpty || !ls.sched.dq.isEmpty
    testing_userspace := true
    check_user_address_space := fun _ => true
    READ_STACK := fun _ _ => 0
    user_mutex_lock_entering := fun _ eip => eip == 16781312
    user_mutex_unlock_exiting := fun eip => eip == 16781568
    user_thr_join_exiting := fun _ => false
    user_xbegin_entering := fun eip => eip == 16781824
    user_xend_entering := fun eip => eip == 16782080
    kern_decision_point := fun eip => eip == 1052672
    within_function_st := fun ls s e => decide (s ≤ ls.eip) && decide (ls.eip < e) }

/-- An agent with the given tid, blocked-on address and yield-loop count, and nothing
else set. -/
def mk_agent (tid addr loops : Nat) : agent :=
  { tid := tid,
    action := { handling_timer := false, disk_io := false, user_txn := false,
                kern_mutex_locking := false, kern_mutex_unlocking := false },
    user_blocked_on_addr := addr,
    user_yield := { loop_count := loops, blocked := false },
    last_call := 0, most_recent_syscall := 0, preempt_for_shm_here := false, other := 0 }

/-- Three threads T1, T2, T3 (tids 4, 5, 6) at addresses 1, 2, 3, none of them blocked. -/
def three_agents : agent_ptr → agent
  | 1 => mk_agent 4 4294967295 0
  | 2 => mk_agent 5 4294967295 0
  | _ => mk_agent 6 4294967295 0

/-- A state at a user-space instruction during the test: T1, T2, T3 enumerated in this
order, T3 running, the choice queue empty, no preemption used yet (bound 1). -/
def base_state : ls_state :=
  { sched :=
      { agents := three_agents, runnable := [1, 2, 3], dq := [], cur_agent := 3,
        last_agent := some 3, voluntary_resched_tid := 4294967295, most_agents_ever := 3,
        icb_preemption_count := 0, deadlock_fp_avoidance_count := 0,
        dpor_preferred_tids := [],
        upcoming_aborts := { preempted_evil_ancestor_tid := 4294967295, rest := [] },
        other := 0 },
    arbiter := { choices := [] },
    save := { current := 0, next_tid := 6 },
    test := { test_ever_caused := true, start_population := 1 },
    pps := { dynamic_pps_loaded := true, kern_withins := [], user_withins := [],
             data_races := [], output_pipe_filename := none, input_pipe_filename := none },
    icb_bound := 1, eip := 16778496, eax := 0, instruction_text := fun _ => 144,
    end_branch_early := false, effects := [], other := 0 }

/-- Directives: within [0x1000000, 0x1001000), without [0x1000400, 0x1000600), within
[0x2000000, 0x2000100). The eip of `base_state`, 0x1000500, lies in the first two. -/
def sample_withins : List pp_within :=
  [ { func_start := 16777216, func_end := 16781312, within := true },
    { func_start := 16778240, func_end := 16778752, within := false },
    { func_start := 33554432, func_end := 33554688, within := true } ]

/-- The state `base_state` with two data-race entries registered at its eip: one for
tid 4, one with the wildcard tid. -/
def data_race_state : ls_state :=
  { base_state with
    pps := { base_state.pps with
      data_races :=
        [ { addr := 16778496, tid := 4, last_call := 0, most_recent_syscall := 0 },
          { addr := 16778496, tid := 356585952, last_call := 0, most_recent_syscall := 0 } ] } }

/-- Scenario 4 of the spec: T1 and T2 are ICB-blocked (the preemption count has reached
the bound and they are not the current agent), T2 is moreover blocked on the address
0x1002000, T3 is the current agent; the transition is involuntary. -/
def icb_scenario_state : ls_state :=
  { base_state with
    sched := { base_state.sched with
      agents := Function.update three_agents 2 (mk_agent 5 16785408 0),
      icb_preemption_count := 1 } }

/-- The state `base_state` with one externally injected choice (tid 5) queued. -/
def queued_state : ls_state :=
  { base_state with
    arbiter := arbiter_append_choice arbiter_init 5 false 0
      { preempted_evil_ancestor_tid := 4294967295, rest := [] } }

/-- A state in which T2 is the current agent and has yielded once, T1 is eligible and
enumerated before it, and the most recent DPOR-preferred tid is that of T1. -/
def yield_state : ls_state :=
  { base_state with
    sched := { base_state.sched with
      agents := Function.update three_agents 2 (mk_agent 5 4294967295 1),
      cur_agent := 2, last_agent := some 2,
      dpor_preferred_tids := [4] },
    save := { current := 0, next_tid := 5 } }

/-- A voluntary reschedule is just ending: T1 (tid 4), chosen at the previous PP, has
switched to T3 (tid 6) without a timer; the instruction is HLT. -/
def voluntary_state : ls_state :=
  { base_state with
    sched := { base_state.sched with last_agent := some 1, voluntary_resched_tid := 6 },
    save := { current := 0, next_tid := 4 },
    instruction_text := fun _ => 244 }

/-- The kernel idles at a HLT before the test has begun; T3 was the previous choice. -/
def hlt_state : ls_state :=
  { base_state with
    test := { test_ever_caused := false, start_population := 1 },
    instruction_text := fun _ => 244 }

/-- The test has not begun; a data race is registered at the current eip. -/
def pre_test_state : ls_state :=
  { data_race_state with test := { test_ever_caused := false, start_population := 1 } }

/-- All three threads are blocked on (different) addresses, and the false-positive
budget of this branch is used up. -/
def wedged_state : ls_state :=
  { base_state with
    sched := { base_state.sched with
      agents := fun p =>
        match p with
        | 1 => mk_agent 4 16785408 0
        | 2 => mk_agent 5 16785412 0
        | _ => mk_agent 6 16785416 0,
      deadlock_fp_avoidance_count := 128 } }

/-- Scenario 5 of the spec at the start of a branch: all three threads are blocked on
(different) addresses, and no false-positive avoidance has been attempted yet. -/
def blocked_state : ls_state :=
  { wedged_state with
    sched := { wedged_state.sched with deadlock_fp_avoidance_count := 0 } }

/-- The state `base_state` in which T1 is both blocked on the address 0x1002000 and
yield-blocked; T2 and T3 are not blocked. -/
def both_blocked_state : ls_state :=
  { base_state with
    sched := { base_state.sched with
      agents := Function.update three_agents 1
        { mk_agent 4 16785408 0 with user_yield := { loop_count := 0, blocked := true } } } }

/-- Only the idle thread (tid 0) is enumerated, during the test; nothing is blocked and
no false-positive avoidance has been attempted in this branch. -/
def idle_only_state : ls_state :=
  { base_state with
    sched := { base_state.sched with
      agents := fun _ => mk_agent 0 4294967295 0,
      runnable := [1], cur_agent := 1, last_agent := some 1 },
    save := { current := 0, next_tid := 0 } }

/-- No thread exists any more: both queues are empty (the end of the test). -/
def no_threads_state : ls_state :=
  { base_state with sched := { base_state.sched with runnable := [], dq := [] } }

/-! ## job.c: the job record and its lifecycle

The parent-side worker controller. All accesses to `j->status` are made with
`j->lifecycle_lock` held, so each of them is one atomic step of the status machine. -/

/-- The `enum job_status` values that job.c uses. -/
inductive job_status where
  | JOB_NORMAL
  | JOB_BLOCKED
  | JOB_DONE
deriving DecidableEq, Repr

/-- A value of the C type `long double` as the comparisons `==` and `<` see it: not a
number, or a point of the extended line of numbers (`⊥` is minus infinity, `⊤` plus
infinity; every finite `long double` is a rational number, and the two zeros are the one
number 0). -/
inductive long_double where
  | nan
  | num (x : WithBot (WithTop ℚ))
deriving DecidableEq, Repr

/-- The C comparison `a == b` on `long double`: false when one side is not a number. -/
def long_double.eq : long_double → long_double → Bool
  | long_double.num x, long_double.num y => decide (x = y)
  | _, _ => false

/-- The C comparison `a < b` on `long double`: false when one side is not a number. -/
def long_double.lt : long_double → long_double → Bool
  | long_double.num x, long_double.num y => decide (x < y)
  | _, _ => false

/-- The fields of `struct job` that job.c reads or writes, apart from the locks, the
condition variables, the four `struct file`s and the time estimates that are only
printed. `config` is the list of the `config_str` of the PPs of the set, in `FOR_EACH_PP`
order. -/
structure job where
  config : List String
  id : Nat
  generation : Nat
  status : job_status
  should_reproduce : Bool
  elapsed_branches : Nat
  estimate_eta_numeric : long_double
  cancelled : Bool
  complete : Bool
  timed_out : Bool
  kill_job : Bool
  log_filename : Option String
  trace_filename : Option String
  need_rerun : Bool
  fab_timestamp : Nat
  fab_cputime : Nat
  current_cpu : Nat
deriving DecidableEq, Repr

/-- The value `(unsigned long)-1`. -/
def NO_CPU : Nat := 18446744073709551615

/-- The `new_job`: `id` is the value fetched from the global counter `job_id`,
`generation` the value of `compute_generation(config)`. -/
def new_job (id generation : Nat) (config : List String) (should_reproduce : Bool) : job :=
  { config := config, id := id, generation := generation,
    status := job_status.JOB_NORMAL, should_reproduce := should_reproduce,
    elapsed_branches := 0, estimate_eta_numeric := long_double.num 0, cancelled := false,
    complete := false, timed_out := false,
    kill_job := false, log_filename := none, trace_filename := none, need_rerun := false,
    fab_timestamp := 0, fab_cputime := 0, current_cpu := NO_CPU }

/-- The first half of `job_block`, up to the `BROADCAST`: the status must be
`JOB_NORMAL` (assertion) and becomes `JOB_BLOCKED`. -/
def job_block_enter (st : job_status) : Option job_status :=
  if st = job_status.JOB_NORMAL then some job_status.JOB_BLOCKED else none

/-- The assertion `j->status == JOB_NORMAL` that `job_block` makes once its wait loop
has seen a status other than `JOB_BLOCKED`; the status is not written. -/
def job_block_return (st : job_status) : Option job_status :=
  if st = job_status.JOB_NORMAL then some st else none

/-- The `resume_job`: the status must be `JOB_BLOCKED` (assertion) and becomes
`JOB_NORMAL`. -/
def resume_job (st : job_status) : Option job_status :=
  if st = job_status.JOB_BLOCKED then some job_status.JOB_NORMAL else none

/-- The `compare_job_eta`: the two ETAs are read one after the other, each under the
stats lock of its job, and compared. -/
def compare_job_eta (j0 j1 : job) : Int :=
  let eta0 := j0.estimate_eta_numeric
  let eta1 := j1.estimate_eta_numeric
  if eta0.eq eta1 then 0 else if eta0.lt eta1 then -1 else 1

/-- What a wait on `done_cvar` has come to: still in the loop, or returned. -/
inductive wait_outcome where
  | waiting
  | returned (rv : Bool)
deriving DecidableEq, Repr

/-- The `wait_on_job`, as a function of the statuses it finds, one for each evaluation
of its loop condition (each made with the lifecycle lock held): it waits again on
`JOB_NORMAL` and returns `status == JOB_BLOCKED` at the first other status. -/
def wait_on_job : List job_status → wait_outcome
  | [] => wait_outcome.waiting
  | job_status.JOB_NORMAL :: rest => wait_on_job rest
  | job_status.JOB_BLOCKED :: _ => wait_outcome.returned true
  | job_status.JOB_DONE :: _ => wait_outcome.returned false

/-- Where the job thread (the thread running `run_job`, which is also the one that calls
`job_block`) is. -/
inductive job_thread where
  | running
  | in_job_block
  | finished
deriving DecidableEq, Repr

/-- The status of a job together with the position of its job thread. -/
structure lifecycle where
  status : job_status
  thread : job_thread
deriving DecidableEq, Repr

/-- The steps of the lifecycle: the job thread enters `job_block`, the job thread leaves
the wait loop of `job_block`, a workqueue thread calls `resume_job`, the job thread
reaches the end of `run_job`. -/
inductive lifecycle_event where
  | job_block_call
  | job_block_wakeup
  | resume_job_call
  | run_job_end
deriving DecidableEq, Repr

/-- One step of the lifecycle; `none` when the step cannot be taken from this position of
the job thread or when it fails its assertion. The wait loop of `job_block` is left only
when the status is not `JOB_BLOCKED`; the end of `run_job` writes `JOB_DONE`
unconditionally. -/
def lifecycle_step (m : lifecycle) : lifecycle_event → Option lifecycle
  | lifecycle_event.job_block_call =>
    if m.thread = job_thread.running then
      (job_block_enter m.status).map
        (fun st => { status := st, thread := job_thread.in_job_block })
    else none
  | lifecycle_event.job_block_wakeup =>
    if m.thread = job_thread.in_job_block ∧ m.status ≠ job_status.JOB_BLOCKED then
      (job_block_return m.status).map
        (fun st => { status := st, thread := job_thread.running })
    else none
  | lifecycle_event.resume_job_call =>
    (resume_job m.status).map (fun st => { m with status := st })
  | lifecycle_event.run_job_end =>
    if m.thread = job_thread.running then
      some { status := job_status.JOB_DONE, thread := job_thread.finished }
    else none

/-- Whether an event writes `j->status`. -/
def lifecycle_event.writes_status : lifecycle_event → Bool
  | lifecycle_event.job_block_wakeup => false
  | _ => true

/-- The statuses a job goes through along a sequence of steps: the status at the start,
then the status after every step that writes it; `none` if some step cannot be taken. -/
def lifecycle_trace (m : lifecycle) : List lifecycle_event → Option (List job_status)
  | [] => some [m.status]
  | e :: es =>
    match lifecycle_step m e with
    | none => none
    | some m1 =>
      if e.writes_status then (lifecycle_trace m1 es).map (fun tr => m.status :: tr)
      else lifecycle_trace m1 es

/-- The state a sequence of steps leads to; `none` if some step cannot be taken. -/
def lifecycle_run (m : lifecycle) : List lifecycle_event → Option lifecycle
  | [] => some m
  | e :: es =>
    match lifecycle_step m e with
    | none => none
    | some m1 => lifecycle_run m1 es

/-- The lifecycle of a job fresh from `new_job`, its thread started by `start_job`. -/
def lifecycle_init : lifecycle :=
  { status := (new_job 0 0 [] false).status, thread := job_thread.running }

/-- The status changes of the job lifecycle: NORMAL to BLOCKED, BLOCKED to NORMAL,
NORMAL to DONE, and nothing out of DONE. -/
def lifecycle_transition (s t : job_status) : Prop :=
  (s = job_status.JOB_NORMAL ∧ t = job_status.JOB_BLOCKED) ∨
  (s = job_status.JOB_BLOCKED ∧ t = job_status.JOB_NORMAL) ∨
  (s = job_status.JOB_NORMAL ∧ t = job_status.JOB_DONE)

/-! ## job.c: run_job

Each `XWRITE` appends one line to a config file; a file is the list of the lines written
to it, in order, without the trailing newline. I/O failures are not modelled. -/

/-- The global option variables that `set_job_options` sets. -/
structure job_options where
  test_name : String
  user_trace_dir : Option String
  verbose : Bool
  leave_logs : Bool
  pintos : Bool
  pathos : Bool
  use_icb : Bool
  preempt_everywhere : Bool
  pure_hb : Bool
  transactions : Bool
  abort_codes : Bool
  dont_xabort_retry : Bool
  retry_sets : Bool
  weak_atomicity : Bool
  verif_mode : Bool
deriving DecidableEq, Repr

/-- The lines `run_job` writes to the static and to the dynamic config file. -/
structure config_files where
  config_static : List String
  config_dynamic : List String
deriving DecidableEq, Repr

/-- The local `without` of `run_job`. -/
def without (o : job_options) : String :=
  if o.pintos || o.pathos then "without_function" else "without_user_function"

/-- The local `mx_lock` of `run_job`. -/
def mx_lock (o : job_options) : String :=
  if o.pintos then "sema_down" else "mutex_lock"

/-- The local `mx_unlock` of `run_job`. -/
def mx_unlock (o : job_options) : String :=
  if o.pintos then "sema_up" else "mutex_unlock"

/-- The writes of `run_job` from `TEST_CASE=` down to the allocator functions (source
lines 164 to 198); `pps` are the config strings of the PPs of the job. -/
def config_common (o : job_options) (pps : List String) : config_files :=
  { config_static :=
      [ "TEST_CASE=" ++ o.test_name,
        "VERBOSE=" ++ (if o.preempt_everywhere then "0" else if o.verbose then "1" else "0"),
        "ICB=" ++ (if o.use_icb then "1" else "0"),
        "PREEMPT_EVERYWHERE=" ++ (if o.preempt_everywhere then "1" else "0"),
        "PURE_HAPPENS_BEFORE=" ++ (if o.pure_hb then "1" else "0") ],
    config_dynamic :=
      [ "TEST_CASE=" ++ o.test_name,
        without o ++ " " ++ mx_lock o,
        without o ++ " " ++ mx_unlock o ] ++
      (if o.pintos then
         [ without o ++ " " ++ "intr_disable", without o ++ " " ++ "intr_enable" ]
       else if o.pathos then
         [ without o ++ " " ++ "preempt_disable", without o ++ " " ++ "preempt_enable" ]
       else []) ++
      pps ++
      (if o.pathos then
         [ without o ++ " smemalign", without o ++ " sfree", without o ++ " console_lock",
           without o ++ " vm_map", without o ++ " vm_free" ]
       else
         [ without o ++ " malloc", without o ++ " realloc", without o ++ " calloc",
           without o ++ " free" ]) }

/-- The `thrlib_function` lines written in the HTM branch (the `else` of `if (false)`). -/
def htm_thrlib_lines : List String :=
  [ "TRUSTED_THR_JOIN=1",
    "thrlib_function thr_create", "thrlib_function thr_exit", "thrlib_function thr_join",
    "thrlib_function cond_wait", "thrlib_function cond_signal",
    "thrlib_function cond_broadcast", "thrlib_function cond_init",
    "thrlib_function cond_destroy", "thrlib_function mutex_lock",
    "thrlib_function mutex_unlock", "thrlib_function mutex_init",
    "thrlib_function mutex_destroy", "thrlib_function sem_wait",
    "thrlib_function sem_signal", "thrlib_function sem_init",
    "thrlib_function sem_destroy", "thrlib_function thr_bottom",
    "thrlib_function thr_bottom1", "thrlib_function thr_getid",
    "thrlib_function get_stack", "thrlib_function remove_thread",
    "thrlib_function new_thread", "thrlib_function get_thread",
    "thrlib_function child_swexn_init", "thrlib_function wakeup_thread",
    "thrlib_function remove_thread", "thrlib_function atomic_fetch_add",
    "thrlib_function remove_pages_and_vanish", "thrlib_function thr_spawn" ]

/-- The branch `else if (transactions)` of `run_job` (source lines 288 to 383); `none`
when one of its assertions fails. -/
def config_htm (o : job_options) : Option config_files :=
  if o.pintos || o.pathos then none
  else if o.dont_xabort_retry && !o.abort_codes then none
  else if o.retry_sets && (o.abort_codes || o.dont_xabort_retry) then none
  else if o.weak_atomicity && !o.dont_xabort_retry then none
  else
    some
      { config_static :=
          [ "HTM=1", "FILTER_DRS_BY_TID=0" ] ++
          (if o.abort_codes then [ "HTM_ABORT_CODES=1" ] else []) ++
          (if o.dont_xabort_retry then [ "HTM_DONT_RETRY=1" ] else []) ++
          (if o.retry_sets then [ "HTM_ABORT_SETS=1" ] else []) ++
          (if o.weak_atomicity then [ "HTM_WEAK_ATOMICITY=1" ] else []) ++
          htm_thrlib_lines ++
          (if o.test_name == "htm_spinlock" || o.test_name == "htm_mutex" then
             [ "ignore_dr_function critical_section 1" ]
           else []),
        config_dynamic :=
          [ without o ++ " thr_init", without o ++ " thr_create", without o ++ " thr_exit",
            without o ++ " thr_join", without o ++ " thr_bottom1" ] }

/-- The chain of `if`/`else if` on the guest kernel and the test name (source lines 200
to 383); `none` when an assertion of the HTM branch fails. -/
def config_special (o : job_options) : Option config_files :=
  if o.pintos then
    some
      { config_static := [],
        config_dynamic :=
          [ without o ++ " block_read", without o ++ " block_write",
            without o ++ " acquire_console", without o ++ " release_console",
            without o ++ " palloc_get_multiple", without o ++ " serial_putc",
            without o ++ " vga_putc", without o ++ " is_runqueue", without o ++ " idle" ] ++
          (if o.test_name == "alarm-simultaneous" then
             [ without o ++ " child_done", without o ++ " parent_done" ]
           else if o.test_name == "priority-donate-multiple" then
             [ without o ++ " thread_create" ]
           else []) }
  else if o.test_name == "mutex_test" then
    some
      { config_static :=
          [ "TESTING_MUTEXES=1", "FILTER_DRS_BY_TID=0", "DR_PPS_RESPECT_WITHIN_FUNCTIONS=1" ],
        config_dynamic :=
          [ without o ++ " thr_init", without o ++ " thr_create", without o ++ " thr_exit" ] }
  else if o.test_name == "paraguay" then
    some
      { config_static := [],
        config_dynamic :=
          [ without o ++ " thr_init", without o ++ " thr_create", without o ++ " thr_exit" ] }
  else if o.test_name == "paradise_lost" then
    some
      { config_static := [],
        config_dynamic :=
          [ without o ++ " thr_init", without o ++ " thr_create", without o ++ " thr_exit",
            without o ++ " critical_section" ] }
  else if o.test_name == "rwlock_write_write_test" then
    some
      { config_static :=
          [ "FILTER_DRS_BY_TID=0", "DR_PPS_RESPECT_WITHIN_FUNCTIONS=1",
            "thrlib_function thr_create" ],
        config_dynamic :=
          [ without o ++ " thr_init", without o ++ " thr_create",
            without o ++ " critical_section" ] }
  else if o.test_name == "rwlock_dont_starve_writers" ||
      o.test_name == "rwlock_dont_starve_readers" then
    some
      { config_static :=
          [ "FILTER_DRS_BY_TID=0", "DR_PPS_RESPECT_WITHIN_FUNCTIONS=1",
            "thrlib_function thr_create" ],
        config_dynamic :=
          [ without o ++ " thr_init", without o ++ " thr_create",
            without o ++ " signal_release_ok", without o ++ " wait_release_ok",
            without o ++ " cond_wait", without o ++ " cond_signal",
            without o ++ " cond_broadcast" ] }
  else if "atomic_".isPrefixOf o.test_name then
    some
      { config_static :=
          [ "FILTER_DRS_BY_TID=0", "thrlib_function thr_create",
            "thrlib_function cond_wait", "thrlib_function cond_signal",
            "thrlib_function cond_broadcast", "thrlib_function cond_init",
            "thrlib_function cond_destroy", "thrlib_function mutex_lock",
            "thrlib_function mutex_unlock", "thrlib_function mutex_init",
            "thrlib_function mutex_destroy", "thrlib_function sem_wait",
            "thrlib_function sem_signal", "thrlib_function sem_init",
            "thrlib_function sem_destroy" ],
        config_dynamic := [ without o ++ " thr_init", without o ++ " thr_create" ] }
  else if o.transactions then config_htm o
  else some { config_static := [], config_dynamic := [] }

/-- The writes under `if (preempt_everywhere)` (source lines 385 to 396). -/
def config_preempt_everywhere (o : job_options) : config_files :=
  if o.preempt_everywhere then
    { config_static := [ "DR_PPS_RESPECT_WITHIN_FUNCTIONS=1" ],
      config_dynamic :=
        if o.pintos then [ without o ++ " intr_get_level", without o ++ " intr_context" ]
        else [ without o ++ " _doprnt" ] }
  else { config_static := [], config_dynamic := [] }

/-- Config generation in `run_job` (source lines 157 to 396): the contents of the two
config files, or `none` when an assertion fails on the way. Within one file the lines
are in the order in which they are written. -/
def write_configs (o : job_options) (pps : List String) : Option config_files :=
  match config_special o with
  | none => none
  | some sp =>
    some
      { config_static :=
          (config_common o pps).config_static ++ sp.config_static ++
          (config_preempt_everywhere o).config_static,
        config_dynamic :=
          (config_common o pps).config_dynamic ++ sp.config_dynamic ++
          (config_preempt_everywhere o).config_dynamic }

/-- The four scratch files of a job. -/
inductive job_file where
  | config_static
  | config_dynamic
  | log_stdout
  | log_stderr
deriving DecidableEq, Repr

/-- The calls `run_job` makes, in the parent process, into the file, messaging, CPU
reservation and process facades, and its operations on the compile lock and on the
lifecycle. `status_done` is the block that takes the lifecycle lock, sets
`j->status = JOB_DONE` and broadcasts `done_cvar`. -/
inductive job_event where
  | create_file (f : job_file) (template : String)
  | move_file_to (f : job_file) (dir : String)
  | messaging_init
  | stop_using_cpu (cpu : Nat)
  | lock_compile
  | start_using_cpu (cpu : Nat)
  | unlock_compile
  | messaging_abort
  | delete_file (f : job_file) (do_delete : Bool)
  | fork
  | wait_for_child
  | talk_to_child
  | waitpid
  | finish_messaging
  | status_done
deriving DecidableEq, Repr

/-- What the outside world answers during one execution of `run_job`:
`bug_already_found(j->config)`, `TIME_UP()`, `wait_for_child(&mess)`, what
`talk_to_child(&mess, j)` does to the job record, whether `waitpid` returned the pid of
the child, `WIFEXITED` and `WEXITSTATUS` of the child status, the name of the stderr log
file, and the constant `LANDSLIDE_PATH`. -/
structure job_world where
  bug_in_subspace : Bool
  too_late : Bool
  child_alive : Bool
  talk_to_child : job → job
  waitpid_ok : Bool
  wifexited : Bool
  wexitstatus : Nat
  log_stderr_filename : String
  landslide_path : String

/-- What `run_job` leaves behind: the job record, the lines written to the config
files, and the calls made, oldest first. -/
structure run_result where
  j : job
  files : config_files
  trace : List job_event

/-- The calls of `run_job` before the pre-fork check (source lines 148 to 412). -/
def run_job_setup (o : job_options) (w : job_world) (j : job) : List job_event :=
  [ job_event.create_file job_file.config_static "config.quicksand.XXXXXX",
    job_event.create_file job_file.config_dynamic "pps-and-such.quicksand.XXXXXX",
    job_event.create_file job_file.log_stdout "ls-setup.log.XXXXXX",
    job_event.create_file job_file.log_stderr "ls-output.log.XXXXXX" ] ++
  (match o.user_trace_dir with
   | some dir =>
     [ job_event.move_file_to job_file.log_stdout dir,
       job_event.move_file_to job_file.log_stderr dir ]
   | none => []) ++
  [ job_event.messaging_init,
    job_event.move_file_to job_file.config_static w.landslide_path,
    job_event.move_file_to job_file.config_dynamic w.landslide_path,
    job_event.stop_using_cpu j.current_cpu,
    job_event.lock_compile,
    job_event.start_using_cpu j.current_cpu ]

/-- The abort path of `run_job` (source lines 416 to 436). -/
def run_job_abort (w : job_world) (j : job) : job × List job_event :=
  ({ (if w.bug_in_subspace then { j with complete := true, cancelled := true } else j) with
      status := job_status.JOB_DONE },
   [ job_event.unlock_compile, job_event.messaging_abort,
     job_event.delete_file job_file.config_static true,
     job_event.delete_file job_file.config_dynamic true,
     job_event.delete_file job_file.log_stdout true,
     job_event.delete_file job_file.log_stderr true,
     job_event.status_done ])

/-- The parent's side of `run_job` from the fork on (source lines 438 to 519); `none`
when one of the two assertions on `waitpid` fails. -/
def run_job_child (o : job_options) (w : job_world) (j : job) :
    Option (job × List job_event) :=
  let j1 : job := { j with log_filename := some w.log_stderr_filename, need_rerun := false }
  let j2 : job := if w.child_alive then w.talk_to_child j1 else j1
  if !(w.waitpid_ok && w.wifexited) then none
  else
    let should_delete : Bool := !o.leave_logs && w.wexitstatus == 0
    let j3 : job := { j2 with complete := true }
    let j4 : job := if j3.need_rerun then { j3 with cancelled := true } else j3
    let j5 : job := if should_delete then { j4 with log_filename := none } else j4
    some
      ({ j5 with status := job_status.JOB_DONE },
       [ job_event.fork, job_event.wait_for_child, job_event.unlock_compile ] ++
       (if w.child_alive then [ job_event.talk_to_child ] else []) ++
       [ job_event.waitpid, job_event.finish_messaging,
         job_event.delete_file job_file.config_static true,
         job_event.delete_file job_file.config_dynamic true,
         job_event.delete_file job_file.log_stdout should_delete,
         job_event.delete_file job_file.log_stderr should_delete,
         job_event.status_done ])

/-- The `run_job`, as executed by the job thread in the parent process; `none` when an
assertion fails (in config generation, on `j->current_cpu`, or on `waitpid`). -/
def run_job (o : job_options) (w : job_world) (j : job) : Option run_result :=
  match write_configs o j.config with
  | none => none
  | some files =>
    if j.current_cpu == NO_CPU then none
    else if w.bug_in_subspace || w.too_late then
      some { j := (run_job_abort w j).1, files := files,
             trace := run_job_setup o w j ++ (run_job_abort w j).2 }
    else
      match run_job_child o w j with
      | none => none
      | some p =>
        some { j := p.1, files := files, trace := run_job_setup o w j ++ p.2 }

/-! ## Concrete options, worlds and jobs -/

/-- Options for a Pebbles user-space test named `name`, everything else off. -/
def user_options (name : String) : job_options :=
  { test_name := name, user_trace_dir := none, verbose := false, leave_logs := false,
    pintos := false, pathos := false, use_icb := false, preempt_everywhere := false,
    pure_hb := false, transactions := false, abort_codes := false,
    dont_xabort_retry := false, retry_sets := false, weak_atomicity := false,
    verif_mode := false }

/-- A world in which no bug has been found, the deadline has not come, and the child
comes alive, changes nothing in the job record and exits with status 0. -/
def quiet_world : job_world :=
  { bug_in_subspace := false, too_late := false, child_alive := true,
    talk_to_child := fun j => j, waitpid_ok := true, wifexited := true, wexitstatus := 0,
    log_stderr_filename := "ls-output.log.AAAAAA", landslide_path := "../pebsim/" }

/-- A job fresh from `new_job` for the PP set with the single directive
`K 1000 2000 1`, given CPU 0 by the workqueue. -/
def fresh_job : job :=
  { new_job 7 1 ["K 1000 2000 1"] false with current_cpu := 0 }

/-- A job whose ETA is the number `x`. -/
def job_with_eta (x : WithBot (WithTop ℚ)) : job :=
  { fresh_job with estimate_eta_numeric := long_double.num x }

/-- A job whose ETA is not a number. -/
def job_with_nan_eta : job :=
  { fresh_job with estimate_eta_numeric := long_double.nan }

/-- The job record when `run_job` reaches `waitpid` (source lines 438 to 487):
`log_filename` has been set and `need_rerun` reset before the fork, and `talk_to_child`
has run if the child came alive. -/
def job_at_waitpid (w : job_world) (j : job) : job :=
  if w.child_alive then
    w.talk_to_child { j with log_filename := some w.log_stderr_filename, need_rerun := false }
  else { j with log_filename := some w.log_stderr_filename, need_rerun := false }

/-! ## pp.c: loading the dynamic PP file

`load_dynamic_pps` reads the file line by line with `fgets` and takes each line apart with
`sscanf`. The C library is not part of the repository: `isspace`, the conversions `%x`
and `%i` and `sscanf` are written down here as the C standard describes them (C11
7.21.6.2 and 7.22.1.4), for the directives that the three format strings of pp.c use. A
buffer is the list of the characters of a C string, without the terminating NUL. -/

/-- The `isspace` of the "C" locale: space, `\t`, `\n`, `\v`, `\f`, `\r`. -/
def isspace (c : Char) : Bool :=
  c == ' ' || c == '\t' || c == '\n' || c == Char.ofNat 11 || c == Char.ofNat 12 ||
    c == '\r'

/-- The value of a character as a digit, letters in either case counting from 10. -/
def digit_value (c : Char) : Option Nat :=
  if 48 ≤ c.toNat ∧ c.toNat ≤ 57 then some (c.toNat - 48)
  else if 97 ≤ c.toNat ∧ c.toNat ≤ 102 then some (c.toNat - 87)
  else if 65 ≤ c.toNat ∧ c.toNat ≤ 70 then some (c.toNat - 55)
  else none

/-- Whether a character is a digit of the given base (8, 10 or 16). -/
def is_digit (base : Nat) (c : Char) : Bool :=
  match digit_value c with
  | some d => decide (d < base)
  | none => false

/-- The number that a run of digits denotes in the given base, most significant digit
first. -/
def digits_value (base : Nat) (ds : List Char) : Nat :=
  ds.foldl (fun acc c => acc * base + (digit_value c).getD 0) 0

/-- The outcome of one conversion: the input ended before any character of the item was
read, the input does not fit, or a value was converted and the rest of the input is left
unread. -/
inductive scan_item where
  | input_failure
  | matching_failure
  | converted (value : Int) (rest : List Char)
deriving DecidableEq, Repr

/-- The digits of an integer input item: the longest run of digits of the base. No digit
is a matching failure. -/
def scan_digits (base : Nat) (neg : Bool) (s : List Char) : scan_item :=
  if s.takeWhile (is_digit base) = [] then scan_item.matching_failure
  else
    scan_item.converted
      (if neg then - (digits_value base (s.takeWhile (is_digit base)) : Int)
       else (digits_value base (s.takeWhile (is_digit base)) : Int))
      (s.dropWhile (is_digit base))

/-- Whether the input starts with `0x` or `0X`. -/
def hex_prefixed : List Char → Bool
  | a :: b :: _ => a == '0' && (b == 'x' || b == 'X')
  | _ => false

/-- An integer input item after its sign, as `strtoul` with base 16 (`%x`, `base = 16`)
or `strtol` with base 0 (`%i`, `base = 0`) expects it: an optional `0x` prefix and
hexadecimal digits; for base 0 otherwise octal digits after a leading `0`, decimal digits
after any other digit. The item is the longest sequence of characters that is a prefix of
such a number, so a `0x` that no hexadecimal digit follows is a matching failure. -/
def scan_magnitude (base : Nat) (neg : Bool) (s : List Char) : scan_item :=
  if hex_prefixed s then scan_digits 16 neg (s.drop 2)
  else if base == 0 then
    if s.head? == some '0' then scan_digits 8 neg s else scan_digits 10 neg s
  else scan_digits 16 neg s

/-- The conversions `%x` (`base = 16`) and `%i` (`base = 0`): white space is skipped,
then comes an optional sign, then the number. -/
def scan_int (base : Nat) (s : List Char) : scan_item :=
  match s.dropWhile isspace with
  | [] => scan_item.input_failure
  | c :: rest =>
    if c == '-' then scan_magnitude base true rest
    else if c == '+' then scan_magnitude base false rest
    else scan_magnitude base false (c :: rest)

/-- The directives of a `sscanf` format, as far as pp.c uses them: white space, an
ordinary character, `%x`, `%i`. -/
inductive directive where
  | white
  | ordinary (c : Char)
  | conv_x
  | conv_i
deriving DecidableEq, Repr

/-- The directives of a format string. -/
def parse_format : List Char → List directive
  | [] => []
  | [c] => [if isspace c then directive.white else directive.ordinary c]
  | c :: d :: rest =>
    if c == '%' && d == 'x' then directive.conv_x :: parse_format rest
    else if c == '%' && d == 'i' then directive.conv_i :: parse_format rest
    else (if isspace c then directive.white else directive.ordinary c) ::
      parse_format (d :: rest)

/-- The value `EOF` of stdio.h. -/
def EOF : Int := -1

/-- What a call of `sscanf` gives: its return value and the values it has assigned
through its pointer arguments, in order; the remaining arguments are not written. -/
structure scan_result where
  ret : Int
  assigned : List Nat
deriving DecidableEq, Repr

/-- A converted value as the `unsigned int` object receives it; a value outside the
range of the object is reduced modulo 2^32 (C leaves that case undefined). -/
def store_unsigned (v : Int) : Nat :=
  (v % 4294967296).toNat

/-- The execution of the directives of a format on an input, after `assigned` values have
been assigned. An input failure before the first conversion has completed gives `EOF`;
every other failure gives the number of values assigned so far. -/
def sscanf_loop : List directive → List Char → List Nat → scan_result
  | [], _, assigned => { ret := assigned.length, assigned := assigned }
  | directive.white :: fmt, s, assigned => sscanf_loop fmt (s.dropWhile isspace) assigned
  | directive.ordinary c :: fmt, s, assigned =>
    match s with
    | [] => { ret := if assigned.isEmpty then EOF else assigned.length, assigned := assigned }
    | d :: rest =>
      if d == c then sscanf_loop fmt rest assigned
      else { ret := assigned.length, assigned := assigned }
  | directive.conv_x :: fmt, s, assigned =>
    match scan_int 16 s with
    | scan_item.input_failure =>
      { ret := if assigned.isEmpty then EOF else assigned.length, assigned := assigned }
    | scan_item.matching_failure => { ret := assigned.length, assigned := assigned }
    | scan_item.converted v rest => sscanf_loop fmt rest (assigned ++ [store_unsigned v])
  | directive.conv_i :: fmt, s, assigned =>
    match scan_int 0 s with
    | scan_item.input_failure =>
      { ret := if assigned.isEmpty then EOF else assigned.length, assigned := assigned }
    | scan_item.matching_failure => { ret := assigned.length, assigned := assigned }
    | scan_item.converted v rest => sscanf_loop fmt rest (assigned ++ [store_unsigned v])

/-- The `sscanf(buf, format, ...)` of the C library, every pointer argument pointing to
an `unsigned int`. -/
def sscanf (buf : List Char) (format : String) : scan_result :=
  sscanf_loop (parse_format format.data) buf []

/-- What `load_dynamic_pps` does outside the registry: the calls into stdio, unistd and
the messaging module, and the warning that the loop prints for a directive it does not
recognize (the other `lsprintf` calls are left out). -/
inductive pp_event where
  | fopen (filename : String)
  | warning (buf : String)
  | fclose
  | unlink (filename : String)
  | messaging_open_pipes (input_pipe_filename output_pipe_filename : Option String)
deriving DecidableEq, Repr

/-- The first statement of the loop body of `load_dynamic_pps`: a newline at the end of
the buffer is cut off. -/
def chomp (buf : List Char) : List Char :=
  if buf.getLast? = some '\n' then buf.dropLast else buf

/-- The two assertions on the form of an `O` or `I` line: `buf[1]` is a space, `buf[2]`
is neither a space nor the end of the string. -/
def pipe_line_asserts (buf : List Char) : Bool :=
  buf.get? 1 == some ' ' && (buf.get? 2).isSome && buf.get? 2 != some ' '

/-- The body of the `while (fgets ...)` loop of `load_dynamic_pps` after the newline is
cut off: the `if`/`else if` chain on the directive in `buf`. `none` is a failed assertion;
otherwise the registry and what was printed as a warning. -/
def load_directive (X : landslide_env) (p : pp_config) (buf : List Char) :
    Option (pp_config × List pp_event) :=
  if buf.head? == some 'O' then
    if pipe_line_asserts buf && p.output_pipe_filename.isNone then
      some ({ p with output_pipe_filename := some (String.mk (buf.drop 2)) }, [])
    else none
  else if buf.head? == some 'I' then
    if pipe_line_asserts buf && p.input_pipe_filename.isNone then
      some ({ p with input_pipe_filename := some (String.mk (buf.drop 2)) }, [])
    else none
  else if (sscanf buf "K %x %x %i").ret != 0 then
    let r := sscanf buf "K %x %x %i"
    if r.ret == 3 then
      some ({ p with kern_withins := p.kern_withins ++
                [{ func_start := r.assigned.getD 0 0, func_end := r.assigned.getD 1 0,
                   within := r.assigned.getD 2 0 != 0 }] }, [])
    else none
  else if (sscanf buf "U %x %x %i").ret != 0 then
    let r := sscanf buf "U %x %x %i"
    if r.ret == 3 then
      some ({ p with user_withins := p.user_withins ++
                [{ func_start := r.assigned.getD 0 0, func_end := r.assigned.getD 1 0,
                   within := r.assigned.getD 2 0 != 0 }] }, [])
    else none
  else if (sscanf buf "DR %x %i %i %i").ret != 0 then
    let r := sscanf buf "DR %x %i %i %i"
    if r.ret == 4 then
      if X.cfg.PREEMPT_EVERYWHERE then none
      else
        some ({ p with data_races := p.data_races ++
                  [{ addr := r.assigned.getD 0 0, tid := r.assigned.getD 1 0,
                     last_call := r.assigned.getD 2 0,
                     most_recent_syscall := r.assigned.getD 3 0 }] }, [])
    else none
  else some (p, [pp_event.warning (String.mk buf)])

/-- The `while (fgets(buf, BUF_SIZE, pp_file) != NULL)` loop of `load_dynamic_pps`, over
the buffers that the successive calls of `fgets` fill. -/
def load_lines (X : landslide_env) : pp_config → List String →
    Option (pp_config × List pp_event)
  | p, [] => some (p, [])
  | p, buf :: rest =>
    match load_directive X p (chomp buf.data) with
    | none => none
    | some (p1, ev1) =>
      match load_lines X p1 rest with
      | none => none
      | some (p2, ev2) => some (p2, ev1 ++ ev2)

/-- What `load_dynamic_pps` hands back: its return value, the state, and what it did
outside the registry, oldest first. -/
structure load_result where
  ret : Bool
  ls : ls_state
  events : List pp_event

/-- The `load_dynamic_pps`. `pp_file` is what `fopen(filename, "r")` and the calls of
`fgets` on the file give: `none` if the file cannot be opened, else the buffers that
`fgets` fills one after the other (a line of the file with its newline, if it fits in
`BUF_SIZE`). `none` is a failed assertion. A failure of `unlink` only prints a warning
and is left out. -/
def load_dynamic_pps (X : landslide_env) (pp_file : Option (List String)) (ls : ls_state)
    (filename : String) : Option load_result :=
  if ls.pps.dynamic_pps_loaded then some { ret := false, ls := ls, events := [] }
  else
    match pp_file with
    | none => none
    | some bufs =>
      match load_lines X ls.pps bufs with
      | none => none
      | some (p, ev) =>
        some
          { ret := true,
            ls := { ls with pps := { p with dynamic_pps_loaded := true } },
            events :=
              [ pp_event.fopen filename ] ++ ev ++
              [ pp_event.fclose, pp_event.unlink filename,
                pp_event.messaging_open_pipes p.input_pipe_filename
                  p.output_pipe_filename ] }

/-- The registry as `pps_init` leaves it in a build whose static tables
`KERN_WITHIN_FUNCTIONS`, `USER_WITHIN_FUNCTIONS` and `DATA_RACE_INFO` are empty. -/
def empty_pps : pp_config :=
  { dynamic_pps_loaded := false, kern_withins := [], user_withins := [], data_races := [],
    output_pipe_filename := none, input_pipe_filename := none }

/-! ### Well-formed lines of a dynamic PP file

The lines that the claims about `load_dynamic_pps` speak of, written down without
reference to `sscanf`: what a numeral is, what number it denotes, what a line looks like
and what it asks for. -/

/-- The digits of numerals, in order of value; a letter counts in either case. -/
def numeral_digits : List Char := "0123456789abcdef".data

/-- The value of a digit of a numeral: its place in `numeral_digits`. -/
def numeral_digit (c : Char) : Nat :=
  numeral_digits.indexOf c.toLower

/-- The number that a string of digits denotes in base `base`, the first digit being the
most significant one. -/
def numeral_value (base : Nat) (digits : List Char) : Nat :=
  Nat.ofDigits base (digits.reverse.map numeral_digit)

/-- A hexadecimal numeral: a string of hexadecimal digits, with or without `0x` in
front. -/
structure hex_numeral where
  prefixed : Bool
  digits : List Char
deriving DecidableEq, Repr

/-- The characters of a hexadecimal numeral. -/
def hex_numeral.text (h : hex_numeral) : List Char :=
  (if h.prefixed then ['0', 'x'] else []) ++ h.digits

/-- The number a hexadecimal numeral denotes. -/
def hex_numeral.value (h : hex_numeral) : Nat :=
  numeral_value 16 h.digits

/-- A hexadecimal numeral is well formed when it has a digit, all its digits are
hexadecimal digits, and its value fits in 32 bits. -/
def hex_numeral.wf (h : hex_numeral) : Prop :=
  h.digits ≠ [] ∧ (∀ c ∈ h.digits, c ∈ "0123456789abcdefABCDEF".data) ∧
  h.value < 4294967296

/-- An integer numeral: decimal digits, or hexadecimal digits after `0x`. -/
inductive int_numeral where
  | dec (digits : List Char)
  | hex (digits : List Char)
deriving DecidableEq, Repr

/-- The characters of an integer numeral. -/
def int_numeral.text : int_numeral → List Char
  | int_numeral.dec digits => digits
  | int_numeral.hex digits => ['0', 'x'] ++ digits

/-- The number an integer numeral denotes when it is read as a decimal numeral, or as a
hexadecimal one if it is written with `0x`. -/
def int_numeral.value : int_numeral → Nat
  | int_numeral.dec digits => numeral_value 10 digits
  | int_numeral.hex digits => numeral_value 16 digits

/-- An integer numeral is well formed when it has a digit, all its digits are digits of
its base, a decimal numeral other than `0` does not start with `0`, and its value fits in
32 bits. -/
def int_numeral.wf : int_numeral → Prop
  | int_numeral.dec digits =>
    digits ≠ [] ∧ (∀ c ∈ digits, c ∈ "0123456789".data) ∧
    (digits.head? = some '0' → digits = ['0']) ∧ numeral_value 10 digits < 4294967296
  | int_numeral.hex digits =>
    digits ≠ [] ∧ (∀ c ∈ digits, c ∈ "0123456789abcdefABCDEF".data) ∧
    numeral_value 16 digits < 4294967296

/-- A line of a dynamic PP file: `O <name>`, `I <name>`, `K <start> <end> <polarity>`,
`U <start> <end> <polarity>` or `DR <eip> <tid> <last_call> <syscall>`. -/
inductive pp_line where
  | output_pipe (name : List Char)
  | input_pipe (name : List Char)
  | kern_within (func_start func_end : hex_numeral) (polarity : int_numeral)
  | user_within (func_start func_end : hex_numeral) (polarity : int_numeral)
  | data_race (eip : hex_numeral) (tid last_call syscall : int_numeral)
deriving DecidableEq, Repr

/-- The characters of a line, its fields one space apart, without the newline. -/
def pp_line.text : pp_line → List Char
  | pp_line.output_pipe name => 'O' :: ' ' :: name
  | pp_line.input_pipe name => 'I' :: ' ' :: name
  | pp_line.kern_within s e q => 'K' :: ' ' :: (s.text ++ ' ' :: (e.text ++ ' ' :: q.text))
  | pp_line.user_within s e q => 'U' :: ' ' :: (s.text ++ ' ' :: (e.text ++ ' ' :: q.text))
  | pp_line.data_race a t c m =>
    'D' :: 'R' :: ' ' :: (a.text ++ ' ' :: (t.text ++ ' ' :: (c.text ++ ' ' :: m.text)))

/-- A line is well formed when its numerals are; a pipe name is not empty, does not
start with a space and holds no newline. -/
def pp_line.wf : pp_line → Prop
  | pp_line.output_pipe name => name ≠ [] ∧ name.head? ≠ some ' ' ∧ '\n' ∉ name
  | pp_line.input_pipe name => name ≠ [] ∧ name.head? ≠ some ' ' ∧ '\n' ∉ name
  | pp_line.kern_within s e q => s.wf ∧ e.wf ∧ q.wf
  | pp_line.user_within s e q => s.wf ∧ e.wf ∧ q.wf
  | pp_line.data_race a t c m => a.wf ∧ t.wf ∧ c.wf ∧ m.wf

/-- The kernel within-function entry a line asks for, if it is a `K` line. -/
def pp_line.kern_entry : pp_line → Option pp_within
  | pp_line.kern_within s e q =>
    some { func_start := s.value, func_end := e.value, within := decide (q.value ≠ 0) }
  | _ => none

/-- The user within-function entry a line asks for, if it is a `U` line. -/
def pp_line.user_entry : pp_line → Option pp_within
  | pp_line.user_within s e q =>
    some { func_start := s.value, func_end := e.value, within := decide (q.value ≠ 0) }
  | _ => none

/-- The data-race entry a line asks for, if it is a `DR` line. -/
def pp_line.data_race_entry : pp_line → Option pp_data_race
  | pp_line.data_race a t c m =>
    some { addr := a.value, tid := t.value, last_call := c.value,
           most_recent_syscall := m.value }
  | _ => none

/-- The pipe name a line gives for the output pipe, if it is an `O` line. -/
def pp_line.output_name : pp_line → Option String
  | pp_line.output_pipe name => some (String.mk name)
  | _ => none

/-- The pipe name a line gives for the input pipe, if it is an `I` line. -/
def pp_line.input_name : pp_line → Option String
  | pp_line.input_pipe name => some (String.mk name)
  | _ => none

/-- Well-formedness of a hexadecimal numeral can be checked. -/
instance hex_numeral.decidable_wf (h : hex_numeral) : Decidable h.wf := by
  unfold hex_numeral.wf
  infer_instance

/-- Well-formedness of an integer numeral can be checked. -/
instance int_numeral.decidable_wf : (n : int_numeral) → Decidable n.wf
  | int_numeral.dec digits => by
    unfold int_numeral.wf
    infer_instance
  | int_numeral.hex digits => by
    unfold int_numeral.wf
    infer_instance

/-- Well-formedness of a line can be checked. -/
instance pp_line.decidable_wf : (l : pp_line) → Decidable l.wf
  | pp_line.output_pipe name => by
    unfold pp_line.wf
    infer_instance
  | pp_line.input_pipe name => by
    unfold pp_line.wf
    infer_instance
  | pp_line.kern_within s e q => by
    unfold pp_line.wf
    infer_instance
  | pp_line.user_within s e q => by
    unfold pp_line.wf
    infer_instance
  | pp_line.data_race a t c m => by
    unfold pp_line.wf
    infer_instance

/-- The lines `K 1000 2000 1`, `U 0x10 0x20 0` and `DR 0x1000 3 0x2000 5`. -/
def sample_pp_lines : List pp_line :=
  [ pp_line.kern_within { prefixed := false, digits := "1000".data }
      { prefixed := false, digits := "2000".data } (int_numeral.dec "1".data),
    pp_line.user_within { prefixed := true, digits := "10".data }
      { prefixed := true, digits := "20".data } (int_numeral.dec "0".data),
    pp_line.data_race { prefixed := true, digits := "1000".data } (int_numeral.dec "3".data)
      (int_numeral.hex "2000".data) (int_numeral.dec "5".data) ]

/-- A state whose registry is as `pps_init` leaves it with empty static tables. -/
def fresh_pps_state : ls_state :=
  { base_state with pps := empty_pps }

/-- Where a field of a line ends: at the end of the buffer or at a space. -/
def field_end (rest : List Char) : Prop :=
  ∀ c, rest.head? = some c → c = ' '

/-! ## x86.c: guest memory access

`cpu_t` is the simulator's CPU; x86.c reaches it only through the macros of x86.h,
which are the fields of `x86_env`. Values held in `unsigned int` variables are reduced
modulo 2^32 where they are assigned. -/

/-- The macros and constants of x86.h and of the build that the memory functions of
x86.c use; `PDE_PTE_POISON` is `none` when the symbol is not defined. -/
structure x86_env (cpu_t : Type) where
  CR0_PG : Nat
  WORD_SIZE : Nat
  PDE_PTE_POISON : Option Nat
  GET_CR0 : cpu_t → Nat
  GET_CR3 : cpu_t → Nat
  READ_PHYS_MEMORY : cpu_t → Nat → Nat → Nat
  WRITE_PHYS_MEMORY : cpu_t → Nat → Nat → Nat → cpu_t

/-- The local `pde` of `mem_translate`: the page directory entry for `addr`, read at
`cr3 + 4 * (addr >> 22)`. -/
def mem_translate_pde {cpu_t : Type} (M : x86_env cpu_t) (cpu : cpu_t) (addr : Nat) : Nat :=
  let upper := addr >>> 22
  let cr3 := M.GET_CR3 cpu % 4294967296
  let pde_addr := (cr3 + 4 * upper) % 4294967296
  M.READ_PHYS_MEMORY cpu pde_addr M.WORD_SIZE % 4294967296

/-- The local `pte` of `mem_translate`: the page table entry for `addr`, read at
`(pde & ~4095) + 4 * ((addr >> 12) & 1023)`. -/
def mem_translate_pte {cpu_t : Type} (M : x86_env cpu_t) (cpu : cpu_t) (addr : Nat) : Nat :=
  let lower := (addr >>> 12) &&& 1023
  let pde := mem_translate_pde M cpu addr
  let pte_addr := ((pde &&& 4294963200) + 4 * lower) % 4294967296
  M.READ_PHYS_MEMORY cpu pte_addr M.WORD_SIZE % 4294967296

/-- The two tests that `mem_translate` makes on a page directory or page table entry:
the present bit is set, and the entry is not the poison value (when there is one). -/
def entry_present {cpu_t : Type} (M : x86_env cpu_t) (entry : Nat) : Bool :=
  entry &&& 1 != 0 && M.PDE_PTE_POISON != some entry

/-- The part of `mem_translate` after the `#ifdef PINTOS_KERNEL` block: the walk of the
two-level page table. `none` is `return false`, `some phys` is `return true` with
`*result = phys`. -/
def page_walk {cpu_t : Type} (M : x86_env cpu_t) (cpu : cpu_t) (addr : Nat) : Option Nat :=
  let offset := addr &&& 4095
  if !entry_present M (mem_translate_pde M cpu addr) then none
  else if !entry_present M (mem_translate_pte M cpu addr) then none
  else some (((mem_translate_pte M cpu addr &&& 4294963200) + offset) % 4294967296)

/-- The `mem_translate`. The outer `none` is the failed assertion of the Pintos build
(paging must be on); `some none` is `return false`; `some (some phys)` is `return true`
with `*result = phys`. -/
def mem_translate {cpu_t : Type} (X : landslide_env) (M : x86_env cpu_t) (cpu : cpu_t)
    (addr : Nat) : Option (Option Nat) :=
  if X.cfg.PINTOS_KERNEL then
    if M.GET_CR0 cpu &&& M.CR0_PG != 0 then some (page_walk M cpu addr) else none
  else if X.KERNEL_MEMORY addr then some (some addr)
  else if M.GET_CR0 cpu &&& M.CR0_PG == 0 then some none
  else some (page_walk M cpu addr)

/-- The `read_memory`; `none` is the failed assertion of `mem_translate`. -/
def read_memory {cpu_t : Type} (X : landslide_env) (M : x86_env cpu_t) (cpu : cpu_t)
    (addr width : Nat) : Option Nat :=
  match mem_translate X M cpu addr with
  | none => none
  | some (some phys_addr) => some (M.READ_PHYS_MEMORY cpu phys_addr width % 4294967296)
  | some none => some 0

/-- The `write_memory`: its return value and the CPU (with its memory) afterwards; `none`
is the failed assertion of `mem_translate`. -/
def write_memory {cpu_t : Type} (X : landslide_env) (M : x86_env cpu_t) (cpu : cpu_t)
    (addr val width : Nat) : Option (Bool × cpu_t) :=
  match mem_translate X M cpu addr with
  | none => none
  | some (some phys_addr) => some (true, M.WRITE_PHYS_MEMORY cpu phys_addr val width)
  | some none => some (false, cpu)

/-- A CPU for the examples: the two control registers and a physical memory of 32-bit
words, one at each address that is read. -/
structure sample_cpu where
  cr0 : Nat
  cr3 : Nat
  phys : Nat → Nat

/-- The macros of x86.h over `sample_cpu`; no poison value. -/
def sample_x86 : x86_env sample_cpu :=
  { CR0_PG := 2147483648, WORD_SIZE := 4, PDE_PTE_POISON := none,
    GET_CR0 := fun cpu => cpu.cr0, GET_CR3 := fun cpu => cpu.cr3,
    READ_PHYS_MEMORY := fun cpu a _ => cpu.phys a,
    WRITE_PHYS_MEMORY := fun cpu a v _ =>
      { cpu with phys := fun b => if b = a then v else cpu.phys b } }

/-- A CPU with paging on, the page directory at 0x100000 and all of physical memory
zero, so that no page directory entry is present. -/
def unmapped_cpu : sample_cpu :=
  { cr0 := 2147483649, cr3 := 1048576, phys := fun _ => 0 }

/-- A CPU before paging is turned on. -/
def prepaging_cpu : sample_cpu :=
  { cr0 := 1, cr3 := 0, phys := fun _ => 0 }

/-- A CPU with paging on that maps the page of 0x01000000 to the frame at 0x00345000:
the page directory is at 0x100000, its entry 4 points to the page table at 0x101000,
whose entry 0 points to the frame; the word at 0x00345010 is 7. -/
def mapped_cpu : sample_cpu :=
  { cr0 := 2147483649, cr3 := 1048576,
    phys := fun a =>
      if a = 1048592 then 1052679
      else if a = 1052672 then 3428359
      else if a = 3428368 then 7
      else 0 }

/-! ## x86.c: instruction classification -/

/-- The `opcodes_are_atomic_swap`. `ops` is the array of bytes that the argument points
to; `none` is a read past the end of the array. -/
def opcodes_are_atomic_swap (ops : List Nat) : Option Bool :=
  match ops.get? 0 with
  | none => none
  | some first =>
    let offset : Nat := if first == 240 then 1 else 0
    match ops.get? offset with
    | none => none
    | some op =>
      if op == 134 || op == 135 then some true
      else if op == 15 then
        match ops.get? (offset + 1) with
        | none => none
        | some op2 => if op2 == 176 || op2 == 177 then some true else some false
      else some false

/-- The `instruction_is_atomic_swap`: the three bytes at `eip`, `eip + 1` and `eip + 2`
are read with `READ_BYTE` (a macro of x86.h) into a `uint8_t[3]`, which is handed to
`opcodes_are_atomic_swap`. -/
def instruction_is_atomic_swap {cpu_t : Type} (READ_BYTE : cpu_t → Nat → Nat) (cpu : cpu_t)
    (eip : Nat) : Option Bool :=
  opcodes_are_atomic_swap
    [ READ_BYTE cpu eip % 256,
      READ_BYTE cpu ((eip + 1) % 4294967296) % 256,
      READ_BYTE cpu ((eip + 2) % 4294967296) % 256 ]

/-- The byte sequences of an atomic swap: after at most one leading LOCK prefix `0xf0`,
the byte `0x86` or `0x87` (xchg), or the byte `0x0f` followed by `0xb0` or `0xb1`
(cmpxchg). -/
def atomic_swap_bytes (ops : List Nat) : Bool :=
  match (if ops.head? = some 240 then ops.tail else ops) with
  | [] => false
  | op :: rest =>
    op = 134 || op = 135 ||
      (op = 15 && (rest.head? = some 176 || rest.head? = some 177))

/-- The macros of x86.h over `sample_cpu`, in a build whose poison value for page table
entries is 0xcdcdcdcd. -/
def poison_x86 : x86_env sample_cpu :=
  { sample_x86 with PDE_PTE_POISON := some 3452816845 }

/-- A CPU with paging on whose page directory (at 0x100000) has the poison value in
entry 4; the word at 0xcdcdc000, where a page table entry for 0x01000000 would be read,
has its present bit set. -/
def poisoned_cpu : sample_cpu :=
  { cr0 := 2147483649, cr3 := 1048576,
    phys := fun a =>
      if a = 1048592 then 3452816845
      else if a = 3452813312 then 3428359
      else 0 }

/-- The state of the compile lock along a sequence of calls, starting from `held`: `none`
if the lock is taken while held or released while not held, else whether it is held at
the end. -/
def compile_lock_after : Bool → List job_event → Option Bool
  | held, [] => some held
  | held, job_event.lock_compile :: rest =>
    if held then none else compile_lock_after true rest
  | held, job_event.unlock_compile :: rest =>
    if held then compile_lock_after false rest else none
  | held, _ :: rest => compile_lock_after held rest

/-- The first character of a config line. -/
def first_char (s : String) : Option Char := s.data.head?

/-- The state `base_state` in which the current agent T3 is blocked on an xchg-continue
mutex (`user_yield.blocked`) inside a transaction. -/
def xchg_txn_state : ls_state :=
  { base_state with
    sched := { base_state.sched with
      agents := Function.update three_agents 3
        { mk_agent 6 4294967295 0 with
          action := { handling_timer := false, disk_io := false, user_txn := true,
                      kern_mutex_locking := false, kern_mutex_unlocking := false },
          user_yield := { loop_count := 0, blocked := true } } } }

/-- The state `base_state` in which the current agent T3 is blocked on an xchg-continue
mutex outside of any transaction. -/
def xchg_state : ls_state :=
  { base_state with
    sched := { base_state.sched with
      agents := Function.update three_agents 3
        { mk_agent 6 4294967295 0 with user_yield := { loop_count := 0, blocked := true } } } }

/-- T2 is the current agent, has yielded too many times and is yield-blocked; T1 and T3
are eligible. -/
def too_many_yields_state : ls_state :=
  { base_state with
    sched := { base_state.sched with
      agents := Function.update three_agents 2
        { mk_agent 5 4294967295 10 with user_yield := { loop_count := 10, blocked := true } },
      cur_agent := 2, last_agent := some 2 },
    save := { current := 0, next_tid := 5 } }

/-- T2 is the current agent, has yielded three times and then got blocked on the address
0x1002000; T1 and T3 are eligible. -/
def yield_addr_blocked_state : ls_state :=
  { base_state with
    sched := { base_state.sched with
      agents := Function.update three_agents 2 (mk_agent 5 16785408 3),
      cur_agent := 2, last_agent := some 2 },
    save := { current := 0, next_tid := 5 } }

/-- T2 is the current agent and is blocked on the address 0x1002000; T1 and T3 are
eligible; DPOR has preferred tid 4 (T1) and then, most recently, tid 6 (T3). -/
def dpor_state : ls_state :=
  { base_state with
    sched := { base_state.sched with
      agents := Function.update three_agents 2 (mk_agent 5 16785408 0),
      cur_agent := 2, last_agent := some 2,
      dpor_preferred_tids := [4, 6] },
    save := { current := 0, next_tid := 5 } }

/-- All three threads are blocked on (different) addresses, T1 is moreover yield-blocked
(ten yields, `user_yield.blocked` set); T3 is the current agent, and no false-positive
avoidance has been attempted yet in this branch. -/
def wedged_both_state : ls_state :=
  { blocked_state with
    sched := { blocked_state.sched with
      agents := fun p =>
        match p with
        | 1 => { mk_agent 4 16785408 0 with user_yield := { loop_count := 10, blocked := true } }
        | 2 => mk_agent 5 16785412 0
        | _ => mk_agent 6 16785416 0 } }

/-! ## Theorems -/

/-- Appending in order leaves the queue holding the choices newest first. -/
theorem append_choices_choices (r : arbiter_state) (cs : List choice) :
    (append_choices r cs).choices = cs.reverse ++ r.choices := by
  induction cs generalizing r with
  | nil => simp [append_choices]
  | cons c cs ih =>
    have h := ih (arbiter_append_choice r c.tid c.txn c.xabort_code c.aborts)
    simp only [append_choices, List.foldl_cons] at h ⊢
    rw [h]
    simp [arbiter_append_choice]

/-- A pop on a queue whose tail element is `c` returns `c` and removes it. -/
theorem arbiter_pop_choice_concat (l : List choice) (c : choice) (t : Nat) (x : Bool)
    (k : Nat) (a : abort_set) :
    arbiter_pop_choice { choices := l ++ [c] } t x k a =
      { ret := true, r := { choices := l }, tid := c.tid, txn := c.txn,
        xabort_code := c.xabort_code, aborts := c.aborts } := by
  simp [arbiter_pop_choice, List.getLast?_concat, List.dropLast_concat]

/-- A pop on the empty queue returns false and hands everything back as it was. -/
theorem arbiter_pop_choice_nil (t : Nat) (x : Bool) (k : Nat) (a : abort_set) :
    arbiter_pop_choice { choices := [] } t x k a =
      { ret := false, r := { choices := [] }, tid := t, txn := x, xabort_code := k,
        aborts := a } := by
  simp [arbiter_pop_choice]

/-- Popping a queue that holds `cs` oldest-at-the-tail returns the elements of `cs` in
order and then fails, leaving the outputs at the last choice popped. -/
theorem pop_choices_reverse (cs : List choice) (b : Bool) (o : choice) :
    (pop_choices (cs.length + 1)
        { ret := b, r := { choices := cs.reverse }, tid := o.tid, txn := o.txn,
          xabort_code := o.xabort_code, aborts := o.aborts }).map
      (fun p => (p.ret, p.outputs)) =
    cs.map (fun c => (true, c)) ++ [(false, (cs.getLast?).getD o)] := by
  induction cs generalizing b o with
  | nil =>
    simp [pop_choices, arbiter_pop_choice_nil, pop_result.outputs]
  | cons c cs ih =>
    have h := ih true c
    simp only [pop_choices, List.reverse_cons, arbiter_pop_choice_concat, List.map_cons,
      List.length_cons, List.cons_append] at h ⊢
    rw [h]
    cases cs with
    | nil => simp [pop_result.outputs]
    | cons d ds =>
      have hl : (d :: ds).getLast? = some ((d :: ds).getLast (by simp)) :=
        List.getLast?_eq_getLast _ (by simp)
      simp [pop_result.outputs, List.getLast?_cons_cons, hl]

/-- C8: the arbiter choice queue is FIFO. After any sequence `cs` of
`arbiter_append_choice` calls on the initially empty queue, the first `cs.length`
successive `arbiter_pop_choice` calls each return true and yield the choices (tid, txn,
xabort_code, abort set) in exactly the order they were appended; the next call returns
false and leaves the four output parameters as they were (at the last popped choice, or
at their initial values `o` when nothing was appended). On the empty queue
`arbiter_pop_choice` returns false and hands back the queue and whatever values its
output parameters held. -/
theorem arbiter_choice_queue_fifo (cs : List choice) (o : choice) :
    (pop_choices (cs.length + 1)
        { ret := false, r := append_choices arbiter_init cs, tid := o.tid, txn := o.txn,
          xabort_code := o.xabort_code, aborts := o.aborts }).map
      (fun p => (p.ret, p.outputs)) =
      cs.map (fun c => (true, c)) ++ [(false, (cs.getLast?).getD o)] ∧
    arbiter_pop_choice arbiter_init o.tid o.txn o.xabort_code o.aborts =
      { ret := false, r := arbiter_init, tid := o.tid, txn := o.txn,
        xabort_code := o.xabort_code, aborts := o.aborts } := by
  have h : append_choices arbiter_init cs = { choices := cs.reverse } := by
    have h1 := append_choices_choices arbiter_init cs
    cases hq : append_choices arbiter_init cs with
    | mk l =>
      rw [hq] at h1
      simp [arbiter_init] at h1
      simp [h1]
  rw [h]
  exact ⟨pop_choices_reverse cs false o, arbiter_pop_choice_nil _ _ _ _⟩

/-- The loop of `check_withins` over a concatenation runs the two parts in turn. -/
theorem check_withins_loop_append (pe : Bool) (inside : pp_within → Bool)
    (xs ys : List pp_within) (l : withins_locals) :
    check_withins_loop pe inside (xs ++ ys) l =
      check_withins_loop pe inside ys (check_withins_loop pe inside xs l) := by
  induction xs generalizing l with
  | nil => rfl
  | cons x xs ih => simp [check_withins_loop, ih]

/-- Loop invariant of `check_withins` without `PREEMPT_EVERYWHERE`: `any_withins` tells
whether a `within` directive was seen, and `answer` is the polarity of the last
directive seen whose range contains the stack, or the default when there is none. -/
theorem check_withins_loop_spec (inside : pp_within → Bool) (pps : List pp_within) :
    (check_withins_loop false inside pps { any_withins := false, answer := true }).any_withins
        = pps.any (fun pp => pp.within) ∧
    (check_withins_loop false inside pps { any_withins := false, answer := true }).answer
        = (match (pps.filter inside).getLast? with
           | some pp => pp.within
           | none => !pps.any (fun pp => pp.within)) := by
  induction pps using List.reverseRecOn with
  | nil => simp [check_withins_loop]
  | append_singleton xs x ih =>
    obtain ⟨ih1, ih2⟩ := ih
    rw [check_withins_loop_append]
    simp only [check_withins_loop, List.any_append, List.filter_append]
    generalize check_withins_loop false inside xs { any_withins := false, answer := true } = l
      at ih1 ih2
    cases l with
    | mk aw ans =>
      simp only at ih1 ih2
      subst ih1 ih2
      have hmem : ∀ v, (List.filter inside xs).getLast? = some v →
          xs.any (fun pp => pp.within) = false → v.within = false := by
        intro v hv hnone
        have hvx : v ∈ xs := (List.mem_filter.mp (List.mem_of_getLast?_eq_some hv)).1
        have := List.any_eq_false.mp hnone v hvx
        simpa using this
      cases hin : inside x <;> cases hw : x.within <;>
        cases hany : xs.any (fun pp => pp.within) <;>
        cases hlast : (List.filter inside xs).getLast? <;>
        simp [check_withins_step, hin, hw, hany, hlast, List.filter_cons, List.getLast?_append]
      exact hmem _ hlast hany

/-- C6: in the build without `PREEMPT_EVERYWHERE`, for every directive list and every
stack trace, `check_withins` returns the polarity (`within` field) of the last directive
in list order whose function range contains the stack trace if there is one; otherwise it
returns true when no directive in the list has polarity `within` (the empty list
included) and false when at least one has. -/
theorem check_withins_last_match (X : landslide_env) (ls : ls_state) (pps : List pp_within)
    (hpe : X.cfg.PREEMPT_EVERYWHERE = false) :
    check_withins X ls pps =
      (match (pps.filter
          (fun pp => X.within_function_st ls pp.func_start pp.func_end)).getLast? with
       | some pp => pp.within
       | none => !pps.any (fun pp => pp.within)) := by
  unfold check_withins
  rw [hpe]
  exact (check_withins_loop_spec _ pps).2

/-- When every entry passes the two assertions, the registry loop returns whether some
entry matches. -/
theorem suspected_data_race_loop_ok (X : landslide_env) (ls : ls_state)
    (drs : List pp_data_race) (h : ∀ pp ∈ drs, data_race_asserts X pp = true) :
    suspected_data_race_loop X ls drs = some (drs.any (data_race_matches X ls)) := by
  induction drs with
  | nil => rfl
  | cons pp rest ih =>
    have h1 : data_race_asserts X pp = true := h pp (List.mem_cons_self _ _)
    have h2 := ih (fun q hq => h q (List.mem_cons_of_mem _ hq))
    cases hm : data_race_matches X ls pp <;>
      simp [suspected_data_race_loop, h1, hm, h2]

/-- The match condition of the registry loop, spelled out field by field. -/
theorem data_race_matches_iff (X : landslide_env) (ls : ls_state) (pp : pp_data_race) :
    data_race_matches X ls pp = true ↔
      pp.addr = ls.eip ∧
      (pp.tid = X.DR_TID_WILDCARD ∨ pp.tid = (ls.sched.agents ls.sched.cur_agent).tid) ∧
      (pp.last_call = 0 ∨ pp.last_call = (ls.sched.agents ls.sched.cur_agent).last_call) ∧
      pp.most_recent_syscall = (ls.sched.agents ls.sched.cur_agent).most_recent_syscall := by
  simp [data_race_matches, and_assoc]

/-- C7: in the build without `PREEMPT_EVERYWHERE`, when the user address-space check
passes and every registered entry satisfies the registry's syscall assertions,
`suspected_data_race` returns (no assertion fails), and it returns true iff some
registered data-race entry has addr equal to the current eip, tid equal to
`DR_TID_WILDCARD` or to the current agent's tid, last_call equal to 0 or to the current
agent's last_call, and most_recent_syscall equal to the current agent's. Hence an entry
with the wildcard tid whose other fields match makes it return true whatever the current
tid is, and when every entry has a fixed tid different from the current tid it returns
false. -/
theorem suspected_data_race_iff (X : landslide_env) (ls : ls_state)
    (hpe : X.cfg.PREEMPT_EVERYWHERE = false)
    (hua : X.check_user_address_space ls = true)
    (hassert : ∀ pp ∈ ls.pps.data_races, data_race_asserts X pp = true) :
    (∃ b, suspected_data_race X ls = some b) ∧
    (suspected_data_race X ls = some true ↔
      ∃ pp ∈ ls.pps.data_races,
        pp.addr = ls.eip ∧
        (pp.tid = X.DR_TID_WILDCARD ∨ pp.tid = (ls.sched.agents ls.sched.cur_agent).tid) ∧
        (pp.last_call = 0 ∨
          pp.last_call = (ls.sched.agents ls.sched.cur_agent).last_call) ∧
        pp.most_recent_syscall =
          (ls.sched.agents ls.sched.cur_agent).most_recent_syscall) ∧
    (∀ pp ∈ ls.pps.data_races,
        pp.tid = X.DR_TID_WILDCARD → pp.addr = ls.eip →
        (pp.last_call = 0 ∨
          pp.last_call = (ls.sched.agents ls.sched.cur_agent).last_call) →
        pp.most_recent_syscall =
          (ls.sched.agents ls.sched.cur_agent).most_recent_syscall →
        suspected_data_race X ls = some true) ∧
    ((∀ pp ∈ ls.pps.data_races,
        pp.tid ≠ X.DR_TID_WILDCARD ∧
        pp.tid ≠ (ls.sched.agents ls.sched.cur_agent).tid) →
      suspected_data_race X ls = some false) := by
  have hval : suspected_data_race X ls =
      some (ls.pps.data_races.any (data_race_matches X ls)) := by
    unfold suspected_data_race
    simp [hpe, hua, suspected_data_race_loop_ok X ls _ hassert]
  have hiff : suspected_data_race X ls = some true ↔
      ∃ pp ∈ ls.pps.data_races, data_race_matches X ls pp = true := by
    rw [hval]
    simp [List.any_eq_true]
  refine ⟨⟨_, hval⟩, ?_, ?_, ?_⟩
  · rw [hiff]
    constructor
    · rintro ⟨pp, hpp, hm⟩
      exact ⟨pp, hpp, (data_race_matches_iff X ls pp).mp hm⟩
    · rintro ⟨pp, hpp, hm⟩
      exact ⟨pp, hpp, (data_race_matches_iff X ls pp).mpr hm⟩
  · intro pp hpp htid haddr hlc hsys
    exact hiff.mpr ⟨pp, hpp, (data_race_matches_iff X ls pp).mpr
      ⟨haddr, Or.inl htid, hlc, hsys⟩⟩
  · intro hfixed
    rw [hval]
    congr 1
    rw [List.any_eq_false]
    intro pp hpp hm
    have := (data_race_matches_iff X ls pp).mp hm
    rcases this.2.1 with h | h
    · exact (hfixed pp hpp).1 h
    · exact (hfixed pp hpp).2 h

/-- Evaluation of C6 on `sample_withins`: the last directive containing the stack is the
`without` one, so the answer is false. -/
theorem check_withins_last_match_witness :
    pebbles_env.cfg.PREEMPT_EVERYWHERE = false ∧
    check_withins pebbles_env base_state sample_withins = false :=
  ⟨rfl, (check_withins_last_match pebbles_env base_state sample_withins rfl).trans
    (by decide)⟩

/-- Evaluation of C7 on `data_race_state`: the current tid is 6, the entry for tid 4 does
not match, the wildcard entry does. -/
theorem suspected_data_race_iff_witness :
    pebbles_env.cfg.PREEMPT_EVERYWHERE = false ∧
    pebbles_env.check_user_address_space data_race_state = true ∧
    (∀ pp ∈ data_race_state.pps.data_races, data_race_asserts pebbles_env pp = true) ∧
    suspected_data_race pebbles_env data_race_state = some true :=
  ⟨rfl, rfl, by decide,
    (suspected_data_race_iff pebbles_env data_race_state rfl rfl (by decide)).2.2.1
      { addr := 16778496, tid := 356585952, last_call := 0, most_recent_syscall := 0 }
      (by decide) rfl rfl (Or.inl rfl) rfl⟩

/-! ### arbiter_choose: the counting loop -/

/-- The scan of the DPOR preference stack leaves `count` alone. -/
theorem dpor_scan_count (size t : Nat) (tids : List Nat) (i : Nat) (l : choose_locals) :
    (dpor_scan size t i tids l).count = l.count := by
  induction tids generalizing i l with
  | nil => rfl
  | cons x xs ih =>
    simp only [dpor_scan]
    split
    · exact ih _ _
    · split
      · rw [ih]
      · exact ih _ _

/-- The scan of the DPOR preference stack leaves `current_is_legal_choice` alone. -/
theorem dpor_scan_current (size t : Nat) (tids : List Nat) (i : Nat) (l : choose_locals) :
    (dpor_scan size t i tids l).current_is_legal_choice = l.current_is_legal_choice := by
  induction tids generalizing i l with
  | nil => rfl
  | cons x xs ih =>
    simp only [dpor_scan]
    split
    · exact ih _ _
    · split
      · rw [ih]
      · exact ih _ _

/-- The scan sets `dpor_preferred_is_legal_choice` only for a tid on the stack. -/
theorem dpor_scan_legal (size t : Nat) (tids : List Nat) (i : Nat) (l : choose_locals)
    (h : (dpor_scan size t i tids l).dpor_preferred_is_legal_choice = true) :
    l.dpor_preferred_is_legal_choice = true ∨ t ∈ tids := by
  induction tids generalizing i l with
  | nil => exact Or.inl h
  | cons x xs ih =>
    simp only [dpor_scan] at h
    split at h
    · rcases ih _ _ h with h1 | h1
      · exact Or.inl h1
      · exact Or.inr (List.mem_cons_of_mem _ h1)
    · split at h
      · rename_i hx
        have htx : t = x := by
          simp only [Bool.and_eq_true, beq_iff_eq] at hx
          exact hx.1
        exact Or.inr (htx ▸ List.mem_cons_self _ _)
      · rcases ih _ _ h with h1 | h1
        · exact Or.inl h1
        · exact Or.inr (List.mem_cons_of_mem _ h1)

/-- After the counting loop `current_is_legal_choice` holds iff it held before or the
current agent is enumerated and eligible. -/
theorem count_loop_current (X : landslide_env) (ls : ls_state) (current : agent_ptr)
    (voluntary : Bool) (as : List agent_ptr) (l : choose_locals) :
    (count_loop X ls current voluntary as l).current_is_legal_choice =
      (l.current_is_legal_choice ||
        (decide (current ∈ as) && eligible X ls voluntary current)) := by
  induction as generalizing l with
  | nil => simp [count_loop]
  | cons a rest ih =>
    simp only [count_loop]
    rw [ih]
    by_cases hac : a = current
    · subst hac
      cases he : eligible X ls voluntary a <;>
        simp [count_step, he, dpor_scan_current]
    · have hca : ¬ current = a := fun h => hac h.symm
      cases he : eligible X ls voluntary a <;>
        simp [count_step, he, dpor_scan_current, hac, hca]

/-- After the counting loop `dpor_preferred_is_legal_choice` holds only if it held
before or some enumerated eligible agent has a tid on the DPOR preference stack. -/
theorem count_loop_dpor (X : landslide_env) (ls : ls_state) (current : agent_ptr)
    (voluntary : Bool) (as : List agent_ptr) (l : choose_locals)
    (h : (count_loop X ls current voluntary as l).dpor_preferred_is_legal_choice = true) :
    l.dpor_preferred_is_legal_choice = true ∨
      ∃ a ∈ as, eligible X ls voluntary a = true ∧
        (ls.sched.agents a).tid ∈ ls.sched.dpor_preferred_tids := by
  induction as generalizing l with
  | nil => exact Or.inl h
  | cons a rest ih =>
    simp only [count_loop] at h
    rcases ih _ h with h1 | ⟨b, hb, hbe, hbt⟩
    · cases he : eligible X ls voluntary a
      · simp only [count_step, he] at h1
        exact Or.inl (by simpa using h1)
      · simp only [count_step, he, if_true] at h1
        rcases dpor_scan_legal _ _ _ _ _ h1 with h2 | h2
        · left
          by_cases hac : a = current <;> simpa [hac] using h2
        · exact Or.inr ⟨a, List.mem_cons_self _ _, he, h2⟩
    · exact Or.inr ⟨b, List.mem_cons_of_mem _ hb, hbe, hbt⟩

/-- With `count = 1` the second loop returns the first eligible agent. -/
theorem find_choice_one (X : landslide_env) (ls : ls_state) (voluntary : Bool)
    (as : List agent_ptr) :
    find_choice X ls voluntary 1 0 as = as.find? (eligible X ls voluntary) := by
  induction as with
  | nil => rfl
  | cons a rest ih =>
    cases he : eligible X ls voluntary a <;>
      simp [find_choice, he, ih, List.find?_cons]

/-- Forward exploration, nobody yielding, no DPOR override: `arbiter_choose` returns the
first eligible agent, bumping the ICB preemption count when the switch requires it. -/
theorem arbiter_choose_forward (X : landslide_env) (ls : ls_state) (current : agent_ptr)
    (voluntary : Bool) (result : agent_ptr) (our_choice : Bool) (a : agent_ptr)
    (hEB : X.cfg.EXPLORE_BACKWARDS = 0)
    (hq : ls.arbiter.choices = [])
    (hy : X.agent_has_yielded (ls.sched.agents current).user_yield = false)
    (hx : X.agent_has_xchged ls = false)
    (hd : (∀ t ∈ ls.sched.dpor_preferred_tids, ∀ b ∈ ls.sched.runnable,
            eligible X ls voluntary b = true → (ls.sched.agents b).tid ≠ t) ∨
          (current ∈ ls.sched.runnable ∧ eligible X ls voluntary current = true))
    (ha : ls.sched.runnable.find? (eligible X ls voluntary) = some a) :
    arbiter_choose X ls current voluntary result our_choice =
      some { ret := true,
             ls := if !X.NO_PREEMPTION_REQUIRED ls.sched voluntary a then
                     { ls with sched := { ls.sched with icb_preemption_count :=
                         (ls.sched.icb_preemption_count + 1) % 4294967296 } }
                   else ls,
             result := a, our_choice := true } := by
  have hover :
      ((count_loop X ls current voluntary ls.sched.runnable
          { count := 0, current_is_legal_choice := false,
            dpor_preferred_is_legal_choice := false,
            dpor_preferred_count := 0, dpor_preference := 0 }).dpor_preferred_is_legal_choice &&
        !(count_loop X ls current voluntary ls.sched.runnable
          { count := 0, current_is_legal_choice := false,
            dpor_preferred_is_legal_choice := false,
            dpor_preferred_count := 0, dpor_preference := 0 }).current_is_legal_choice)
        = false := by
    rcases hd with hd | ⟨hmem, hel⟩
    · have hno : (count_loop X ls current voluntary ls.sched.runnable
          { count := 0, current_is_legal_choice := false,
            dpor_preferred_is_legal_choice := false,
            dpor_preferred_count := 0, dpor_preference := 0 }).dpor_preferred_is_legal_choice
            = false := by
        apply Bool.eq_false_iff.mpr
        intro h
        rcases count_loop_dpor X ls current voluntary _ _ h with h1 | ⟨b, hb, hbe, hbt⟩
        · simp at h1
        · exact hd _ hbt b hb hbe rfl
      simp [hno]
    · rw [count_loop_current]
      simp [hmem, hel]
  have hcount : chosen_count X (count_loop X ls current voluntary ls.sched.runnable
          { count := 0, current_is_legal_choice := false,
            dpor_preferred_is_legal_choice := false,
            dpor_preferred_count := 0, dpor_preference := 0 }) = 1 := by
    unfold chosen_count
    rw [hover]
    simp [hEB]
  unfold arbiter_choose
  simp only [hq, hEB, hy, hx, hcount]
  simp [choose_tail, find_choice_one, ha]

/-- C1: with `EXPLORE_BACKWARDS = 0` and the choice queue empty, for every agent
enumeration in which the current agent has not yielded and no xchg-yield is reported:
(1) if no DPOR-preferred tid belongs to an eligible agent, or the current agent is
enumerated and eligible, and `a` is the first eligible agent in enumeration order, then
`arbiter_choose` returns true with `our_choice = true` and `result = a`; (2) in
particular, when the enumeration is T1, T2, T3 with T1 ICB-blocked, T2 `BLOCKED` and T3
the current agent and eligible, it returns T3. -/
theorem arbiter_choose_first_eligible (X : landslide_env) (ls : ls_state)
    (current : agent_ptr) (voluntary : Bool) (result : agent_ptr) (our_choice : Bool)
    (hEB : X.cfg.EXPLORE_BACKWARDS = 0)
    (hq : ls.arbiter.choices = [])
    (hy : X.agent_has_yielded (ls.sched.agents current).user_yield = false)
    (hx : X.agent_has_xchged ls = false) :
    (∀ a : agent_ptr,
      ((∀ t ∈ ls.sched.dpor_preferred_tids, ∀ b ∈ ls.sched.runnable,
          eligible X ls voluntary b = true → (ls.sched.agents b).tid ≠ t) ∨
        (current ∈ ls.sched.runnable ∧ eligible X ls voluntary current = true)) →
      ls.sched.runnable.find? (eligible X ls voluntary) = some a →
      ∃ r, arbiter_choose X ls current voluntary result our_choice = some r ∧
        r.ret = true ∧ r.our_choice = true ∧ r.result = a) ∧
    (∀ t1 t2 : agent_ptr,
      ls.sched.runnable = [t1, t2, current] →
      X.ICB_BLOCKED ls.sched ls.icb_bound voluntary t1 = true →
      X.BLOCKED (ls.sched.agents t2) = true →
      eligible X ls voluntary current = true →
      ∃ r, arbiter_choose X ls current voluntary result our_choice = some r ∧
        r.ret = true ∧ r.our_choice = true ∧ r.result = current) := by
  constructor
  · intro a hd ha
    exact ⟨_, arbiter_choose_forward X ls current voluntary result our_choice a hEB hq hy hx
      hd ha, rfl, rfl, rfl⟩
  · intro t1 t2 hr h1 h2 h3
    have e1 : eligible X ls voluntary t1 = false := by simp [eligible, h1]
    have e2 : eligible X ls voluntary t2 = false := by simp [eligible, h2]
    have ha : ls.sched.runnable.find? (eligible X ls voluntary) = some current := by
      simp [hr, List.find?_cons, e1, e2, h3]
    have hd : (∀ t ∈ ls.sched.dpor_preferred_tids, ∀ b ∈ ls.sched.runnable,
            eligible X ls voluntary b = true → (ls.sched.agents b).tid ≠ t) ∨
          (current ∈ ls.sched.runnable ∧ eligible X ls voluntary current = true) :=
      Or.inr ⟨by simp [hr], h3⟩
    exact ⟨_, arbiter_choose_forward X ls current voluntary result our_choice current hEB hq
      hy hx hd ha, rfl, rfl, rfl⟩

/-- Evaluation of C1 on scenario 4 of the spec (`icb_scenario_state`, involuntary
transition): T1 is ICB-blocked, T2 is blocked on an address, T3 is current, and
`arbiter_choose` returns T3 (address 3). -/
theorem arbiter_choose_first_eligible_witness :
    pebbles_env.cfg.EXPLORE_BACKWARDS = 0 ∧
    icb_scenario_state.arbiter.choices = [] ∧
    pebbles_env.agent_has_yielded (icb_scenario_state.sched.agents 3).user_yield = false ∧
    pebbles_env.agent_has_xchged icb_scenario_state = false ∧
    icb_scenario_state.sched.runnable = [1, 2, 3] ∧
    pebbles_env.ICB_BLOCKED icb_scenario_state.sched icb_scenario_state.icb_bound false 1
      = true ∧
    (icb_scenario_state.sched.agents 2).user_blocked_on_addr ≠ pebbles_env.ADDR_NONE ∧
    pebbles_env.BLOCKED (icb_scenario_state.sched.agents 2) = true ∧
    eligible pebbles_env icb_scenario_state false 3 = true ∧
    ∃ r, arbiter_choose pebbles_env icb_scenario_state 3 false 0 false = some r ∧
      r.ret = true ∧ r.our_choice = true ∧ r.result = 3 :=
  ⟨rfl, rfl, by decide, rfl, rfl, by decide, by decide, by decide, by decide,
    (arbiter_choose_first_eligible pebbles_env icb_scenario_state 3 false 0 false rfl rfl
      (by decide) rfl).2 1 2 rfl (by decide) (by decide) (by decide)⟩

/-- C2, as stated, fails on `queued_state`: the choice queue holds one entry, and
`arbiter_choose` neither pops it nor returns an agent; it stops at its entry assertion
`Q_GET_SIZE(&ls->arbiter.choices) == 0`. -/
theorem arbiter_choose_queued_counterexample :
    queued_state.arbiter.choices.length = 1 ∧
    arbiter_choose pebbles_env queued_state 3 false 0 true = none ∧
    ¬ ∃ r, arbiter_choose pebbles_env queued_state 3 false 0 true = some r ∧
        r.ret = true ∧ r.our_choice = false := by
  have h : arbiter_choose pebbles_env queued_state 3 false 0 true = none := rfl
  refine ⟨rfl, h, ?_⟩
  rintro ⟨r, hr, _⟩
  rw [h] at hr
  exact Option.noConfusion hr

/-- C2, amended: for every state in which the externally injected choice queue holds at
least one entry, `arbiter_choose` fails its entry assertion (the queue has to be empty
when it is called), so it pops nothing and selects nothing; the oldest entry is what
`arbiter_pop_choice` returns, with return value true, removing it from the queue. -/
theorem arbiter_choose_requires_empty_queue (X : landslide_env) (ls : ls_state)
    (current : agent_ptr) (voluntary : Bool) (result : agent_ptr) (our_choice : Bool)
    (t : Nat) (x : Bool) (k : Nat) (ab : abort_set)
    (hq : ls.arbiter.choices ≠ []) :
    arbiter_choose X ls current voluntary result our_choice = none ∧
    ∃ c, ls.arbiter.choices.getLast? = some c ∧
      arbiter_pop_choice ls.arbiter t x k ab =
        { ret := true, r := { choices := ls.arbiter.choices.dropLast },
          tid := c.tid, txn := c.txn, xabort_code := c.xabort_code, aborts := c.aborts } := by
  constructor
  · have hlen : ls.arbiter.choices.length ≠ 0 := by
      intro h
      exact hq (List.length_eq_zero.mp h)
    simp [arbiter_choose, hlen]
  · refine ⟨ls.arbiter.choices.getLast hq, List.getLast?_eq_getLast _ hq, ?_⟩
    simp [arbiter_pop_choice, List.getLast?_eq_getLast _ hq]

/-- Evaluation of the amended C2 on `queued_state`. -/
theorem arbiter_choose_requires_empty_queue_witness :
    queued_state.arbiter.choices ≠ [] ∧
    arbiter_choose pebbles_env queued_state 3 false 0 true = none ∧
    (arbiter_pop_choice queued_state.arbiter 0 true 7
        { preempted_evil_ancestor_tid := 0, rest := [] }).tid = 5 := by
  have h := arbiter_choose_requires_empty_queue pebbles_env queued_state 3 false 0 true
    0 true 7 { preempted_evil_ancestor_tid := 0, rest := [] } (by decide)
  exact ⟨by decide, h.1, by decide⟩

/-- C3: for every state (choice queue empty, build not combining `ICB` with backward
exploration) in which the current agent has yielded or the user-sync layer reports an
xchg-yield, and the current agent is enumerated and eligible, `arbiter_choose` returns
true with `result` the current agent and `our_choice = true`, and leaves the whole state,
`icb_preemption_count` included, unchanged; this holds whatever the enumeration order
and the DPOR preference stack are. -/
theorem arbiter_choose_yielding_current (X : landslide_env) (ls : ls_state)
    (current : agent_ptr) (voluntary : Bool) (result : agent_ptr) (our_choice : Bool)
    (hq : ls.arbiter.choices = [])
    (hb : X.cfg.EXPLORE_BACKWARDS = 0 ∨ X.cfg.ICB = false)
    (hy : X.agent_has_yielded (ls.sched.agents current).user_yield = true ∨
          X.agent_has_xchged ls = true)
    (hc : current ∈ ls.sched.runnable)
    (he : eligible X ls voluntary current = true) :
    ∃ r, arbiter_choose X ls current voluntary result our_choice = some r ∧
      r.ret = true ∧ r.result = current ∧ r.our_choice = true ∧
      r.ls.sched.icb_preemption_count = ls.sched.icb_preemption_count ∧
      r.ls.arbiter = ls.arbiter ∧ r.ls.effects = ls.effects := by
  have hlegal : (count_loop X ls current voluntary ls.sched.runnable
          { count := 0, current_is_legal_choice := false,
            dpor_preferred_is_legal_choice := false,
            dpor_preferred_count := 0, dpor_preference := 0 }).current_is_legal_choice
            = true := by
    rw [count_loop_current]
    simp [hc, he]
  have hb2 : (X.cfg.EXPLORE_BACKWARDS != 0 && X.cfg.ICB) = false := by
    rcases hb with h | h <;> simp [h]
  have hy2 : (X.agent_has_yielded (ls.sched.agents current).user_yield ||
      X.agent_has_xchged ls) = true := by
    rcases hy with h | h <;> simp [h]
  refine ⟨{ ret := true, ls := ls, result := current, our_choice := true }, ?_, rfl, rfl, rfl,
    rfl, rfl, rfl⟩
  unfold arbiter_choose
  simp only [hq, List.length_nil, bne_self_eq_false, Bool.false_eq_true, if_false, hb2,
    hy2, hlegal, if_true]

/-- Evaluation of C3 on `yield_state`: the current agent T2 has yielded; T1 is eligible,
comes first in the enumeration and carries the DPOR-preferred tid; T2 is chosen. -/
theorem arbiter_choose_yielding_current_witness :
    yield_state.arbiter.choices = [] ∧
    pebbles_env.agent_has_yielded (yield_state.sched.agents 2).user_yield = true ∧
    2 ∈ yield_state.sched.runnable ∧
    eligible pebbles_env yield_state false 2 = true ∧
    yield_state.sched.runnable.find? (eligible pebbles_env yield_state false) = some 1 ∧
    (yield_state.sched.agents 1).tid ∈ yield_state.sched.dpor_preferred_tids ∧
    ∃ r, arbiter_choose pebbles_env yield_state 2 false 0 false = some r ∧
      r.ret = true ∧ r.result = 2 ∧ r.our_choice = true ∧
      r.ls.sched.icb_preemption_count = yield_state.sched.icb_preemption_count ∧
      r.ls.arbiter = yield_state.arbiter ∧ r.ls.effects = yield_state.effects :=
  ⟨rfl, by decide, by decide, by decide, by decide, by decide,
    arbiter_choose_yielding_current pebbles_env yield_state 2 false 0 false rfl
      (Or.inl rfl) (Or.inl (by decide)) (by decide) (by decide)⟩

/-! ### arbiter_interested -/

/-- The first condition of `arbiter_interested`, in words: there is a last agent, it was
not handling a timer, it differs from the current agent, and a reschedule just
finished. -/
theorem voluntary_resched_ending_iff (ls : ls_state) (jfr : Bool) :
    voluntary_resched_ending ls jfr = true ↔
      ∃ last, ls.sched.last_agent = some last ∧
        (ls.sched.agents last).action.handling_timer = false ∧
        last ≠ ls.sched.cur_agent ∧ jfr = true := by
  unfold voluntary_resched_ending
  cases h : ls.sched.last_agent with
  | none => simp
  | some last => simp [and_assoc]

/-- A return guarded by `ASSERT_ONE_THREAD_PER_PP` happens only when the assertion holds. -/
theorem interested_checked_some (X : landslide_env) (ls : ls_state)
    (r r1 : interested_result) (h : interested_checked X ls r = some r1) :
    ASSERT_ONE_THREAD_PER_PP X ls = true ∧ r1 = r := by
  unfold interested_checked at h
  split at h
  · rename_i ha
    exact ⟨ha, (Option.some.inj h).symm⟩
  · exact Option.noConfusion h

/-- C4: `arbiter_interested` applies its first three rules in a fixed first-match-wins
order. (1) If a reschedule just finished, the last agent exists, was not handling a timer
and differs from the current agent, then, the asserted invariants being satisfied, it
returns true with `voluntary = true` and no other flag, whatever the current instruction
is (HLT included); and it returns nothing else in that case. (2) Otherwise, if the first
instruction byte is HLT, then, `ASSERT_ONE_THREAD_PER_PP` being satisfied, it returns
true with `need_handle_sleep = true` and no other flag, whether or not the test has
begun; and it returns nothing else in that case. (3) Otherwise, if the test has not begun
or `start_population` equals `most_agents_ever`, it returns false with every output flag
false, whatever the data-race registry and the PP locations are. -/
theorem arbiter_interested_order (X : landslide_env) (ls : ls_state) (jfr : Bool) :
    (∀ last, ls.sched.last_agent = some last → jfr = true →
      (ls.sched.agents last).action.handling_timer = false →
      last ≠ ls.sched.cur_agent →
      ((X.cfg.PINTOS_KERNEL = true ∨ ls.save.next_tid = (ls.sched.agents last).tid ∨
          ASSERT_ONE_THREAD_PER_PP X ls = true) →
        ls.sched.voluntary_resched_tid ≠ X.TID_NONE →
        arbiter_interested X ls jfr =
          some { ret := true, ls := ls, voluntary := true, need_handle_sleep := false,
                 data_race := false, joined := false, xbegin := false }) ∧
      (∀ r, arbiter_interested X ls jfr = some r →
        r = { ret := true, ls := ls, voluntary := true, need_handle_sleep := false,
              data_race := false, joined := false, xbegin := false })) ∧
    (voluntary_resched_ending ls jfr = false →
      ls.instruction_text 0 = X.OPCODE_HLT →
      (ASSERT_ONE_THREAD_PER_PP X ls = true →
        arbiter_interested X ls jfr =
          some { ret := true, ls := ls, voluntary := false, need_handle_sleep := true,
                 data_race := false, joined := false, xbegin := false }) ∧
      (∀ r, arbiter_interested X ls jfr = some r →
        r = { ret := true, ls := ls, voluntary := false, need_handle_sleep := true,
              data_race := false, joined := false, xbegin := false })) ∧
    (voluntary_resched_ending ls jfr = false →
      ls.instruction_text 0 ≠ X.OPCODE_HLT →
      (ls.test.test_ever_caused = false ∨
        ls.test.start_population = ls.sched.most_agents_ever) →
      arbiter_interested X ls jfr =
        some { ret := false, ls := ls, voluntary := false, need_handle_sleep := false,
               data_race := false, joined := false, xbegin := false }) := by
  refine ⟨?_, ?_, ?_⟩
  · intro last hlast hj hht hne
    have hv : voluntary_resched_ending ls jfr = true :=
      (voluntary_resched_ending_iff ls jfr).mpr ⟨last, hlast, hht, hne, hj⟩
    constructor
    · intro hassert hvol
      have hguard : (!X.cfg.PINTOS_KERNEL &&
          ls.save.next_tid != (ls.sched.agents last).tid &&
          !ASSERT_ONE_THREAD_PER_PP X ls) = false := by
        rcases hassert with h | h | h <;> simp [h]
      unfold arbiter_interested
      simp [hv, hlast, hguard, hvol, interested_plain]
    · intro r hr
      unfold arbiter_interested at hr
      simp only [hv, if_true, hlast] at hr
      split at hr
      · exact Option.noConfusion hr
      · split at hr
        · exact Option.noConfusion hr
        · exact (Option.some.inj hr).symm
  · intro hv hhlt
    constructor
    · intro hassert
      unfold arbiter_interested
      simp [hv, hhlt, interested_checked, hassert, interested_plain]
    · intro r hr
      unfold arbiter_interested at hr
      simp only [hv, Bool.false_eq_true, if_false, hhlt, beq_self_eq_true, if_true] at hr
      exact (interested_checked_some X ls _ _ hr).2
  · intro hv hhlt htest
    have ht : (!ls.test.test_ever_caused ||
        ls.test.start_population == ls.sched.most_agents_ever) = true := by
      rcases htest with h | h <;> simp [h]
    unfold arbiter_interested
    simp only [hv, Bool.false_eq_true, if_false, beq_iff_eq, hhlt, ht, if_true,
      interested_plain]

/-- Evaluation of C4: at `voluntary_state` (a HLT instruction) rule 1 wins; at
`hlt_state` (test not begun) rule 2 wins; at `pre_test_state` (a data race registered at
the eip) rule 3 wins. -/
theorem arbiter_interested_order_witness :
    (voluntary_state.instruction_text 0 = pebbles_env.OPCODE_HLT ∧
      (∃ r, arbiter_interested pebbles_env voluntary_state true = some r ∧
        r.ret = true ∧ r.voluntary = true ∧ r.need_handle_sleep = false)) ∧
    (hlt_state.test.test_ever_caused = false ∧
      (∃ r, arbiter_interested pebbles_env hlt_state true = some r ∧
        r.ret = true ∧ r.need_handle_sleep = true)) ∧
    (suspected_data_race pebbles_env pre_test_state = some true ∧
      (∃ r, arbiter_interested pebbles_env pre_test_state true = some r ∧
        r.ret = false ∧ r.data_race = false)) :=
  ⟨⟨rfl, _, ((arbiter_interested_order pebbles_env voluntary_state true).1 1 rfl rfl rfl
      (by decide)).1 (Or.inr (Or.inl rfl)) (by decide), rfl, rfl, rfl⟩,
   ⟨rfl, _, ((arbiter_interested_order pebbles_env hlt_state true).2.1 (by decide) rfl).1
      (by decide), rfl, rfl⟩,
   ⟨by decide, _, (arbiter_interested_order pebbles_env pre_test_state true).2.2 (by decide)
      (by decide) (Or.inl rfl), rfl, rfl⟩⟩

/-- Every user-mode preemption point is declared behind `ASSERT_ONE_THREAD_PER_PP`. -/
theorem interested_userspace_true (X : landslide_env) (ls : ls_state)
    (r : interested_result) (h : interested_userspace X ls = some r) (hr : r.ret = true) :
    ASSERT_ONE_THREAD_PER_PP X ls = true ∧ r.voluntary = false := by
  unfold interested_userspace at h
  simp only at h
  split at h
  · split at h
    · split at h
      · obtain ⟨ha, he⟩ := interested_checked_some X ls _ _ h
        subst he
        exact ⟨ha, rfl⟩
      · cases Option.some.inj h
        simp [interested_plain] at hr
    · cases Option.some.inj h
      simp [interested_plain] at hr
  · split at h
    · split at h
      · exact Option.noConfusion h
      · rename_i ha
        have ha1 : ASSERT_ONE_THREAD_PER_PP X ls = true := by simpa using ha
        split at h
        · cases Option.some.inj h
          simp [interested_plain] at hr
        · cases Option.some.inj h
          exact ⟨ha1, rfl⟩
    · split at h
      · cases Option.some.inj h
        simp [interested_plain] at hr
      · split at h
        · split at h
          · exact Option.noConfusion h
          · rename_i ha
            have ha1 : ASSERT_ONE_THREAD_PER_PP X ls = true := by simpa using ha
            split at h
            · cases Option.some.inj h
              simp [interested_plain] at hr
            · cases Option.some.inj h
              exact ⟨ha1, rfl⟩
        · split at h
          · obtain ⟨ha, he⟩ := interested_checked_some X ls _ _ h
            subst he
            exact ⟨ha, rfl⟩
          · split at h
            · obtain ⟨ha, he⟩ := interested_checked_some X ls _ _ h
              subst he
              exact ⟨ha, rfl⟩
            · split at h
              · exact Option.noConfusion h
              · split at h
                · obtain ⟨ha, he⟩ := interested_checked_some X ls _ _ h
                  subst he
                  exact ⟨ha, rfl⟩
                · cases Option.some.inj h
                  simp [interested_plain] at hr

/-- Every kernel-mode preemption point is declared behind `ASSERT_ONE_THREAD_PER_PP`. -/
theorem interested_kernel_true (X : landslide_env) (ls : ls_state)
    (r : interested_result) (h : interested_kernel X ls = some r) (hr : r.ret = true) :
    ASSERT_ONE_THREAD_PER_PP X ls = true ∧ r.voluntary = false := by
  unfold interested_kernel at h
  simp only at h
  split at h
  · obtain ⟨ha, he⟩ := interested_checked_some X ls _ _ h
    subst he
    exact ⟨ha, rfl⟩
  · split at h
    · obtain ⟨ha, he⟩ := interested_checked_some X ls _ _ h
      subst he
      exact ⟨ha, rfl⟩
    · split at h
      · obtain ⟨ha, he⟩ := interested_checked_some X ls _ _ h
        subst he
        exact ⟨ha, rfl⟩
      · cases Option.some.inj h
        simp [interested_plain] at hr

/-- The assertion `ASSERT_ONE_THREAD_PER_PP`, as a statement about `save.next_tid`. -/
theorem ASSERT_ONE_THREAD_PER_PP_iff (X : landslide_env) (ls : ls_state) :
    ASSERT_ONE_THREAD_PER_PP X ls = true ↔
      (ls.save.next_tid = X.TID_NONE ∨
       ls.save.next_tid = (ls.sched.agents ls.sched.cur_agent).tid) := by
  simp [ASSERT_ONE_THREAD_PER_PP]

/-- C5, as stated, fails on `voluntary_state` (non-Pintos guest): `arbiter_interested`
declares a voluntary-reschedule PP without an assertion failure, while `save.next_tid`
(4, the tid of the last agent, which was the previous choice) is neither `TID_NONE` nor
the tid of the current agent (6). -/
theorem one_thread_per_pp_counterexample :
    pebbles_env.cfg.PINTOS_KERNEL = false ∧
    (∃ r, arbiter_interested pebbles_env voluntary_state true = some r ∧
      r.ret = true ∧ r.voluntary = true) ∧
    voluntary_state.save.next_tid ≠ pebbles_env.TID_NONE ∧
    voluntary_state.save.next_tid ≠
      (voluntary_state.sched.agents voluntary_state.sched.cur_agent).tid :=
  ⟨rfl, ⟨_, rfl, rfl, rfl⟩, by decide, by decide⟩

/-- C5, amended: for a non-Pintos guest, whenever `arbiter_interested` returns true
without an assertion failure, `save.next_tid` is `TID_NONE` (no previous choice), or
equal to the current agent's tid, or the PP is a voluntary reschedule and
`save.next_tid` is the tid of the last agent (the thread chosen at the previous PP, which
has just switched away). -/
theorem one_thread_per_pp_or_voluntary (X : landslide_env) (ls : ls_state) (jfr : Bool)
    (r : interested_result)
    (hp : X.cfg.PINTOS_KERNEL = false)
    (h : arbiter_interested X ls jfr = some r)
    (hr : r.ret = true) :
    ls.save.next_tid = X.TID_NONE ∨
    ls.save.next_tid = (ls.sched.agents ls.sched.cur_agent).tid ∨
    (r.voluntary = true ∧
      ∃ last, ls.sched.last_agent = some last ∧
        ls.save.next_tid = (ls.sched.agents last).tid) := by
  have key : ASSERT_ONE_THREAD_PER_PP X ls = true →
      ls.save.next_tid = X.TID_NONE ∨
      ls.save.next_tid = (ls.sched.agents ls.sched.cur_agent).tid ∨
      (r.voluntary = true ∧
        ∃ last, ls.sched.last_agent = some last ∧
          ls.save.next_tid = (ls.sched.agents last).tid) := by
    intro ha
    rcases (ASSERT_ONE_THREAD_PER_PP_iff X ls).mp ha with h1 | h1
    · exact Or.inl h1
    · exact Or.inr (Or.inl h1)
  unfold arbiter_interested at h
  split at h
  · -- a voluntary reschedule is ending
    cases hl : ls.sched.last_agent with
    | none =>
      rw [hl] at h
      exact Option.noConfusion h
    | some last =>
      rw [hl] at h
      simp only at h
      split at h
      · exact Option.noConfusion h
      · rename_i hguard
        split at h
        · exact Option.noConfusion h
        · cases Option.some.inj h
          by_cases hnt : ls.save.next_tid = (ls.sched.agents last).tid
          · exact Or.inr (Or.inr ⟨rfl, last, rfl, hnt⟩)
          · have ha : ASSERT_ONE_THREAD_PER_PP X ls = true := by
              simpa [hp, hnt] using hguard
            rcases (ASSERT_ONE_THREAD_PER_PP_iff X ls).mp ha with h1 | h1
            · exact Or.inl h1
            · exact Or.inr (Or.inl h1)
  · split at h
    · exact key (interested_checked_some X ls _ _ h).1
    · split at h
      · cases Option.some.inj h
        simp [interested_plain] at hr
      · cases hs : suspected_data_race X ls with
        | none =>
          rw [hs] at h
          exact Option.noConfusion h
        | some dr =>
          rw [hs] at h
          simp only at h
          split at h
          · exact key (interested_checked_some X ls _ _ h).1
          · split at h
            · exact key (interested_userspace_true X ls r h hr).1
            · exact key (interested_kernel_true X ls r h hr).1

/-- Evaluation of the amended C5 on `voluntary_state`: the PP is voluntary and
`save.next_tid` is the tid of the last agent. -/
theorem one_thread_per_pp_or_voluntary_witness :
    pebbles_env.cfg.PINTOS_KERNEL = false ∧
    (voluntary_state.save.next_tid = pebbles_env.TID_NONE ∨
     voluntary_state.save.next_tid =
       (voluntary_state.sched.agents voluntary_state.sched.cur_agent).tid ∨
     (true = true ∧
       ∃ last, voluntary_state.sched.last_agent = some last ∧
         voluntary_state.save.next_tid = (voluntary_state.sched.agents last).tid)) :=
  ⟨rfl, one_thread_per_pp_or_voluntary pebbles_env voluntary_state true
    { ret := true, ls := voluntary_state, voluntary := true, need_handle_sleep := false,
      data_race := false, joined := false, xbegin := false } rfl rfl rfl⟩

/-! ### Deadlock report -/

/-- The conditions under which `report_deadlock` returns true. -/
theorem report_deadlock_true (X : landslide_env) (ls : ls_state)
    (h : report_deadlock X ls = true) :
    X.cfg.BUG_ON_THREADS_WEDGED ≠ 0 ∧ X.anybody_alive ls = true ∧
    (∀ a ∈ ls.sched.runnable,
      ¬ (X.BLOCKED (ls.sched.agents a) = true ∧
         (ls.sched.agents a).action.disk_io = true)) ∧
    (∀ a ∈ ls.sched.dq, (ls.sched.agents a).action.disk_io = false) := by
  unfold report_deadlock at h
  split at h
  · exact Bool.noConfusion h
  · rename_i hbug
    split at h
    · exact Bool.noConfusion h
    · rename_i halive
      split at h
      · exact Bool.noConfusion h
      · rename_i hrun
        split at h
        · exact Bool.noConfusion h
        · rename_i hdq
          refine ⟨by simpa using hbug, by simpa using halive, ?_, ?_⟩
          · intro a ha hboth
            apply hrun
            rw [List.any_eq_true]
            exact ⟨a, ha, by simp [hboth.1, hboth.2]⟩
          · intro a ha
            cases hd : (ls.sched.agents a).action.disk_io
            · rfl
            · exfalso
              apply hdq
              rw [List.any_eq_true]
              exact ⟨a, ha, hd⟩

/-- From "Find the count-th thread" on, `arbiter_choose` calls into the save engine or
the bug reporter only after `report_deadlock` returned true. -/
theorem choose_tail_effects (X : landslide_env) (ls : ls_state) (voluntary : Bool)
    (count : Nat) (result : agent_ptr) (our_choice : Bool) (r : choose_result)
    (h : choose_tail X ls voluntary count result our_choice = some r) :
    r.ls.effects = ls.effects ∨ report_deadlock X ls = true := by
  unfold choose_tail at h
  split at h
  · cases Option.some.inj h
    left
    simp only
    split <;> rfl
  · split at h
    · rename_i hrep
      exact Or.inr hrep
    · cases Option.some.inj h
      exact Or.inl rfl

/-- C9: the arbiter reports a deadlock only under the stated conditions.
`report_deadlock` returns true only if `BUG_ON_THREADS_WEDGED` is enabled, at least one
thread is alive (`anybody_alive`), and no enumerated (runnable) agent is blocked with
`disk_io` set (nor is any descheduled agent doing disk I/O). Consequently, whenever
`arbiter_choose` returns having raised the deadlock bug (it has called the save engine
or the bug reporter), these conditions held in the state `ls1` in which it ran the
deadlock check: the entry state, or the entry state with the current agent's yield-loop
counter cleared by the yield path. -/
theorem deadlock_reported_only_if (X : landslide_env) (ls : ls_state)
    (current : agent_ptr) (voluntary : Bool) (result : agent_ptr) (our_choice : Bool) :
    (report_deadlock X ls = true →
      X.cfg.BUG_ON_THREADS_WEDGED ≠ 0 ∧ X.anybody_alive ls = true ∧
      (∀ a ∈ ls.sched.runnable,
        ¬ (X.BLOCKED (ls.sched.agents a) = true ∧
           (ls.sched.agents a).action.disk_io = true)) ∧
      (∀ a ∈ ls.sched.dq, (ls.sched.agents a).action.disk_io = false)) ∧
    (∀ r, arbiter_choose X ls current voluntary result our_choice = some r →
      r.ls.effects ≠ ls.effects →
      ∃ ls1,
        (ls1 = ls ∨
         ls1 = store_agent ls current
           { ls.sched.agents current with
             user_yield := { (ls.sched.agents current).user_yield with loop_count := 0 } }) ∧
        X.cfg.BUG_ON_THREADS_WEDGED ≠ 0 ∧ X.anybody_alive ls1 = true ∧
        (∀ a ∈ ls1.sched.runnable,
          ¬ (X.BLOCKED (ls1.sched.agents a) = true ∧
             (ls1.sched.agents a).action.disk_io = true)) ∧
        (∀ a ∈ ls1.sched.dq, (ls1.sched.agents a).action.disk_io = false)) := by
  refine ⟨report_deadlock_true X ls, ?_⟩
  intro r h hne
  unfold arbiter_choose at h
  split at h
  · exact Option.noConfusion h
  · simp only at h
    split at h
    · exact Option.noConfusion h
    · split at h
      · split at h
        · cases Option.some.inj h
          exact absurd rfl hne
        · split at h
          · split at h
            · exact Option.noConfusion h
            · rcases choose_tail_effects X _ _ _ _ _ r h with he | hrep
              · exact absurd he hne
              · exact ⟨_, Or.inr rfl, report_deadlock_true X _ hrep⟩
          · rcases choose_tail_effects X _ _ _ _ _ r h with he | hrep
            · exact absurd he hne
            · exact ⟨_, Or.inl rfl, report_deadlock_true X _ hrep⟩
      · rcases choose_tail_effects X _ _ _ _ _ r h with he | hrep
        · exact absurd he hne
        · exact ⟨_, Or.inl rfl, report_deadlock_true X _ hrep⟩

/-- Evaluation of C9 on `wedged_state`: the deadlock bug is raised there, and the
conditions of `report_deadlock` hold. -/
theorem deadlock_reported_only_if_witness :
    (∃ r, arbiter_choose pebbles_env wedged_state 3 false 0 false = some r ∧
      r.ret = false ∧
      r.ls.effects = [effect.found_a_bug "Deadlock -- no threads are runnable!\n"]) ∧
    pebbles_env.cfg.BUG_ON_THREADS_WEDGED ≠ 0 ∧
    pebbles_env.anybody_alive wedged_state = true ∧
    (∀ a ∈ wedged_state.sched.runnable,
      ¬ (pebbles_env.BLOCKED (wedged_state.sched.agents a) = true ∧
         (wedged_state.sched.agents a).action.disk_io = true)) ∧
    (∀ a ∈ wedged_state.sched.dq, (wedged_state.sched.agents a).action.disk_io = false) :=
  ⟨⟨_, rfl, rfl, rfl⟩,
    (deadlock_reported_only_if pebbles_env wedged_state 3 false 0 false).1 (by decide)⟩

/-! ### False-positive deadlock avoidance: the attempt budget -/

/-- The abort-set loop changes nothing but `sched.upcoming_aborts`. -/
theorem fp_abort_set_loop_frame (X : landslide_env) (as : List agent_ptr) (ls : ls_state)
    (l : fp_locals) :
    ∃ ab, (fp_abort_set_loop X as ls l).1 =
      { ls with sched := { ls.sched with upcoming_aborts := ab } } := by
  induction as generalizing ls l with
  | nil => exact ⟨ls.sched.upcoming_aborts, rfl⟩
  | cons a rest ih =>
    simp only [fp_abort_set_loop]
    split
    · obtain ⟨ab, hab⟩ := ih
        { ls with sched := { ls.sched with upcoming_aborts :=
            { ls.sched.upcoming_aborts with preempted_evil_ancestor_tid := X.TID_NONE } } }
        { found_one := true, result := a }
      exact ⟨ab, hab⟩
    · exact ih ls l

/-- A store that keeps the tid keeps every agent's idleness. -/
theorem IS_IDLE_store_agent (X : landslide_env) (ls : ls_state) (a b : agent_ptr) (v : agent)
    (hv : v.tid = (ls.sched.agents a).tid) :
    IS_IDLE X (store_agent ls a v) b = IS_IDLE X ls b := by
  unfold IS_IDLE store_agent
  by_cases hba : b = a
  · subst hba
    simp [hv]
  · simp [Function.update_noteq hba]

/-- The wake loop leaves the attempt counter and the enumeration alone. -/
theorem fp_wake_loop_frame (X : landslide_env) (as : List agent_ptr) (ls : ls_state)
    (l : fp_locals) (q : ls_state × fp_locals) (h : fp_wake_loop X as ls l = some q) :
    q.1.sched.deadlock_fp_avoidance_count = ls.sched.deadlock_fp_avoidance_count ∧
    q.1.sched.runnable = ls.sched.runnable := by
  induction as generalizing ls l with
  | nil =>
    simp only [fp_wake_loop] at h
    cases Option.some.inj h
    exact ⟨rfl, rfl⟩
  | cons a rest ih =>
    simp only [fp_wake_loop] at h
    split at h
    · split at h
      · exact Option.noConfusion h
      · have h2 := ih _ _ h
        exact ⟨h2.1.trans rfl, h2.2.trans rfl⟩
    · split at h
      · split at h
        · exact Option.noConfusion h
        · have h2 := ih _ _ h
          exact ⟨h2.1.trans rfl, h2.2.trans rfl⟩
      · exact ih _ _ h

/-- The ICB loop returns when none of the agents it visits is idle. -/
theorem fp_icb_loop_total (X : landslide_env) (ls : ls_state) (voluntary : Bool)
    (as : List agent_ptr) (l : fp_locals) (hidle : ∀ a ∈ as, IS_IDLE X ls a = false) :
    ∃ l1, fp_icb_loop X ls voluntary as l = some l1 := by
  induction as generalizing l with
  | nil => exact ⟨l, rfl⟩
  | cons a rest ih =>
    have ha : IS_IDLE X ls a = false := hidle a (List.mem_cons_self _ _)
    have hrest : ∀ b ∈ rest, IS_IDLE X ls b = false :=
      fun b hb => hidle b (List.mem_cons_of_mem _ hb)
    simp only [fp_icb_loop, ha]
    split
    · simp only [Bool.false_eq_true, if_false]
      split
      · exact ih _ hrest
      · exact ih _ hrest
    · exact ih _ hrest

/-- The wake loop returns when none of the agents it visits is idle. -/
theorem fp_wake_loop_total (X : landslide_env) (as : List agent_ptr) (ls : ls_state)
    (l : fp_locals) (hidle : ∀ a ∈ as, IS_IDLE X ls a = false) :
    ∃ q, fp_wake_loop X as ls l = some q := by
  induction as generalizing ls l with
  | nil => exact ⟨(ls, l), rfl⟩
  | cons a rest ih =>
    have ha : IS_IDLE X ls a = false := hidle a (List.mem_cons_self _ _)
    have hrest : ∀ b ∈ rest, IS_IDLE X ls b = false :=
      fun b hb => hidle b (List.mem_cons_of_mem _ hb)
    simp only [fp_wake_loop, ha]
    split
    · simp only [Bool.false_eq_true, if_false]
      apply ih
      intro b hb
      rw [IS_IDLE_store_agent]
      · exact hrest b hb
      · rfl
    · split
      · simp only [Bool.false_eq_true, if_false]
        apply ih
        intro b hb
        rw [IS_IDLE_store_agent]
        · exact hrest b hb
        · rfl
      · exact ih _ _ hrest

/-- The part of `try_avoid_fp_deadlock` after the ICB loop leaves the counter alone. -/
theorem fp_after_icb_count (X : landslide_env) (ls : ls_state) (l : fp_locals)
    (r : fp_result) (h : fp_after_icb X ls l = some r) :
    r.ls.sched.deadlock_fp_avoidance_count = ls.sched.deadlock_fp_avoidance_count := by
  unfold fp_after_icb at h
  cases hh : X.cfg.HTM_ABORT_SETS
  · simp only [hh, Bool.false_eq_true, if_false, Bool.false_and] at h
    cases hw : fp_wake_loop X ls.sched.runnable ls l with
    | none =>
      rw [hw] at h
      exact Option.noConfusion h
    | some q =>
      rw [hw] at h
      cases Option.some.inj h
      exact (fp_wake_loop_frame X _ _ _ q hw).1
  · simp only [hh, if_true, Bool.true_and] at h
    obtain ⟨ab, hab⟩ := fp_abort_set_loop_frame X ls.sched.runnable ls l
    generalize fp_abort_set_loop X ls.sched.runnable ls l = p at h hab
    split at h
    · cases Option.some.inj h
      simp only
      rw [hab]
    · cases hw : fp_wake_loop X p.1.sched.runnable p.1 p.2 with
      | none =>
        rw [hw] at h
        exact Option.noConfusion h
      | some q =>
        rw [hw] at h
        cases Option.some.inj h
        simp only
        rw [(fp_wake_loop_frame X _ _ _ q hw).1, hab]

/-- The part of `try_avoid_fp_deadlock` after the ICB loop returns when no enumerated
agent is idle. -/
theorem fp_after_icb_total (X : landslide_env) (ls : ls_state) (l : fp_locals)
    (hidle : ∀ a ∈ ls.sched.runnable, IS_IDLE X ls a = false) :
    ∃ r, fp_after_icb X ls l = some r := by
  unfold fp_after_icb
  cases hh : X.cfg.HTM_ABORT_SETS
  · simp only [Bool.false_eq_true, if_false, Bool.false_and]
    obtain ⟨q, hq⟩ := fp_wake_loop_total X ls.sched.runnable ls l hidle
    rw [hq]
    exact ⟨_, rfl⟩
  · simp only [if_true, Bool.true_and]
    obtain ⟨ab, hab⟩ := fp_abort_set_loop_frame X ls.sched.runnable ls l
    generalize fp_abort_set_loop X ls.sched.runnable ls l = p at hab
    split
    · exact ⟨_, rfl⟩
    · have hidle2 : ∀ a ∈ p.1.sched.runnable, IS_IDLE X p.1 a = false := by
        rw [hab]
        exact hidle
      obtain ⟨q, hq⟩ := fp_wake_loop_total X p.1.sched.runnable p.1 p.2 hidle2
      rw [hq]
      exact ⟨_, rfl⟩

/-- Whatever `try_avoid_fp_deadlock` returns below the budget, the counter went up by
exactly one (as an unsigned int). -/
theorem try_avoid_fp_deadlock_count (X : landslide_env) (ls : ls_state) (voluntary : Bool)
    (result : agent_ptr) (r : fp_result)
    (hne : ls.sched.deadlock_fp_avoidance_count ≠ DEADLOCK_FP_MAX_ATTEMPTS)
    (h : try_avoid_fp_deadlock X ls voluntary result = some r) :
    r.ls.sched.deadlock_fp_avoidance_count =
      (ls.sched.deadlock_fp_avoidance_count + 1) % 4294967296 := by
  unfold try_avoid_fp_deadlock at h
  simp only [beq_iff_eq, hne, if_false] at h
  split at h
  · exact Option.noConfusion h
  · split at h
    · cases Option.some.inj h
      rfl
    · exact (fp_after_icb_count X _ _ r h).trans rfl

/-- Below the budget `try_avoid_fp_deadlock` returns when no enumerated agent is idle. -/
theorem try_avoid_fp_deadlock_total (X : landslide_env) (ls : ls_state) (voluntary : Bool)
    (result : agent_ptr)
    (hidle : ∀ a ∈ ls.sched.runnable, IS_IDLE X ls a = false) :
    ∃ r, try_avoid_fp_deadlock X ls voluntary result = some r := by
  unfold try_avoid_fp_deadlock
  split
  · exact ⟨_, rfl⟩
  · simp only
    obtain ⟨l1, hl1⟩ := fp_icb_loop_total X
      { ls with sched := { ls.sched with deadlock_fp_avoidance_count :=
          (ls.sched.deadlock_fp_avoidance_count + 1) % 4294967296 } }
      voluntary ls.sched.runnable { found_one := false, result := result } hidle
    rw [hl1]
    simp only
    split
    · exact ⟨_, rfl⟩
    · exact fp_after_icb_total X _ l1 hidle

/-- The second loop of `arbiter_choose` finds nothing when no enumerated agent is
eligible, whatever `count` is. -/
theorem find_choice_none (X : landslide_env) (ls : ls_state) (voluntary : Bool)
    (count i : Nat) (as : List agent_ptr)
    (h : ∀ a ∈ as, eligible X ls voluntary a = false) :
    find_choice X ls voluntary count i as = none := by
  induction as generalizing i with
  | nil => rfl
  | cons a rest ih =>
    have ha : eligible X ls voluntary a = false := h a (List.mem_cons_self _ _)
    simp only [find_choice, ha, Bool.false_eq_true, if_false]
    exact ih _ (fun b hb => h b (List.mem_cons_of_mem _ hb))

/-- C10: false-positive deadlock avoidance has a budget of 128 attempts per branch.
(A) A call of `try_avoid_fp_deadlock` with the counter equal to 128 returns false and
changes no state. (B) Every call with the counter below 128 that returns has incremented
it by exactly one, and (C) it does return when no enumerated agent is idle. (D) A counter
that is at most 128 stays at most 128. (E) With the counter at 128, no agent eligible and
the deadlock-report conditions met, the tail of `arbiter_choose` returns false after
reporting the deadlock bug. (F) Along any sequence of calls in one branch, starting from
counter 0, the counter after `n` calls is `min n 128`: it never exceeds 128, and after
128 attempts every further call is of kind (A). -/
theorem fp_avoidance_budget (X : landslide_env) (ls : ls_state) (voluntary : Bool)
    (result : agent_ptr) :
    (ls.sched.deadlock_fp_avoidance_count = 128 →
      try_avoid_fp_deadlock X ls voluntary result =
        some { ret := false, ls := ls, result := result }) ∧
    (ls.sched.deadlock_fp_avoidance_count < 128 →
      ∀ r, try_avoid_fp_deadlock X ls voluntary result = some r →
        r.ls.sched.deadlock_fp_avoidance_count =
          ls.sched.deadlock_fp_avoidance_count + 1) ∧
    (ls.sched.deadlock_fp_avoidance_count < 128 →
      (∀ a ∈ ls.sched.runnable, IS_IDLE X ls a = false) →
      ∃ r, try_avoid_fp_deadlock X ls voluntary result = some r ∧
        r.ls.sched.deadlock_fp_avoidance_count =
          ls.sched.deadlock_fp_avoidance_count + 1) ∧
    (ls.sched.deadlock_fp_avoidance_count ≤ 128 →
      ∀ r, try_avoid_fp_deadlock X ls voluntary result = some r →
        r.ls.sched.deadlock_fp_avoidance_count ≤ 128) ∧
    (∀ (count : Nat) (our_choice : Bool),
      ls.sched.deadlock_fp_avoidance_count = 128 →
      (∀ a ∈ ls.sched.runnable, eligible X ls voluntary a = false) →
      report_deadlock X ls = true →
      ∃ r, choose_tail X ls voluntary count result our_choice = some r ∧
        r.ret = false ∧
        r.ls.effects = ls.effects ++
          (if voluntary then
            [effect.save_setjmp X.TID_NONE true true true X.ADDR_NONE true X.TID_NONE
              false false false]
           else []) ++
          [effect.found_a_bug "Deadlock -- no threads are runnable!\n"]) ∧
    (∀ run : Nat → ls_state,
      (run 0).sched.deadlock_fp_avoidance_count = 0 →
      (∀ i, ∃ v res r, try_avoid_fp_deadlock X (run i) v res = some r ∧
        (run (i + 1)).sched.deadlock_fp_avoidance_count =
          r.ls.sched.deadlock_fp_avoidance_count) →
      ∀ n, (run n).sched.deadlock_fp_avoidance_count = min n 128) := by
  have hA : ∀ (s : ls_state) (v : Bool) (res : agent_ptr),
      s.sched.deadlock_fp_avoidance_count = 128 →
      try_avoid_fp_deadlock X s v res = some { ret := false, ls := s, result := res } := by
    intro s v res hs
    unfold try_avoid_fp_deadlock
    simp [hs, DEADLOCK_FP_MAX_ATTEMPTS]
  have hB : ∀ (s : ls_state) (v : Bool) (res : agent_ptr) (r : fp_result),
      s.sched.deadlock_fp_avoidance_count < 128 →
      try_avoid_fp_deadlock X s v res = some r →
      r.ls.sched.deadlock_fp_avoidance_count = s.sched.deadlock_fp_avoidance_count + 1 := by
    intro s v res r hs hr
    have hne : s.sched.deadlock_fp_avoidance_count ≠ DEADLOCK_FP_MAX_ATTEMPTS := by
      unfold DEADLOCK_FP_MAX_ATTEMPTS
      omega
    rw [try_avoid_fp_deadlock_count X s v res r hne hr]
    omega
  refine ⟨hA ls voluntary result, fun hlt r hr => hB ls voluntary result r hlt hr,
    ?_, ?_, ?_, ?_⟩
  · intro hlt hidle
    obtain ⟨r, hr⟩ := try_avoid_fp_deadlock_total X ls voluntary result hidle
    exact ⟨r, hr, hB ls voluntary result r hlt hr⟩
  · intro hle r hr
    rcases Nat.lt_or_ge ls.sched.deadlock_fp_avoidance_count 128 with hlt | hge
    · rw [hB ls voluntary result r hlt hr]
      omega
    · have heq : ls.sched.deadlock_fp_avoidance_count = 128 := by omega
      rw [hA ls voluntary result heq] at hr
      cases Option.some.inj hr
      exact hle
  · intro count our_choice hcnt hnone hrep
    unfold choose_tail
    rw [find_choice_none X ls voluntary count 0 _ hnone]
    simp only [hrep, if_true, hA ls voluntary result hcnt]
    exact ⟨_, rfl, rfl, rfl⟩
  · intro run h0 hstep n
    induction n with
    | zero => simpa using h0
    | succ n ih =>
      obtain ⟨v, res, r, hr, hnext⟩ := hstep n
      rw [hnext]
      rcases Nat.lt_or_ge n 128 with hlt | hge
      · have hc : (run n).sched.deadlock_fp_avoidance_count < 128 := by
          rw [ih]
          omega
        rw [hB (run n) v res r hc hr, ih]
        omega
      · have hc : (run n).sched.deadlock_fp_avoidance_count = 128 := by
          rw [ih]
          omega
        rw [hA (run n) v res hc] at hr
        cases Option.some.inj hr
        simp only
        rw [hc]
        omega

/-- Evaluation of C10: on `blocked_state` (counter 0, three threads blocked on
addresses) an attempt returns with the counter at 1; on `wedged_state` (counter 128) the
attempt is refused and the tail of `arbiter_choose` reports the deadlock bug. -/
theorem fp_avoidance_budget_witness :
    (blocked_state.sched.deadlock_fp_avoidance_count < 128 ∧
      (∀ a ∈ blocked_state.sched.runnable, IS_IDLE pebbles_env blocked_state a = false) ∧
      ∃ r, try_avoid_fp_deadlock pebbles_env blocked_state false 0 = some r ∧
        r.ls.sched.deadlock_fp_avoidance_count =
          blocked_state.sched.deadlock_fp_avoidance_count + 1) ∧
    (wedged_state.sched.deadlock_fp_avoidance_count = 128 ∧
      (∀ a ∈ wedged_state.sched.runnable, eligible pebbles_env wedged_state false a = false) ∧
      report_deadlock pebbles_env wedged_state = true ∧
      ∃ r, choose_tail pebbles_env wedged_state false 1 0 false = some r ∧
        r.ret = false ∧
        r.ls.effects = wedged_state.effects ++ (if false = true then
            [effect.save_setjmp pebbles_env.TID_NONE true true true pebbles_env.ADDR_NONE
              true pebbles_env.TID_NONE false false false]
           else []) ++
          [effect.found_a_bug "Deadlock -- no threads are runnable!\n"]) :=
  ⟨⟨by decide, by decide,
      (fp_avoidance_budget pebbles_env blocked_state false 0).2.2.1 (by decide) (by decide)⟩,
   ⟨rfl, by decide, by decide,
      (fp_avoidance_budget pebbles_env wedged_state false 0).2.2.2.2.1 1 false rfl
        (by decide) (by decide)⟩⟩

/-! ### False-positive deadlock avoidance: the third category -/

/-- The ICB loop finds nothing when every ICB-blocked agent it visits is also blocked on
an address or yield-blocked. -/
theorem fp_icb_loop_no_candidate (X : landslide_env) (ls : ls_state) (voluntary : Bool)
    (as : List agent_ptr) (l l1 : fp_locals)
    (hicb : ∀ a ∈ as, X.ICB_BLOCKED ls.sched ls.icb_bound voluntary a = true →
      ((ls.sched.agents a).user_blocked_on_addr ≠ X.ADDR_NONE ∨
       X.agent_is_user_yield_blocked (ls.sched.agents a).user_yield = true))
    (h : fp_icb_loop X ls voluntary as l = some l1) : l1 = l := by
  induction as generalizing l with
  | nil =>
    simp only [fp_icb_loop] at h
    exact (Option.some.inj h).symm
  | cons a rest ih =>
    have hrest : ∀ b ∈ rest, X.ICB_BLOCKED ls.sched ls.icb_bound voluntary b = true →
        ((ls.sched.agents b).user_blocked_on_addr ≠ X.ADDR_NONE ∨
         X.agent_is_user_yield_blocked (ls.sched.agents b).user_yield = true) :=
      fun b hb => hicb b (List.mem_cons_of_mem _ hb)
    simp only [fp_icb_loop] at h
    split at h
    · rename_i hblocked
      split at h
      · exact Option.noConfusion h
      · split at h
        · rename_i hcand
          exfalso
          simp only [Bool.and_eq_true, beq_iff_eq, Bool.not_eq_true'] at hcand
          rcases hicb a (List.mem_cons_self _ _) hblocked with h1 | h1
          · exact h1 hcand.1
          · rw [hcand.2] at h1
            exact Bool.noConfusion h1
        · exact ih l hrest h
    · exact ih l hrest h

/-- The abort-set loop changes nothing when no agent it visits is abort-set-blocked. -/
theorem fp_abort_set_loop_no_candidate (X : landslide_env) (as : List agent_ptr)
    (ls : ls_state) (l : fp_locals)
    (h : ∀ a ∈ as,
      X.ABORT_SET_BLOCKED ls.sched.upcoming_aborts (ls.sched.agents a).tid = false) :
    fp_abort_set_loop X as ls l = (ls, l) := by
  induction as with
  | nil => rfl
  | cons a rest ih =>
    have ha := h a (List.mem_cons_self _ _)
    simp only [fp_abort_set_loop, ha, Bool.false_eq_true, if_false]
    exact ih (fun b hb => h b (List.mem_cons_of_mem _ hb))

/-- When the budget is not exhausted and neither the ICB loop nor the abort-set loop has
a candidate, what `try_avoid_fp_deadlock` returns is what its third loop computes on the
state with the incremented counter. -/
theorem try_avoid_fp_deadlock_third (X : landslide_env) (ls : ls_state) (voluntary : Bool)
    (result : agent_ptr) (r : fp_result)
    (hne : ls.sched.deadlock_fp_avoidance_count ≠ 128)
    (hicb : ∀ a ∈ ls.sched.runnable,
      X.ICB_BLOCKED
        { ls.sched with deadlock_fp_avoidance_count :=
            (ls.sched.deadlock_fp_avoidance_count + 1) % 4294967296 }
        ls.icb_bound voluntary a = true →
      ((ls.sched.agents a).user_blocked_on_addr ≠ X.ADDR_NONE ∨
       X.agent_is_user_yield_blocked (ls.sched.agents a).user_yield = true))
    (habort : X.cfg.HTM_ABORT_SETS = true → ∀ a ∈ ls.sched.runnable,
      X.ABORT_SET_BLOCKED ls.sched.upcoming_aborts (ls.sched.agents a).tid = false)
    (h : try_avoid_fp_deadlock X ls voluntary result = some r) :
    ∃ q, fp_wake_loop X ls.sched.runnable
        { ls with sched := { ls.sched with deadlock_fp_avoidance_count :=
            (ls.sched.deadlock_fp_avoidance_count + 1) % 4294967296 } }
        { found_one := false, result := result } = some q ∧
      r = { ret := q.2.found_one, ls := q.1, result := q.2.result } := by
  unfold try_avoid_fp_deadlock at h
  have hne2 : (ls.sched.deadlock_fp_avoidance_count == DEADLOCK_FP_MAX_ATTEMPTS) = false := by
    simpa [DEADLOCK_FP_MAX_ATTEMPTS] using hne
  simp only [hne2, Bool.false_eq_true, if_false] at h
  cases hl : fp_icb_loop X
      { ls with sched := { ls.sched with deadlock_fp_avoidance_count :=
          (ls.sched.deadlock_fp_avoidance_count + 1) % 4294967296 } }
      voluntary ls.sched.runnable { found_one := false, result := result } with
  | none =>
    rw [hl] at h
    exact Option.noConfusion h
  | some l1 =>
    rw [hl] at h
    have hl1 := fp_icb_loop_no_candidate X _ voluntary _ _ l1 hicb hl
    subst hl1
    simp only [Bool.false_eq_true, if_false] at h
    unfold fp_after_icb at h
    cases hh : X.cfg.HTM_ABORT_SETS
    · simp only [hh, Bool.false_eq_true, if_false, Bool.false_and] at h
      split at h
      · exact Option.noConfusion h
      · rename_i q hq
        exact ⟨q, hq, (Option.some.inj h).symm⟩
    · have hab := fp_abort_set_loop_no_candidate X ls.sched.runnable
        { ls with sched := { ls.sched with deadlock_fp_avoidance_count :=
            (ls.sched.deadlock_fp_avoidance_count + 1) % 4294967296 } }
        { found_one := false, result := result } (habort hh)
      simp only [hh, if_true, Bool.true_and] at h
      rw [hab] at h
      simp only [Bool.false_eq_true, if_false] at h
      split at h
      · exact Option.noConfusion h
      · rename_i q hq
        exact ⟨q, hq, (Option.some.inj h).symm⟩

/-- Reading an agent after a store to another address. -/
theorem store_agent_other (ls : ls_state) (a b : agent_ptr) (v : agent) (h : b ≠ a) :
    (store_agent ls a v).sched.agents b = ls.sched.agents b := by
  simp [store_agent, Function.update_noteq h]

/-- Reading an agent after a store to its own address. -/
theorem store_agent_same (ls : ls_state) (a : agent_ptr) (v : agent) :
    (store_agent ls a v).sched.agents a = v := by
  simp [store_agent]

/-- The third loop never sets `user_blocked_on_addr`, and never makes an agent that is
not blocked on an address yield-blocked. -/
theorem fp_wake_loop_mono (X : landslide_env) (as : List agent_ptr) (ls : ls_state)
    (l : fp_locals) (q : ls_state × fp_locals)
    (hclr : X.agent_is_user_yield_blocked { loop_count := 0, blocked := false } = false)
    (h : fp_wake_loop X as ls l = some q) (b : agent_ptr)
    (hb : (ls.sched.agents b).user_blocked_on_addr = X.ADDR_NONE) :
    (q.1.sched.agents b).user_blocked_on_addr = X.ADDR_NONE ∧
    (X.agent_is_user_yield_blocked (ls.sched.agents b).user_yield = false →
      X.agent_is_user_yield_blocked (q.1.sched.agents b).user_yield = false) := by
  induction as generalizing ls l with
  | nil =>
    simp only [fp_wake_loop] at h
    cases Option.some.inj h
    exact ⟨hb, fun hy => hy⟩
  | cons a rest ih =>
    simp only [fp_wake_loop] at h
    split at h
    · rename_i haddr
      split at h
      · exact Option.noConfusion h
      · have hne : b ≠ a := by
          intro hba
          subst hba
          simp [hb] at haddr
        have := ih _ _ h (by rw [store_agent_other ls a b _ hne]; exact hb)
        rw [store_agent_other ls a b _ hne] at this
        exact this
    · split at h
      · rename_i hyb
        split at h
        · exact Option.noConfusion h
        · by_cases hba : b = a
          · subst hba
            have := ih _ _ h (by rw [store_agent_same]; exact hb)
            rw [store_agent_same] at this
            exact ⟨this.1, fun _ => this.2 hclr⟩
          · have := ih _ _ h (by rw [store_agent_other ls a b _ hba]; exact hb)
            rw [store_agent_other ls a b _ hba] at this
            exact this
      · exact ih _ _ h hb

/-- After the third loop no visited agent is blocked on an address, and no visited
agent that was not blocked on an address is yield-blocked. -/
theorem fp_wake_loop_clears (X : landslide_env) (as : List agent_ptr) (ls : ls_state)
    (l : fp_locals) (q : ls_state × fp_locals)
    (hclr : X.agent_is_user_yield_blocked { loop_count := 0, blocked := false } = false)
    (h : fp_wake_loop X as ls l = some q) :
    ∀ a ∈ as,
      (q.1.sched.agents a).user_blocked_on_addr = X.ADDR_NONE ∧
      ((ls.sched.agents a).user_blocked_on_addr = X.ADDR_NONE →
        X.agent_is_user_yield_blocked (q.1.sched.agents a).user_yield = false) := by
  induction as generalizing ls l with
  | nil =>
    intro a ha
    exact absurd ha (List.not_mem_nil a)
  | cons a rest ih =>
    simp only [fp_wake_loop] at h
    intro c hc
    split at h
    · rename_i haddr
      split at h
      · exact Option.noConfusion h
      · have haddr1 : (ls.sched.agents a).user_blocked_on_addr ≠ X.ADDR_NONE := by
          simpa using haddr
        by_cases hca : c = a
        · subst hca
          have hm := fp_wake_loop_mono X rest _ _ q hclr h c
            (by rw [store_agent_same])
          exact ⟨hm.1, fun hnone => absurd hnone haddr1⟩
        · have hcr : c ∈ rest := by
            rcases List.mem_cons.mp hc with h1 | h1
            · exact absurd h1 hca
            · exact h1
          have := ih _ _ h c hcr
          rw [store_agent_other ls a c _ hca] at this
          exact this
    · rename_i haddr
      have haddr0 : (ls.sched.agents a).user_blocked_on_addr = X.ADDR_NONE := by
        simpa using haddr
      split at h
      · rename_i hyb
        split at h
        · exact Option.noConfusion h
        · by_cases hca : c = a
          · subst hca
            have hm := fp_wake_loop_mono X rest _ _ q hclr h c
              (by rw [store_agent_same]; exact haddr0)
            rw [store_agent_same] at hm
            exact ⟨hm.1, fun _ => hm.2 hclr⟩
          · have hcr : c ∈ rest := by
              rcases List.mem_cons.mp hc with h1 | h1
              · exact absurd h1 hca
              · exact h1
            have := ih _ _ h c hcr
            rw [store_agent_other ls a c _ hca] at this
            exact this
      · rename_i hyb
        by_cases hca : c = a
        · subst hca
          have hm := fp_wake_loop_mono X rest _ _ q hclr h c haddr0
          exact ⟨hm.1, fun _ => hm.2 (by simpa using hyb)⟩
        · have hcr : c ∈ rest := by
            rcases List.mem_cons.mp hc with h1 | h1
            · exact absurd h1 hca
            · exact h1
          exact ih _ _ h c hcr

/-- On an enumeration without repetition, the third loop ends with `found_one` and
`*result` set by the last agent, in enumeration order, that was blocked on an address or
yield-blocked when the loop started; they are left alone when there is none. -/
theorem fp_wake_loop_result (X : landslide_env) (as : List agent_ptr) (ls : ls_state)
    (l : fp_locals) (q : ls_state × fp_locals) (hnd : as.Nodup)
    (h : fp_wake_loop X as ls l = some q) :
    q.2 = (match (as.filter (fun a =>
              (ls.sched.agents a).user_blocked_on_addr != X.ADDR_NONE ||
              X.agent_is_user_yield_blocked (ls.sched.agents a).user_yield)).getLast? with
           | some a => { found_one := true, result := a }
           | none => l) := by
  induction as generalizing ls l with
  | nil =>
    simp only [fp_wake_loop] at h
    cases Option.some.inj h
    rfl
  | cons a rest ih =>
    obtain ⟨hnotin, hnd1⟩ := List.nodup_cons.mp hnd
    have hsame : ∀ (v : agent),
        rest.filter (fun b =>
          ((store_agent ls a v).sched.agents b).user_blocked_on_addr != X.ADDR_NONE ||
          X.agent_is_user_yield_blocked ((store_agent ls a v).sched.agents b).user_yield) =
        rest.filter (fun b =>
          (ls.sched.agents b).user_blocked_on_addr != X.ADDR_NONE ||
          X.agent_is_user_yield_blocked (ls.sched.agents b).user_yield) := by
      intro v
      apply List.filter_congr
      intro b hb
      have hba : b ≠ a := fun hba => hnotin (hba ▸ hb)
      rw [store_agent_other ls a b v hba]
    simp only [fp_wake_loop] at h
    split at h
    · rename_i haddr
      split at h
      · exact Option.noConfusion h
      · have := ih _ _ hnd1 h
        rw [hsame] at this
        rw [this, List.filter_cons]
        simp only [haddr, Bool.true_or, if_true, List.getLast?_cons]
        cases (rest.filter (fun b =>
          (ls.sched.agents b).user_blocked_on_addr != X.ADDR_NONE ||
          X.agent_is_user_yield_blocked (ls.sched.agents b).user_yield)).getLast? <;> rfl
    · rename_i haddr
      split at h
      · rename_i hyb
        split at h
        · exact Option.noConfusion h
        · have := ih _ _ hnd1 h
          rw [hsame] at this
          rw [this, List.filter_cons]
          simp only [hyb, Bool.or_true, if_true, List.getLast?_cons]
          cases (rest.filter (fun b =>
            (ls.sched.agents b).user_blocked_on_addr != X.ADDR_NONE ||
            X.agent_is_user_yield_blocked (ls.sched.agents b).user_yield)).getLast? <;> rfl
      · rename_i hyb
        have := ih _ _ hnd1 h
        rw [this, List.filter_cons]
        have hpa : ((ls.sched.agents a).user_blocked_on_addr != X.ADDR_NONE ||
            X.agent_is_user_yield_blocked (ls.sched.agents a).user_yield) = false := by
          simp only [Bool.not_eq_true] at haddr hyb
          simp [haddr, hyb]
        simp only [hpa, Bool.false_eq_true, if_false]

/-- The third loop never sets `user_blocked_on_addr`. -/
theorem fp_wake_loop_addr_mono (X : landslide_env) (as : List agent_ptr) (ls : ls_state)
    (l : fp_locals) (q : ls_state × fp_locals)
    (h : fp_wake_loop X as ls l = some q) (b : agent_ptr)
    (hb : (ls.sched.agents b).user_blocked_on_addr = X.ADDR_NONE) :
    (q.1.sched.agents b).user_blocked_on_addr = X.ADDR_NONE := by
  induction as generalizing ls l with
  | nil =>
    simp only [fp_wake_loop] at h
    cases Option.some.inj h
    exact hb
  | cons a rest ih =>
    simp only [fp_wake_loop] at h
    split at h
    · split at h
      · exact Option.noConfusion h
      · apply ih _ _ h
        by_cases hba : b = a
        · subst hba
          rw [store_agent_same]
        · rw [store_agent_other ls a b _ hba]
          exact hb
    · split at h
      · split at h
        · exact Option.noConfusion h
        · apply ih _ _ h
          by_cases hba : b = a
          · subst hba
            rw [store_agent_same]
            exact hb
          · rw [store_agent_other ls a b _ hba]
            exact hb
      · exact ih _ _ h hb

/-- After the third loop no visited agent is blocked on an address. -/
theorem fp_wake_loop_addr (X : landslide_env) (as : List agent_ptr) (ls : ls_state)
    (l : fp_locals) (q : ls_state × fp_locals)
    (h : fp_wake_loop X as ls l = some q) :
    ∀ a ∈ as, (q.1.sched.agents a).user_blocked_on_addr = X.ADDR_NONE := by
  induction as generalizing ls l with
  | nil =>
    intro a ha
    exact absurd ha (List.not_mem_nil a)
  | cons a rest ih =>
    simp only [fp_wake_loop] at h
    intro c hc
    rcases List.mem_cons.mp hc with hca | hcr
    · subst hca
      split at h
      · split at h
        · exact Option.noConfusion h
        · exact fp_wake_loop_addr_mono X rest _ _ q h c (by rw [store_agent_same])
      · rename_i haddr
        have haddr0 : (ls.sched.agents c).user_blocked_on_addr = X.ADDR_NONE := by
          simpa using haddr
        split at h
        · split at h
          · exact Option.noConfusion h
          · exact fp_wake_loop_addr_mono X rest _ _ q h c
              (by rw [store_agent_same]; exact haddr0)
        · exact fp_wake_loop_addr_mono X rest _ _ q h c haddr0
    · split at h
      · split at h
        · exact Option.noConfusion h
        · exact ih _ _ h c hcr
      · split at h
        · split at h
          · exact Option.noConfusion h
          · exact ih _ _ h c hcr
        · exact ih _ _ h c hcr

/-- The third loop on `both_blocked_state`: the budget is not exhausted, no agent is
ICB-blocked and the build has no abort sets, so the third category is reached; T1 is
enumerated, and on return its `user_blocked_on_addr` is cleared but it is still
yield-blocked. -/
theorem fp_wake_both_blocked_counterexample :
    both_blocked_state.sched.deadlock_fp_avoidance_count ≠ 128 ∧
    pebbles_env.cfg.HTM_ABORT_SETS = false ∧
    (∀ a ∈ both_blocked_state.sched.runnable,
      pebbles_env.ICB_BLOCKED
        { both_blocked_state.sched with deadlock_fp_avoidance_count := 1 }
        both_blocked_state.icb_bound false a = false) ∧
    1 ∈ both_blocked_state.sched.runnable ∧
    ∃ r, try_avoid_fp_deadlock pebbles_env both_blocked_state false 0 = some r ∧
      (r.ls.sched.agents 1).user_blocked_on_addr = pebbles_env.ADDR_NONE ∧
      pebbles_env.agent_is_user_yield_blocked (r.ls.sched.agents 1).user_yield = true :=
  ⟨by decide, rfl, by decide, by decide, _, rfl, rfl, rfl⟩

/-- What the third category does clear: whenever `try_avoid_fp_deadlock` reaches it
(budget not exhausted, no candidate among the ICB-blocked agents, no abort-set-blocked
agent) and returns, no enumerated agent has `user_blocked_on_addr` set, and no enumerated
agent that was not blocked on an address is yield-blocked (the cleared yield state,
`loop_count = 0` and `blocked = false`, being one that is not yield-blocked). -/
theorem fp_wake_clears_blockage (X : landslide_env) (ls : ls_state) (voluntary : Bool)
    (result : agent_ptr) (r : fp_result)
    (hne : ls.sched.deadlock_fp_avoidance_count ≠ 128)
    (hicb : ∀ a ∈ ls.sched.runnable,
      X.ICB_BLOCKED
        { ls.sched with deadlock_fp_avoidance_count :=
            (ls.sched.deadlock_fp_avoidance_count + 1) % 4294967296 }
        ls.icb_bound voluntary a = true →
      ((ls.sched.agents a).user_blocked_on_addr ≠ X.ADDR_NONE ∨
       X.agent_is_user_yield_blocked (ls.sched.agents a).user_yield = true))
    (habort : X.cfg.HTM_ABORT_SETS = true → ∀ a ∈ ls.sched.runnable,
      X.ABORT_SET_BLOCKED ls.sched.upcoming_aborts (ls.sched.agents a).tid = false)
    (hclr : X.agent_is_user_yield_blocked { loop_count := 0, blocked := false } = false)
    (h : try_avoid_fp_deadlock X ls voluntary result = some r) :
    ∀ a ∈ ls.sched.runnable,
      (r.ls.sched.agents a).user_blocked_on_addr = X.ADDR_NONE ∧
      ((ls.sched.agents a).user_blocked_on_addr = X.ADDR_NONE →
        X.agent_is_user_yield_blocked (r.ls.sched.agents a).user_yield = false) := by
  obtain ⟨q, hq, hr⟩ := try_avoid_fp_deadlock_third X ls voluntary result r hne hicb habort h
  subst hr
  intro a ha
  exact fp_wake_loop_clears X _ _ _ q hclr hq a ha

/-- The third category on `blocked_state` (three threads blocked on different addresses,
none yield-blocked; involuntary transition): all three are woken. -/
theorem fp_wake_clears_blockage_witness :
    blocked_state.sched.deadlock_fp_avoidance_count ≠ 128 ∧
    pebbles_env.cfg.HTM_ABORT_SETS = false ∧
    pebbles_env.agent_is_user_yield_blocked { loop_count := 0, blocked := false } = false ∧
    ∃ r, try_avoid_fp_deadlock pebbles_env blocked_state false 0 = some r ∧
      ∀ a ∈ blocked_state.sched.runnable,
        (r.ls.sched.agents a).user_blocked_on_addr = pebbles_env.ADDR_NONE ∧
        ((blocked_state.sched.agents a).user_blocked_on_addr = pebbles_env.ADDR_NONE →
          pebbles_env.agent_is_user_yield_blocked (r.ls.sched.agents a).user_yield = false) :=
  ⟨by decide, rfl, rfl, _, rfl,
    fp_wake_clears_blockage pebbles_env blocked_state false 0 _ (by decide) (by decide)
      (by decide) rfl rfl⟩

/-- C12: whenever `try_avoid_fp_deadlock` reaches its third category (budget not
exhausted, no candidate among the ICB-blocked agents, no abort-set-blocked agent) on an
enumeration that lists each agent once, and returns, (1) it returns true iff some
enumerated agent had `user_blocked_on_addr` set or was yield-blocked, (2) `result` is then
the last such agent in enumeration order, and (3) in particular, with three enumerated
threads each blocked on an address, all three `user_blocked_on_addr` fields are reset to
`ADDR_NONE` and the last enumerated thread is returned. It does return when no
enumerated agent is idle. -/
theorem fp_wake_returns_last_blocked (X : landslide_env) (ls : ls_state) (voluntary : Bool)
    (result : agent_ptr)
    (hne : ls.sched.deadlock_fp_avoidance_count ≠ 128)
    (hicb : ∀ a ∈ ls.sched.runnable,
      X.ICB_BLOCKED
        { ls.sched with deadlock_fp_avoidance_count :=
            (ls.sched.deadlock_fp_avoidance_count + 1) % 4294967296 }
        ls.icb_bound voluntary a = true →
      ((ls.sched.agents a).user_blocked_on_addr ≠ X.ADDR_NONE ∨
       X.agent_is_user_yield_blocked (ls.sched.agents a).user_yield = true))
    (habort : X.cfg.HTM_ABORT_SETS = true → ∀ a ∈ ls.sched.runnable,
      X.ABORT_SET_BLOCKED ls.sched.upcoming_aborts (ls.sched.agents a).tid = false)
    (hnd : ls.sched.runnable.Nodup) :
    (∀ r, try_avoid_fp_deadlock X ls voluntary result = some r →
      (r.ret = true ↔
        ∃ a ∈ ls.sched.runnable,
          (ls.sched.agents a).user_blocked_on_addr ≠ X.ADDR_NONE ∨
          X.agent_is_user_yield_blocked (ls.sched.agents a).user_yield = true) ∧
      (r.ret = true →
        (ls.sched.runnable.filter (fun a =>
          (ls.sched.agents a).user_blocked_on_addr != X.ADDR_NONE ||
          X.agent_is_user_yield_blocked (ls.sched.agents a).user_yield)).getLast?
          = some r.result) ∧
      (∀ t1 t2 t3, ls.sched.runnable = [t1, t2, t3] →
        (ls.sched.agents t1).user_blocked_on_addr ≠ X.ADDR_NONE →
        (ls.sched.agents t2).user_blocked_on_addr ≠ X.ADDR_NONE →
        (ls.sched.agents t3).user_blocked_on_addr ≠ X.ADDR_NONE →
        r.ret = true ∧ r.result = t3 ∧
        (r.ls.sched.agents t1).user_blocked_on_addr = X.ADDR_NONE ∧
        (r.ls.sched.agents t2).user_blocked_on_addr = X.ADDR_NONE ∧
        (r.ls.sched.agents t3).user_blocked_on_addr = X.ADDR_NONE)) ∧
    ((∀ a ∈ ls.sched.runnable, IS_IDLE X ls a = false) →
      ∃ r, try_avoid_fp_deadlock X ls voluntary result = some r) := by
  refine ⟨?_, try_avoid_fp_deadlock_total X ls voluntary result⟩
  intro r h
  obtain ⟨q, hq, hr⟩ := try_avoid_fp_deadlock_third X ls voluntary result r hne hicb habort h
  subst hr
  have hres := fp_wake_loop_result X _ _ _ q hnd hq
  have haddr := fp_wake_loop_addr X _ _ _ q hq
  simp only at hres haddr
  have hiff : q.2.found_one = true ↔
      ∃ a ∈ ls.sched.runnable,
        (ls.sched.agents a).user_blocked_on_addr ≠ X.ADDR_NONE ∨
        X.agent_is_user_yield_blocked (ls.sched.agents a).user_yield = true := by
    rw [hres]
    cases hlast : (ls.sched.runnable.filter (fun a =>
        (ls.sched.agents a).user_blocked_on_addr != X.ADDR_NONE ||
        X.agent_is_user_yield_blocked (ls.sched.agents a).user_yield)).getLast? with
    | none =>
      have hnil := List.getLast?_eq_none_iff.mp hlast
      constructor
      · intro hf
        exact Bool.noConfusion hf
      · rintro ⟨a, ha, hp⟩
        exfalso
        have hmem : a ∈ ls.sched.runnable.filter (fun a =>
            (ls.sched.agents a).user_blocked_on_addr != X.ADDR_NONE ||
            X.agent_is_user_yield_blocked (ls.sched.agents a).user_yield) := by
          rw [List.mem_filter]
          refine ⟨ha, ?_⟩
          rcases hp with hp | hp
          · simp [hp]
          · simp [hp]
        rw [hnil] at hmem
        exact List.not_mem_nil a hmem
    | some z =>
      have hz := List.mem_filter.mp (List.mem_of_getLast?_eq_some hlast)
      constructor
      · intro _
        refine ⟨z, hz.1, ?_⟩
        have hz2 := hz.2
        simp only [Bool.or_eq_true, bne_iff_ne, ne_eq] at hz2
        exact hz2
      · intro _
        rfl
  have hlastres : q.2.found_one = true →
      (ls.sched.runnable.filter (fun a =>
        (ls.sched.agents a).user_blocked_on_addr != X.ADDR_NONE ||
        X.agent_is_user_yield_blocked (ls.sched.agents a).user_yield)).getLast?
        = some q.2.result := by
    intro hf
    rw [hres] at hf ⊢
    cases hlast : (ls.sched.runnable.filter (fun a =>
        (ls.sched.agents a).user_blocked_on_addr != X.ADDR_NONE ||
        X.agent_is_user_yield_blocked (ls.sched.agents a).user_yield)).getLast? with
    | none =>
      rw [hlast] at hf
      exact Bool.noConfusion hf
    | some z => rfl
  refine ⟨hiff, hlastres, ?_⟩
  intro t1 t2 t3 hrun h1 h2 h3
  have hf : q.2.found_one = true :=
    hiff.mpr ⟨t3, by simp [hrun], Or.inl h3⟩
  have hl := hlastres hf
  rw [hrun] at hl
  have hb1 : ((ls.sched.agents t1).user_blocked_on_addr != X.ADDR_NONE) = true := by
    simpa using h1
  have hb2 : ((ls.sched.agents t2).user_blocked_on_addr != X.ADDR_NONE) = true := by
    simpa using h2
  have hb3 : ((ls.sched.agents t3).user_blocked_on_addr != X.ADDR_NONE) = true := by
    simpa using h3
  simp only [List.filter_cons, hb1, hb2, hb3, Bool.true_or, if_true, List.filter_nil,
    List.getLast?_cons_cons, List.getLast?_singleton, Option.some.injEq] at hl
  refine ⟨hf, hl.symm, ?_, ?_, ?_⟩
  · exact haddr t1 (by simp [hrun])
  · exact haddr t2 (by simp [hrun])
  · exact haddr t3 (by simp [hrun])

/-- Evaluation of C12 on scenario 5 of the spec (`blocked_state`): T1, T2, T3 are blocked
on three different addresses; the attempt returns true with T3 (address 3), the last
enumerated thread, and all three addresses are cleared. -/
theorem fp_wake_returns_last_blocked_witness :
    blocked_state.sched.deadlock_fp_avoidance_count ≠ 128 ∧
    pebbles_env.cfg.HTM_ABORT_SETS = false ∧
    blocked_state.sched.runnable = [1, 2, 3] ∧
    (blocked_state.sched.agents 1).user_blocked_on_addr = 16785408 ∧
    (blocked_state.sched.agents 2).user_blocked_on_addr = 16785412 ∧
    (blocked_state.sched.agents 3).user_blocked_on_addr = 16785416 ∧
    ∃ r, try_avoid_fp_deadlock pebbles_env blocked_state false 0 = some r ∧
      r.ret = true ∧ r.result = 3 ∧
      (r.ls.sched.agents 1).user_blocked_on_addr = pebbles_env.ADDR_NONE ∧
      (r.ls.sched.agents 2).user_blocked_on_addr = pebbles_env.ADDR_NONE ∧
      (r.ls.sched.agents 3).user_blocked_on_addr = pebbles_env.ADDR_NONE :=
  ⟨by decide, rfl, rfl, rfl, rfl, rfl, _, rfl,
    ((fp_wake_returns_last_blocked pebbles_env blocked_state false 0 (by decide) (by decide)
      (by decide) (by decide)).1 _ rfl).2.2 1 2 3 rfl (by decide) (by decide) (by decide)⟩

/-! ### arbiter_choose: no runnable thread -/

/-- When the queue is empty, the build is valid, the current agent is not a legal choice
and the assertion of the yield path holds, `arbiter_choose` is its tail run on
`yield_path_state`. -/
theorem arbiter_choose_not_legal (X : landslide_env) (ls : ls_state) (current : agent_ptr)
    (voluntary : Bool) (result : agent_ptr) (our_choice : Bool)
    (hq : ls.arbiter.choices = [])
    (hb : X.cfg.EXPLORE_BACKWARDS = 0 ∨ X.cfg.ICB = false)
    (hnl : current ∉ ls.sched.runnable ∨ eligible X ls voluntary current = false)
    (hassert : ((X.agent_has_yielded (ls.sched.agents current).user_yield ||
        X.agent_has_xchged ls) &&
        !X.agent_is_user_yield_blocked (ls.sched.agents current).user_yield) = true →
      (ls.sched.agents current).user_yield.blocked = false) :
    arbiter_choose X ls current voluntary result our_choice =
      choose_tail X (yield_path_state X ls current) voluntary
        (chosen_count X (count_loop X ls current voluntary ls.sched.runnable
          { count := 0, current_is_legal_choice := false,
            dpor_preferred_is_legal_choice := false,
            dpor_preferred_count := 0, dpor_preference := 0 }))
        result our_choice := by
  have hlegal : (count_loop X ls current voluntary ls.sched.runnable
          { count := 0, current_is_legal_choice := false,
            dpor_preferred_is_legal_choice := false,
            dpor_preferred_count := 0, dpor_preference := 0 }).current_is_legal_choice
            = false := by
    rw [count_loop_current]
    rcases hnl with h | h <;> simp [h]
  have hb2 : (X.cfg.EXPLORE_BACKWARDS != 0 && X.cfg.ICB) = false := by
    rcases hb with h | h <;> simp [h]
  unfold arbiter_choose yield_path_state
  simp only [hq, List.length_nil, bne_self_eq_false, Bool.false_eq_true, if_false, hb2, hlegal]
  cases hy : (X.agent_has_yielded (ls.sched.agents current).user_yield ||
      X.agent_has_xchged ls)
  · simp
  · cases hyb : X.agent_is_user_yield_blocked (ls.sched.agents current).user_yield
    · have hbl := hassert (by simp [hy, hyb])
      simp [hbl]
    · simp

/-- The ICB loop of `try_avoid_fp_deadlock` leaves its locals alone when it visits no
ICB-blocked agent. -/
theorem fp_icb_loop_none_blocked (X : landslide_env) (ls : ls_state) (voluntary : Bool)
    (as : List agent_ptr) (l : fp_locals)
    (h : ∀ a ∈ as, X.ICB_BLOCKED ls.sched ls.icb_bound voluntary a = false) :
    fp_icb_loop X ls voluntary as l = some l := by
  induction as with
  | nil => rfl
  | cons a rest ih =>
    simp only [fp_icb_loop, h a (List.mem_cons_self _ _), Bool.false_eq_true, if_false]
    exact ih (fun b hb => h b (List.mem_cons_of_mem _ hb))

/-- The third loop changes nothing when no agent it visits is blocked on an address or
yield-blocked. -/
theorem fp_wake_loop_none (X : landslide_env) (as : List agent_ptr) (ls : ls_state)
    (l : fp_locals)
    (h : ∀ a ∈ as, (ls.sched.agents a).user_blocked_on_addr = X.ADDR_NONE ∧
      X.agent_is_user_yield_blocked (ls.sched.agents a).user_yield = false) :
    fp_wake_loop X as ls l = some (ls, l) := by
  induction as with
  | nil => rfl
  | cons a rest ih =>
    obtain ⟨h1, h2⟩ := h a (List.mem_cons_self _ _)
    simp only [fp_wake_loop, h1, bne_self_eq_false, Bool.false_eq_true, if_false, h2]
    exact ih (fun b hb => h b (List.mem_cons_of_mem _ hb))

/-- Below the budget, with no candidate of any category, `try_avoid_fp_deadlock` returns
false, having only incremented the counter. -/
theorem try_avoid_fp_deadlock_no_candidate (X : landslide_env) (ls : ls_state)
    (voluntary : Bool) (result : agent_ptr)
    (hne : ls.sched.deadlock_fp_avoidance_count ≠ 128)
    (hnc : ∀ a ∈ ls.sched.runnable,
      X.ICB_BLOCKED
        { ls.sched with deadlock_fp_avoidance_count :=
            (ls.sched.deadlock_fp_avoidance_count + 1) % 4294967296 }
        ls.icb_bound voluntary a = false ∧
      (X.cfg.HTM_ABORT_SETS = true →
        X.ABORT_SET_BLOCKED ls.sched.upcoming_aborts (ls.sched.agents a).tid = false) ∧
      (ls.sched.agents a).user_blocked_on_addr = X.ADDR_NONE ∧
      X.agent_is_user_yield_blocked (ls.sched.agents a).user_yield = false) :
    try_avoid_fp_deadlock X ls voluntary result =
      some { ret := false,
             ls := { ls with sched := { ls.sched with deadlock_fp_avoidance_count :=
               (ls.sched.deadlock_fp_avoidance_count + 1) % 4294967296 } },
             result := result } := by
  have hne2 : (ls.sched.deadlock_fp_avoidance_count == DEADLOCK_FP_MAX_ATTEMPTS) = false := by
    simpa [DEADLOCK_FP_MAX_ATTEMPTS] using hne
  have hicb := fp_icb_loop_none_blocked X
    { ls with sched := { ls.sched with deadlock_fp_avoidance_count :=
        (ls.sched.deadlock_fp_avoidance_count + 1) % 4294967296 } }
    voluntary ls.sched.runnable { found_one := false, result := result }
    (fun a ha => (hnc a ha).1)
  have hwake := fp_wake_loop_none X ls.sched.runnable
    { ls with sched := { ls.sched with deadlock_fp_avoidance_count :=
        (ls.sched.deadlock_fp_avoidance_count + 1) % 4294967296 } }
    { found_one := false, result := result }
    (fun a ha => (hnc a ha).2.2)
  unfold try_avoid_fp_deadlock
  simp only [hne2, Bool.false_eq_true, if_false, hicb]
  unfold fp_after_icb
  cases hh : X.cfg.HTM_ABORT_SETS
  · simp only [Bool.false_eq_true, if_false, Bool.false_and, hwake]
  · have hab := fp_abort_set_loop_no_candidate X ls.sched.runnable
      { ls with sched := { ls.sched with deadlock_fp_avoidance_count :=
          (ls.sched.deadlock_fp_avoidance_count + 1) % 4294967296 } }
      { found_one := false, result := result }
      (fun a ha => (hnc a ha).2.1 hh)
    simp only [if_true, Bool.true_and, hab, Bool.false_eq_true, if_false, hwake]

/-- C13: suppose the choice queue is empty, the build is valid, the assertion of the
yield path holds, and no enumerated agent is eligible, neither on entry nor in the state
`yield_path_state` in which the second loop and the deadlock check run. (1) If the
deadlock-report conditions hold and the false-positive budget is exhausted, or (2) they
hold and false-positive avoidance finds no candidate (no agent ICB-blocked,
abort-set-blocked, blocked on an address or yield-blocked), `arbiter_choose` returns false
after reporting the deadlock bug, and before that it calls `save_setjmp` with
`next_tid = TID_NONE` and `end_of_test = true` if and only if the transition was
voluntary. (3) If the deadlock-report conditions do not hold, it returns false and calls
neither the bug reporter nor the save engine. -/
theorem arbiter_choose_deadlock (X : landslide_env) (ls : ls_state) (current : agent_ptr)
    (voluntary : Bool) (result : agent_ptr) (our_choice : Bool)
    (hq : ls.arbiter.choices = [])
    (hb : X.cfg.EXPLORE_BACKWARDS = 0 ∨ X.cfg.ICB = false)
    (hassert : ((X.agent_has_yielded (ls.sched.agents current).user_yield ||
        X.agent_has_xchged ls) &&
        !X.agent_is_user_yield_blocked (ls.sched.agents current).user_yield) = true →
      (ls.sched.agents current).user_yield.blocked = false)
    (hnone0 : ∀ a ∈ ls.sched.runnable, eligible X ls voluntary a = false)
    (hnone1 : ∀ a ∈ ls.sched.runnable,
      eligible X (yield_path_state X ls current) voluntary a = false) :
    (report_deadlock X (yield_path_state X ls current) = true →
      ls.sched.deadlock_fp_avoidance_count = 128 →
      ∃ r, arbiter_choose X ls current voluntary result our_choice = some r ∧
        r.ret = false ∧
        r.ls.effects = ls.effects ++
          (if voluntary then
            [effect.save_setjmp X.TID_NONE true true true X.ADDR_NONE true X.TID_NONE
              false false false]
           else []) ++
          [effect.found_a_bug "Deadlock -- no threads are runnable!\n"]) ∧
    (report_deadlock X (yield_path_state X ls current) = true →
      ls.sched.deadlock_fp_avoidance_count ≠ 128 →
      (∀ a ∈ ls.sched.runnable,
        X.ICB_BLOCKED
          { (yield_path_state X ls current).sched with deadlock_fp_avoidance_count :=
              (ls.sched.deadlock_fp_avoidance_count + 1) % 4294967296 }
          ls.icb_bound voluntary a = false ∧
        (X.cfg.HTM_ABORT_SETS = true →
          X.ABORT_SET_BLOCKED ls.sched.upcoming_aborts
            ((yield_path_state X ls current).sched.agents a).tid = false) ∧
        ((yield_path_state X ls current).sched.agents a).user_blocked_on_addr
          = X.ADDR_NONE ∧
        X.agent_is_user_yield_blocked
          ((yield_path_state X ls current).sched.agents a).user_yield = false) →
      ∃ r, arbiter_choose X ls current voluntary result our_choice = some r ∧
        r.ret = false ∧
        r.ls.effects = ls.effects ++
          (if voluntary then
            [effect.save_setjmp X.TID_NONE true true true X.ADDR_NONE true X.TID_NONE
              false false false]
           else []) ++
          [effect.found_a_bug "Deadlock -- no threads are runnable!\n"]) ∧
    (report_deadlock X (yield_path_state X ls current) = false →
      ∃ r, arbiter_choose X ls current voluntary result our_choice = some r ∧
        r.ret = false ∧ r.ls.effects = ls.effects) := by
  have hfields : (yield_path_state X ls current).sched.runnable = ls.sched.runnable ∧
      (yield_path_state X ls current).sched.deadlock_fp_avoidance_count =
        ls.sched.deadlock_fp_avoidance_count ∧
      (yield_path_state X ls current).effects = ls.effects ∧
      (yield_path_state X ls current).icb_bound = ls.icb_bound ∧
      (yield_path_state X ls current).sched.upcoming_aborts = ls.sched.upcoming_aborts := by
    unfold yield_path_state
    split <;> exact ⟨rfl, rfl, rfl, rfl, rfl⟩
  obtain ⟨hrun, hcnt, heff, hbound, habs⟩ := hfields
  have hnl : current ∉ ls.sched.runnable ∨ eligible X ls voluntary current = false := by
    by_cases hc : current ∈ ls.sched.runnable
    · exact Or.inr (hnone0 current hc)
    · exact Or.inl hc
  rw [arbiter_choose_not_legal X ls current voluntary result our_choice hq hb hnl hassert]
  have hfind : ∀ count, find_choice X (yield_path_state X ls current) voluntary count 0
      (yield_path_state X ls current).sched.runnable = none := by
    intro count
    apply find_choice_none
    rw [hrun]
    exact hnone1
  refine ⟨?_, ?_, ?_⟩
  · intro hrep h128
    have htry : try_avoid_fp_deadlock X (yield_path_state X ls current) voluntary result =
        some { ret := false, ls := yield_path_state X ls current, result := result } := by
      unfold try_avoid_fp_deadlock
      simp [hcnt, h128, DEADLOCK_FP_MAX_ATTEMPTS]
    unfold choose_tail
    simp only [hfind, hrep, if_true, htry]
    exact ⟨_, rfl, rfl, by simp [heff]⟩
  · intro hrep hne hnc
    have htry := try_avoid_fp_deadlock_no_candidate X (yield_path_state X ls current)
      voluntary result (by rw [hcnt]; exact hne)
      (by
        rw [hrun, hcnt, hbound, habs]
        exact hnc)
    unfold choose_tail
    simp only [hfind, hrep, if_true, htry]
    exact ⟨_, rfl, rfl, by simp [heff]⟩
  · intro hrep
    unfold choose_tail
    simp only [hfind, hrep, Bool.false_eq_true, if_false]
    exact ⟨_, rfl, rfl, heff⟩

/-- Evaluation of C13: on `wedged_state` (budget used up, involuntary) the bug is
reported without a tree node; on `idle_only_state` (no candidate, voluntary) the
end-of-test node is created and the bug reported; on `no_threads_state` (nobody alive)
nothing is reported. -/
theorem arbiter_choose_deadlock_witness :
    (∃ r, arbiter_choose pebbles_env wedged_state 3 false 0 false = some r ∧
      r.ret = false ∧
      r.ls.effects = [effect.found_a_bug "Deadlock -- no threads are runnable!\n"]) ∧
    (∃ r, arbiter_choose pebbles_env idle_only_state 1 true 0 false = some r ∧
      r.ret = false ∧
      r.ls.effects =
        [effect.save_setjmp 4294967295 true true true 4294967295 true 4294967295
          false false false,
         effect.found_a_bug "Deadlock -- no threads are runnable!\n"]) ∧
    (∃ r, arbiter_choose pebbles_env no_threads_state 3 false 0 false = some r ∧
      r.ret = false ∧ r.ls.effects = []) :=
  ⟨(arbiter_choose_deadlock pebbles_env wedged_state 3 false 0 false rfl (Or.inl rfl)
      (by decide) (by decide) (by decide)).1 (by decide) rfl,
   (arbiter_choose_deadlock pebbles_env idle_only_state 1 true 0 false rfl (Or.inl rfl)
      (by decide) (by decide) (by decide)).2.1 (by decide) (by decide) (by decide),
   (arbiter_choose_deadlock pebbles_env no_threads_state 3 false 0 false rfl (Or.inl rfl)
      (by decide) (by decide) (by decide)).2.2 (by decide)⟩

/-! ### job.c: lifecycle -/

/-- The four positions a job can be in: running with status NORMAL, inside `job_block`
with status BLOCKED, inside `job_block` with status NORMAL again (resumed, not yet woken
up), finished with status DONE. Every step keeps the job in one of them, writes the
status along one of the allowed transitions if it writes it, and leaves it alone
otherwise. -/
theorem lifecycle_step_inv (m m1 : lifecycle) (e : lifecycle_event)
    (hm : m = { status := job_status.JOB_NORMAL, thread := job_thread.running } ∨
          m = { status := job_status.JOB_BLOCKED, thread := job_thread.in_job_block } ∨
          m = { status := job_status.JOB_NORMAL, thread := job_thread.in_job_block } ∨
          m = { status := job_status.JOB_DONE, thread := job_thread.finished })
    (h : lifecycle_step m e = some m1) :
    (m1 = { status := job_status.JOB_NORMAL, thread := job_thread.running } ∨
     m1 = { status := job_status.JOB_BLOCKED, thread := job_thread.in_job_block } ∨
     m1 = { status := job_status.JOB_NORMAL, thread := job_thread.in_job_block } ∨
     m1 = { status := job_status.JOB_DONE, thread := job_thread.finished }) ∧
    (e.writes_status = true → lifecycle_transition m.status m1.status) ∧
    (e.writes_status = false → m1.status = m.status) := by
  rcases hm with hm | hm | hm | hm <;> subst hm <;> cases e <;>
    simp [lifecycle_step, job_block_enter, job_block_return, resume_job] at h <;>
    subst h <;>
    simp [lifecycle_transition, lifecycle_event.writes_status]

/-- From any of the four positions, the statuses along a sequence of steps start with
the current status and change along the allowed transitions only. -/
theorem lifecycle_trace_chain (m : lifecycle) (es : List lifecycle_event)
    (tr : List job_status)
    (hm : m = { status := job_status.JOB_NORMAL, thread := job_thread.running } ∨
          m = { status := job_status.JOB_BLOCKED, thread := job_thread.in_job_block } ∨
          m = { status := job_status.JOB_NORMAL, thread := job_thread.in_job_block } ∨
          m = { status := job_status.JOB_DONE, thread := job_thread.finished })
    (h : lifecycle_trace m es = some tr) :
    tr.head? = some m.status ∧ List.Chain' lifecycle_transition tr := by
  induction es generalizing m tr with
  | nil =>
    simp only [lifecycle_trace] at h
    cases Option.some.inj h
    exact ⟨rfl, List.chain'_singleton _⟩
  | cons e es ih =>
    simp only [lifecycle_trace] at h
    cases hs : lifecycle_step m e with
    | none =>
      rw [hs] at h
      exact Option.noConfusion h
    | some m1 =>
      rw [hs] at h
      simp only at h
      obtain ⟨hinv, hw, hnw⟩ := lifecycle_step_inv m m1 e hm hs
      cases hwr : e.writes_status
      · simp only [hwr, Bool.false_eq_true, if_false] at h
        have := ih m1 tr hinv h
        rw [hnw hwr] at this
        exact this
      · simp only [hwr, if_true] at h
        cases ht : lifecycle_trace m1 es with
        | none =>
          rw [ht] at h
          exact Option.noConfusion h
        | some tr1 =>
          rw [ht] at h
          cases Option.some.inj h
          obtain ⟨hhead, hchain⟩ := ih m1 tr1 hinv ht
          refine ⟨rfl, ?_⟩
          rw [List.chain'_cons']
          refine ⟨?_, hchain⟩
          intro y hy
          rw [hhead] at hy
          cases Option.some.inj hy
          exact hw hwr

/-- Every state reached from the initial one is in one of the four positions. -/
theorem lifecycle_run_inv (m m1 : lifecycle) (es : List lifecycle_event)
    (hm : m = { status := job_status.JOB_NORMAL, thread := job_thread.running } ∨
          m = { status := job_status.JOB_BLOCKED, thread := job_thread.in_job_block } ∨
          m = { status := job_status.JOB_NORMAL, thread := job_thread.in_job_block } ∨
          m = { status := job_status.JOB_DONE, thread := job_thread.finished })
    (h : lifecycle_run m es = some m1) :
    m1 = { status := job_status.JOB_NORMAL, thread := job_thread.running } ∨
    m1 = { status := job_status.JOB_BLOCKED, thread := job_thread.in_job_block } ∨
    m1 = { status := job_status.JOB_NORMAL, thread := job_thread.in_job_block } ∨
    m1 = { status := job_status.JOB_DONE, thread := job_thread.finished } := by
  induction es generalizing m with
  | nil =>
    simp only [lifecycle_run] at h
    cases Option.some.inj h
    exact hm
  | cons e es ih =>
    simp only [lifecycle_run] at h
    cases hs : lifecycle_step m e with
    | none =>
      rw [hs] at h
      exact Option.noConfusion h
    | some m2 =>
      rw [hs] at h
      exact ih m2 (lifecycle_step_inv m m2 e hm hs).1 h

/-- C14: job lifecycle. Over the status machine whose steps are `job_block` (NORMAL to
BLOCKED, left only once the status is NORMAL again), `resume_job` (BLOCKED to NORMAL) and
the end of `run_job` (to DONE), (1) the statuses along every sequence of steps from the
initial NORMAL start with NORMAL and change only from NORMAL to BLOCKED, from BLOCKED to
NORMAL and from NORMAL to DONE, so the sequence reads NORMAL, BLOCKED, NORMAL, ..., DONE;
(2) DONE is terminal: from a reachable state with status DONE no step can be taken; and
(3) in status DONE both `job_block` and `resume_job` fail their precondition
assertion. -/
theorem job_lifecycle (es : List lifecycle_event) :
    (∀ tr, lifecycle_trace lifecycle_init es = some tr →
      tr.head? = some job_status.JOB_NORMAL ∧ List.Chain' lifecycle_transition tr) ∧
    (∀ m, lifecycle_run lifecycle_init es = some m → m.status = job_status.JOB_DONE →
      ∀ e, lifecycle_step m e = none) ∧
    (∀ t, ¬ lifecycle_transition job_status.JOB_DONE t) ∧
    job_block_enter job_status.JOB_DONE = none ∧
    resume_job job_status.JOB_DONE = none := by
  have hinit : lifecycle_init =
        { status := job_status.JOB_NORMAL, thread := job_thread.running } ∨
      lifecycle_init =
        { status := job_status.JOB_BLOCKED, thread := job_thread.in_job_block } ∨
      lifecycle_init =
        { status := job_status.JOB_NORMAL, thread := job_thread.in_job_block } ∨
      lifecycle_init =
        { status := job_status.JOB_DONE, thread := job_thread.finished } := Or.inl rfl
  refine ⟨?_, ?_, ?_, rfl, rfl⟩
  · intro tr h
    exact lifecycle_trace_chain lifecycle_init es tr hinit h
  · intro m h hdone e
    rcases lifecycle_run_inv lifecycle_init m es hinit h with hm | hm | hm | hm <;>
      subst hm <;> simp at hdone
    cases e <;> simp [lifecycle_step, resume_job]
  · intro t ht
    simp [lifecycle_transition] at ht

/-- Evaluation of C14 on a full life: block, resume, wake up, block, resume, wake up,
finish. The statuses read NORMAL, BLOCKED, NORMAL, BLOCKED, NORMAL, DONE, and no step
can follow. -/
theorem job_lifecycle_witness :
    lifecycle_trace lifecycle_init
      [lifecycle_event.job_block_call, lifecycle_event.resume_job_call,
       lifecycle_event.job_block_wakeup, lifecycle_event.job_block_call,
       lifecycle_event.resume_job_call, lifecycle_event.job_block_wakeup,
       lifecycle_event.run_job_end] =
      some [job_status.JOB_NORMAL, job_status.JOB_BLOCKED, job_status.JOB_NORMAL,
            job_status.JOB_BLOCKED, job_status.JOB_NORMAL, job_status.JOB_DONE] ∧
    List.Chain' lifecycle_transition
      [job_status.JOB_NORMAL, job_status.JOB_BLOCKED, job_status.JOB_NORMAL,
       job_status.JOB_BLOCKED, job_status.JOB_NORMAL, job_status.JOB_DONE] ∧
    (∀ e, lifecycle_step
      { status := job_status.JOB_DONE, thread := job_thread.finished } e = none) :=
  ⟨by decide,
   ((job_lifecycle
      [lifecycle_event.job_block_call, lifecycle_event.resume_job_call,
       lifecycle_event.job_block_wakeup, lifecycle_event.job_block_call,
       lifecycle_event.resume_job_call, lifecycle_event.job_block_wakeup,
       lifecycle_event.run_job_end]).1 _ (by decide)).2,
   (job_lifecycle
      [lifecycle_event.job_block_call, lifecycle_event.resume_job_call,
       lifecycle_event.job_block_wakeup, lifecycle_event.job_block_call,
       lifecycle_event.resume_job_call, lifecycle_event.job_block_wakeup,
       lifecycle_event.run_job_end]).2.1 _ (by decide) rfl⟩

/-- What `wait_on_job` returns is decided by the first status other than NORMAL that it
finds. -/
theorem wait_on_job_returned (obs : List job_status) (rv : Bool)
    (h : wait_on_job obs = wait_outcome.returned rv) :
    ∃ pre st rest, obs = pre ++ st :: rest ∧
      (∀ s ∈ pre, s = job_status.JOB_NORMAL) ∧ st ≠ job_status.JOB_NORMAL ∧
      (rv = true ↔ st = job_status.JOB_BLOCKED) ∧
      (rv = false ↔ st = job_status.JOB_DONE) := by
  induction obs with
  | nil => simp [wait_on_job] at h
  | cons s rest ih =>
    cases s with
    | JOB_NORMAL =>
      simp only [wait_on_job] at h
      obtain ⟨pre, st, rest1, hobs, hpre, hst, h1, h2⟩ := ih h
      refine ⟨job_status.JOB_NORMAL :: pre, st, rest1, by simp [hobs], ?_, hst, h1, h2⟩
      intro s hs
      rcases List.mem_cons.mp hs with h3 | h3
      · exact h3
      · exact hpre s h3
    | JOB_BLOCKED =>
      simp only [wait_on_job, wait_outcome.returned.injEq] at h
      subst h
      exact ⟨[], job_status.JOB_BLOCKED, rest, rfl, by simp, by simp, by simp, by simp⟩
    | JOB_DONE =>
      simp only [wait_on_job, wait_outcome.returned.injEq] at h
      subst h
      exact ⟨[], job_status.JOB_DONE, rest, rfl, by simp, by simp, by simp, by simp⟩

/-- The `wait_on_job` keeps waiting as long as it finds the status NORMAL. -/
theorem wait_on_job_normal (pre rest : List job_status)
    (h : ∀ s ∈ pre, s = job_status.JOB_NORMAL) :
    wait_on_job (pre ++ rest) = wait_on_job rest := by
  induction pre with
  | nil => rfl
  | cons s pre ih =>
    have hs := h s (List.mem_cons_self _ _)
    subst hs
    simp only [List.cons_append, wait_on_job]
    exact ih (fun t ht => h t (List.mem_cons_of_mem _ ht))

/-- C15: `wait_on_job` returns only when the job's status is not NORMAL, and its result
is true iff the status it observed is BLOCKED (false iff DONE). (1) Whenever it has
returned `rv`, the statuses it found were NORMAL up to one that is not NORMAL, and `rv`
is true iff that one is BLOCKED, false iff it is DONE. (2) As long as it finds only
NORMAL it is still waiting; when, after that, it finds BLOCKED it returns true, and when
it finds DONE it returns false. (3) So after `job_block` it returns true, and after a
subsequent `resume_job` followed by the job reaching DONE it returns false. -/
theorem wait_on_job_result (obs : List job_status) :
    (∀ rv, wait_on_job obs = wait_outcome.returned rv →
      ∃ pre st rest, obs = pre ++ st :: rest ∧
        (∀ s ∈ pre, s = job_status.JOB_NORMAL) ∧ st ≠ job_status.JOB_NORMAL ∧
        (rv = true ↔ st = job_status.JOB_BLOCKED) ∧
        (rv = false ↔ st = job_status.JOB_DONE)) ∧
    ((∀ s ∈ obs, s = job_status.JOB_NORMAL) →
      wait_on_job obs = wait_outcome.waiting ∧
      (∀ rest, wait_on_job (obs ++ job_status.JOB_BLOCKED :: rest)
        = wait_outcome.returned true) ∧
      (∀ rest, wait_on_job (obs ++ job_status.JOB_DONE :: rest)
        = wait_outcome.returned false)) ∧
    (∀ m1 m2 m3,
      lifecycle_run lifecycle_init [lifecycle_event.job_block_call] = some m1 →
      lifecycle_run m1 [lifecycle_event.resume_job_call] = some m2 →
      lifecycle_run m2 [lifecycle_event.job_block_wakeup, lifecycle_event.run_job_end]
        = some m3 →
      wait_on_job [m1.status] = wait_outcome.returned true ∧
      wait_on_job [m2.status] = wait_outcome.waiting ∧
      wait_on_job [m2.status, m3.status] = wait_outcome.returned false) := by
  refine ⟨fun rv h => wait_on_job_returned obs rv h, ?_, ?_⟩
  · intro hall
    refine ⟨?_, ?_, ?_⟩
    · have := wait_on_job_normal obs [] hall
      rw [List.append_nil] at this
      rw [this]
      rfl
    · intro rest
      rw [wait_on_job_normal obs _ hall]
      rfl
    · intro rest
      rw [wait_on_job_normal obs _ hall]
      rfl
  · intro m1 m2 m3 h1 h2 h3
    have e1 : m1 = { status := job_status.JOB_BLOCKED, thread := job_thread.in_job_block } := by
      have : lifecycle_run lifecycle_init [lifecycle_event.job_block_call] =
          some { status := job_status.JOB_BLOCKED, thread := job_thread.in_job_block } := by
        decide
      rw [this] at h1
      exact (Option.some.inj h1).symm
    subst e1
    have e2 : m2 = { status := job_status.JOB_NORMAL, thread := job_thread.in_job_block } := by
      have : lifecycle_run
          { status := job_status.JOB_BLOCKED, thread := job_thread.in_job_block }
          [lifecycle_event.resume_job_call] =
          some { status := job_status.JOB_NORMAL, thread := job_thread.in_job_block } := by
        decide
      rw [this] at h2
      exact (Option.some.inj h2).symm
    subst e2
    have e3 : m3 = { status := job_status.JOB_DONE, thread := job_thread.finished } := by
      have : lifecycle_run
          { status := job_status.JOB_NORMAL, thread := job_thread.in_job_block }
          [lifecycle_event.job_block_wakeup, lifecycle_event.run_job_end] =
          some { status := job_status.JOB_DONE, thread := job_thread.finished } := by
        decide
      rw [this] at h3
      exact (Option.some.inj h3).symm
    subst e3
    exact ⟨rfl, rfl, rfl⟩

/-- Evaluation of C15 on scenario 6 of the spec: after `job_block` the controller's
`wait_on_job` returns true; after `resume_job` it waits while the status is NORMAL and
returns false once the job has reached DONE. -/
theorem wait_on_job_result_witness :
    lifecycle_run lifecycle_init [lifecycle_event.job_block_call] =
      some { status := job_status.JOB_BLOCKED, thread := job_thread.in_job_block } ∧
    wait_on_job [job_status.JOB_BLOCKED] = wait_outcome.returned true ∧
    wait_on_job [job_status.JOB_NORMAL] = wait_outcome.waiting ∧
    wait_on_job [job_status.JOB_NORMAL, job_status.JOB_DONE] = wait_outcome.returned false :=
  ⟨by decide,
   (wait_on_job_result []).2.2
     { status := job_status.JOB_BLOCKED, thread := job_thread.in_job_block }
     { status := job_status.JOB_NORMAL, thread := job_thread.in_job_block }
     { status := job_status.JOB_DONE, thread := job_thread.finished }
     (by decide) (by decide) (by decide)⟩

/-! ### job.c: run_job, the pre-fork check -/

/-- Nothing is forked before the pre-fork check. -/
theorem run_job_setup_no_fork (o : job_options) (w : job_world) (j : job) :
    job_event.fork ∉ run_job_setup o w j := by
  unfold run_job_setup
  cases o.user_trace_dir <;> simp

/-- What `run_job` does when the pre-fork check fires. -/
theorem run_job_aborts (o : job_options) (w : job_world) (j : job) (files : config_files)
    (hcheck : (w.bug_in_subspace || w.too_late) = true)
    (hcfg : write_configs o j.config = some files)
    (hcpu : j.current_cpu ≠ NO_CPU) :
    run_job o w j =
      some { j := (run_job_abort w j).1, files := files,
             trace := run_job_setup o w j ++ (run_job_abort w j).2 } := by
  have hcpu2 : (j.current_cpu == NO_CPU) = false := by simpa using hcpu
  unfold run_job
  simp only [hcfg, hcpu2, Bool.false_eq_true, if_false, hcheck, if_true]

/-- C16: if `bug_already_found` holds for the job's PP-set at the pre-fork check (config
generation and the assertion on `current_cpu` having passed), `run_job` never forks a
child: after the setup it releases the compile lock, aborts messaging, deletes all four
scratch files, sets `complete = true` and `cancelled = true`, and ends with status
DONE. -/
theorem run_job_bug_in_subspace (o : job_options) (w : job_world) (j : job)
    (files : config_files)
    (hbug : w.bug_in_subspace = true)
    (hcfg : write_configs o j.config = some files)
    (hcpu : j.current_cpu ≠ NO_CPU) :
    ∃ r, run_job o w j = some r ∧
      r.trace = run_job_setup o w j ++
        [ job_event.unlock_compile, job_event.messaging_abort,
          job_event.delete_file job_file.config_static true,
          job_event.delete_file job_file.config_dynamic true,
          job_event.delete_file job_file.log_stdout true,
          job_event.delete_file job_file.log_stderr true,
          job_event.status_done ] ∧
      job_event.fork ∉ r.trace ∧
      job_event.unlock_compile ∈ r.trace ∧
      (∀ f, job_event.delete_file f true ∈ r.trace) ∧
      r.j.complete = true ∧ r.j.cancelled = true ∧
      r.j.status = job_status.JOB_DONE := by
  refine ⟨_, run_job_aborts o w j files (by simp [hbug]) hcfg hcpu, rfl, ?_, ?_, ?_, ?_, ?_,
    rfl⟩
  · simp only [run_job_abort, List.mem_append, not_or]
    exact ⟨run_job_setup_no_fork o w j, by simp⟩
  · simp [run_job_abort]
  · intro f
    cases f <;> simp [run_job_abort]
  · simp [run_job_abort, hbug]
  · simp [run_job_abort, hbug]

/-- Evaluation of C16: worker B of scenario 3; a bug has been reported for a subset of
its PP set when it reaches the pre-fork check. -/
theorem run_job_bug_in_subspace_witness :
    ∃ r, run_job (user_options "mutex_test") { quiet_world with bug_in_subspace := true }
        fresh_job = some r ∧
      job_event.fork ∉ r.trace ∧
      r.j.complete = true ∧ r.j.cancelled = true ∧ r.j.status = job_status.JOB_DONE := by
  obtain ⟨r, h, _, hf, _, _, hc, hcan, hs⟩ :=
    run_job_bug_in_subspace (user_options "mutex_test")
      { quiet_world with bug_in_subspace := true } fresh_job
      (Option.get (write_configs (user_options "mutex_test") fresh_job.config) (by decide))
      rfl (by simp) (by decide)
  exact ⟨r, h, hf, hc, hcan, hs⟩

/-- C17, as stated, fails on a job fresh from `new_job`: the deadline has elapsed at the
pre-fork check, no bug was found in the subspace, `run_job` does not fork, and the job is
left with `complete = false`. -/
theorem run_job_time_up_counterexample :
    ∃ r, run_job (user_options "mutex_test") { quiet_world with too_late := true }
        fresh_job = some r ∧
      job_event.fork ∉ r.trace ∧
      r.j.complete = false ∧ r.j.cancelled = false ∧ r.j.trace_filename = none := by
  have h := run_job_aborts (user_options "mutex_test")
    { quiet_world with too_late := true } fresh_job
    (Option.get (write_configs (user_options "mutex_test") fresh_job.config) (by decide))
    rfl (by simp) (by decide)
  refine ⟨_, h, ?_, rfl, rfl, rfl⟩
  simp only [run_job_abort, List.mem_append, not_or]
  exact ⟨run_job_setup_no_fork _ _ _, by simp⟩

/-- C17, amended: if the global deadline has elapsed at the pre-fork check and no bug was
found in the job's subspace (config generation and the assertion on `current_cpu` having
passed), `run_job` does not fork, deletes the scratch files, leaves `complete`,
`cancelled` and the bug trace of the job as they were, and ends with status DONE; for a
job as `new_job` makes it these are `complete = false`, `cancelled = false` and no bug
trace. -/
theorem run_job_time_up (o : job_options) (w : job_world) (j : job) (files : config_files)
    (hlate : w.too_late = true)
    (hbug : w.bug_in_subspace = false)
    (hcfg : write_configs o j.config = some files)
    (hcpu : j.current_cpu ≠ NO_CPU) :
    (∃ r, run_job o w j = some r ∧
      job_event.fork ∉ r.trace ∧
      (∀ f, job_event.delete_file f true ∈ r.trace) ∧
      r.j.complete = j.complete ∧ r.j.cancelled = j.cancelled ∧
      r.j.trace_filename = j.trace_filename ∧
      r.j.status = job_status.JOB_DONE) ∧
    (∀ id generation config should_reproduce,
      (new_job id generation config should_reproduce).complete = false ∧
      (new_job id generation config should_reproduce).cancelled = false ∧
      (new_job id generation config should_reproduce).trace_filename = none) := by
  refine ⟨⟨_, run_job_aborts o w j files (by simp [hlate]) hcfg hcpu, ?_, ?_, ?_, ?_, ?_, rfl⟩,
    fun _ _ _ _ => ⟨rfl, rfl, rfl⟩⟩
  · simp only [run_job_abort, List.mem_append, not_or]
    exact ⟨run_job_setup_no_fork o w j, by simp⟩
  · intro f
    cases f <;> simp [run_job_abort]
  · simp [run_job_abort, hbug]
  · simp [run_job_abort, hbug]
  · simp [run_job_abort, hbug]

/-- Evaluation of the amended C17 on a job fresh from `new_job`. -/
theorem run_job_time_up_witness :
    ∃ r, run_job (user_options "mutex_test") { quiet_world with too_late := true }
        fresh_job = some r ∧
      job_event.fork ∉ r.trace ∧
      r.j.complete = fresh_job.complete ∧ r.j.cancelled = fresh_job.cancelled ∧
      r.j.status = job_status.JOB_DONE := by
  obtain ⟨⟨r, h, hf, _, hc, hcan, _, hs⟩, _⟩ :=
    run_job_time_up (user_options "mutex_test")
      { quiet_world with too_late := true } fresh_job
      (Option.get (write_configs (user_options "mutex_test") fresh_job.config) (by decide))
      rfl rfl (by simp) (by decide)
  exact ⟨r, h, hf, hc, hcan, hs⟩

/-! ### job.c: config generation -/

/-- C18, as stated, fails for a Pathos guest: with `test_name = "mutex_test"`,
`pintos = false`, `transactions = false` and `pathos = true` the directives are written
with `without_function`, so the dynamic config has neither
`without_user_function thr_init` nor `without_user_function mutex_lock`. -/
theorem mutex_test_pathos_counterexample :
    ∃ files, write_configs { user_options "mutex_test" with pathos := true } [] = some files ∧
      "without_user_function thr_init" ∉ files.config_dynamic ∧
      "without_user_function mutex_lock" ∉ files.config_dynamic ∧
      "without_function thr_init" ∈ files.config_dynamic :=
  ⟨_, rfl, by decide, by decide, by decide⟩

/-- C18, amended: for every option assignment with `test_name = "mutex_test"`,
`pintos = false` and `pathos = false` (whatever `transactions` is) and every PP set,
config generation succeeds, the static config contains the lines `TESTING_MUTEXES=1`,
`FILTER_DRS_BY_TID=0` and `DR_PPS_RESPECT_WITHIN_FUNCTIONS=1`, and the dynamic config
contains `without_user_function thr_init`, `without_user_function thr_create`,
`without_user_function thr_exit`, `without_user_function mutex_lock` and
`without_user_function mutex_unlock`. -/
theorem mutex_test_config (o : job_options) (pps : List String)
    (hname : o.test_name = "mutex_test")
    (hpintos : o.pintos = false)
    (hpathos : o.pathos = false) :
    ∃ files, write_configs o pps = some files ∧
      "TESTING_MUTEXES=1" ∈ files.config_static ∧
      "FILTER_DRS_BY_TID=0" ∈ files.config_static ∧
      "DR_PPS_RESPECT_WITHIN_FUNCTIONS=1" ∈ files.config_static ∧
      "without_user_function thr_init" ∈ files.config_dynamic ∧
      "without_user_function thr_create" ∈ files.config_dynamic ∧
      "without_user_function thr_exit" ∈ files.config_dynamic ∧
      "without_user_function mutex_lock" ∈ files.config_dynamic ∧
      "without_user_function mutex_unlock" ∈ files.config_dynamic := by
  have hsp : config_special o = some
      { config_static :=
          [ "TESTING_MUTEXES=1", "FILTER_DRS_BY_TID=0", "DR_PPS_RESPECT_WITHIN_FUNCTIONS=1" ],
        config_dynamic :=
          [ "without_user_function thr_init", "without_user_function thr_create",
            "without_user_function thr_exit" ] } := by
    unfold config_special
    simp only [hpintos, Bool.false_eq_true, if_false, hname, beq_self_eq_true, if_true,
      without, hpathos, Bool.or_self]
    rfl
  have hdyn : "without_user_function mutex_lock" ∈ (config_common o pps).config_dynamic ∧
      "without_user_function mutex_unlock" ∈ (config_common o pps).config_dynamic := by
    unfold config_common
    simp only [without, mx_lock, mx_unlock, hpintos, hpathos, Bool.or_self,
      Bool.false_eq_true, if_false]
    constructor
    · apply List.mem_append_left
      apply List.mem_append_left
      apply List.mem_append_left
      exact List.mem_cons_of_mem _ (List.mem_cons_self _ _)
    · apply List.mem_append_left
      apply List.mem_append_left
      apply List.mem_append_left
      exact List.mem_cons_of_mem _ (List.mem_cons_of_mem _ (List.mem_cons_self _ _))
  refine ⟨_, by unfold write_configs; rw [hsp], ?_, ?_, ?_, ?_, ?_, ?_, ?_, ?_⟩
  · exact List.mem_append_left _ (List.mem_append_right _ (List.mem_cons_self _ _))
  · exact List.mem_append_left _ (List.mem_append_right _
      (List.mem_cons_of_mem _ (List.mem_cons_self _ _)))
  · exact List.mem_append_left _ (List.mem_append_right _
      (List.mem_cons_of_mem _ (List.mem_cons_of_mem _ (List.mem_cons_self _ _))))
  · exact List.mem_append_left _ (List.mem_append_right _ (List.mem_cons_self _ _))
  · exact List.mem_append_left _ (List.mem_append_right _
      (List.mem_cons_of_mem _ (List.mem_cons_self _ _)))
  · exact List.mem_append_left _ (List.mem_append_right _
      (List.mem_cons_of_mem _ (List.mem_cons_of_mem _ (List.mem_cons_self _ _))))
  · exact List.mem_append_left _ (List.mem_append_left _ hdyn.1)
  · exact List.mem_append_left _ (List.mem_append_left _ hdyn.2)

/-- Evaluation of the amended C18 on scenario 1 of the spec. -/
theorem mutex_test_config_witness :
    ∃ files, write_configs (user_options "mutex_test") ["K 1000 2000 1"] = some files ∧
      "TESTING_MUTEXES=1" ∈ files.config_static ∧
      "FILTER_DRS_BY_TID=0" ∈ files.config_static ∧
      "DR_PPS_RESPECT_WITHIN_FUNCTIONS=1" ∈ files.config_static ∧
      "without_user_function thr_init" ∈ files.config_dynamic ∧
      "without_user_function thr_create" ∈ files.config_dynamic ∧
      "without_user_function thr_exit" ∈ files.config_dynamic ∧
      "without_user_function mutex_lock" ∈ files.config_dynamic ∧
      "without_user_function mutex_unlock" ∈ files.config_dynamic :=
  mutex_test_config (user_options "mutex_test") ["K 1000 2000 1"] rfl rfl rfl

/-- C19: for every option assignment with `test_name = "alarm-simultaneous"` and
`pintos = true` and every PP set, config generation succeeds and the dynamic config
contains `without_function child_done` and `without_function parent_done` together with
the Pintos standard lines `without_function sema_down`, `without_function sema_up`,
`without_function intr_disable`, `without_function intr_enable`,
`without_function block_read` and `without_function block_write`. -/
theorem alarm_simultaneous_config (o : job_options) (pps : List String)
    (hname : o.test_name = "alarm-simultaneous")
    (hpintos : o.pintos = true) :
    ∃ files, write_configs o pps = some files ∧
      "without_function child_done" ∈ files.config_dynamic ∧
      "without_function parent_done" ∈ files.config_dynamic ∧
      "without_function sema_down" ∈ files.config_dynamic ∧
      "without_function sema_up" ∈ files.config_dynamic ∧
      "without_function intr_disable" ∈ files.config_dynamic ∧
      "without_function intr_enable" ∈ files.config_dynamic ∧
      "without_function block_read" ∈ files.config_dynamic ∧
      "without_function block_write" ∈ files.config_dynamic := by
  have hsp : config_special o = some
      { config_static := [],
        config_dynamic :=
          [ "without_function block_read", "without_function block_write",
            "without_function acquire_console", "without_function release_console",
            "without_function palloc_get_multiple", "without_function serial_putc",
            "without_function vga_putc", "without_function is_runqueue",
            "without_function idle" ] ++
          [ "without_function child_done", "without_function parent_done" ] } := by
    unfold config_special
    simp only [hpintos, if_true, hname, beq_self_eq_true, without, Bool.true_or]
    rfl
  have hcommon : ∃ tail,
      (config_common o pps).config_dynamic =
        [ "TEST_CASE=" ++ o.test_name, "without_function sema_down",
          "without_function sema_up", "without_function intr_disable",
          "without_function intr_enable" ] ++ tail := by
    unfold config_common
    simp only [without, mx_lock, mx_unlock, hpintos, Bool.true_or, if_true]
    exact ⟨_, by
      simp only [List.append_assoc, List.cons_append, List.nil_append]
      rfl⟩
  obtain ⟨tail, htail⟩ := hcommon
  refine ⟨_, by unfold write_configs; rw [hsp], ?_, ?_, ?_, ?_, ?_, ?_, ?_, ?_⟩
  · exact List.mem_append_left _ (List.mem_append_right _ (List.mem_append_right _
      (List.mem_cons_self _ _)))
  · exact List.mem_append_left _ (List.mem_append_right _ (List.mem_append_right _
      (List.mem_cons_of_mem _ (List.mem_cons_self _ _))))
  · simp only [htail]
    simp
  · simp only [htail]
    simp
  · simp only [htail]
    simp
  · simp only [htail]
    simp
  · exact List.mem_append_left _ (List.mem_append_right _ (List.mem_append_left _
      (List.mem_cons_self _ _)))
  · exact List.mem_append_left _ (List.mem_append_right _ (List.mem_append_left _
      (List.mem_cons_of_mem _ (List.mem_cons_self _ _))))

/-- Evaluation of C19 on scenario 2 of the spec. -/
theorem alarm_simultaneous_config_witness :
    ∃ files,
      write_configs { user_options "alarm-simultaneous" with pintos := true } [] =
        some files ∧
      "without_function child_done" ∈ files.config_dynamic ∧
      "without_function parent_done" ∈ files.config_dynamic ∧
      "without_function sema_down" ∈ files.config_dynamic ∧
      "without_function sema_up" ∈ files.config_dynamic ∧
      "without_function intr_disable" ∈ files.config_dynamic ∧
      "without_function intr_enable" ∈ files.config_dynamic ∧
      "without_function block_read" ∈ files.config_dynamic ∧
      "without_function block_write" ∈ files.config_dynamic :=
  alarm_simultaneous_config { user_options "alarm-simultaneous" with pintos := true } []
    rfl rfl

/-- The HTM branch fails exactly when one of its assertions does. -/
theorem config_htm_none_iff (o : job_options) :
    config_htm o = none ↔
      (o.pintos = true ∨ o.pathos = true ∨
       (o.dont_xabort_retry = true ∧ o.abort_codes = false) ∨
       (o.retry_sets = true ∧ (o.abort_codes = true ∨ o.dont_xabort_retry = true)) ∨
       (o.weak_atomicity = true ∧ o.dont_xabort_retry = false)) := by
  unfold config_htm
  cases o.pintos <;> cases o.pathos <;> cases o.dont_xabort_retry <;>
    cases o.abort_codes <;> cases o.retry_sets <;> cases o.weak_atomicity <;> simp

/-- The chain on the guest kernel and the test name fails exactly when it reaches the HTM
branch (the guest is not Pintos, the test name is none of the special-cased ones,
transactions are on) and that branch fails. -/
theorem config_special_none_iff (o : job_options) :
    config_special o = none ↔
      (o.pintos = false ∧ o.test_name ≠ "mutex_test" ∧ o.test_name ≠ "paraguay" ∧
       o.test_name ≠ "paradise_lost" ∧ o.test_name ≠ "rwlock_write_write_test" ∧
       o.test_name ≠ "rwlock_dont_starve_writers" ∧
       o.test_name ≠ "rwlock_dont_starve_readers" ∧
       "atomic_".isPrefixOf o.test_name = false ∧ o.transactions = true) ∧
      config_htm o = none := by
  unfold config_special
  split
  · rename_i h
    simp [h]
  · rename_i hp
    split
    · rename_i h
      simp only [beq_iff_eq] at h
      simp [h]
    · rename_i h1
      split
      · rename_i h
        simp only [beq_iff_eq] at h
        simp [h]
      · rename_i h2
        split
        · rename_i h
          simp only [beq_iff_eq] at h
          simp [h]
        · rename_i h3
          split
          · rename_i h
            simp only [beq_iff_eq] at h
            simp [h]
          · rename_i h4
            split
            · rename_i h
              simp only [Bool.or_eq_true, beq_iff_eq] at h
              rcases h with h | h <;> simp [h]
            · rename_i h5
              split
              · rename_i h
                simp [h]
              · rename_i h6
                split
                · rename_i h7
                  simp only [beq_iff_eq, Bool.or_eq_true, not_or, Bool.not_eq_true] at hp h1 h2 h3 h4 h5 h6
                  simp [hp, h1, h2, h3, h4, h5.1, h5.2, h6, h7]
                · rename_i h7
                  simp only [Bool.not_eq_true] at h7
                  simp [h7]

/-- Config generation fails exactly when the chain on the guest kernel and the test name
does. -/
theorem write_configs_none_iff (o : job_options) (pps : List String) :
    write_configs o pps = none ↔ config_special o = none := by
  unfold write_configs
  cases config_special o <;> simp

/-- C20, as stated, fails: with transactions enabled, `weak_atomicity` set and
`dont_xabort_retry` not set, config generation is not rejected for the test name
`mutex_test`, nor for a Pintos guest; the HTM branch, where the options are checked, is
not reached. -/
theorem htm_weak_atomicity_counterexample :
    (∃ files,
      write_configs
        { user_options "mutex_test" with transactions := true, weak_atomicity := true } []
        = some files) ∧
    (∃ files,
      write_configs
        { user_options "htm2" with
          pintos := true, transactions := true, weak_atomicity := true } []
        = some files) :=
  ⟨⟨_, rfl⟩, ⟨_, rfl⟩⟩

/-- C20, amended: for every option assignment in which transactions are enabled,
`weak_atomicity` is set and `dont_xabort_retry` is not set, config generation in
`run_job` is rejected if and only if it reaches the HTM branch, that is, iff `pintos` is
false and the test name is none of `mutex_test`, `paraguay`, `paradise_lost`,
`rwlock_write_write_test`, `rwlock_dont_starve_writers`, `rwlock_dont_starve_readers` and
does not start with `atomic_`. -/
theorem htm_weak_atomicity_rejected (o : job_options) (pps : List String)
    (ht : o.transactions = true)
    (hw : o.weak_atomicity = true)
    (hd : o.dont_xabort_retry = false) :
    write_configs o pps = none ↔
      (o.pintos = false ∧ o.test_name ≠ "mutex_test" ∧ o.test_name ≠ "paraguay" ∧
       o.test_name ≠ "paradise_lost" ∧ o.test_name ≠ "rwlock_write_write_test" ∧
       o.test_name ≠ "rwlock_dont_starve_writers" ∧
       o.test_name ≠ "rwlock_dont_starve_readers" ∧
       "atomic_".isPrefixOf o.test_name = false) := by
  have hhtm : config_htm o = none :=
    (config_htm_none_iff o).mpr (Or.inr (Or.inr (Or.inr (Or.inr ⟨hw, hd⟩))))
  rw [write_configs_none_iff, config_special_none_iff]
  constructor
  · rintro ⟨⟨h0, h1, h2, h3, h4, h5, h6, h7, _⟩, _⟩
    exact ⟨h0, h1, h2, h3, h4, h5, h6, h7⟩
  · rintro ⟨h0, h1, h2, h3, h4, h5, h6, h7⟩
    exact ⟨⟨h0, h1, h2, h3, h4, h5, h6, h7, ht⟩, hhtm⟩

/-- Evaluation of the amended C20 on the test `htm2` for a Pebbles guest: the HTM branch
is reached and config generation is rejected. -/
theorem htm_weak_atomicity_rejected_witness :
    write_configs
      { user_options "htm2" with transactions := true, weak_atomicity := true } [] = none :=
  (htm_weak_atomicity_rejected
    { user_options "htm2" with transactions := true, weak_atomicity := true } []
    rfl rfl rfl).mpr (by decide)

/-- The setup of `run_job` deletes no file. -/
theorem run_job_setup_no_delete (o : job_options) (w : job_world) (j : job) (f : job_file)
    (b : Bool) : job_event.delete_file f b ∉ run_job_setup o w j := by
  unfold run_job_setup
  cases o.user_trace_dir <;> simp

/-- What the parent's side of `run_job` does from the fork on, once `waitpid` has
returned the exited child. -/
theorem run_job_child_some (o : job_options) (w : job_world) (j : job)
    (hwait : (w.waitpid_ok && w.wifexited) = true) :
    ∃ p, run_job_child o w j = some p ∧
      p.2 =
        [ job_event.fork, job_event.wait_for_child, job_event.unlock_compile ] ++
        (if w.child_alive then [ job_event.talk_to_child ] else []) ++
        [ job_event.waitpid, job_event.finish_messaging,
          job_event.delete_file job_file.config_static true,
          job_event.delete_file job_file.config_dynamic true,
          job_event.delete_file job_file.log_stdout (!o.leave_logs && w.wexitstatus == 0),
          job_event.delete_file job_file.log_stderr (!o.leave_logs && w.wexitstatus == 0),
          job_event.status_done ] ∧
      p.1.status = job_status.JOB_DONE ∧
      p.1.complete = true ∧
      p.1.cancelled = ((job_at_waitpid w j).cancelled || (job_at_waitpid w j).need_rerun) ∧
      p.1.log_filename =
        (if (!o.leave_logs && w.wexitstatus == 0) = true then none
         else (job_at_waitpid w j).log_filename) := by
  unfold run_job_child job_at_waitpid
  simp only [hwait, Bool.not_true, Bool.false_eq_true, if_false]
  cases w.child_alive
  · simp only [Bool.false_eq_true, if_false]
    generalize ({ j with log_filename := some w.log_stderr_filename, need_rerun := false }
      : job) = J
    cases hn : J.need_rerun <;> cases hd : (!o.leave_logs && w.wexitstatus == 0) <;>
      simp [hn, hd]
  · simp only [if_true]
    generalize w.talk_to_child _ = J
    cases hn : J.need_rerun <;> cases hd : (!o.leave_logs && w.wexitstatus == 0) <;>
      simp [hn, hd]

/-- What `run_job` does when the pre-fork check passes and `waitpid` returns the exited
child. -/
theorem run_job_forks (o : job_options) (w : job_world) (j : job) (files : config_files)
    (p : job × List job_event)
    (hcheck : (w.bug_in_subspace || w.too_late) = false)
    (hcfg : write_configs o j.config = some files)
    (hcpu : j.current_cpu ≠ NO_CPU)
    (hchild : run_job_child o w j = some p) :
    run_job o w j =
      some { j := p.1, files := files, trace := run_job_setup o w j ++ p.2 } := by
  have hcpu2 : (j.current_cpu == NO_CPU) = false := by simpa using hcpu
  unfold run_job
  simp only [hcfg, hcpu2, Bool.false_eq_true, if_false, hcheck, hchild]

/-- C22: on the path of `run_job` that forks (the pre-fork check passes, `waitpid` returns
the exited child), after `waitpid` and `finish_messaging` the two config files are deleted
unconditionally (`delete_file` with `true`), and the two log files are deleted iff the
exit status of the child is 0 and `leave_logs` is false, so that a non-zero exit status
always retains them (`delete_file` with `false`); `log_filename` is set to `NULL` exactly
when the logs are deleted and is otherwise left as it was at `waitpid`, which, when the
message loop does not touch the field, is the name stored before the fork. -/
theorem run_job_deletes_files (o : job_options) (w : job_world) (j : job)
    (files : config_files)
    (hbug : w.bug_in_subspace = false)
    (hlate : w.too_late = false)
    (hcfg : write_configs o j.config = some files)
    (hcpu : j.current_cpu ≠ NO_CPU)
    (hwait : (w.waitpid_ok && w.wifexited) = true) :
    ∃ r, run_job o w j = some r ∧
      (∃ pre b,
        r.trace = pre ++
          [ job_event.waitpid, job_event.finish_messaging,
            job_event.delete_file job_file.config_static true,
            job_event.delete_file job_file.config_dynamic true,
            job_event.delete_file job_file.log_stdout b,
            job_event.delete_file job_file.log_stderr b,
            job_event.status_done ] ∧
        (∀ f c, job_event.delete_file f c ∉ pre) ∧
        (b = true ↔ (w.wexitstatus = 0 ∧ o.leave_logs = false))) ∧
      job_event.delete_file job_file.config_static true ∈ r.trace ∧
      job_event.delete_file job_file.config_dynamic true ∈ r.trace ∧
      (job_event.delete_file job_file.log_stdout true ∈ r.trace ↔
        (w.wexitstatus = 0 ∧ o.leave_logs = false)) ∧
      (job_event.delete_file job_file.log_stderr true ∈ r.trace ↔
        (w.wexitstatus = 0 ∧ o.leave_logs = false)) ∧
      (w.wexitstatus ≠ 0 →
        job_event.delete_file job_file.log_stdout false ∈ r.trace ∧
        job_event.delete_file job_file.log_stderr false ∈ r.trace ∧
        job_event.delete_file job_file.log_stdout true ∉ r.trace ∧
        job_event.delete_file job_file.log_stderr true ∉ r.trace ∧
        r.j.log_filename = (job_at_waitpid w j).log_filename) ∧
      ((w.wexitstatus = 0 ∧ o.leave_logs = false) → r.j.log_filename = none) ∧
      (¬ (w.wexitstatus = 0 ∧ o.leave_logs = false) →
        r.j.log_filename = (job_at_waitpid w j).log_filename) ∧
      ((∀ x, (w.talk_to_child x).log_filename = x.log_filename) →
        (r.j.log_filename = none ↔ (w.wexitstatus = 0 ∧ o.leave_logs = false))) := by
  obtain ⟨p, hp, htr, _, _, _, hlog⟩ := run_job_child_some o w j hwait
  have hrun := run_job_forks o w j files p (by simp [hbug, hlate]) hcfg hcpu hp
  have hsd : ((!o.leave_logs && w.wexitstatus == 0) = true) ↔
      (w.wexitstatus = 0 ∧ o.leave_logs = false) := by
    cases o.leave_logs <;> simp
  have hnd := run_job_setup_no_delete o w j
  have hkeep : ¬ (w.wexitstatus = 0 ∧ o.leave_logs = false) →
      p.1.log_filename = (job_at_waitpid w j).log_filename := by
    intro hno
    rw [hlog, if_neg (fun h => hno (hsd.mp h))]
  have hmem : ∀ f c, job_event.delete_file f c ∈ run_job_setup o w j ++ p.2 ↔
      (f = job_file.config_static ∧ c = true) ∨ (f = job_file.config_dynamic ∧ c = true) ∨
      (f = job_file.log_stdout ∧ c = (!o.leave_logs && w.wexitstatus == 0)) ∨
      (f = job_file.log_stderr ∧ c = (!o.leave_logs && w.wexitstatus == 0)) := by
    intro f c
    rw [List.mem_append, htr]
    have := hnd f c
    cases w.child_alive <;> simp [this]
  refine ⟨_, hrun, ⟨run_job_setup o w j ++
      ([ job_event.fork, job_event.wait_for_child, job_event.unlock_compile ] ++
        (if w.child_alive then [ job_event.talk_to_child ] else [])),
      (!o.leave_logs && w.wexitstatus == 0), ?_, ?_, hsd⟩, ?_, ?_, ?_, ?_, ?_, ?_, hkeep, ?_⟩
  · show run_job_setup o w j ++ p.2 = _
    rw [htr]
    simp only [List.append_assoc]
  · intro f c hmem2
    rw [List.mem_append] at hmem2
    rcases hmem2 with h | h
    · exact hnd f c h
    · cases w.child_alive <;> simp at h
  · exact (hmem _ _).mpr (Or.inl ⟨rfl, rfl⟩)
  · exact (hmem _ _).mpr (Or.inr (Or.inl ⟨rfl, rfl⟩))
  · show job_event.delete_file job_file.log_stdout true ∈ run_job_setup o w j ++ p.2 ↔ _
    rw [hmem, ← hsd]
    simp
  · show job_event.delete_file job_file.log_stderr true ∈ run_job_setup o w j ++ p.2 ↔ _
    rw [hmem, ← hsd]
    simp
  · intro hne
    have hno : ¬ (w.wexitstatus = 0 ∧ o.leave_logs = false) := fun h => hne h.1
    have hb : (!o.leave_logs && w.wexitstatus == 0) = false := by
      cases hb : (!o.leave_logs && w.wexitstatus == 0)
      · rfl
      · exact absurd (hsd.mp hb) hno
    refine ⟨(hmem _ _).mpr ?_, (hmem _ _).mpr ?_, fun h => ?_, fun h => ?_, hkeep hno⟩
    · simp [hb]
    · simp [hb]
    · have := (hmem _ _).mp h
      simp [hb] at this
    · have := (hmem _ _).mp h
      simp [hb] at this
  · intro hyes
    show p.1.log_filename = none
    rw [hlog, if_pos (hsd.mpr hyes)]
  · intro hframe
    show p.1.log_filename = none ↔ _
    rw [hlog]
    by_cases hyes : (w.wexitstatus = 0 ∧ o.leave_logs = false)
    · rw [if_pos (hsd.mpr hyes)]
      exact ⟨fun _ => hyes, fun _ => rfl⟩
    · rw [if_neg (fun h => hyes (hsd.mp h))]
      have : (job_at_waitpid w j).log_filename = some w.log_stderr_filename := by
        unfold job_at_waitpid
        split
        · rw [hframe]
        · rfl
      rw [this]
      exact ⟨fun h => (by cases h), fun h => absurd h hyes⟩

/-- Evaluation of C22: a child that exits with status 1 while `leave_logs` is false; the
config files are deleted, the logs are kept and `log_filename` still names the log. -/
theorem run_job_deletes_files_witness :
    ∃ r, run_job (user_options "mutex_test") { quiet_world with wexitstatus := 1 }
        fresh_job = some r ∧
      job_event.delete_file job_file.config_static true ∈ r.trace ∧
      job_event.delete_file job_file.config_dynamic true ∈ r.trace ∧
      job_event.delete_file job_file.log_stdout false ∈ r.trace ∧
      job_event.delete_file job_file.log_stderr false ∈ r.trace ∧
      job_event.delete_file job_file.log_stdout true ∉ r.trace ∧
      job_event.delete_file job_file.log_stderr true ∉ r.trace ∧
      r.j.log_filename = some "ls-output.log.AAAAAA" := by
  obtain ⟨r, h, _, h1, h2, _, _, h3, _, _, _⟩ :=
    run_job_deletes_files (user_options "mutex_test") { quiet_world with wexitstatus := 1 }
      fresh_job
      (Option.get (write_configs (user_options "mutex_test") fresh_job.config) (by decide))
      rfl rfl (by simp) (by decide) rfl
  obtain ⟨h4, h5, h6, h7, h8⟩ := h3 (by decide)
  exact ⟨r, h, h1, h2, h4, h5, h6, h7, h8⟩

/-- C23: on every path of `run_job` that forks the child (the pre-fork check passes and
`waitpid` returns the exited child; whether or not the child came alive, whatever its exit
status), the job ends with `complete = true` and status DONE, and `cancelled` is set to
true exactly when `need_rerun` holds at the end of the message loop, being otherwise left
alone. `need_rerun` is reset before the fork, so its value at entry does not matter and it
is false if the child never came alive; for a job that enters with `cancelled = false`
(as `new_job` makes it) and a message loop that does not write `cancelled`, the job ends
with `cancelled = need_rerun`. -/
theorem run_job_fork_path_done (o : job_options) (w : job_world) (j : job)
    (files : config_files)
    (hbug : w.bug_in_subspace = false)
    (hlate : w.too_late = false)
    (hcfg : write_configs o j.config = some files)
    (hcpu : j.current_cpu ≠ NO_CPU)
    (hwait : (w.waitpid_ok && w.wifexited) = true) :
    ∃ r, run_job o w j = some r ∧
      job_event.fork ∈ r.trace ∧
      r.j.complete = true ∧
      r.j.status = job_status.JOB_DONE ∧
      r.trace.getLast? = some job_event.status_done ∧
      ((job_at_waitpid w j).need_rerun = true → r.j.cancelled = true) ∧
      ((job_at_waitpid w j).need_rerun = false →
        r.j.cancelled = (job_at_waitpid w j).cancelled) ∧
      (∀ b, job_at_waitpid w { j with need_rerun := b } = job_at_waitpid w j) ∧
      (w.child_alive = false →
        (job_at_waitpid w j).need_rerun = false ∧ r.j.cancelled = j.cancelled) ∧
      (j.cancelled = false → (∀ x, (w.talk_to_child x).cancelled = x.cancelled) →
        r.j.cancelled = (job_at_waitpid w j).need_rerun) := by
  obtain ⟨p, hp, htr, hst, hcomp, hcan, _⟩ := run_job_child_some o w j hwait
  have hrun := run_job_forks o w j files p (by simp [hbug, hlate]) hcfg hcpu hp
  refine ⟨_, hrun, ?_, hcomp, hst, ?_, ?_, ?_, fun _ => rfl, ?_, ?_⟩
  · show job_event.fork ∈ run_job_setup o w j ++ p.2
    rw [htr]
    simp
  · show (run_job_setup o w j ++ p.2).getLast? = _
    rw [htr]
    cases w.child_alive <;> simp
  · intro h
    show p.1.cancelled = true
    rw [hcan, h, Bool.or_true]
  · intro h
    show p.1.cancelled = _
    rw [hcan, h, Bool.or_false]
  · intro hdead
    have h1 : (job_at_waitpid w j).need_rerun = false := by
      unfold job_at_waitpid
      rw [hdead]
      rfl
    have h2 : (job_at_waitpid w j).cancelled = j.cancelled := by
      unfold job_at_waitpid
      rw [hdead]
      rfl
    refine ⟨h1, ?_⟩
    show p.1.cancelled = _
    rw [hcan, h1, h2, Bool.or_false]
  · intro hnew hframe
    have h2 : (job_at_waitpid w j).cancelled = false := by
      unfold job_at_waitpid
      split
      · rw [hframe]
        exact hnew
      · exact hnew
    show p.1.cancelled = _
    rw [hcan, h2, Bool.false_or]

/-- Evaluation of C23: the child comes alive, asks for a rerun during the message loop
and exits with status 3. -/
theorem run_job_fork_path_done_witness :
    ∃ r, run_job (user_options "mutex_test")
        { quiet_world with
          talk_to_child := fun j => { j with need_rerun := true }, wexitstatus := 3 }
        fresh_job = some r ∧
      job_event.fork ∈ r.trace ∧
      r.j.complete = true ∧ r.j.status = job_status.JOB_DONE ∧ r.j.cancelled = true := by
  obtain ⟨r, h, hf, hc, hs, _, hcan, _⟩ :=
    run_job_fork_path_done (user_options "mutex_test")
      { quiet_world with
        talk_to_child := fun j => { j with need_rerun := true }, wexitstatus := 3 }
      fresh_job
      (Option.get (write_configs (user_options "mutex_test") fresh_job.config) (by decide))
      rfl rfl (by simp) (by decide) rfl
  exact ⟨r, h, hf, hc, hs, hcan rfl⟩

/-! ### job.c: compare_job_eta -/

/-- The result of `compare_job_eta` on two jobs whose ETAs are numbers. -/
theorem compare_job_eta_num (j0 j1 : job) (x0 x1 : WithBot (WithTop ℚ))
    (h0 : j0.estimate_eta_numeric = long_double.num x0)
    (h1 : j1.estimate_eta_numeric = long_double.num x1) :
    compare_job_eta j0 j1 = if x0 = x1 then 0 else if x0 < x1 then -1 else 1 := by
  unfold compare_job_eta
  simp only [h0, h1, long_double.eq, long_double.lt, decide_eq_true_eq]

/-- C24, as stated, fails when an ETA is not a number: both comparisons with such a job
return 1, so that the result is positive although the ETA of `j0` is not bigger, the
comparison of the job with itself is not 0, and `compare(j0, j1) = -compare(j1, j0)`
fails. -/
theorem compare_job_eta_nan_counterexample :
    compare_job_eta job_with_nan_eta (job_with_eta 0) = 1 ∧
    compare_job_eta (job_with_eta 0) job_with_nan_eta = 1 ∧
    compare_job_eta job_with_nan_eta job_with_nan_eta = 1 ∧
    (job_with_eta 0).estimate_eta_numeric.lt job_with_nan_eta.estimate_eta_numeric = false ∧
    compare_job_eta job_with_nan_eta (job_with_eta 0) ≠
      - compare_job_eta (job_with_eta 0) job_with_nan_eta := by
  decide

/-- C24, amended: on jobs whose `estimate_eta_numeric` is a number (not a NaN),
`compare_job_eta` is a total order by ETA: it returns 0 iff the two ETAs are equal, a
negative value (-1) iff the ETA of `j0` is smaller and a positive value (1) iff it is
bigger; hence `compare(j0, j1) = -compare(j1, j0)`, any two jobs are comparable, and the
induced ordering is transitive. -/
theorem compare_job_eta_total_order (j0 j1 j2 : job) (x0 x1 x2 : WithBot (WithTop ℚ))
    (h0 : j0.estimate_eta_numeric = long_double.num x0)
    (h1 : j1.estimate_eta_numeric = long_double.num x1)
    (h2 : j2.estimate_eta_numeric = long_double.num x2) :
    (compare_job_eta j0 j1 = 0 ↔ x0 = x1) ∧
    (compare_job_eta j0 j1 < 0 ↔ x0 < x1) ∧
    (compare_job_eta j0 j1 = -1 ↔ x0 < x1) ∧
    (0 < compare_job_eta j0 j1 ↔ x1 < x0) ∧
    (compare_job_eta j0 j1 = 1 ↔ x1 < x0) ∧
    compare_job_eta j0 j1 = - compare_job_eta j1 j0 ∧
    (compare_job_eta j0 j1 ≤ 0 ∨ compare_job_eta j1 j0 ≤ 0) ∧
    (compare_job_eta j0 j1 ≤ 0 → compare_job_eta j1 j2 ≤ 0 → compare_job_eta j0 j2 ≤ 0) ∧
    (compare_job_eta j0 j1 < 0 → compare_job_eta j1 j2 < 0 → compare_job_eta j0 j2 < 0) := by
  have key : ∀ (a b : job) (x y : WithBot (WithTop ℚ)),
      a.estimate_eta_numeric = long_double.num x →
      b.estimate_eta_numeric = long_double.num y →
      (compare_job_eta a b = 0 ↔ x = y) ∧ (compare_job_eta a b = -1 ↔ x < y) ∧
      (compare_job_eta a b = 1 ↔ y < x) ∧ (compare_job_eta a b < 0 ↔ x < y) ∧
      (0 < compare_job_eta a b ↔ y < x) ∧ (compare_job_eta a b ≤ 0 ↔ x ≤ y) := by
    intro a b x y ha hb
    rw [compare_job_eta_num a b x y ha hb]
    rcases lt_trichotomy x y with h | h | h
    · have hne : x ≠ y := ne_of_lt h
      have hn : ¬ y < x := lt_asymm h
      simp [hne, h, hn, le_of_lt h]
    · subst h
      simp
    · have hne : x ≠ y := ne_of_gt h
      have hn : ¬ x < y := lt_asymm h
      have hle : ¬ x ≤ y := not_le.mpr h
      simp [hne, h, hn, hle]
  obtain ⟨a1, a2, a3, a4, a5, a6⟩ := key j0 j1 x0 x1 h0 h1
  obtain ⟨b1, b2, b3, b4, b5, b6⟩ := key j1 j0 x1 x0 h1 h0
  obtain ⟨c1, c2, c3, c4, c5, c6⟩ := key j1 j2 x1 x2 h1 h2
  obtain ⟨d1, d2, d3, d4, d5, d6⟩ := key j0 j2 x0 x2 h0 h2
  refine ⟨a1, a4, a2, a5, a3, ?_, ?_, ?_, ?_⟩
  · rcases lt_trichotomy x0 x1 with h | h | h
    · rw [a2.mpr h, b3.mpr h]
    · rw [a1.mpr h, b1.mpr h.symm]
      rfl
    · rw [a3.mpr h, b2.mpr h]
      rfl
  · rw [a6, b6]
    exact le_total x0 x1
  · rw [a6, c6, d6]
    exact le_trans
  · rw [a4, c4, d4]
    exact lt_trans

/-- Evaluation of the amended C24 on jobs with the ETAs 1, 2 and plus infinity. -/
theorem compare_job_eta_total_order_witness :
    compare_job_eta (job_with_eta 1) (job_with_eta 2) = -1 ∧
    compare_job_eta (job_with_eta 2) (job_with_eta 1) = 1 ∧
    compare_job_eta (job_with_eta 2) (job_with_eta ⊤) < 0 :=
  have h := compare_job_eta_total_order (job_with_eta 1) (job_with_eta 2) (job_with_eta ⊤)
    1 2 ⊤ rfl rfl rfl
  have h2 := compare_job_eta_total_order (job_with_eta 2) (job_with_eta 1) (job_with_eta ⊤)
    2 1 ⊤ rfl rfl rfl
  have h3 := compare_job_eta_total_order (job_with_eta 2) (job_with_eta ⊤) (job_with_eta ⊤)
    2 ⊤ ⊤ rfl rfl rfl
  ⟨h.2.2.1.mpr (by decide), h2.2.2.2.2.1.mpr (by decide), h3.2.1.mpr (by decide)⟩

/-! ### pp.c: load_dynamic_pps -/

/-- A hexadecimal digit has its value in the place table, below 16. -/
theorem digit_value_hex (c : Char) (h : c ∈ "0123456789abcdefABCDEF".data) :
    digit_value c = some (numeral_digit c) ∧ numeral_digit c < 16 := by
  simp only [List.mem_cons, List.mem_singleton, List.not_mem_nil, or_false] at h
  rcases h with h | h | h | h | h | h | h | h | h | h | h | h | h | h | h | h | h | h | h |
    h | h | h <;> subst h <;> decide

/-- A decimal digit has its value in the place table, below 10. -/
theorem digit_value_dec (c : Char) (h : c ∈ "0123456789".data) :
    digit_value c = some (numeral_digit c) ∧ numeral_digit c < 10 := by
  simp only [List.mem_cons, List.mem_singleton, List.not_mem_nil, or_false] at h
  rcases h with h | h | h | h | h | h | h | h | h | h <;> subst h <;> decide

/-- A run of characters that all satisfy `P`, followed by a character that does not (or
by nothing), is what `takeWhile P` takes and what `dropWhile P` leaves alone. -/
theorem takeWhile_dropWhile_run {α : Type} (P : α → Bool) (ds rest : List α)
    (hds : ∀ c ∈ ds, P c = true) (hrest : ∀ c, rest.head? = some c → P c = false) :
    (ds ++ rest).takeWhile P = ds ∧ (ds ++ rest).dropWhile P = rest := by
  induction ds with
  | nil =>
    cases rest with
    | nil => exact ⟨rfl, rfl⟩
    | cons c t =>
      have hc : P c = false := hrest c rfl
      simp [List.takeWhile, List.dropWhile, hc]
  | cons d ds ih =>
    have hd : P d = true := hds d (List.mem_cons_self _ _)
    have ih2 := ih (fun c hc => hds c (List.mem_cons_of_mem _ hc))
    simp [List.takeWhile, List.dropWhile, hd, ih2.1, ih2.2]

/-- The fold of `digits_value`, from any accumulator, in terms of positional value. -/
theorem digits_fold_eq (base : Nat) (ds : List Char)
    (hds : ∀ c ∈ ds, digit_value c = some (numeral_digit c)) (acc : Nat) :
    ds.foldl (fun acc c => acc * base + (digit_value c).getD 0) acc =
      acc * base ^ ds.length + numeral_value base ds := by
  induction ds generalizing acc with
  | nil => simp [numeral_value]
  | cons d ds ih =>
    have hd : digit_value d = some (numeral_digit d) := hds d (List.mem_cons_self _ _)
    rw [List.foldl_cons, ih (fun c hc => hds c (List.mem_cons_of_mem _ hc))]
    simp only [numeral_value, hd, Option.getD_some, List.reverse_cons, List.map_append,
      List.map_cons, List.map_nil, Nat.ofDigits_append, Nat.ofDigits_singleton,
      List.length_map, List.length_reverse, List.length_cons]
    ring

/-- The C reading of a run of digits is their positional value. -/
theorem digits_value_eq (base : Nat) (ds : List Char)
    (hds : ∀ c ∈ ds, digit_value c = some (numeral_digit c)) :
    digits_value base ds = numeral_value base ds := by
  unfold digits_value
  rw [digits_fold_eq base ds hds 0]
  simp

/-- A value that fits in 32 bits is stored as it is. -/
theorem store_unsigned_small (n : Nat) (h : n < 4294967296) : store_unsigned (n : Int) = n := by
  unfold store_unsigned
  omega

/-- The digits of a number are scanned up to the end of the field. -/
theorem scan_digits_run (base : Nat) (ds rest : List Char)
    (hne : ds ≠ [])
    (hds : ∀ c ∈ ds, digit_value c = some (numeral_digit c) ∧ numeral_digit c < base)
    (hend : field_end rest) :
    scan_digits base false (ds ++ rest) =
      scan_item.converted (numeral_value base ds : Nat) rest := by
  have hP : ∀ c ∈ ds, is_digit base c = true := by
    intro c hc
    unfold is_digit
    rw [(hds c hc).1]
    simpa using (hds c hc).2
  have hR : ∀ c, rest.head? = some c → is_digit base c = false := by
    intro c hc
    rw [hend c hc]
    rfl
  obtain ⟨ht, hd⟩ := takeWhile_dropWhile_run (is_digit base) ds rest hP hR
  unfold scan_digits
  rw [ht, hd, if_neg hne, digits_value_eq base ds (fun c hc => (hds c hc).1)]
  simp

/-- A hexadecimal digit is no white space, no sign and no `x`. -/
theorem hex_digit_plain (c : Char) (h : c ∈ "0123456789abcdefABCDEF".data) :
    isspace c = false ∧ (c == '-') = false ∧ (c == '+') = false ∧ (c == 'x') = false ∧
    (c == 'X') = false ∧ (c == ' ') = false := by
  simp only [List.mem_cons, List.mem_singleton, List.not_mem_nil, or_false] at h
  rcases h with h | h | h | h | h | h | h | h | h | h | h | h | h | h | h | h | h | h | h |
    h | h | h <;> subst h <;> decide

/-- A decimal digit is a hexadecimal digit. -/
theorem dec_digit_hex (c : Char) (h : c ∈ "0123456789".data) :
    c ∈ "0123456789abcdefABCDEF".data := by
  simp only [List.mem_cons, List.mem_singleton, List.not_mem_nil, or_false] at h
  rcases h with h | h | h | h | h | h | h | h | h | h <;> subst h <;> decide

/-- Digits followed by the end of a field do not start with `0x`. -/
theorem hex_prefixed_digits (ds rest : List Char)
    (hds : ∀ c ∈ ds, c ∈ "0123456789abcdefABCDEF".data) (hend : field_end rest) :
    hex_prefixed (ds ++ rest) = false := by
  cases ds with
  | nil =>
    cases rest with
    | nil => rfl
    | cons a t =>
      have ha : a = ' ' := hend a rfl
      subst ha
      cases t <;> rfl
  | cons a ds =>
    cases ds with
    | nil =>
      cases rest with
      | nil => rfl
      | cons b t =>
        have hb : b = ' ' := hend b rfl
        subst hb
        simp [hex_prefixed]
    | cons b ds =>
      have hb := hex_digit_plain b (hds b (by simp))
      simp [hex_prefixed, hb.2.2.2.1, hb.2.2.2.2.1]

/-- The conversion `%x` on a well-formed hexadecimal numeral that ends its field. -/
theorem scan_int_hex_numeral (h : hex_numeral) (rest : List Char) (hwf : h.wf)
    (hend : field_end rest) :
    scan_int 16 (h.text ++ rest) = scan_item.converted (h.value : Nat) rest := by
  obtain ⟨hne, hds, _⟩ := hwf
  have hrun := scan_digits_run 16 h.digits rest hne (fun c hc => digit_value_hex c (hds c hc))
    hend
  cases hp : h.prefixed with
  | true =>
    have htext : h.text ++ rest = '0' :: 'x' :: (h.digits ++ rest) := by
      simp [hex_numeral.text, hp]
    rw [htext]
    have : scan_int 16 ('0' :: 'x' :: (h.digits ++ rest)) =
        scan_magnitude 16 false ('0' :: 'x' :: (h.digits ++ rest)) := by
      simp [scan_int, List.dropWhile, isspace]
    rw [this]
    unfold scan_magnitude
    simp only [hex_prefixed, beq_self_eq_true, Bool.true_or, Bool.and_self, if_true, List.drop]
    exact hrun
  | false =>
    have htext : h.text ++ rest = h.digits ++ rest := by
      simp [hex_numeral.text, hp]
    rw [htext]
    obtain ⟨c, t, hct⟩ := List.exists_cons_of_ne_nil hne
    have hc := hex_digit_plain c (hds c (by simp [hct]))
    have h1 : scan_int 16 (h.digits ++ rest) = scan_magnitude 16 false (h.digits ++ rest) := by
      rw [hct]
      simp [scan_int, List.dropWhile, hc.1, hc.2.1, hc.2.2.1]
    rw [h1]
    unfold scan_magnitude
    rw [hex_prefixed_digits h.digits rest hds hend]
    simp only [Bool.false_eq_true, if_false]
    exact hrun

/-- The conversion `%i` on a well-formed integer numeral that ends its field. -/
theorem scan_int_int_numeral (n : int_numeral) (rest : List Char) (hwf : n.wf)
    (hend : field_end rest) :
    scan_int 0 (n.text ++ rest) = scan_item.converted (n.value : Nat) rest := by
  cases n with
  | hex digits =>
    obtain ⟨hne, hds, _⟩ := hwf
    have hrun := scan_digits_run 16 digits rest hne
      (fun c hc => digit_value_hex c (hds c hc)) hend
    have htext : (int_numeral.hex digits).text ++ rest = '0' :: 'x' :: (digits ++ rest) := by
      simp [int_numeral.text]
    rw [htext]
    have : scan_int 0 ('0' :: 'x' :: (digits ++ rest)) =
        scan_magnitude 0 false ('0' :: 'x' :: (digits ++ rest)) := by
      simp [scan_int, List.dropWhile, isspace]
    rw [this]
    unfold scan_magnitude
    simp only [hex_prefixed, beq_self_eq_true, Bool.true_or, Bool.and_self, if_true, List.drop]
    exact hrun
  | dec digits =>
    obtain ⟨hne, hds, hzero, _⟩ := hwf
    have htext : (int_numeral.dec digits).text ++ rest = digits ++ rest := rfl
    rw [htext]
    obtain ⟨c, t, hct⟩ := List.exists_cons_of_ne_nil hne
    have hc := hex_digit_plain c (dec_digit_hex c (hds c (by simp [hct])))
    have h1 : scan_int 0 (digits ++ rest) = scan_magnitude 0 false (digits ++ rest) := by
      rw [hct]
      simp [scan_int, List.dropWhile, hc.1, hc.2.1, hc.2.2.1]
    rw [h1]
    unfold scan_magnitude
    rw [hex_prefixed_digits digits rest (fun c hc => dec_digit_hex c (hds c hc)) hend]
    simp only [Bool.false_eq_true, if_false, beq_self_eq_true, if_true]
    by_cases h0 : (digits ++ rest).head? = some '0'
    · have hd0 : digits = ['0'] := by
        apply hzero
        rw [hct] at h0 ⊢
        simpa using h0
      subst hd0
      simp only [h0, beq_self_eq_true, if_true]
      have hrun := scan_digits_run 8 ['0'] rest (by simp)
        (fun c hc => by
          have : c = '0' := by simpa using hc
          subst this
          decide) hend
      rw [hrun]
      rfl
    · have hb : ((digits ++ rest).head? == some '0') = false := by
        simpa using h0
      simp only [hb, Bool.false_eq_true, if_false]
      exact scan_digits_run 10 digits rest hne (fun c hc => digit_value_dec c (hds c hc)) hend

/-- The directives of the format of a `K` line. -/
theorem parse_format_K :
    parse_format "K %x %x %i".data =
      [ directive.ordinary 'K', directive.white, directive.conv_x, directive.white,
        directive.conv_x, directive.white, directive.conv_i ] := by
  decide

/-- The directives of the format of a `U` line. -/
theorem parse_format_U :
    parse_format "U %x %x %i".data =
      [ directive.ordinary 'U', directive.white, directive.conv_x, directive.white,
        directive.conv_x, directive.white, directive.conv_i ] := by
  decide

/-- The directives of the format of a `DR` line. -/
theorem parse_format_DR :
    parse_format "DR %x %i %i %i".data =
      [ directive.ordinary 'D', directive.ordinary 'R', directive.white, directive.conv_x,
        directive.white, directive.conv_i, directive.white, directive.conv_i,
        directive.white, directive.conv_i ] := by
  decide

/-- A space in the format and `%x` take a space and a hexadecimal numeral. -/
theorem sscanf_loop_white_hex (fmt : List directive) (h : hex_numeral) (rest : List Char)
    (assigned : List Nat) (hwf : h.wf) (hend : field_end rest) :
    sscanf_loop (directive.white :: directive.conv_x :: fmt) (' ' :: (h.text ++ rest))
        assigned =
      sscanf_loop fmt rest (assigned ++ [h.value]) := by
  have hscan : scan_int 16 (List.dropWhile isspace (' ' :: (h.text ++ rest))) =
      scan_item.converted (h.value : Nat) rest := by
    rw [← scan_int_hex_numeral h rest hwf hend]
    unfold scan_int
    rw [List.dropWhile_idempotent]
    have : List.dropWhile isspace (' ' :: (h.text ++ rest)) =
        List.dropWhile isspace (h.text ++ rest) := by
      simp [List.dropWhile, isspace]
    rw [this]
  simp only [sscanf_loop, hscan, store_unsigned_small h.value hwf.2.2]

/-- The value of a well-formed integer numeral fits in 32 bits. -/
theorem int_numeral_value_lt (n : int_numeral) (hwf : n.wf) : n.value < 4294967296 := by
  cases n with
  | dec digits => exact hwf.2.2.2
  | hex digits => exact hwf.2.2

/-- A space in the format and `%i` take a space and an integer numeral. -/
theorem sscanf_loop_white_int (fmt : List directive) (n : int_numeral) (rest : List Char)
    (assigned : List Nat) (hwf : n.wf) (hend : field_end rest) :
    sscanf_loop (directive.white :: directive.conv_i :: fmt) (' ' :: (n.text ++ rest))
        assigned =
      sscanf_loop fmt rest (assigned ++ [n.value]) := by
  have hscan : scan_int 0 (List.dropWhile isspace (' ' :: (n.text ++ rest))) =
      scan_item.converted (n.value : Nat) rest := by
    rw [← scan_int_int_numeral n rest hwf hend]
    unfold scan_int
    rw [List.dropWhile_idempotent]
    have : List.dropWhile isspace (' ' :: (n.text ++ rest)) =
        List.dropWhile isspace (n.text ++ rest) := by
      simp [List.dropWhile, isspace]
    rw [this]
  simp only [sscanf_loop, hscan, store_unsigned_small n.value (int_numeral_value_lt n hwf)]

/-- A field ends at the end of the buffer. -/
theorem field_end_nil : field_end [] := by
  intro c hc
  cases hc

/-- A field ends at a space. -/
theorem field_end_space (t : List Char) : field_end (' ' :: t) := by
  intro c hc
  simpa using hc.symm

/-- What `sscanf` makes of a well-formed `K` line. -/
theorem sscanf_K_line (s e : hex_numeral) (q : int_numeral)
    (hs : s.wf) (he : e.wf) (hq : q.wf) :
    sscanf (pp_line.kern_within s e q).text "K %x %x %i" =
      { ret := 3, assigned := [s.value, e.value, q.value] } := by
  unfold sscanf
  rw [parse_format_K]
  have htext : (pp_line.kern_within s e q).text =
      'K' :: ' ' :: (s.text ++ ' ' :: (e.text ++ ' ' :: (q.text ++ []))) := by
    simp [pp_line.text]
  rw [htext]
  have h0 : ∀ fmt t, sscanf_loop (directive.ordinary 'K' :: fmt) ('K' :: t) [] =
      sscanf_loop fmt t [] := by
    intro fmt t
    simp [sscanf_loop]
  rw [h0, sscanf_loop_white_hex _ s _ _ hs (field_end_space _),
    sscanf_loop_white_hex _ e _ _ he (field_end_space _),
    sscanf_loop_white_int _ q _ _ hq field_end_nil]
  rfl

/-- What `sscanf` makes of a well-formed `U` line. -/
theorem sscanf_U_line (s e : hex_numeral) (q : int_numeral)
    (hs : s.wf) (he : e.wf) (hq : q.wf) :
    sscanf (pp_line.user_within s e q).text "U %x %x %i" =
      { ret := 3, assigned := [s.value, e.value, q.value] } := by
  unfold sscanf
  rw [parse_format_U]
  have htext : (pp_line.user_within s e q).text =
      'U' :: ' ' :: (s.text ++ ' ' :: (e.text ++ ' ' :: (q.text ++ []))) := by
    simp [pp_line.text]
  rw [htext]
  have h0 : ∀ fmt t, sscanf_loop (directive.ordinary 'U' :: fmt) ('U' :: t) [] =
      sscanf_loop fmt t [] := by
    intro fmt t
    simp [sscanf_loop]
  rw [h0, sscanf_loop_white_hex _ s _ _ hs (field_end_space _),
    sscanf_loop_white_hex _ e _ _ he (field_end_space _),
    sscanf_loop_white_int _ q _ _ hq field_end_nil]
  rfl

/-- What `sscanf` makes of a well-formed `DR` line. -/
theorem sscanf_DR_line (a : hex_numeral) (t c m : int_numeral)
    (ha : a.wf) (ht : t.wf) (hc : c.wf) (hm : m.wf) :
    sscanf (pp_line.data_race a t c m).text "DR %x %i %i %i" =
      { ret := 4, assigned := [a.value, t.value, c.value, m.value] } := by
  unfold sscanf
  rw [parse_format_DR]
  have htext : (pp_line.data_race a t c m).text =
      'D' :: 'R' :: ' ' ::
        (a.text ++ ' ' :: (t.text ++ ' ' :: (c.text ++ ' ' :: (m.text ++ [])))) := by
    simp [pp_line.text]
  rw [htext]
  have h0 : ∀ fmt u, sscanf_loop (directive.ordinary 'D' :: directive.ordinary 'R' :: fmt)
      ('D' :: 'R' :: u) [] = sscanf_loop fmt u [] := by
    intro fmt u
    simp [sscanf_loop]
  rw [h0, sscanf_loop_white_hex _ a _ _ ha (field_end_space _),
    sscanf_loop_white_int _ t _ _ ht (field_end_space _),
    sscanf_loop_white_int _ c _ _ hc (field_end_space _),
    sscanf_loop_white_int _ m _ _ hm field_end_nil]
  rfl

/-- A format that starts with an ordinary character gives 0 on a buffer that starts with
another character. -/
theorem sscanf_first_mismatch (fmt : List directive) (c d : Char) (t : List Char)
    (h : d ≠ c) :
    (sscanf_loop (directive.ordinary c :: fmt) (d :: t) []).ret = 0 := by
  have hb : (d == c) = false := by simpa using h
  simp [sscanf_loop, hb]

/-- On a buffer that does not start with `K`, the `K` pattern matches nothing. -/
theorem sscanf_K_mismatch (d : Char) (t : List Char) (h : d ≠ 'K') :
    (sscanf (d :: t) "K %x %x %i").ret = 0 := by
  unfold sscanf
  rw [parse_format_K]
  exact sscanf_first_mismatch _ _ _ _ h

/-- On a buffer that does not start with `U`, the `U` pattern matches nothing. -/
theorem sscanf_U_mismatch (d : Char) (t : List Char) (h : d ≠ 'U') :
    (sscanf (d :: t) "U %x %x %i").ret = 0 := by
  unfold sscanf
  rw [parse_format_U]
  exact sscanf_first_mismatch _ _ _ _ h

/-- What the loop body of `load_dynamic_pps` does with a well-formed line that trips none
of the assertions on the state of the registry: the entry the line asks for is appended
to its list, or the pipe name is stored; nothing else changes and no warning is
printed. -/
theorem load_directive_wf (X : landslide_env) (p : pp_config) (l : pp_line) (hwf : l.wf)
    (hout : l.output_name ≠ none → p.output_pipe_filename = none)
    (hin : l.input_name ≠ none → p.input_pipe_filename = none)
    (hpe : l.data_race_entry ≠ none → X.cfg.PREEMPT_EVERYWHERE = false) :
    ∃ p1, load_directive X p l.text = some (p1, []) ∧
      p1.kern_withins = p.kern_withins ++ l.kern_entry.toList ∧
      p1.user_withins = p.user_withins ++ l.user_entry.toList ∧
      p1.data_races = p.data_races ++ l.data_race_entry.toList ∧
      p1.output_pipe_filename =
        (match l.output_name with
         | some n => some n
         | none => p.output_pipe_filename) ∧
      p1.input_pipe_filename =
        (match l.input_name with
         | some n => some n
         | none => p.input_pipe_filename) ∧
      p1.dynamic_pps_loaded = p.dynamic_pps_loaded := by
  cases l with
  | output_pipe name =>
    obtain ⟨hne, hsp, _⟩ := hwf
    have hp : p.output_pipe_filename = none := hout (by simp [pp_line.output_name])
    obtain ⟨c, t, hct⟩ := List.exists_cons_of_ne_nil hne
    have hc : c ≠ ' ' := by
      intro h
      apply hsp
      rw [hct, h]
      rfl
    have hasserts : pipe_line_asserts ('O' :: ' ' :: name) = true := by
      rw [hct]
      simp [pipe_line_asserts, hc]
    refine ⟨{ p with output_pipe_filename := some (String.mk name) }, ?_, ?_, ?_, ?_,
      rfl, rfl, rfl⟩
    · simp [load_directive, pp_line.text, hasserts, hp]
    · simp [pp_line.kern_entry]
    · simp [pp_line.user_entry]
    · simp [pp_line.data_race_entry]
  | input_pipe name =>
    obtain ⟨hne, hsp, _⟩ := hwf
    have hp : p.input_pipe_filename = none := hin (by simp [pp_line.input_name])
    obtain ⟨c, t, hct⟩ := List.exists_cons_of_ne_nil hne
    have hc : c ≠ ' ' := by
      intro h
      apply hsp
      rw [hct, h]
      rfl
    have hasserts : pipe_line_asserts ('I' :: ' ' :: name) = true := by
      rw [hct]
      simp [pipe_line_asserts, hc]
    refine ⟨{ p with input_pipe_filename := some (String.mk name) }, ?_, ?_, ?_, ?_,
      rfl, rfl, rfl⟩
    · simp [load_directive, pp_line.text, hasserts, hp]
    · simp [pp_line.kern_entry]
    · simp [pp_line.user_entry]
    · simp [pp_line.data_race_entry]
  | kern_within s e q =>
    obtain ⟨hs, he, hq⟩ := hwf
    have hscan := sscanf_K_line s e q hs he hq
    refine ⟨{ p with kern_withins := p.kern_withins ++
        [{ func_start := s.value, func_end := e.value, within := decide (q.value ≠ 0) }] },
      ?_, rfl, ?_, ?_, rfl, rfl, rfl⟩
    · unfold load_directive
      rw [hscan]
      simp [pp_line.text]
      by_cases hq0 : q.value = 0 <;> simp [hq0]
    · simp [pp_line.user_entry]
    · simp [pp_line.data_race_entry]
  | user_within s e q =>
    obtain ⟨hs, he, hq⟩ := hwf
    have hscan := sscanf_U_line s e q hs he hq
    have hK : (sscanf (pp_line.user_within s e q).text "K %x %x %i").ret = 0 :=
      sscanf_K_mismatch 'U' _ (by decide)
    refine ⟨{ p with user_withins := p.user_withins ++
        [{ func_start := s.value, func_end := e.value, within := decide (q.value ≠ 0) }] },
      ?_, ?_, rfl, ?_, rfl, rfl, rfl⟩
    · unfold load_directive
      rw [hscan, hK]
      simp [pp_line.text]
      by_cases hq0 : q.value = 0 <;> simp [hq0]
    · simp [pp_line.kern_entry]
    · simp [pp_line.data_race_entry]
  | data_race a t c m =>
    obtain ⟨ha, ht, hc, hm⟩ := hwf
    have hscan := sscanf_DR_line a t c m ha ht hc hm
    have hK : (sscanf (pp_line.data_race a t c m).text "K %x %x %i").ret = 0 :=
      sscanf_K_mismatch 'D' _ (by decide)
    have hU : (sscanf (pp_line.data_race a t c m).text "U %x %x %i").ret = 0 :=
      sscanf_U_mismatch 'D' _ (by decide)
    have hX : X.cfg.PREEMPT_EVERYWHERE = false := hpe (by simp [pp_line.data_race_entry])
    refine ⟨{ p with data_races := p.data_races ++
        [{ addr := a.value, tid := t.value, last_call := c.value,
           most_recent_syscall := m.value }] },
      ?_, ?_, ?_, rfl, rfl, rfl, rfl⟩
    · unfold load_directive
      rw [hscan, hK, hU]
      simp [pp_line.text, hX]
    · simp [pp_line.kern_entry]
    · simp [pp_line.user_entry]

/-- No newline among hexadecimal digits. -/
theorem newline_not_mem_digits (ds : List Char)
    (hds : ∀ c ∈ ds, c ∈ "0123456789abcdefABCDEF".data) : '\n' ∉ ds := by
  intro h
  have := (hex_digit_plain '\n' (hds _ h)).1
  exact absurd this (by decide)

/-- No newline in a well-formed hexadecimal numeral. -/
theorem newline_not_mem_hex (h : hex_numeral) (hwf : h.wf) : '\n' ∉ h.text := by
  have hd := newline_not_mem_digits h.digits hwf.2.1
  unfold hex_numeral.text
  cases h.prefixed <;> simp [hd]

/-- No newline in a well-formed integer numeral. -/
theorem newline_not_mem_int (n : int_numeral) (hwf : n.wf) : '\n' ∉ n.text := by
  cases n with
  | dec digits =>
    exact newline_not_mem_digits digits (fun c hc => dec_digit_hex c (hwf.2.1 c hc))
  | hex digits =>
    have hd := newline_not_mem_digits digits hwf.2.1
    simp [int_numeral.text, hd]

/-- No newline in a well-formed line. -/
theorem newline_not_mem_line (l : pp_line) (hwf : l.wf) : '\n' ∉ l.text := by
  cases l with
  | output_pipe name => simp [pp_line.text, hwf.2.2]
  | input_pipe name => simp [pp_line.text, hwf.2.2]
  | kern_within s e q =>
    simp [pp_line.text, newline_not_mem_hex s hwf.1, newline_not_mem_hex e hwf.2.1,
      newline_not_mem_int q hwf.2.2]
  | user_within s e q =>
    simp [pp_line.text, newline_not_mem_hex s hwf.1, newline_not_mem_hex e hwf.2.1,
      newline_not_mem_int q hwf.2.2]
  | data_race a t c m =>
    simp [pp_line.text, newline_not_mem_hex a hwf.1, newline_not_mem_int t hwf.2.1,
      newline_not_mem_int c hwf.2.2.1, newline_not_mem_int m hwf.2.2.2]

/-- Cutting the newline off a buffer that ends with one. -/
theorem chomp_newline (t : List Char) : chomp (t ++ ['\n']) = t := by
  unfold chomp
  simp

/-- A buffer without a newline is left as it is. -/
theorem chomp_plain (t : List Char) (h : '\n' ∉ t) : chomp t = t := by
  unfold chomp
  rw [if_neg]
  intro hl
  exact h (List.mem_of_getLast?_eq_some hl)

/-- The buffer that `fgets` fills for a line: the characters of the line, followed by the
newline unless the file ends right after the line. -/
theorem chomp_line (l : pp_line) (hwf : l.wf) (buf : String)
    (hbuf : buf.data = l.text ++ ['\n'] ∨ buf.data = l.text) : chomp buf.data = l.text := by
  rcases hbuf with h | h
  · rw [h, chomp_newline]
  · rw [h, chomp_plain _ (newline_not_mem_line l hwf)]

/-- The loop of `load_dynamic_pps` over a file of well-formed lines, from any registry:
every line is applied, in file order, and no warning is printed. -/
theorem load_lines_wf (X : landslide_env) (lines : List pp_line) (bufs : List String)
    (hbufs : List.Forall₂
      (fun (l : pp_line) (buf : String) => buf.data = l.text ++ ['\n'] ∨ buf.data = l.text)
      lines bufs)
    (hwf : ∀ l ∈ lines, l.wf)
    (hpe : X.cfg.PREEMPT_EVERYWHERE = true → ∀ l ∈ lines, l.data_race_entry = none)
    (p : pp_config)
    (hout : (lines.filterMap pp_line.output_name).length +
      p.output_pipe_filename.toList.length ≤ 1)
    (hin : (lines.filterMap pp_line.input_name).length +
      p.input_pipe_filename.toList.length ≤ 1) :
    ∃ p1, load_lines X p bufs = some (p1, []) ∧
      p1.kern_withins = p.kern_withins ++ lines.filterMap pp_line.kern_entry ∧
      p1.user_withins = p.user_withins ++ lines.filterMap pp_line.user_entry ∧
      p1.data_races = p.data_races ++ lines.filterMap pp_line.data_race_entry ∧
      p1.output_pipe_filename =
        (match (lines.filterMap pp_line.output_name).head? with
         | some n => some n
         | none => p.output_pipe_filename) ∧
      p1.input_pipe_filename =
        (match (lines.filterMap pp_line.input_name).head? with
         | some n => some n
         | none => p.input_pipe_filename) ∧
      p1.dynamic_pps_loaded = p.dynamic_pps_loaded := by
  induction hbufs generalizing p with
  | nil => exact ⟨p, rfl, by simp, by simp, by simp, rfl, rfl, rfl⟩
  | @cons l buf lines bufs hb _ ih =>
    have hwfl : l.wf := hwf l (List.mem_cons_self _ _)
    have ho : l.output_name ≠ none → p.output_pipe_filename = none := by
      intro h
      cases hp : p.output_pipe_filename with
      | none => rfl
      | some n =>
        cases hl : l.output_name with
        | none => exact absurd hl h
        | some m => simp [List.filterMap_cons, hl, hp] at hout
    have hi : l.input_name ≠ none → p.input_pipe_filename = none := by
      intro h
      cases hp : p.input_pipe_filename with
      | none => rfl
      | some n =>
        cases hl : l.input_name with
        | none => exact absurd hl h
        | some m => simp [List.filterMap_cons, hl, hp] at hin
    have hx : l.data_race_entry ≠ none → X.cfg.PREEMPT_EVERYWHERE = false := by
      intro h
      cases hX : X.cfg.PREEMPT_EVERYWHERE with
      | false => rfl
      | true => exact absurd (hpe hX l (List.mem_cons_self _ _)) h
    obtain ⟨p1, hp1, hk, hu, hd, hpo, hpi, hld⟩ := load_directive_wf X p l hwfl ho hi hx
    have hout1 : (lines.filterMap pp_line.output_name).length +
        p1.output_pipe_filename.toList.length ≤ 1 := by
      rw [hpo]
      cases hl : l.output_name with
      | none => simpa [List.filterMap_cons, hl] using hout
      | some m =>
        simp only [List.filterMap_cons, hl, List.length_cons] at hout
        simp only [Option.toList, List.length_singleton]
        omega
    have hin1 : (lines.filterMap pp_line.input_name).length +
        p1.input_pipe_filename.toList.length ≤ 1 := by
      rw [hpi]
      cases hl : l.input_name with
      | none => simpa [List.filterMap_cons, hl] using hin
      | some m =>
        simp only [List.filterMap_cons, hl, List.length_cons] at hin
        simp only [Option.toList, List.length_singleton]
        omega
    obtain ⟨p2, hp2, hk2, hu2, hd2, hpo2, hpi2, hld2⟩ :=
      ih (fun l hl => hwf l (List.mem_cons_of_mem _ hl))
        (fun hX l hl => hpe hX l (List.mem_cons_of_mem _ hl)) p1 hout1 hin1
    refine ⟨p2, ?_, ?_, ?_, ?_, ?_, ?_, hld2.trans hld⟩
    · unfold load_lines
      rw [chomp_line l hwfl buf hb, hp1]
      simp only [hp2, List.nil_append]
    · rw [hk2, hk, List.append_assoc]
      cases hl : l.kern_entry <;> simp [List.filterMap_cons, hl]
    · rw [hu2, hu, List.append_assoc]
      cases hl : l.user_entry <;> simp [List.filterMap_cons, hl]
    · rw [hd2, hd, List.append_assoc]
      cases hl : l.data_race_entry <;> simp [List.filterMap_cons, hl]
    · rw [hpo2, hpo]
      cases hl : l.output_name with
      | none => simp [List.filterMap_cons, hl]
      | some m =>
        have hz : lines.filterMap pp_line.output_name = [] := by
          simp only [List.filterMap_cons, hl, List.length_cons] at hout
          exact List.length_eq_zero.mp (by omega)
        simp [List.filterMap_cons, hl, hz]
    · rw [hpi2, hpi]
      cases hl : l.input_name with
      | none => simp [List.filterMap_cons, hl]
      | some m =>
        have hz : lines.filterMap pp_line.input_name = [] := by
          simp only [List.filterMap_cons, hl, List.length_cons] at hin
          exact List.length_eq_zero.mp (by omega)
        simp [List.filterMap_cons, hl, hz]

/-- C25: on a state whose registry has `dynamic_pps_loaded` set, as it is after any call
of `load_dynamic_pps` that returned true, a call of `load_dynamic_pps` returns false and
nothing happens: the state, with the two within-function lists, the data-race list, the
pipe names and the loaded flag, is the same, and no call is made to open, read or unlink
the file (nor does it matter whether the file exists or what it holds). -/
theorem load_dynamic_pps_second_call (X : landslide_env) (pp_file pp_file2 : Option (List String))
    (ls : ls_state) (filename filename2 : String) (r : load_result)
    (hfirst : load_dynamic_pps X pp_file ls filename = some r)
    (hret : r.ret = true) :
    r.ls.pps.dynamic_pps_loaded = true ∧
    ∃ r2, load_dynamic_pps X pp_file2 r.ls filename2 = some r2 ∧
      r2.ret = false ∧ r2.ls = r.ls ∧ r2.events = [] ∧
      r2.ls.pps.kern_withins = r.ls.pps.kern_withins ∧
      r2.ls.pps.user_withins = r.ls.pps.user_withins ∧
      r2.ls.pps.data_races = r.ls.pps.data_races ∧
      r2.ls.pps.output_pipe_filename = r.ls.pps.output_pipe_filename ∧
      r2.ls.pps.input_pipe_filename = r.ls.pps.input_pipe_filename ∧
      r2.ls.pps.dynamic_pps_loaded = true := by
  have hloaded : r.ls.pps.dynamic_pps_loaded = true := by
    unfold load_dynamic_pps at hfirst
    by_cases h0 : ls.pps.dynamic_pps_loaded = true
    · simp only [h0, if_true, Option.some.injEq] at hfirst
      rw [← hfirst] at hret
      cases hret
    · simp only [h0, Bool.false_eq_true, if_false] at hfirst
      cases pp_file with
      | none => cases hfirst
      | some bufs =>
        simp only [] at hfirst
        cases hl : load_lines X ls.pps bufs with
        | none => simp [hl] at hfirst
        | some q =>
          obtain ⟨p, ev⟩ := q
          simp only [hl, Option.some.injEq] at hfirst
          rw [← hfirst]
  refine ⟨hloaded, { ret := false, ls := r.ls, events := [] }, ?_, rfl, rfl, rfl, rfl, rfl, rfl,
    rfl, rfl, hloaded⟩
  unfold load_dynamic_pps
  simp only [hloaded, if_true]

/-- Evaluation of C25: a file of one `K` line is loaded, then the load is called again
with a file that would add a `U` line. -/
theorem load_dynamic_pps_second_call_witness :
    ∃ r, load_dynamic_pps pebbles_env (some ["K 1000 2000 1\n"]) fresh_pps_state "pps" =
        some r ∧ r.ret = true ∧
      ∃ r2, load_dynamic_pps pebbles_env (some ["U 1000 2000 1\n"]) r.ls "pps" = some r2 ∧
        r2.ret = false ∧ r2.events = [] ∧
        r2.ls.pps.kern_withins = [{ func_start := 4096, func_end := 8192, within := true }] ∧
        r2.ls.pps.user_withins = [] := by
  refine ⟨_, rfl, rfl, ?_⟩
  obtain ⟨_, r2, h2, hret, hls, hev, _⟩ :=
    load_dynamic_pps_second_call pebbles_env (some ["K 1000 2000 1\n"])
      (some ["U 1000 2000 1\n"]) fresh_pps_state "pps" "pps" _ rfl rfl
  refine ⟨r2, h2, hret, hev, ?_, ?_⟩
  · rw [hls]
    decide
  · rw [hls]
    decide

/-- C27, as stated, fails for a `last_call` written without `0x`: the line
`DR 1000 3 2000 5` is accepted, its `<eip>` is read as the hexadecimal 0x1000 = 4096, but
its `<last_call>`, which is read with `%i`, becomes the decimal 2000 and not the
hexadecimal 0x2000 = 8192. -/
theorem data_race_last_call_counterexample :
    ∃ r, load_dynamic_pps pebbles_env (some ["DR 1000 3 2000 5\n"]) fresh_pps_state "pps" =
        some r ∧
      r.ret = true ∧
      r.ls.pps.data_races =
        [{ addr := 4096, tid := 3, last_call := 2000, most_recent_syscall := 5 }] ∧
      numeral_value 16 "1000".data = 4096 ∧
      numeral_value 16 "2000".data = 8192 :=
  ⟨_, rfl, rfl, by decide, by decide, by decide⟩

/-- C27, amended: for every well-formed line `DR <eip> <tid> <last_call> <syscall>`
(`<eip>` a hexadecimal numeral with or without `0x`, the other three fields decimal
numerals or hexadecimal numerals with `0x`, all four values below 2^32), in a build
without `PREEMPT_EVERYWHERE`, the loop body of `load_dynamic_pps` appends one data-race
entry and changes nothing else, and so does `load_dynamic_pps` on the file that holds the
line; the `addr` of the entry is `<eip>` read as hexadecimal, and its `tid`, `last_call`
and `most_recent_syscall` are the three other fields, each read as hexadecimal if it is
written with `0x` and as decimal otherwise. -/
theorem load_data_race_line (X : landslide_env) (ls : ls_state) (filename : String)
    (buf : String) (a : hex_numeral) (t c m : int_numeral)
    (hwf : (pp_line.data_race a t c m).wf)
    (hbuf : buf.data = (pp_line.data_race a t c m).text ++ ['\n'] ∨
      buf.data = (pp_line.data_race a t c m).text)
    (hX : X.cfg.PREEMPT_EVERYWHERE = false)
    (hnew : ls.pps.dynamic_pps_loaded = false) :
    (∀ p, ∃ p1, load_directive X p (chomp buf.data) = some (p1, []) ∧
      p1.data_races = p.data_races ++
        [{ addr := a.value, tid := t.value, last_call := c.value,
           most_recent_syscall := m.value }] ∧
      p1.kern_withins = p.kern_withins ∧ p1.user_withins = p.user_withins ∧
      p1.output_pipe_filename = p.output_pipe_filename ∧
      p1.input_pipe_filename = p.input_pipe_filename) ∧
    (∃ r, load_dynamic_pps X (some [buf]) ls filename = some r ∧ r.ret = true ∧
      r.ls.pps.data_races = ls.pps.data_races ++
        [{ addr := a.value, tid := t.value, last_call := c.value,
           most_recent_syscall := m.value }]) ∧
    a.value = numeral_value 16 a.digits ∧
    (∀ n : int_numeral, n.value =
      match n with
      | int_numeral.dec digits => numeral_value 10 digits
      | int_numeral.hex digits => numeral_value 16 digits) := by
  have hline : ∀ p, ∃ p1, load_directive X p (chomp buf.data) = some (p1, []) ∧
      p1.data_races = p.data_races ++
        [{ addr := a.value, tid := t.value, last_call := c.value,
           most_recent_syscall := m.value }] ∧
      p1.kern_withins = p.kern_withins ∧ p1.user_withins = p.user_withins ∧
      p1.output_pipe_filename = p.output_pipe_filename ∧
      p1.input_pipe_filename = p.input_pipe_filename := by
    intro p
    obtain ⟨p1, h1, hk, hu, hd, ho, hi, _⟩ :=
      load_directive_wf X p (pp_line.data_race a t c m) hwf
        (fun h => absurd rfl h) (fun h => absurd rfl h) (fun _ => hX)
    rw [chomp_line _ hwf buf hbuf]
    refine ⟨p1, h1, ?_, ?_, ?_, ho, hi⟩
    · rw [hd]
      rfl
    · rw [hk]
      simp [pp_line.kern_entry]
    · rw [hu]
      simp [pp_line.user_entry]
  refine ⟨hline, ?_, rfl, fun n => by cases n <;> rfl⟩
  obtain ⟨p1, h1, hd, _⟩ := hline ls.pps
  unfold load_dynamic_pps
  simp only [hnew, Bool.false_eq_true, if_false, load_lines, h1]
  exact ⟨_, rfl, rfl, hd⟩

/-- Evaluation of the amended C27 on the line `DR 0x1000 3 0x2000 5`. -/
theorem load_data_race_line_witness :
    ∃ r, load_dynamic_pps pebbles_env (some ["DR 0x1000 3 0x2000 5\n"]) fresh_pps_state "pps" =
        some r ∧
      r.ret = true ∧
      r.ls.pps.data_races =
        [{ addr := 4096, tid := 3, last_call := 8192, most_recent_syscall := 5 }] := by
  obtain ⟨_, ⟨r, h, hret, hd⟩, _⟩ :=
    load_data_race_line pebbles_env fresh_pps_state "pps" "DR 0x1000 3 0x2000 5\n"
      { prefixed := true, digits := "1000".data } (int_numeral.dec "3".data)
      (int_numeral.hex "2000".data) (int_numeral.dec "5".data)
      (by decide) (Or.inl rfl) rfl rfl
  refine ⟨r, h, hret, ?_⟩
  rw [hd]
  decide

/-- C28: for every file of well-formed lines (with at most one `O` line and one `I` line,
none if the registry has that pipe name already, and no `DR` line in a build with
`PREEMPT_EVERYWHERE`: these trip assertions), `load_dynamic_pps` on a registry not yet
loaded returns true, and after the load the kernel within-list is its previous contents
followed by one entry `{func_start, func_end, within = (polarity != 0)}` for each `K`
line in file order, the user within-list likewise for the `U` lines and the data-race
list likewise for the `DR` lines, so that no existing entry is removed or reordered; no
warning is printed. -/
theorem load_dynamic_pps_appends (X : landslide_env) (ls : ls_state) (filename : String)
    (lines : List pp_line) (bufs : List String)
    (hnew : ls.pps.dynamic_pps_loaded = false)
    (hbufs : List.Forall₂
      (fun (l : pp_line) (buf : String) => buf.data = l.text ++ ['\n'] ∨ buf.data = l.text)
      lines bufs)
    (hwf : ∀ l ∈ lines, l.wf)
    (hpe : X.cfg.PREEMPT_EVERYWHERE = true → ∀ l ∈ lines, l.data_race_entry = none)
    (hout : (lines.filterMap pp_line.output_name).length +
      ls.pps.output_pipe_filename.toList.length ≤ 1)
    (hin : (lines.filterMap pp_line.input_name).length +
      ls.pps.input_pipe_filename.toList.length ≤ 1) :
    ∃ r, load_dynamic_pps X (some bufs) ls filename = some r ∧
      r.ret = true ∧
      r.ls.pps.kern_withins = ls.pps.kern_withins ++ lines.filterMap pp_line.kern_entry ∧
      r.ls.pps.user_withins = ls.pps.user_withins ++ lines.filterMap pp_line.user_entry ∧
      r.ls.pps.data_races = ls.pps.data_races ++ lines.filterMap pp_line.data_race_entry ∧
      r.ls.pps.dynamic_pps_loaded = true ∧
      (∀ b, pp_event.warning b ∉ r.events) := by
  obtain ⟨p1, h1, hk, hu, hd, _⟩ := load_lines_wf X lines bufs hbufs hwf hpe ls.pps hout hin
  unfold load_dynamic_pps
  simp only [hnew, Bool.false_eq_true, if_false, h1]
  refine ⟨_, rfl, rfl, hk, hu, hd, rfl, ?_⟩
  intro b
  simp

/-- Evaluation of C28: a registry that holds one kernel directive already, and a file of a
`K`, a `U` and a `DR` line, the last one without a newline. -/
theorem load_dynamic_pps_appends_witness :
    ∃ r, load_dynamic_pps pebbles_env
        (some ["K 1000 2000 1\n", "U 0x10 0x20 0\n", "DR 0x1000 3 0x2000 5"])
        { fresh_pps_state with
          pps := { empty_pps with
            kern_withins := [{ func_start := 1, func_end := 2, within := false }] } }
        "pps" = some r ∧
      r.ret = true ∧
      r.ls.pps.kern_withins =
        [{ func_start := 1, func_end := 2, within := false },
         { func_start := 4096, func_end := 8192, within := true }] ∧
      r.ls.pps.user_withins = [{ func_start := 16, func_end := 32, within := false }] ∧
      r.ls.pps.data_races =
        [{ addr := 4096, tid := 3, last_call := 8192, most_recent_syscall := 5 }] := by
  obtain ⟨r, h, hret, hk, hu, hd, _⟩ :=
    load_dynamic_pps_appends pebbles_env
      { fresh_pps_state with
        pps := { empty_pps with
          kern_withins := [{ func_start := 1, func_end := 2, within := false }] } }
      "pps" sample_pp_lines
      ["K 1000 2000 1\n", "U 0x10 0x20 0\n", "DR 0x1000 3 0x2000 5"] rfl
      (List.Forall₂.cons (Or.inl rfl) (List.Forall₂.cons (Or.inl rfl)
        (List.Forall₂.cons (Or.inr rfl) List.Forall₂.nil)))
      (by decide) (fun h => by cases h) (by decide) (by decide)
  refine ⟨r, h, hret, ?_, ?_, ?_⟩
  · rw [hk]
    decide
  · rw [hu]
    decide
  · rw [hd]
    decide

/-! ### x86.c: address translation -/

/-- The page walk fails exactly when the page directory entry or the page table entry is
not present (or is the poison value). -/
theorem page_walk_none_iff {cpu_t : Type} (M : x86_env cpu_t) (cpu : cpu_t) (addr : Nat) :
    page_walk M cpu addr = none ↔
      (entry_present M (mem_translate_pde M cpu addr) = false ∨
       entry_present M (mem_translate_pte M cpu addr) = false) := by
  unfold page_walk
  cases entry_present M (mem_translate_pde M cpu addr) <;>
    cases entry_present M (mem_translate_pte M cpu addr) <;> simp

/-- C29, as stated, fails once paging is on: for a Pebbles guest with CR0.PG set and a
page directory without any present entry, the translation of the user address 0x01000000
fails and `read_memory` returns 0, although CR0.PG is not 0. -/
theorem mem_translate_paging_counterexample :
    pebbles_env.cfg.PINTOS_KERNEL = false ∧
    sample_x86.GET_CR0 unmapped_cpu &&& sample_x86.CR0_PG ≠ 0 ∧
    pebbles_env.KERNEL_MEMORY 16777216 = false ∧
    mem_translate pebbles_env sample_x86 unmapped_cpu 16777216 = some none ∧
    read_memory pebbles_env sample_x86 unmapped_cpu 16777216 4 = some 0 := by
  decide

/-- C29, amended: for a non-Pintos guest and every address, `mem_translate` trips no
assertion, and the translation fails (so that `read_memory` returns the sentinel 0) if
and only if the address is not a direct-mapped kernel address and either CR0.PG = 0 or
the walk of the page table fails, that is, the page directory entry or the page table
entry of the address is not present (or is the poison value). In particular, while
CR0.PG = 0 the translation fails iff the address is not a direct-mapped kernel
address. -/
theorem mem_translate_fails_iff {cpu_t : Type} (X : landslide_env) (M : x86_env cpu_t)
    (cpu : cpu_t) (addr width : Nat)
    (hpintos : X.cfg.PINTOS_KERNEL = false) :
    mem_translate X M cpu addr ≠ none ∧
    (mem_translate X M cpu addr = some none ↔
      (X.KERNEL_MEMORY addr = false ∧
       (M.GET_CR0 cpu &&& M.CR0_PG = 0 ∨
        entry_present M (mem_translate_pde M cpu addr) = false ∨
        entry_present M (mem_translate_pte M cpu addr) = false))) ∧
    (M.GET_CR0 cpu &&& M.CR0_PG = 0 →
      (mem_translate X M cpu addr = some none ↔ X.KERNEL_MEMORY addr = false)) ∧
    (mem_translate X M cpu addr = some none → read_memory X M cpu addr width = some 0) := by
  have hw := page_walk_none_iff M cpu addr
  refine ⟨?_, ?_, ?_, ?_⟩
  · unfold mem_translate
    simp only [hpintos, Bool.false_eq_true, if_false]
    split
    · simp
    · split <;> simp
  · unfold mem_translate
    simp only [hpintos, Bool.false_eq_true, if_false]
    cases hk : X.KERNEL_MEMORY addr with
    | true => simp
    | false =>
      simp only [Bool.false_eq_true, if_false, beq_iff_eq, true_and]
      by_cases hpg : M.GET_CR0 cpu &&& M.CR0_PG = 0
      · simp [hpg]
      · simp only [hpg, if_false, false_or, Option.some.injEq]
        exact hw
  · intro hpg
    unfold mem_translate
    simp only [hpintos, Bool.false_eq_true, if_false, hpg, beq_self_eq_true, if_true]
    cases hk : X.KERNEL_MEMORY addr <;> simp
  · intro h
    unfold read_memory
    rw [h]

/-- Evaluation of the amended C29 before paging is turned on: the user address
0x01000000 is not translated, the kernel address 0x100000 is. -/
theorem mem_translate_fails_iff_witness :
    mem_translate pebbles_env sample_x86 prepaging_cpu 16777216 = some none ∧
    read_memory pebbles_env sample_x86 prepaging_cpu 16777216 4 = some 0 ∧
    mem_translate pebbles_env sample_x86 prepaging_cpu 1048576 ≠ some none :=
  have h := mem_translate_fails_iff pebbles_env sample_x86 prepaging_cpu 16777216 4 rfl
  have h2 := mem_translate_fails_iff pebbles_env sample_x86 prepaging_cpu 1048576 4 rfl
  ⟨(h.2.2.1 (by decide)).mpr (by decide),
   h.2.2.2 ((h.2.2.1 (by decide)).mpr (by decide)),
   fun hc => absurd ((h2.2.2.1 (by decide)).mp hc) (by decide)⟩

/-- C30: whenever the translation of the address fails, `read_memory` returns 0 and
`write_memory` returns false and hands the CPU back as it was, no write to physical
memory having been made; whenever the translation succeeds with the physical address
`phys`, `write_memory` makes the one write `WRITE_PHYS_MEMORY(cpu, phys, val, width)` and
returns true, and `read_memory` returns `READ_PHYS_MEMORY(cpu, phys, width)` (as an
`unsigned int`). -/
theorem memory_access_follows_translation {cpu_t : Type} (X : landslide_env)
    (M : x86_env cpu_t) (cpu : cpu_t) (addr val width : Nat) :
    (mem_translate X M cpu addr = some none →
      read_memory X M cpu addr width = some 0 ∧
      write_memory X M cpu addr val width = some (false, cpu)) ∧
    (∀ phys, mem_translate X M cpu addr = some (some phys) →
      read_memory X M cpu addr width =
        some (M.READ_PHYS_MEMORY cpu phys width % 4294967296) ∧
      write_memory X M cpu addr val width =
        some (true, M.WRITE_PHYS_MEMORY cpu phys val width)) := by
  constructor
  · intro h
    unfold read_memory write_memory
    rw [h]
    exact ⟨rfl, rfl⟩
  · intro phys h
    unfold read_memory write_memory
    rw [h]
    exact ⟨rfl, rfl⟩

/-- Evaluation of C30: on `mapped_cpu` the address 0x01000010 is translated to
0x00345010; the read returns the word there, the write replaces it and nothing else. On
`unmapped_cpu` the write is dropped. -/
theorem memory_access_follows_translation_witness :
    read_memory pebbles_env sample_x86 mapped_cpu 16777232 4 = some 7 ∧
    (∃ cpu1, write_memory pebbles_env sample_x86 mapped_cpu 16777232 9 4 = some (true, cpu1) ∧
      cpu1.phys 3428368 = 9 ∧ cpu1.phys 1048592 = 1052679) ∧
    write_memory pebbles_env sample_x86 unmapped_cpu 16777232 9 4 =
      some (false, unmapped_cpu) :=
  have h := memory_access_follows_translation pebbles_env sample_x86 mapped_cpu 16777232 9 4
  have h2 := memory_access_follows_translation pebbles_env sample_x86 unmapped_cpu 16777232 9 4
  have ht : mem_translate pebbles_env sample_x86 mapped_cpu 16777232 = some (some 3428368) := by
    decide
  have hu : mem_translate pebbles_env sample_x86 unmapped_cpu 16777232 = some none := by
    decide
  ⟨(h.2 _ ht).1, ⟨_, (h.2 _ ht).2, rfl, rfl⟩, (h2.1 hu).2⟩

/-! ### x86.c: instruction classification -/

/-- On an array of at least three bytes `opcodes_are_atomic_swap` reads within bounds and
tells whether the bytes are those of an atomic swap. -/
theorem opcodes_are_atomic_swap_eq (a b c : Nat) (t : List Nat) :
    opcodes_are_atomic_swap (a :: b :: c :: t) = some (atomic_swap_bytes (a :: b :: c :: t)) := by
  unfold opcodes_are_atomic_swap atomic_swap_bytes
  by_cases ha : a = 240
  · subst ha
    by_cases hb : b = 134
    · subst hb; simp
    · by_cases hb2 : b = 135
      · subst hb2; simp
      · by_cases hb3 : b = 15
        · subst hb3
          by_cases hc : c = 176
          · subst hc; simp
          · by_cases hc2 : c = 177
            · subst hc2; simp
            · simp [hc, hc2]
        · simp [hb, hb2, hb3]
  · by_cases hb : a = 134
    · subst hb; simp
    · by_cases hb2 : a = 135
      · subst hb2; simp
      · by_cases hb3 : a = 15
        · subst hb3
          by_cases hc : b = 176
          · subst hc; simp
          · by_cases hc2 : b = 177
            · subst hc2; simp
            · simp [hc, hc2]
        · simp [ha, hb, hb2, hb3]

/-- C31: on an array of (at least) three bytes, `opcodes_are_atomic_swap` returns true
iff, after skipping at most one leading LOCK prefix byte `0xf0`, the next byte is `0x86`
or `0x87` (xchg), or is `0x0f` followed by `0xb0` or `0xb1` (cmpxchg), and returns false
for every other byte sequence; it never reads beyond the first three bytes: its result is
that on the first three bytes alone, on which no read is out of bounds, as in
`instruction_is_atomic_swap`. -/
theorem opcodes_are_atomic_swap_iff (a b c : Nat) (t : List Nat) :
    (opcodes_are_atomic_swap (a :: b :: c :: t) = some true ↔
      ((a = 134 ∨ a = 135 ∨ (a = 15 ∧ (b = 176 ∨ b = 177))) ∨
       (a = 240 ∧ (b = 134 ∨ b = 135 ∨ (b = 15 ∧ (c = 176 ∨ c = 177)))))) ∧
    (opcodes_are_atomic_swap (a :: b :: c :: t) = some false ↔
      ¬ ((a = 134 ∨ a = 135 ∨ (a = 15 ∧ (b = 176 ∨ b = 177))) ∨
         (a = 240 ∧ (b = 134 ∨ b = 135 ∨ (b = 15 ∧ (c = 176 ∨ c = 177)))))) ∧
    opcodes_are_atomic_swap (a :: b :: c :: t) =
      some (atomic_swap_bytes (a :: b :: c :: t)) ∧
    opcodes_are_atomic_swap (a :: b :: c :: t) = opcodes_are_atomic_swap [a, b, c] ∧
    opcodes_are_atomic_swap [a, b, c] ≠ none ∧
    (∀ (cpu_t : Type) (READ_BYTE : cpu_t → Nat → Nat) (cpu : cpu_t) (eip : Nat),
      instruction_is_atomic_swap READ_BYTE cpu eip ≠ none) := by
  have hspec : atomic_swap_bytes (a :: b :: c :: t) = true ↔
      ((a = 134 ∨ a = 135 ∨ (a = 15 ∧ (b = 176 ∨ b = 177))) ∨
       (a = 240 ∧ (b = 134 ∨ b = 135 ∨ (b = 15 ∧ (c = 176 ∨ c = 177))))) := by
    unfold atomic_swap_bytes
    by_cases ha : a = 240
    · subst ha
      simp [or_assoc]
    · simp [ha, or_assoc]
  have heq := opcodes_are_atomic_swap_eq a b c t
  have htake : atomic_swap_bytes (a :: b :: c :: t) = atomic_swap_bytes [a, b, c] := by
    unfold atomic_swap_bytes
    by_cases ha : a = 240
    · subst ha
      simp
    · simp [ha]
  refine ⟨?_, ?_, heq, ?_, ?_, ?_⟩
  · rw [heq, ← hspec]
    simp
  · rw [heq, ← hspec]
    simp
  · rw [heq, opcodes_are_atomic_swap_eq a b c [], htake]
  · rw [opcodes_are_atomic_swap_eq a b c []]
    simp
  · intro cpu_t READ_BYTE cpu eip
    unfold instruction_is_atomic_swap
    rw [opcodes_are_atomic_swap_eq]
    simp

/-! ### x86.c: the page walk -/

/-- An entry masked with `~4095` is a multiple of 4096 that fits in 32 bits. -/
theorem frame_mask (x : Nat) :
    (x &&& 4294963200) % 4096 = 0 ∧ x &&& 4294963200 ≤ 4294963200 := by
  constructor
  · have h := Nat.and_pow_two_sub_one_eq_mod (x &&& 4294963200) 12
    have hz : (4294963200 : Nat) &&& 4095 = 0 := by decide
    have h2 : (x &&& 4294963200) &&& 4095 = 0 := by
      rw [Nat.and_assoc, hz, Nat.and_zero]
    have h3 : (2 : Nat) ^ 12 - 1 = 4095 := by norm_num
    have h4 : (2 : Nat) ^ 12 = 4096 := by norm_num
    rw [h3, h4] at h
    rw [← h, h2]
  · exact Nat.and_le_right

/-- The low twelve bits of a number are its remainder modulo 4096. -/
theorem offset_mask (x : Nat) : x &&& 4095 = x % 4096 := by
  have h := Nat.and_pow_two_sub_one_eq_mod x 12
  have h3 : (2 : Nat) ^ 12 - 1 = 4095 := by norm_num
  have h4 : (2 : Nat) ^ 12 = 4096 := by norm_num
  rw [h3, h4] at h
  exact h

/-- C37, as stated, fails in a build that defines `PDE_PTE_POISON`: with paging on and
the poison value 0xcdcdcdcd as the page directory entry of the user address 0x01000000,
the translation fails although the present bit of the page directory entry is set, and
so is that of the word where the page table entry would be read. -/
theorem mem_translate_poison_counterexample :
    pebbles_env.cfg.PINTOS_KERNEL = false ∧
    pebbles_env.KERNEL_MEMORY 16777216 = false ∧
    poison_x86.GET_CR0 poisoned_cpu &&& poison_x86.CR0_PG ≠ 0 ∧
    mem_translate_pde poison_x86 poisoned_cpu 16777216 &&& 1 = 1 ∧
    mem_translate_pte poison_x86 poisoned_cpu 16777216 &&& 1 = 1 ∧
    mem_translate pebbles_env poison_x86 poisoned_cpu 16777216 = some none := by
  decide

/-- C37, amended: for a user address with paging enabled (in a Pintos build: for every
address, paging being enabled), `mem_translate` performs the two-level walk: with
`unsigned int` arithmetic, it reads the PDE at `cr3 + 4*(addr >> 22)` and the PTE at
`(pde & ~4095) + 4*((addr >> 12) & 1023)`, fails iff the PDE or the PTE has its present
bit clear or, in a build that defines `PDE_PTE_POISON`, is equal to that value, and
otherwise yields `(pte & ~4095) + (addr & 4095)`, so that the low 12 bits of the result
equal those of the address; for a non-Pintos kernel address it yields the address itself
regardless of the paging state. -/
theorem mem_translate_walk {cpu_t : Type} (X : landslide_env) (M : x86_env cpu_t)
    (cpu : cpu_t) (addr : Nat) :
    (((X.cfg.PINTOS_KERNEL = false ∧ X.KERNEL_MEMORY addr = false) ∨
        X.cfg.PINTOS_KERNEL = true) →
      M.GET_CR0 cpu &&& M.CR0_PG ≠ 0 →
      mem_translate X M cpu addr = some (page_walk M cpu addr) ∧
      mem_translate_pde M cpu addr =
        M.READ_PHYS_MEMORY cpu ((M.GET_CR3 cpu % 4294967296 + 4 * (addr >>> 22)) % 4294967296)
          M.WORD_SIZE % 4294967296 ∧
      mem_translate_pte M cpu addr =
        M.READ_PHYS_MEMORY cpu
          ((mem_translate_pde M cpu addr &&& 4294963200) + 4 * ((addr >>> 12) &&& 1023))
          M.WORD_SIZE % 4294967296 ∧
      (mem_translate X M cpu addr = some none ↔
        (mem_translate_pde M cpu addr &&& 1 = 0 ∨
         M.PDE_PTE_POISON = some (mem_translate_pde M cpu addr) ∨
         mem_translate_pte M cpu addr &&& 1 = 0 ∨
         M.PDE_PTE_POISON = some (mem_translate_pte M cpu addr))) ∧
      (∀ phys, mem_translate X M cpu addr = some (some phys) →
        phys = (mem_translate_pte M cpu addr &&& 4294963200) + (addr &&& 4095) ∧
        phys &&& 4095 = addr &&& 4095 ∧ phys < 4294967296)) ∧
    (X.cfg.PINTOS_KERNEL = false → X.KERNEL_MEMORY addr = true →
      mem_translate X M cpu addr = some (some addr)) := by
  constructor
  · intro hmode hpg
    have hpg1 : (M.GET_CR0 cpu &&& M.CR0_PG != 0) = true := by simpa using hpg
    have hpg2 : (M.GET_CR0 cpu &&& M.CR0_PG == 0) = false := by simpa using hpg
    have hmt : mem_translate X M cpu addr = some (page_walk M cpu addr) := by
      unfold mem_translate
      rcases hmode with ⟨hp, hk⟩ | hp
      · simp [hp, hk, hpg2]
      · simp [hp, hpg1]
    have hlower : (addr >>> 12) &&& 1023 ≤ 1023 := Nat.and_le_right
    have hm := frame_mask (mem_translate_pde M cpu addr)
    have hm2 := frame_mask (mem_translate_pte M cpu addr)
    have hoff : addr &&& 4095 < 4096 := by
      rw [offset_mask]
      exact Nat.mod_lt _ (by norm_num)
    have hpres : ∀ e, entry_present M e = false ↔
        (e &&& 1 = 0 ∨ M.PDE_PTE_POISON = some e) := by
      intro e
      unfold entry_present
      by_cases h1 : e &&& 1 = 0
      · simp [h1]
      · by_cases h2 : M.PDE_PTE_POISON = some e
        · simp [h2]
        · simp [h1, h2]
    refine ⟨hmt, rfl, ?_, ?_, ?_⟩
    · have hlt : (mem_translate_pde M cpu addr &&& 4294963200) +
          4 * ((addr >>> 12) &&& 1023) < 4294967296 := by
        omega
      unfold mem_translate_pte
      simp only []
      rw [Nat.mod_eq_of_lt hlt]
    · rw [hmt]
      simp only [Option.some.injEq]
      rw [page_walk_none_iff, hpres, hpres]
      tauto
    · intro phys hphys
      rw [hmt] at hphys
      simp only [Option.some.injEq] at hphys
      unfold page_walk at hphys
      simp only [] at hphys
      split at hphys
      · cases hphys
      · split at hphys
        · cases hphys
        · simp only [Option.some.injEq] at hphys
          have hlt2 : (mem_translate_pte M cpu addr &&& 4294963200) + (addr &&& 4095) <
              4294967296 := by
            omega
          rw [Nat.mod_eq_of_lt hlt2] at hphys
          refine ⟨hphys.symm, ?_, by omega⟩
          rw [offset_mask, offset_mask, ← hphys, offset_mask]
          omega
  · intro hp hk
    unfold mem_translate
    simp [hp, hk]

/-- Evaluation of the amended C37 on `mapped_cpu`: the user address 0x01000abc is
translated to 0x00345abc. -/
theorem mem_translate_walk_witness :
    mem_translate pebbles_env sample_x86 mapped_cpu 16779964 = some (some 3431100) ∧
    3431100 &&& 4095 = 16779964 &&& 4095 :=
  have h := (mem_translate_walk pebbles_env sample_x86 mapped_cpu 16779964).1
    (Or.inl ⟨rfl, rfl⟩) (by decide)
  ⟨by decide, (h.2.2.2.2 3431100 (by decide)).2.1⟩

/-! ### job.c: run_job, the compile lock -/

/-- The calls of `run_job` on the two paths on which it returns. -/
theorem run_job_trace (o : job_options) (w : job_world) (j : job) (r : run_result)
    (h : run_job o w j = some r) :
    r.trace = run_job_setup o w j ++
      (if (w.bug_in_subspace || w.too_late) = true then
        [ job_event.unlock_compile, job_event.messaging_abort,
          job_event.delete_file job_file.config_static true,
          job_event.delete_file job_file.config_dynamic true,
          job_event.delete_file job_file.log_stdout true,
          job_event.delete_file job_file.log_stderr true,
          job_event.status_done ]
       else
        [ job_event.fork, job_event.wait_for_child, job_event.unlock_compile ] ++
        (if w.child_alive then [ job_event.talk_to_child ] else []) ++
        [ job_event.waitpid, job_event.finish_messaging,
          job_event.delete_file job_file.config_static true,
          job_event.delete_file job_file.config_dynamic true,
          job_event.delete_file job_file.log_stdout (!o.leave_logs && w.wexitstatus == 0),
          job_event.delete_file job_file.log_stderr (!o.leave_logs && w.wexitstatus == 0),
          job_event.status_done ]) := by
  unfold run_job at h
  cases hcfg : write_configs o j.config with
  | none => simp [hcfg] at h
  | some files =>
    simp only [hcfg] at h
    by_cases hcpu : (j.current_cpu == NO_CPU) = true
    · simp [hcpu] at h
    · simp only [hcpu, Bool.false_eq_true, if_false] at h
      by_cases hcheck : (w.bug_in_subspace || w.too_late) = true
      · simp only [hcheck, if_true, Option.some.injEq] at h
        rw [← h, if_pos hcheck]
        rfl
      · simp only [hcheck, Bool.false_eq_true, if_false] at h ⊢
        cases hchild : run_job_child o w j with
        | none => simp [hchild] at h
        | some p =>
          simp only [hchild, Option.some.injEq] at h
          have hwait : (w.waitpid_ok && w.wifexited) = true := by
            cases hw : (w.waitpid_ok && w.wifexited) with
            | true => rfl
            | false => simp [run_job_child, hw] at hchild
          obtain ⟨p1, hp1, htr, _⟩ := run_job_child_some o w j hwait
          rw [hchild] at hp1
          cases hp1
          rw [← h, htr]

/-- The setup of `run_job` releases the CPU, takes the compile lock and takes the CPU
again, in this order, as its last three calls; before them it touches neither. -/
theorem run_job_setup_lock (o : job_options) (w : job_world) (j : job) :
    ∃ pre, run_job_setup o w j = pre ++
        [ job_event.stop_using_cpu j.current_cpu, job_event.lock_compile,
          job_event.start_using_cpu j.current_cpu ] ∧
      job_event.lock_compile ∉ pre ∧ job_event.unlock_compile ∉ pre ∧
      (∀ c, job_event.stop_using_cpu c ∉ pre) ∧ (∀ c, job_event.start_using_cpu c ∉ pre) ∧
      compile_lock_after false pre = some false := by
  unfold run_job_setup
  cases o.user_trace_dir with
  | none =>
    exact ⟨[ job_event.create_file job_file.config_static "config.quicksand.XXXXXX",
        job_event.create_file job_file.config_dynamic "pps-and-such.quicksand.XXXXXX",
        job_event.create_file job_file.log_stdout "ls-setup.log.XXXXXX",
        job_event.create_file job_file.log_stderr "ls-output.log.XXXXXX",
        job_event.messaging_init,
        job_event.move_file_to job_file.config_static w.landslide_path,
        job_event.move_file_to job_file.config_dynamic w.landslide_path ],
      rfl, by simp, by simp, by simp, by simp, rfl⟩
  | some dir =>
    exact ⟨[ job_event.create_file job_file.config_static "config.quicksand.XXXXXX",
        job_event.create_file job_file.config_dynamic "pps-and-such.quicksand.XXXXXX",
        job_event.create_file job_file.log_stdout "ls-setup.log.XXXXXX",
        job_event.create_file job_file.log_stderr "ls-output.log.XXXXXX",
        job_event.move_file_to job_file.log_stdout dir,
        job_event.move_file_to job_file.log_stderr dir,
        job_event.messaging_init,
        job_event.move_file_to job_file.config_static w.landslide_path,
        job_event.move_file_to job_file.config_dynamic w.landslide_path ],
      rfl, by simp, by simp, by simp, by simp, rfl⟩

/-- The lock state along a sequence of calls in two parts. -/
theorem compile_lock_after_append (xs ys : List job_event) (held : Bool) :
    compile_lock_after held (xs ++ ys) =
      match compile_lock_after held xs with
      | none => none
      | some held1 => compile_lock_after held1 ys := by
  induction xs generalizing held with
  | nil => rfl
  | cons x xs ih =>
    cases x <;> cases held <;> simp [compile_lock_after, ih]

/-- C38: on every path on which `run_job` returns, the compile lock is acquired exactly
once and released exactly once, the acquisition coming first, so that the lock is not
held when `run_job` returns; the CPU reservation is released right before the acquisition
and retaken right after it; on the abort path the lock is released right after that,
before any scratch file is deleted; on the fork path it is released right after
`wait_for_child` returns, whether or not the child came alive, and before `talk_to_child`
runs (which it does iff the child came alive). -/
theorem run_job_compile_lock (o : job_options) (w : job_world) (j : job) (r : run_result)
    (h : run_job o w j = some r) :
    r.trace.count job_event.lock_compile = 1 ∧
    r.trace.count job_event.unlock_compile = 1 ∧
    compile_lock_after false r.trace = some false ∧
    ∃ pre post,
      r.trace = pre ++
        [ job_event.stop_using_cpu j.current_cpu, job_event.lock_compile,
          job_event.start_using_cpu j.current_cpu ] ++ post ∧
      job_event.lock_compile ∉ pre ∧ job_event.unlock_compile ∉ pre ∧
      (∀ c, job_event.stop_using_cpu c ∉ pre) ∧ (∀ c, job_event.start_using_cpu c ∉ pre) ∧
      job_event.lock_compile ∉ post ∧
      ((w.bug_in_subspace || w.too_late) = true →
        ∃ post1, post = job_event.unlock_compile :: post1 ∧
          job_event.unlock_compile ∉ post1 ∧
          (∀ f b, job_event.delete_file f b ∉ pre) ∧
          (∀ f, job_event.delete_file f true ∈ post1) ∧
          job_event.fork ∉ r.trace) ∧
      ((w.bug_in_subspace || w.too_late) = false →
        ∃ post1,
          post = [ job_event.fork, job_event.wait_for_child, job_event.unlock_compile ] ++
            post1 ∧
          job_event.unlock_compile ∉ post1 ∧
          job_event.talk_to_child ∉ pre ∧
          (job_event.talk_to_child ∈ post1 ↔ w.child_alive = true)) := by
  have htr := run_job_trace o w j r h
  obtain ⟨pre, hpre, hl, hu, hstop, hstart, hlock⟩ := run_job_setup_lock o w j
  have hnd : ∀ f b, job_event.delete_file f b ∉ pre := by
    intro f b hmem
    apply run_job_setup_no_delete o w j f b
    rw [hpre]
    exact List.mem_append_left _ hmem
  have hnf : job_event.fork ∉ pre := by
    intro hmem
    apply run_job_setup_no_fork o w j
    rw [hpre]
    exact List.mem_append_left _ hmem
  have hnt : job_event.talk_to_child ∉ pre := by
    intro hmem
    have hno : job_event.talk_to_child ∉ run_job_setup o w j := by
      unfold run_job_setup
      cases o.user_trace_dir <;> simp
    apply hno
    rw [hpre]
    exact List.mem_append_left _ hmem
  have hcl : List.count job_event.lock_compile pre = 0 := List.count_eq_zero.mpr hl
  have hcu : List.count job_event.unlock_compile pre = 0 := List.count_eq_zero.mpr hu
  rw [hpre] at htr
  by_cases hcheck : (w.bug_in_subspace || w.too_late) = true
  · rw [if_pos hcheck] at htr
    refine ⟨?_, ?_, ?_, pre, _, htr, hl, hu, hstop, hstart, by simp, ?_, ?_⟩
    · rw [htr]
      simp [List.count_append, hcl]
    · rw [htr]
      simp [List.count_append, hcu]
    · rw [htr, compile_lock_after_append, compile_lock_after_append, hlock]
      rfl
    · intro _
      refine ⟨_, rfl, by simp, hnd, ?_, ?_⟩
      · intro f
        cases f <;> simp
      · rw [htr]
        simp [hnf]
    · intro hc
      rw [hc] at hcheck
      cases hcheck
  · have hcheck2 : (w.bug_in_subspace || w.too_late) = false := by
      simpa using hcheck
    rw [if_neg hcheck] at htr
    refine ⟨?_, ?_, ?_, pre, _, htr, hl, hu, hstop, hstart, ?_, ?_, ?_⟩
    · rw [htr]
      cases w.child_alive <;> simp [List.count_append, hcl]
    · rw [htr]
      cases w.child_alive <;> simp [List.count_append, hcu]
    · rw [htr, compile_lock_after_append, compile_lock_after_append, hlock]
      cases w.child_alive <;> rfl
    · cases w.child_alive <;> simp
    · intro hc
      rw [hc] at hcheck2
      cases hcheck2
    · intro _
      refine ⟨_, by simp only [List.append_assoc]; rfl, ?_, hnt, ?_⟩
      · cases w.child_alive <;> simp
      · cases w.child_alive <;> simp

/-- Evaluation of C38 on a job whose child comes alive and exits with status 0. -/
theorem run_job_compile_lock_witness :
    ∃ r, run_job (user_options "mutex_test") quiet_world fresh_job = some r ∧
      r.trace.count job_event.lock_compile = 1 ∧
      r.trace.count job_event.unlock_compile = 1 ∧
      compile_lock_after false r.trace = some false :=
  have h := run_job_compile_lock (user_options "mutex_test") quiet_world fresh_job
    (Option.get (run_job (user_options "mutex_test") quiet_world fresh_job) rfl)
    (Option.some_get _).symm
  ⟨_, (Option.some_get _).symm, h.1, h.2.1, h.2.2.1⟩

/-- The first character of a line that starts with a non-empty literal. -/
theorem first_char_append (a b : String) (c : Char) (h : first_char a = some c) :
    first_char (a ++ b) = some c := by
  unfold first_char at *
  rw [String.data_append]
  cases hd : a.data with
  | nil => rw [hd] at h; cases h
  | cons x xs => rw [hd] at h; simpa using h

/-- No fixed line of the static config file before and after the test-specific ones starts
with the letter `H`. -/
theorem config_common_static_first (o : job_options) (pps : List String) (l : String)
    (h : l ∈ (config_common o pps).config_static ∨
         l ∈ (config_preempt_everywhere o).config_static) :
    first_char l ≠ some 'H' := by
  rcases h with h | h
  · simp only [config_common, List.mem_cons, List.mem_singleton, List.not_mem_nil,
      or_false] at h
    rcases h with h | h | h | h | h <;> subst h
    · rw [first_char_append _ _ 'T' (by decide)]; decide
    · rw [first_char_append _ _ 'V' (by decide)]; decide
    · rw [first_char_append _ _ 'I' (by decide)]; decide
    · rw [first_char_append _ _ 'P' (by decide)]; decide
    · rw [first_char_append _ _ 'P' (by decide)]; decide
  · unfold config_preempt_everywhere at h
    cases hp : o.preempt_everywhere <;> rw [hp] at h
    · simp at h
    · simp at h
      subst h
      decide

/-- The test-specific part of the static config file either comes from the HTM branch or
has no line that starts with the letter `H`. -/
theorem config_special_static (o : job_options) (sp : config_files)
    (h : config_special o = some sp) :
    config_htm o = some sp ∨ ∀ l ∈ sp.config_static, first_char l ≠ some 'H' := by
  unfold config_special at h
  split at h
  · cases h; right; dsimp only; decide
  · split at h
    · cases h; right; dsimp only; decide
    · split at h
      · cases h; right; dsimp only; decide
      · split at h
        · cases h; right; dsimp only; decide
        · split at h
          · cases h; right; dsimp only; decide
          · split at h
            · cases h; right; dsimp only; decide
            · split at h
              · cases h; right; dsimp only; decide
              · split at h
                · left; exact h
                · cases h; right; dsimp only; decide

/-- The HTM option lines of the HTM branch follow the options, and the options satisfy
the assertions of the branch. -/
theorem config_htm_static (o : job_options) (sp : config_files)
    (h : config_htm o = some sp) :
    "HTM=1" ∈ sp.config_static ∧
    ("HTM_ABORT_CODES=1" ∈ sp.config_static ↔ o.abort_codes = true) ∧
    ("HTM_DONT_RETRY=1" ∈ sp.config_static ↔ o.dont_xabort_retry = true) ∧
    ("HTM_ABORT_SETS=1" ∈ sp.config_static ↔ o.retry_sets = true) ∧
    ("HTM_WEAK_ATOMICITY=1" ∈ sp.config_static ↔ o.weak_atomicity = true) ∧
    (o.weak_atomicity = true → o.dont_xabort_retry = true) ∧
    (o.dont_xabort_retry = true → o.abort_codes = true) ∧
    (o.retry_sets = true → o.abort_codes = false ∧ o.dont_xabort_retry = false) := by
  unfold config_htm at h
  cases hc : (o.test_name == "htm_spinlock" || o.test_name == "htm_mutex") <;>
    rw [hc] at h <;>
    cases hp : o.pintos <;> cases hq : o.pathos <;> cases hd : o.dont_xabort_retry <;>
    cases ha : o.abort_codes <;> cases hr : o.retry_sets <;> cases hw : o.weak_atomicity <;>
    rw [hp, hq, hd, ha, hr, hw] at h <;>
    first
    | (cases h; done)
    | (cases h; dsimp only; decide)

/-- An HTM option line of a generated static config file comes from the HTM branch. -/
theorem write_configs_htm_line (o : job_options) (pps : List String) (files : config_files)
    (h : write_configs o pps = some files) (l : String) (hl : first_char l = some 'H')
    (hmem : l ∈ files.config_static) :
    ∃ sp, config_htm o = some sp ∧ l ∈ sp.config_static ∧
      ∀ k, k ∈ sp.config_static → k ∈ files.config_static := by
  unfold write_configs at h
  cases hsp : config_special o with
  | none => rw [hsp] at h; cases h
  | some sp =>
    rw [hsp] at h
    cases h
    dsimp only at hmem ⊢
    rw [List.mem_append, List.mem_append] at hmem
    have hsub : ∀ k, k ∈ sp.config_static →
        k ∈ (config_common o pps).config_static ++ sp.config_static ++
          (config_preempt_everywhere o).config_static :=
      fun k hk => List.mem_append_left _ (List.mem_append_right _ hk)
    rcases hmem with (hmem | hmem) | hmem
    · exact absurd hl (config_common_static_first o pps l (Or.inl hmem))
    · rcases config_special_static o sp hsp with hh | hh
      · exact ⟨sp, hh, hmem, hsub⟩
      · exact absurd hl (hh l hmem)
    · exact absurd hl (config_common_static_first o pps l (Or.inr hmem))

/-- C40: for every option assignment for which config generation completes, the static
config file has `HTM_WEAK_ATOMICITY=1` only if it has `HTM_DONT_RETRY=1`, has
`HTM_DONT_RETRY=1` only if it has `HTM_ABORT_CODES=1`, has `HTM_ABORT_SETS=1` only if it
has neither `HTM_ABORT_CODES=1` nor `HTM_DONT_RETRY=1`, and has each of these four lines
only if it has `HTM=1`. -/
theorem htm_config_lines (o : job_options) (pps : List String) (files : config_files)
    (h : write_configs o pps = some files) :
    ("HTM_WEAK_ATOMICITY=1" ∈ files.config_static →
      "HTM_DONT_RETRY=1" ∈ files.config_static) ∧
    ("HTM_DONT_RETRY=1" ∈ files.config_static →
      "HTM_ABORT_CODES=1" ∈ files.config_static) ∧
    ("HTM_ABORT_SETS=1" ∈ files.config_static →
      "HTM_ABORT_CODES=1" ∉ files.config_static ∧
      "HTM_DONT_RETRY=1" ∉ files.config_static) ∧
    (∀ l ∈ [ "HTM_ABORT_CODES=1", "HTM_DONT_RETRY=1", "HTM_ABORT_SETS=1",
             "HTM_WEAK_ATOMICITY=1" ],
      l ∈ files.config_static → "HTM=1" ∈ files.config_static) := by
  refine ⟨?_, ?_, ?_, ?_⟩
  · intro hm
    obtain ⟨sp, hsp, hin, hsub⟩ := write_configs_htm_line o pps files h _ (by decide) hm
    obtain ⟨_, _, hd, _, hw, hwd, _, _⟩ := config_htm_static o sp hsp
    exact hsub _ (hd.mpr (hwd (hw.mp hin)))
  · intro hm
    obtain ⟨sp, hsp, hin, hsub⟩ := write_configs_htm_line o pps files h _ (by decide) hm
    obtain ⟨_, ha, hd, _, _, _, hda, _⟩ := config_htm_static o sp hsp
    exact hsub _ (ha.mpr (hda (hd.mp hin)))
  · intro hm
    obtain ⟨sp, hsp, hin, hsub⟩ := write_configs_htm_line o pps files h _ (by decide) hm
    obtain ⟨_, ha, hd, hr, _, _, _, hra⟩ := config_htm_static o sp hsp
    have hopt := hra (hr.mp hin)
    constructor
    · intro hm2
      obtain ⟨sp2, hsp2, hin2, _⟩ :=
        write_configs_htm_line o pps files h _ (by decide) hm2
      rw [hsp] at hsp2
      cases hsp2
      have := ha.mp hin2
      rw [hopt.1] at this
      cases this
    · intro hm2
      obtain ⟨sp2, hsp2, hin2, _⟩ :=
        write_configs_htm_line o pps files h _ (by decide) hm2
      rw [hsp] at hsp2
      cases hsp2
      have := hd.mp hin2
      rw [hopt.2] at this
      cases this
  · intro l hl hm
    have hH : first_char l = some 'H' := by
      simp only [List.mem_cons, List.mem_singleton, List.not_mem_nil, or_false] at hl
      rcases hl with hl | hl | hl | hl <;> subst hl <;> decide
    obtain ⟨sp, hsp, _, hsub⟩ := write_configs_htm_line o pps files h l hH hm
    exact hsub _ (config_htm_static o sp hsp).1

/-- Evaluation of C40 on a transactional test with all of abort codes, no retry and weak
atomicity set. -/
theorem htm_config_lines_witness :
    ∃ files,
      write_configs
        { user_options "htm1" with
          transactions := true, abort_codes := true, dont_xabort_retry := true,
          weak_atomicity := true } [] = some files ∧
      "HTM_WEAK_ATOMICITY=1" ∈ files.config_static ∧
      ("HTM_WEAK_ATOMICITY=1" ∈ files.config_static →
        "HTM_DONT_RETRY=1" ∈ files.config_static) ∧
      ("HTM_DONT_RETRY=1" ∈ files.config_static →
        "HTM_ABORT_CODES=1" ∈ files.config_static) :=
  have h := htm_config_lines
    { user_options "htm1" with
      transactions := true, abort_codes := true, dont_xabort_retry := true,
      weak_atomicity := true } [] _ rfl
  ⟨_, rfl, by decide, h.1, h.2.1⟩

/-! ### arbiter_interested: the data-race flag and the xchg-blocked rule -/

/-- A checked return hands back what it was given. -/
theorem interested_checked_eq (X : landslide_env) (ls : ls_state)
    (r0 r : interested_result) (h : interested_checked X ls r0 = some r) : r = r0 := by
  unfold interested_checked at h
  split at h
  · exact (Option.some.inj h).symm
  · exact Option.noConfusion h

/-- The user-space rules never set `data_race`. -/
theorem interested_userspace_data_race (X : landslide_env) (ls : ls_state)
    (r : interested_result) (h : interested_userspace X ls = some r) :
    r.data_race = false := by
  unfold interested_userspace at h
  simp only [] at h
  repeat' split at h
  all_goals first
    | exact Option.noConfusion h
    | (cases Option.some.inj h; rfl)
    | (rw [interested_checked_eq X ls _ r h]; rfl)

/-- The kernel-space rules never set `data_race`. -/
theorem interested_kernel_data_race (X : landslide_env) (ls : ls_state)
    (r : interested_result) (h : interested_kernel X ls = some r) :
    r.data_race = false := by
  unfold interested_kernel at h
  simp only [] at h
  repeat' split at h
  all_goals first
    | exact Option.noConfusion h
    | (cases Option.some.inj h; rfl)
    | (rw [interested_checked_eq X ls _ r h]; rfl)

/-- C35: `arbiter_interested` returns with `data_race = true` only with return value true,
after the registry check fired, the current agent not being xchg-blocked, the
within-function check for the mode of the current address (kernel for a kernel eip, user
for a user eip) holding when DR PPs respect within-functions, and the current agent not
being inside a transaction under strong atomicity. Conversely, past the voluntary, HLT
and pre-test-start rules, when the registry check fires, none of these exclusions applies
and the one-thread-per-PP assertion holds, it returns true with `data_race = true`. -/
theorem data_race_flag (X : landslide_env) (ls : ls_state) (jfr : Bool) :
    (∀ r, arbiter_interested X ls jfr = some r → r.data_race = true →
      r.ret = true ∧
      suspected_data_race X ls = some true ∧
      X.XCHG_BLOCKED (ls.sched.agents ls.sched.cur_agent).user_yield = false ∧
      (X.cfg.DR_PPS_RESPECT_WITHIN_FUNCTIONS = true →
        (if X.KERNEL_MEMORY ls.eip then kern_within_functions X ls
         else user_within_functions X ls) = true) ∧
      (X.cfg.HTM_WEAK_ATOMICITY = false →
        (ls.sched.agents ls.sched.cur_agent).action.user_txn = false)) ∧
    (voluntary_resched_ending ls jfr = false →
      ls.instruction_text 0 ≠ X.OPCODE_HLT →
      ls.test.test_ever_caused = true →
      ls.test.start_population ≠ ls.sched.most_agents_ever →
      suspected_data_race X ls = some true →
      X.XCHG_BLOCKED (ls.sched.agents ls.sched.cur_agent).user_yield = false →
      (X.cfg.DR_PPS_RESPECT_WITHIN_FUNCTIONS = true →
        (if X.KERNEL_MEMORY ls.eip then kern_within_functions X ls
         else user_within_functions X ls) = true) →
      (X.cfg.HTM_WEAK_ATOMICITY = false →
        (ls.sched.agents ls.sched.cur_agent).action.user_txn = false) →
      ASSERT_ONE_THREAD_PER_PP X ls = true →
      ∃ r, arbiter_interested X ls jfr = some r ∧ r.ret = true ∧ r.data_race = true ∧
        r.voluntary = false ∧ r.need_handle_sleep = false ∧ r.ls = ls) := by
  have hpp : ∀ dr, data_race_pp X ls dr = true ↔
      (dr = true ∧
       X.XCHG_BLOCKED (ls.sched.agents ls.sched.cur_agent).user_yield = false ∧
       (X.cfg.DR_PPS_RESPECT_WITHIN_FUNCTIONS = true →
         (if X.KERNEL_MEMORY ls.eip then kern_within_functions X ls
          else user_within_functions X ls) = true) ∧
       (X.cfg.HTM_WEAK_ATOMICITY = false →
         (ls.sched.agents ls.sched.cur_agent).action.user_txn = false)) := by
    intro dr
    unfold data_race_pp
    cases dr <;> cases X.XCHG_BLOCKED (ls.sched.agents ls.sched.cur_agent).user_yield <;>
      cases X.cfg.DR_PPS_RESPECT_WITHIN_FUNCTIONS <;> cases X.KERNEL_MEMORY ls.eip <;>
      cases X.cfg.HTM_WEAK_ATOMICITY <;>
      cases (ls.sched.agents ls.sched.cur_agent).action.user_txn <;>
      cases kern_within_functions X ls <;> cases user_within_functions X ls <;> simp
  constructor
  · intro r h hdr
    unfold arbiter_interested at h
    split at h
    · split at h
      · exact Option.noConfusion h
      · split at h
        · exact Option.noConfusion h
        · split at h
          · exact Option.noConfusion h
          · cases Option.some.inj h
            cases hdr
    · split at h
      · rw [interested_checked_eq X ls _ r h] at hdr
        cases hdr
      · split at h
        · cases Option.some.inj h
          cases hdr
        · split at h
          · exact Option.noConfusion h
          · rename_i dr hsus
            split at h
            · rename_i hfire
              obtain ⟨h1, h2, h3, h4⟩ := (hpp dr).mp hfire
              subst h1
              rw [interested_checked_eq X ls _ r h]
              exact ⟨rfl, hsus, h2, h3, h4⟩
            · split at h
              · rw [interested_userspace_data_race X ls r h] at hdr
                cases hdr
              · rw [interested_kernel_data_race X ls r h] at hdr
                cases hdr
  · intro hvol hhlt htc hpop hsus hx hw ht hassert
    have hfire : data_race_pp X ls true = true := (hpp true).mpr ⟨rfl, hx, hw, ht⟩
    refine ⟨{ interested_plain ls true with data_race := true }, ?_, rfl, rfl, rfl, rfl, rfl⟩
    unfold arbiter_interested
    have hhlt2 : (ls.instruction_text 0 == X.OPCODE_HLT) = false := by
      simpa using hhlt
    have hpop2 : (ls.test.start_population == ls.sched.most_agents_ever) = false := by
      simpa using hpop
    simp [hvol, hhlt2, htc, hpop2, hsus, hfire, interested_checked, hassert]

/-- Evaluation of C35 on `data_race_state`: a data race is registered at the eip for the
wildcard tid, the current agent is not xchg-blocked, no within directive is registered,
and the current agent is in no transaction. -/
theorem data_race_flag_witness :
    ∃ r, arbiter_interested pebbles_env data_race_state false = some r ∧
      r.ret = true ∧ r.data_race = true ∧ r.voluntary = false ∧
      r.need_handle_sleep = false ∧ r.ls = data_race_state :=
  (data_race_flag pebbles_env data_race_state false).2 (by decide) (by decide)
    (by decide) (by decide) (by decide) (by decide) (by decide) (by decide) (by decide)

/-- C36, as stated, fails on `xchg_txn_state` under strong atomicity: at a user-space
instruction that no earlier rule matches, with the current agent xchg-blocked inside a
transaction, `arbiter_interested` aborts the transaction with the CAPACITY code and sets
`end_branch_early`, but returns false. -/
theorem xchg_blocked_txn_counterexample :
    pebbles_env.testing_userspace = true ∧
    pebbles_env.KERNEL_MEMORY xchg_txn_state.eip = false ∧
    pebbles_env.cfg.HTM_WEAK_ATOMICITY = false ∧
    pebbles_env.XCHG_BLOCKED
      (xchg_txn_state.sched.agents xchg_txn_state.sched.cur_agent).user_yield = true ∧
    (xchg_txn_state.sched.agents xchg_txn_state.sched.cur_agent).action.user_txn = true ∧
    voluntary_resched_ending xchg_txn_state false = false ∧
    suspected_data_race pebbles_env xchg_txn_state = some false ∧
    ∃ r, arbiter_interested pebbles_env xchg_txn_state false = some r ∧
      r.ret = false ∧ r.ls.end_branch_early = true ∧
      r.ls.effects = [effect.abort_transaction 6 0 8] :=
  ⟨rfl, by decide, rfl, by decide, by decide, by decide, by decide, _, rfl, rfl, rfl, rfl⟩

/-- C36, amended: when testing userspace at a user-space instruction that no earlier rule
matched (no voluntary reschedule ending, no HLT, the test running, the data-race check
returned), if the current agent is xchg-blocked and the one-thread-per-PP assertion holds,
then `arbiter_interested` returns true with the state unchanged, except that under strong
atomicity, when that agent is inside a transaction, it aborts the transaction with the
CAPACITY code, sets `end_branch_early` and returns false. -/
theorem interested_xchg_blocked (X : landslide_env) (ls : ls_state) (jfr : Bool) (dr : Bool)
    (hvol : voluntary_resched_ending ls jfr = false)
    (hhlt : ls.instruction_text 0 ≠ X.OPCODE_HLT)
    (htc : ls.test.test_ever_caused = true)
    (hpop : ls.test.start_population ≠ ls.sched.most_agents_ever)
    (hsus : suspected_data_race X ls = some dr)
    (hus : X.testing_userspace = true)
    (huser : X.KERNEL_MEMORY ls.eip = false)
    (hx : X.XCHG_BLOCKED (ls.sched.agents ls.sched.cur_agent).user_yield = true)
    (hassert : ASSERT_ONE_THREAD_PER_PP X ls = true) :
    ((X.cfg.HTM_WEAK_ATOMICITY = true ∨
        (ls.sched.agents ls.sched.cur_agent).action.user_txn = false) →
      arbiter_interested X ls jfr = some (interested_plain ls true)) ∧
    (X.cfg.HTM_WEAK_ATOMICITY = false →
      (ls.sched.agents ls.sched.cur_agent).action.user_txn = true →
      arbiter_interested X ls jfr =
        some (interested_plain
          { ls with
            effects := ls.effects ++
              [effect.abort_transaction (ls.sched.agents ls.sched.cur_agent).tid
                ls.save.current X.XABORT_CAPACITY],
            end_branch_early := true } false)) := by
  have hhlt2 : (ls.instruction_text 0 == X.OPCODE_HLT) = false := by
    simpa using hhlt
  have hpop2 : (ls.test.start_population == ls.sched.most_agents_ever) = false := by
    simpa using hpop
  have hfire : data_race_pp X ls dr = false := by
    unfold data_race_pp
    simp [hx]
  have hrule : arbiter_interested X ls jfr = interested_userspace X ls := by
    unfold arbiter_interested
    simp [hvol, hhlt2, htc, hpop2, hsus, hfire, hus]
  rw [hrule]
  unfold interested_userspace
  constructor
  · intro hcase
    rcases hcase with hcase | hcase <;> simp [huser, hx, hassert, hcase]
  · intro hw ht
    simp [huser, hx, hassert, hw, ht]

/-- Evaluation of the amended C36 on `xchg_state` (no transaction: a PP) and on
`xchg_txn_state` (inside a transaction: abort, end of branch, no PP). -/
theorem interested_xchg_blocked_witness :
    (∃ r, arbiter_interested pebbles_env xchg_state false = some r ∧ r.ret = true ∧
      r.ls.effects = [] ∧ r.ls.end_branch_early = false) ∧
    (∃ r, arbiter_interested pebbles_env xchg_txn_state false = some r ∧ r.ret = false ∧
      r.ls.effects = [effect.abort_transaction 6 0 8] ∧ r.ls.end_branch_early = true) :=
  ⟨⟨_, (interested_xchg_blocked pebbles_env xchg_state false false (by decide) (by decide)
      (by decide) (by decide) (by decide) rfl (by decide) (by decide) (by decide)).1
      (Or.inr (by decide)), rfl, rfl, rfl⟩,
   ⟨_, (interested_xchg_blocked pebbles_env xchg_txn_state false false (by decide)
      (by decide) (by decide) (by decide) (by decide) rfl (by decide) (by decide)
      (by decide)).2 rfl (by decide), rfl, rfl, rfl⟩⟩

/-! ### try_avoid_fp_deadlock: the ICB category -/

/-- The ICB loop returns when no ICB-blocked agent it visits is idle; if it visits a
candidate (ICB-blocked, not blocked on an address, not yield-blocked) it returns one, and
otherwise it leaves its locals alone. -/
theorem fp_icb_loop_candidate (X : landslide_env) (ls : ls_state) (voluntary : Bool)
    (as : List agent_ptr) (l : fp_locals)
    (hidle : ∀ a ∈ as, X.ICB_BLOCKED ls.sched ls.icb_bound voluntary a = true →
      IS_IDLE X ls a = false) :
    ∃ r, fp_icb_loop X ls voluntary as l = some r ∧
      ((∃ a ∈ as, X.ICB_BLOCKED ls.sched ls.icb_bound voluntary a = true ∧
          (ls.sched.agents a).user_blocked_on_addr = X.ADDR_NONE ∧
          X.agent_is_user_yield_blocked (ls.sched.agents a).user_yield = false) →
        r.found_one = true ∧ r.result ∈ as ∧
        X.ICB_BLOCKED ls.sched ls.icb_bound voluntary r.result = true ∧
        (ls.sched.agents r.result).user_blocked_on_addr = X.ADDR_NONE ∧
        X.agent_is_user_yield_blocked (ls.sched.agents r.result).user_yield = false) ∧
      ((¬ ∃ a ∈ as, X.ICB_BLOCKED ls.sched ls.icb_bound voluntary a = true ∧
          (ls.sched.agents a).user_blocked_on_addr = X.ADDR_NONE ∧
          X.agent_is_user_yield_blocked (ls.sched.agents a).user_yield = false) →
        r = l) := by
  induction as generalizing l with
  | nil =>
    refine ⟨l, rfl, ?_, fun _ => rfl⟩
    rintro ⟨a, ha, _⟩
    cases ha
  | cons a rest ih =>
    have hrest : ∀ b ∈ rest, X.ICB_BLOCKED ls.sched ls.icb_bound voluntary b = true →
        IS_IDLE X ls b = false :=
      fun b hb => hidle b (List.mem_cons_of_mem _ hb)
    by_cases hcand : X.ICB_BLOCKED ls.sched ls.icb_bound voluntary a = true ∧
        (ls.sched.agents a).user_blocked_on_addr = X.ADDR_NONE ∧
        X.agent_is_user_yield_blocked (ls.sched.agents a).user_yield = false
    · obtain ⟨r, hr, hfound, hnone⟩ := ih { found_one := true, result := a } hrest
      have hstep : fp_icb_loop X ls voluntary (a :: rest) l =
          fp_icb_loop X ls voluntary rest { found_one := true, result := a } := by
        simp [fp_icb_loop, hcand.1, hidle a (List.mem_cons_self _ _) hcand.1, hcand.2.1,
          hcand.2.2]
      refine ⟨r, hstep.trans hr, ?_, ?_⟩
      · intro _
        by_cases hex : ∃ b ∈ rest, X.ICB_BLOCKED ls.sched ls.icb_bound voluntary b = true ∧
            (ls.sched.agents b).user_blocked_on_addr = X.ADDR_NONE ∧
            X.agent_is_user_yield_blocked (ls.sched.agents b).user_yield = false
        · obtain ⟨h1, h2, h3⟩ := hfound hex
          exact ⟨h1, List.mem_cons_of_mem _ h2, h3⟩
        · rw [hnone hex]
          exact ⟨rfl, List.mem_cons_self _ _, hcand⟩
      · intro hno
        exact absurd ⟨a, List.mem_cons_self _ _, hcand⟩ hno
    · obtain ⟨r, hr, hfound, hnone⟩ := ih l hrest
      have hstep : fp_icb_loop X ls voluntary (a :: rest) l =
          fp_icb_loop X ls voluntary rest l := by
        cases hb : X.ICB_BLOCKED ls.sched ls.icb_bound voluntary a
        · simp [fp_icb_loop, hb]
        · have hi := hidle a (List.mem_cons_self _ _) hb
          have hc2 : ((ls.sched.agents a).user_blocked_on_addr == X.ADDR_NONE &&
              !X.agent_is_user_yield_blocked (ls.sched.agents a).user_yield) = false := by
            apply Bool.eq_false_iff.mpr
            intro hc
            simp only [Bool.and_eq_true, beq_iff_eq, Bool.not_eq_true'] at hc
            exact hcand ⟨hb, hc.1, hc.2⟩
          simp [fp_icb_loop, hb, hi, hc2]
      refine ⟨r, hstep.trans hr, ?_, ?_⟩
      · rintro ⟨b, hb, hbc⟩
        have hbrest : b ∈ rest := by
          rcases List.mem_cons.mp hb with hba | hbr
          · subst hba
            exact absurd hbc hcand
          · exact hbr
        obtain ⟨h1, h2, h3⟩ := hfound ⟨b, hbrest, hbc⟩
        exact ⟨h1, List.mem_cons_of_mem _ h2, h3⟩
      · intro hno
        apply hnone
        rintro ⟨b, hb, hbc⟩
        exact hno ⟨b, List.mem_cons_of_mem _ hb, hbc⟩

/-- C34: if the budget is not exhausted and some enumerated agent is ICB-blocked while
neither blocked on an address nor yield-blocked (no ICB-blocked enumerated agent being
idle, which the loop asserts), `try_avoid_fp_deadlock` returns true with such an agent as
result, and the state it leaves is the entry state with the attempt counter incremented:
no agent (so no `user_blocked_on_addr` and no yield state) and no abort-set marker is
modified. ICB-blockedness is evaluated after the counter was incremented. -/
theorem fp_icb_candidate_first (X : landslide_env) (ls : ls_state) (voluntary : Bool)
    (result : agent_ptr)
    (hne : ls.sched.deadlock_fp_avoidance_count ≠ 128)
    (hidle : ∀ a ∈ ls.sched.runnable,
      X.ICB_BLOCKED
        { ls.sched with deadlock_fp_avoidance_count :=
            (ls.sched.deadlock_fp_avoidance_count + 1) % 4294967296 }
        ls.icb_bound voluntary a = true → IS_IDLE X ls a = false)
    (hc : ∃ a ∈ ls.sched.runnable,
      X.ICB_BLOCKED
        { ls.sched with deadlock_fp_avoidance_count :=
            (ls.sched.deadlock_fp_avoidance_count + 1) % 4294967296 }
        ls.icb_bound voluntary a = true ∧
      (ls.sched.agents a).user_blocked_on_addr = X.ADDR_NONE ∧
      X.agent_is_user_yield_blocked (ls.sched.agents a).user_yield = false) :
    ∃ r, try_avoid_fp_deadlock X ls voluntary result = some r ∧
      r.ret = true ∧
      r.result ∈ ls.sched.runnable ∧
      X.ICB_BLOCKED
        { ls.sched with deadlock_fp_avoidance_count :=
            (ls.sched.deadlock_fp_avoidance_count + 1) % 4294967296 }
        ls.icb_bound voluntary r.result = true ∧
      (ls.sched.agents r.result).user_blocked_on_addr = X.ADDR_NONE ∧
      X.agent_is_user_yield_blocked (ls.sched.agents r.result).user_yield = false ∧
      r.ls = { ls with sched := { ls.sched with deadlock_fp_avoidance_count :=
                 (ls.sched.deadlock_fp_avoidance_count + 1) % 4294967296 } } ∧
      r.ls.sched.agents = ls.sched.agents ∧
      r.ls.sched.upcoming_aborts = ls.sched.upcoming_aborts := by
  have hne2 : (ls.sched.deadlock_fp_avoidance_count == DEADLOCK_FP_MAX_ATTEMPTS) = false := by
    simpa [DEADLOCK_FP_MAX_ATTEMPTS] using hne
  obtain ⟨l, hl, hfound, _⟩ := fp_icb_loop_candidate X
    { ls with sched := { ls.sched with deadlock_fp_avoidance_count :=
        (ls.sched.deadlock_fp_avoidance_count + 1) % 4294967296 } }
    voluntary ls.sched.runnable { found_one := false, result := result } hidle
  obtain ⟨h1, h2, h3, h4, h5⟩ := hfound hc
  refine ⟨{ ret := true,
            ls := { ls with sched := { ls.sched with deadlock_fp_avoidance_count :=
              (ls.sched.deadlock_fp_avoidance_count + 1) % 4294967296 } },
            result := l.result }, ?_, rfl, h2, h3, h4, h5, rfl, rfl, rfl⟩
  unfold try_avoid_fp_deadlock
  simp only [hne2, Bool.false_eq_true, if_false, hl, h1, if_true]

/-- Evaluation of C34 on scenario 4 of the spec (`icb_scenario_state`, involuntary): T1
and T2 are ICB-blocked, T2 is also blocked on an address; T1 is returned and only the
attempt counter changes. -/
theorem fp_icb_candidate_first_witness :
    ∃ r, try_avoid_fp_deadlock pebbles_env icb_scenario_state false 0 = some r ∧
      r.ret = true ∧ r.result = 1 ∧
      r.ls.sched.deadlock_fp_avoidance_count = 1 ∧
      r.ls.sched.agents = icb_scenario_state.sched.agents ∧
      r.ls.sched.upcoming_aborts = icb_scenario_state.sched.upcoming_aborts := by
  obtain ⟨r, hr, h1, _, _, _, _, h6, h7, h8⟩ :=
    fp_icb_candidate_first pebbles_env icb_scenario_state false 0 (by decide) (by decide)
      (by decide)
  have hres : r.result = 1 := by
    have h : try_avoid_fp_deadlock pebbles_env icb_scenario_state false 0 =
        some { ret := true,
               ls := { icb_scenario_state with sched :=
                 { icb_scenario_state.sched with deadlock_fp_avoidance_count := 1 } },
               result := 1 } := rfl
    rw [h] at hr
    cases Option.some.inj hr
    rfl
  exact ⟨r, hr, h1, hres, by rw [h6]; rfl, h7, h8⟩

/-! ### arbiter_choose: the yield path when the current agent is not a legal choice -/

/-- C33, as stated, fails on `too_many_yields_state`: the current agent T2 has yielded and
is not a legal choice, but it is yield-blocked, and `arbiter_choose` goes on to the
general selection (returning T1) with the yield-loop counter of T2 still at 10. -/
theorem yield_blocked_counterexample :
    pebbles_env.agent_has_yielded (too_many_yields_state.sched.agents 2).user_yield = true ∧
    eligible pebbles_env too_many_yields_state false 2 = false ∧
    pebbles_env.agent_is_user_yield_blocked
      (too_many_yields_state.sched.agents 2).user_yield = true ∧
    ∃ r, arbiter_choose pebbles_env too_many_yields_state 2 false 0 false = some r ∧
      r.ret = true ∧ r.result = 1 ∧
      (r.ls.sched.agents 2).user_yield.loop_count = 10 :=
  ⟨by decide, by decide, by decide, _, rfl, rfl, rfl, by decide⟩

/-- C33, amended: for every state (choice queue empty, build not combining `ICB` with
backward exploration) in which the current agent has yielded or an xchg-yield is
reported, the current agent is not a legal choice and it is not yield-blocked (its
`user_yield.blocked` being false, as asserted), `arbiter_choose` sets the current agent's
`user_yield.loop_count` to 0, changing nothing else, and runs the general selection in
that state; when the current agent is yield-blocked it runs the general selection in the
entry state. -/
theorem yield_path_clears_loop_count (X : landslide_env) (ls : ls_state)
    (current : agent_ptr) (voluntary : Bool) (result : agent_ptr) (our_choice : Bool)
    (hq : ls.arbiter.choices = [])
    (hb : X.cfg.EXPLORE_BACKWARDS = 0 ∨ X.cfg.ICB = false)
    (hy : X.agent_has_yielded (ls.sched.agents current).user_yield = true ∨
          X.agent_has_xchged ls = true)
    (hnl : current ∉ ls.sched.runnable ∨ eligible X ls voluntary current = false) :
    (X.agent_is_user_yield_blocked (ls.sched.agents current).user_yield = false →
      (ls.sched.agents current).user_yield.blocked = false →
      arbiter_choose X ls current voluntary result our_choice =
        choose_tail X
          (store_agent ls current
            { ls.sched.agents current with
              user_yield := { loop_count := 0, blocked := false } })
          voluntary
          (chosen_count X (count_loop X ls current voluntary ls.sched.runnable
            { count := 0, current_is_legal_choice := false,
              dpor_preferred_is_legal_choice := false,
              dpor_preferred_count := 0, dpor_preference := 0 }))
          result our_choice ∧
      ((store_agent ls current
          { ls.sched.agents current with
            user_yield := { loop_count := 0, blocked := false } }).sched.agents
        current).user_yield.loop_count = 0 ∧
      ∀ b, b ≠ current →
        (store_agent ls current
          { ls.sched.agents current with
            user_yield := { loop_count := 0, blocked := false } }).sched.agents b =
          ls.sched.agents b) ∧
    (X.agent_is_user_yield_blocked (ls.sched.agents current).user_yield = true →
      arbiter_choose X ls current voluntary result our_choice =
        choose_tail X ls voluntary
          (chosen_count X (count_loop X ls current voluntary ls.sched.runnable
            { count := 0, current_is_legal_choice := false,
              dpor_preferred_is_legal_choice := false,
              dpor_preferred_count := 0, dpor_preference := 0 }))
          result our_choice) := by
  have hy2 : (X.agent_has_yielded (ls.sched.agents current).user_yield ||
      X.agent_has_xchged ls) = true := by
    rcases hy with h | h <;> simp [h]
  constructor
  · intro hnb hbl
    have hyps : yield_path_state X ls current =
        store_agent ls current
          { ls.sched.agents current with
            user_yield := { loop_count := 0, blocked := false } } := by
      unfold yield_path_state
      simp only [hy2, hnb, Bool.not_false, Bool.and_self, if_true]
      rw [← hbl]
    rw [arbiter_choose_not_legal X ls current voluntary result our_choice hq hb hnl
      (fun _ => hbl), hyps]
    refine ⟨rfl, ?_, ?_⟩
    · rw [store_agent_same]
    · intro b hbc
      exact store_agent_other ls current b _ hbc
  · intro hyb
    have hyps : yield_path_state X ls current = ls := by
      unfold yield_path_state
      simp [hyb]
    rw [arbiter_choose_not_legal X ls current voluntary result our_choice hq hb hnl
      (by simp [hyb]), hyps]

/-- Evaluation of the amended C33: on `yield_addr_blocked_state` (T2 has yielded three
times and is blocked on an address) T1 is returned and the counter of T2 is 0; on
`too_many_yields_state` (T2 yield-blocked) T1 is returned and the counter stays at 10. -/
theorem yield_path_clears_loop_count_witness :
    (yield_addr_blocked_state.sched.agents 2).user_yield.loop_count = 3 ∧
    (∃ r, arbiter_choose pebbles_env yield_addr_blocked_state 2 false 0 false = some r ∧
      r.ret = true ∧ r.result = 1 ∧ (r.ls.sched.agents 2).user_yield.loop_count = 0) ∧
    (∃ r, arbiter_choose pebbles_env too_many_yields_state 2 false 0 false = some r ∧
      r.ret = true ∧ r.result = 1 ∧ (r.ls.sched.agents 2).user_yield.loop_count = 10) :=
  ⟨by decide,
   ⟨_, ((yield_path_clears_loop_count pebbles_env yield_addr_blocked_state 2 false 0 false
      rfl (Or.inl rfl) (Or.inl (by decide)) (Or.inr (by decide))).1 (by decide)
      (by decide)).1, rfl, rfl, by decide⟩,
   ⟨_, (yield_path_clears_loop_count pebbles_env too_many_yields_state 2 false 0 false
      rfl (Or.inl rfl) (Or.inl (by decide)) (Or.inr (by decide))).2 (by decide),
      rfl, rfl, by decide⟩⟩

/-! ### arbiter_choose: the count-th eligible agent -/

/-- The body of the counting loop at an eligible agent. -/
theorem count_step_eligible (X : landslide_env) (ls : ls_state) (current : agent_ptr)
    (voluntary : Bool) (l : choose_locals) (a : agent_ptr)
    (he : eligible X ls voluntary a = true) :
    count_step X ls current voluntary l a =
      dpor_scan ls.sched.dpor_preferred_tids.length (ls.sched.agents a).tid 0
        ls.sched.dpor_preferred_tids
        { l with count := (l.count + 1) % 4294967296,
                 current_is_legal_choice := l.current_is_legal_choice || (a == current) } := by
  unfold count_step
  simp only [he, if_true]
  by_cases hac : (a == current) = true
  · simp [hac]
  · simp only [Bool.not_eq_true] at hac
    simp [hac]

/-- The body of the counting loop at an agent that is not eligible. -/
theorem count_step_not_eligible (X : landslide_env) (ls : ls_state) (current : agent_ptr)
    (voluntary : Bool) (l : choose_locals) (a : agent_ptr)
    (he : eligible X ls voluntary a = false) :
    count_step X ls current voluntary l a = l := by
  unfold count_step
  simp [he]

/-- After the counting loop, `count` is the number of eligible agents (as an unsigned
int). -/
theorem count_loop_count (X : landslide_env) (ls : ls_state) (current : agent_ptr)
    (voluntary : Bool) (as : List agent_ptr) (l : choose_locals)
    (h0 : l.count < 4294967296) :
    (count_loop X ls current voluntary as l).count =
      (l.count + (as.filter (eligible X ls voluntary)).length) % 4294967296 := by
  induction as generalizing l with
  | nil =>
    simp only [count_loop, List.filter_nil, List.length_nil, Nat.add_zero]
    exact (Nat.mod_eq_of_lt h0).symm
  | cons a rest ih =>
    simp only [count_loop]
    cases he : eligible X ls voluntary a
    · rw [count_step_not_eligible X ls current voluntary l a he, ih l h0]
      simp [List.filter_cons, he]
    · have hc : (count_step X ls current voluntary l a).count =
          (l.count + 1) % 4294967296 := by
        rw [count_step_eligible X ls current voluntary l a he, dpor_scan_count]
      have hlt : (count_step X ls current voluntary l a).count < 4294967296 := by
        rw [hc]
        exact Nat.mod_lt _ (by decide)
      rw [ih _ hlt, hc]
      simp only [List.filter_cons, he, if_true, List.length_cons]
      omega

/-- The scan of the DPOR preference stack either leaves the DPOR locals alone or records
the current value of `count`. -/
theorem dpor_scan_alt (size x : Nat) (tids : List Nat) (i : Nat) (l : choose_locals) :
    ((dpor_scan size x i tids l).dpor_preferred_is_legal_choice =
        l.dpor_preferred_is_legal_choice ∧
      (dpor_scan size x i tids l).dpor_preferred_count = l.dpor_preferred_count) ∨
    ((dpor_scan size x i tids l).dpor_preferred_is_legal_choice = true ∧
      (dpor_scan size x i tids l).dpor_preferred_count = l.count) := by
  induction tids generalizing i l with
  | nil => exact Or.inl ⟨rfl, rfl⟩
  | cons y rest ih =>
    simp only [dpor_scan]
    split
    · exact ih _ _
    · split
      · right
        rcases ih (i + 1) { l with dpor_preferred_is_legal_choice := true,
                                   dpor_preferred_count := l.count,
                                   dpor_preference := i } with h | h
        · exact h
        · exact h
      · exact ih _ _

/-- After the counting loop, a DPOR-preferred count is the index (from 1, as an unsigned
int) of an eligible agent. -/
theorem count_loop_dpor_range (X : landslide_env) (ls : ls_state) (current : agent_ptr)
    (voluntary : Bool) (as : List agent_ptr) (l : choose_locals) (m : Nat)
    (hc : l.count = m % 4294967296)
    (hl : l.dpor_preferred_is_legal_choice = true →
      ∃ k, 1 ≤ k ∧ k ≤ m ∧ l.dpor_preferred_count = k % 4294967296)
    (h : (count_loop X ls current voluntary as l).dpor_preferred_is_legal_choice = true) :
    ∃ k, 1 ≤ k ∧ k ≤ m + (as.filter (eligible X ls voluntary)).length ∧
      (count_loop X ls current voluntary as l).dpor_preferred_count = k % 4294967296 := by
  induction as generalizing l m with
  | nil =>
    obtain ⟨k, h1, h2, h3⟩ := hl h
    exact ⟨k, h1, by simpa using h2, h3⟩
  | cons a rest ih =>
    simp only [count_loop] at h ⊢
    cases he : eligible X ls voluntary a
    · rw [count_step_not_eligible X ls current voluntary l a he] at h ⊢
      obtain ⟨k, h1, h2, h3⟩ := ih l m hc hl h
      exact ⟨k, h1, by simpa [List.filter_cons, he] using h2, h3⟩
    · have hstep := count_step_eligible X ls current voluntary l a he
      have hcount : (count_step X ls current voluntary l a).count =
          (m + 1) % 4294967296 := by
        rw [hstep, dpor_scan_count]
        simp only [hc]
        omega
      have hl1 : (count_step X ls current voluntary l a).dpor_preferred_is_legal_choice = true →
          ∃ k, 1 ≤ k ∧ k ≤ m + 1 ∧
            (count_step X ls current voluntary l a).dpor_preferred_count
              = k % 4294967296 := by
        intro hleg
        rw [hstep] at hleg ⊢
        rcases dpor_scan_alt ls.sched.dpor_preferred_tids.length (ls.sched.agents a).tid
          ls.sched.dpor_preferred_tids 0
          { l with count := (l.count + 1) % 4294967296,
                   current_is_legal_choice := l.current_is_legal_choice || (a == current) }
          with hs | hs
        · rw [hs.1] at hleg
          obtain ⟨k, h1, h2, h3⟩ := hl hleg
          exact ⟨k, h1, by omega, by rw [hs.2]; exact h3⟩
        · refine ⟨m + 1, by omega, le_refl _, ?_⟩
          rw [hs.2]
          simp only [hc]
          omega
      obtain ⟨k, h1, h2, h3⟩ := ih _ (m + 1) hcount hl1 h
      refine ⟨k, h1, ?_, h3⟩
      simp only [List.filter_cons, he, if_true, List.length_cons]
      omega

/-- The second loop finds an enumerated eligible agent when `count` is the index (as an
unsigned int) of one of the eligible agents still to come. -/
theorem find_choice_exists (X : landslide_env) (ls : ls_state) (voluntary : Bool)
    (count : Nat) (as : List agent_ptr) (i : Nat)
    (h : ∃ k, 1 ≤ k ∧ k ≤ (as.filter (eligible X ls voluntary)).length ∧
      (i + k) % 4294967296 = count) :
    ∃ b, find_choice X ls voluntary count i as = some b ∧ b ∈ as ∧
      eligible X ls voluntary b = true := by
  induction as generalizing i with
  | nil =>
    obtain ⟨k, h1, h2, _⟩ := h
    simp at h2
    omega
  | cons a rest ih =>
    obtain ⟨k, h1, h2, h3⟩ := h
    cases he : eligible X ls voluntary a
    · simp only [List.filter_cons, he, Bool.false_eq_true, if_false] at h2
      obtain ⟨b, hb1, hb2, hb3⟩ := ih i ⟨k, h1, h2, h3⟩
      refine ⟨b, ?_, List.mem_cons_of_mem _ hb2, hb3⟩
      simp only [find_choice, he, Bool.false_eq_true, if_false]
      exact hb1
    · simp only [List.filter_cons, he, if_true, List.length_cons] at h2
      by_cases hhit : (i + 1) % 4294967296 = count
      · refine ⟨a, ?_, List.mem_cons_self _ _, he⟩
        simp [find_choice, he, hhit]
      · have hk : 2 ≤ k := by
          by_contra hk
          have : k = 1 := by omega
          subst this
          exact hhit h3
        obtain ⟨b, hb1, hb2, hb3⟩ := ih ((i + 1) % 4294967296)
          ⟨k - 1, by omega, by omega, by omega⟩
        refine ⟨b, ?_, List.mem_cons_of_mem _ hb2, hb3⟩
        simp only [find_choice, he, if_true, beq_iff_eq, hhit, if_false]
        exact hb1

/-- The second loop depends on the state through the eligibility of the enumerated agents
only. -/
theorem find_choice_congr (X : landslide_env) (ls ls1 : ls_state) (voluntary : Bool)
    (count : Nat) (as : List agent_ptr) (i : Nat)
    (h : ∀ a ∈ as, eligible X ls1 voluntary a = eligible X ls voluntary a) :
    find_choice X ls1 voluntary count i as = find_choice X ls voluntary count i as := by
  induction as generalizing i with
  | nil => rfl
  | cons a rest ih =>
    have hrest : ∀ b ∈ rest, eligible X ls1 voluntary b = eligible X ls voluntary b :=
      fun b hb => h b (List.mem_cons_of_mem _ hb)
    simp only [find_choice, h a (List.mem_cons_self _ _), ih _ hrest]

/-- The tail of `arbiter_choose` sets `our_choice` whenever it returns true. -/
theorem choose_tail_our_choice (X : landslide_env) (ls : ls_state) (voluntary : Bool)
    (count : Nat) (result : agent_ptr) (our_choice : Bool) (r : choose_result)
    (h : choose_tail X ls voluntary count result our_choice = some r)
    (hret : r.ret = true) : r.our_choice = true := by
  unfold choose_tail at h
  split at h
  · cases Option.some.inj h
    rfl
  · split at h
    · split at h
      · exact Option.noConfusion h
      · split at h
        · cases Option.some.inj h
          rfl
        · cases Option.some.inj h
          cases hret
    · cases Option.some.inj h
      cases hret

/-- The tail of `arbiter_choose` when the second loop finds an agent: it is returned, and
nothing but the ICB preemption count may change. -/
theorem choose_tail_found (X : landslide_env) (ls : ls_state) (voluntary : Bool)
    (count : Nat) (result : agent_ptr) (our_choice : Bool) (a : agent_ptr)
    (h : find_choice X ls voluntary count 0 ls.sched.runnable = some a) :
    ∃ r, choose_tail X ls voluntary count result our_choice = some r ∧
      r.ret = true ∧ r.result = a ∧ r.our_choice = true ∧
      r.ls.effects = ls.effects ∧
      r.ls.sched.deadlock_fp_avoidance_count = ls.sched.deadlock_fp_avoidance_count ∧
      r.ls.sched.upcoming_aborts = ls.sched.upcoming_aborts ∧
      r.ls.sched.agents = ls.sched.agents := by
  unfold choose_tail
  rw [h]
  refine ⟨_, rfl, rfl, rfl, rfl, ?_, ?_, ?_, ?_⟩ <;> simp only [] <;> split <;> rfl

/-- The state at the second loop differs from the entry state in the current agent's
yield-loop counter only. -/
theorem yield_path_state_frame (X : landslide_env) (ls : ls_state) (current : agent_ptr) :
    (yield_path_state X ls current).sched.runnable = ls.sched.runnable ∧
    (yield_path_state X ls current).effects = ls.effects ∧
    (yield_path_state X ls current).sched.deadlock_fp_avoidance_count =
      ls.sched.deadlock_fp_avoidance_count ∧
    (yield_path_state X ls current).sched.upcoming_aborts = ls.sched.upcoming_aborts ∧
    ∀ b, ((yield_path_state X ls current).sched.agents b).user_blocked_on_addr =
      (ls.sched.agents b).user_blocked_on_addr := by
  unfold yield_path_state
  split
  · refine ⟨rfl, rfl, rfl, rfl, ?_⟩
    intro b
    by_cases hb : b = current
    · subst hb
      rw [store_agent_same]
    · rw [store_agent_other ls current b _ hb]
  · exact ⟨rfl, rfl, rfl, rfl, fun _ => rfl⟩

/-- C39: (1) whenever at least one enumerated agent is eligible (the choice queue being
empty, the build not combining `ICB` with backward exploration, and, if the current agent
is not a legal choice, the assertion of the yield path holding and the clearing of its
yield-loop counter leaving the eligibility of the enumerated agents as it is),
`arbiter_choose` returns true with `our_choice = true` and an enumerated eligible agent as
result, without entering deadlock handling: no call to the save engine or the bug
reporter, the attempt counter, the abort-set marker and every `user_blocked_on_addr` as
on entry. This holds for every yield state, every DPOR preference stack and every value
of `EXPLORE_BACKWARDS`. (2) On every path on which `arbiter_choose` returns true,
`our_choice` is true. -/
theorem arbiter_choose_eligible (X : landslide_env) (ls : ls_state) (current : agent_ptr)
    (voluntary : Bool) (result : agent_ptr) (our_choice : Bool) :
    (ls.arbiter.choices = [] →
      (X.cfg.EXPLORE_BACKWARDS = 0 ∨ X.cfg.ICB = false) →
      ((current ∉ ls.sched.runnable ∨ eligible X ls voluntary current = false) →
        ((X.agent_has_yielded (ls.sched.agents current).user_yield ||
          X.agent_has_xchged ls) &&
          !X.agent_is_user_yield_blocked (ls.sched.agents current).user_yield) = true →
        (ls.sched.agents current).user_yield.blocked = false) →
      ((current ∉ ls.sched.runnable ∨ eligible X ls voluntary current = false) →
        ∀ a ∈ ls.sched.runnable,
          eligible X (yield_path_state X ls current) voluntary a =
            eligible X ls voluntary a) →
      (∃ a ∈ ls.sched.runnable, eligible X ls voluntary a = true) →
      ∃ r, arbiter_choose X ls current voluntary result our_choice = some r ∧
        r.ret = true ∧ r.our_choice = true ∧
        r.result ∈ ls.sched.runnable ∧ eligible X ls voluntary r.result = true ∧
        r.ls.effects = ls.effects ∧
        r.ls.sched.deadlock_fp_avoidance_count = ls.sched.deadlock_fp_avoidance_count ∧
        r.ls.sched.upcoming_aborts = ls.sched.upcoming_aborts ∧
        ∀ b, (r.ls.sched.agents b).user_blocked_on_addr =
          (ls.sched.agents b).user_blocked_on_addr) ∧
    (∀ r, arbiter_choose X ls current voluntary result our_choice = some r →
      r.ret = true → r.our_choice = true) := by
  constructor
  · intro hq hb hassert helig hex
    have hEB : (X.cfg.EXPLORE_BACKWARDS != 0 && X.cfg.ICB) = false := by
      rcases hb with h | h <;> simp [h]
    -- the value of `count` is the index of an eligible agent
    have hn : 1 ≤ (ls.sched.runnable.filter (eligible X ls voluntary)).length := by
      obtain ⟨a, ha, hae⟩ := hex
      have hmem : a ∈ ls.sched.runnable.filter (eligible X ls voluntary) :=
        List.mem_filter.mpr ⟨ha, hae⟩
      exact List.length_pos_of_mem hmem
    have hcount : ∃ k, 1 ≤ k ∧
        k ≤ (ls.sched.runnable.filter (eligible X ls voluntary)).length ∧
        (0 + k) % 4294967296 =
          chosen_count X (count_loop X ls current voluntary ls.sched.runnable
            { count := 0, current_is_legal_choice := false,
              dpor_preferred_is_legal_choice := false,
              dpor_preferred_count := 0, dpor_preference := 0 }) := by
      unfold chosen_count
      simp only []
      split
      · rename_i hd
        simp only [Bool.and_eq_true] at hd
        obtain ⟨k, h1, h2, h3⟩ := count_loop_dpor_range X ls current voluntary
          ls.sched.runnable _ 0 rfl (by intro h; cases h) hd.1
        exact ⟨k, h1, by simpa using h2, by rw [h3]; simp⟩
      · split
        · exact ⟨1, le_refl _, hn, rfl⟩
        · refine ⟨_, hn, le_refl _, ?_⟩
          rw [count_loop_count X ls current voluntary ls.sched.runnable _ (by decide)]
    by_cases hlegal : current ∈ ls.sched.runnable ∧ eligible X ls voluntary current = true
    · have hl : (count_loop X ls current voluntary ls.sched.runnable
          { count := 0, current_is_legal_choice := false,
            dpor_preferred_is_legal_choice := false,
            dpor_preferred_count := 0, dpor_preference := 0 }).current_is_legal_choice
            = true := by
        rw [count_loop_current]
        simp [hlegal.1, hlegal.2]
      cases hy : (X.agent_has_yielded (ls.sched.agents current).user_yield ||
          X.agent_has_xchged ls)
      · obtain ⟨b, hb1, hb2, hb3⟩ := find_choice_exists X ls voluntary _ ls.sched.runnable 0
          hcount
        obtain ⟨r, hr, h1, h2, h3, h4, h5, h6, h7⟩ :=
          choose_tail_found X ls voluntary _ result our_choice b hb1
        refine ⟨r, ?_, h1, h3, by rw [h2]; exact hb2, by rw [h2]; exact hb3, h4, h5, h6,
          fun c => by rw [h7]⟩
        rw [← hr]
        unfold arbiter_choose
        simp only [hq, List.length_nil, bne_self_eq_false, Bool.false_eq_true, if_false, hEB,
          hy]
      · refine ⟨{ ret := true, ls := ls, result := current, our_choice := true }, ?_, rfl, rfl,
          hlegal.1, hlegal.2, rfl, rfl, rfl, fun _ => rfl⟩
        unfold arbiter_choose
        simp only [hq, List.length_nil, bne_self_eq_false, Bool.false_eq_true, if_false, hEB,
          hy, hl, if_true]
    · have hnl : current ∉ ls.sched.runnable ∨ eligible X ls voluntary current = false := by
        by_cases hc : current ∈ ls.sched.runnable
        · right
          cases he : eligible X ls voluntary current
          · rfl
          · exact absurd ⟨hc, he⟩ hlegal
        · exact Or.inl hc
      obtain ⟨hrun, heff, hcnt, habs, haddr⟩ := yield_path_state_frame X ls current
      obtain ⟨b, hb1, hb2, hb3⟩ := find_choice_exists X ls voluntary _ ls.sched.runnable 0
        hcount
      have hfind : find_choice X (yield_path_state X ls current) voluntary
          (chosen_count X (count_loop X ls current voluntary ls.sched.runnable
            { count := 0, current_is_legal_choice := false,
              dpor_preferred_is_legal_choice := false,
              dpor_preferred_count := 0, dpor_preference := 0 })) 0
          (yield_path_state X ls current).sched.runnable = some b := by
        rw [hrun, find_choice_congr X ls _ voluntary _ _ 0 (helig hnl)]
        exact hb1
      obtain ⟨r, hr, h1, h2, h3, h4, h5, h6, h7⟩ :=
        choose_tail_found X (yield_path_state X ls current) voluntary _ result our_choice b
          hfind
      refine ⟨r, ?_, h1, h3, by rw [h2]; exact hb2, by rw [h2]; exact hb3, h4.trans heff,
        h5.trans hcnt, h6.trans habs, fun c => by rw [h7]; exact haddr c⟩
      rw [arbiter_choose_not_legal X ls current voluntary result our_choice hq hb hnl
        (hassert hnl)]
      exact hr
  · intro r h hret
    unfold arbiter_choose at h
    split at h
    · exact Option.noConfusion h
    · split at h
      · exact Option.noConfusion h
      · simp only [] at h
        split at h
        · split at h
          · cases Option.some.inj h
            rfl
          · split at h
            · split at h
              · exact Option.noConfusion h
              · exact choose_tail_our_choice X _ voluntary _ result our_choice r h hret
            · exact choose_tail_our_choice X _ voluntary _ result our_choice r h hret
        · exact choose_tail_our_choice X _ voluntary _ result our_choice r h hret

/-- Evaluation of C39 on `yield_addr_blocked_state`: the current agent T2 has yielded and
is blocked on an address, T1 and T3 are eligible; an eligible agent is returned with
`our_choice = true` and no effect. -/
theorem arbiter_choose_eligible_witness :
    ∃ r, arbiter_choose pebbles_env yield_addr_blocked_state 2 false 0 false = some r ∧
      r.ret = true ∧ r.our_choice = true ∧
      r.result ∈ yield_addr_blocked_state.sched.runnable ∧
      eligible pebbles_env yield_addr_blocked_state false r.result = true ∧
      r.ls.effects = yield_addr_blocked_state.effects ∧
      r.ls.sched.deadlock_fp_avoidance_count =
        yield_addr_blocked_state.sched.deadlock_fp_avoidance_count ∧
      r.ls.sched.upcoming_aborts = yield_addr_blocked_state.sched.upcoming_aborts ∧
      ∀ b, (r.ls.sched.agents b).user_blocked_on_addr =
        (yield_addr_blocked_state.sched.agents b).user_blocked_on_addr :=
  (arbiter_choose_eligible pebbles_env yield_addr_blocked_state 2 false 0 false).1 rfl
    (Or.inl rfl) (fun _ _ => by decide) (fun _ => by decide) (by decide)

/-! ### arbiter_choose: the DPOR preference -/

/-- The scan of the DPOR preference stack compares the tid with the most recent entry
only. -/
theorem dpor_scan_last (size x t : Nat) (tids : List Nat) (i : Nat) (l : choose_locals)
    (hne : tids ≠ []) (hsize : i + tids.length = size)
    (hlast : tids.getLast? = some t)
    (hpref : l.dpor_preference ≤ size - 1) :
    dpor_scan size x i tids l =
      if x = t then
        { l with dpor_preferred_is_legal_choice := true,
                 dpor_preferred_count := l.count,
                 dpor_preference := size - 1 }
      else l := by
  induction tids generalizing i with
  | nil => exact absurd rfl hne
  | cons y rest ih =>
    cases rest with
    | nil =>
      simp only [List.length_singleton] at hsize
      have hy : y = t := by simpa using hlast
      subst hy
      have hi : i = size - 1 := by omega
      have h1 : ¬ i < size - 1 := by omega
      have h2 : i ≥ l.dpor_preference := by omega
      by_cases hx : x = y
      · simp [dpor_scan, h1, hx, hi]
        intro hcontra
        omega
      · simp [dpor_scan, h1, hx]
    | cons z rest1 =>
      simp only [List.length_cons] at hsize
      have h1 : i < size - 1 := by omega
      have hlast1 : (z :: rest1).getLast? = some t := by
        simpa [List.getLast?_cons_cons] using hlast
      simp only [dpor_scan, h1, if_true]
      exact ih (i + 1) (List.cons_ne_nil _ _) (by simp only [List.length_cons]; omega) hlast1

/-- After the counting loop (no wrap-around of `count`), either the DPOR-preferred count
is the index of an eligible agent whose tid is the most recent DPOR-preferred tid, or no
eligible agent has that tid and the DPOR locals are as before. -/
theorem count_loop_dpor_last (X : landslide_env) (ls : ls_state) (current : agent_ptr)
    (voluntary : Bool) (t : Nat)
    (hlast : ls.sched.dpor_preferred_tids.getLast? = some t)
    (as : List agent_ptr) (l : choose_locals)
    (hW : l.count + (as.filter (eligible X ls voluntary)).length < 4294967296)
    (hpref : l.dpor_preference ≤ ls.sched.dpor_preferred_tids.length - 1) :
    ((count_loop X ls current voluntary as l).dpor_preferred_is_legal_choice = true ∧
      ∃ p b, (as.filter (eligible X ls voluntary))[p]? = some b ∧
        (ls.sched.agents b).tid = t ∧
        (count_loop X ls current voluntary as l).dpor_preferred_count = l.count + p + 1) ∨
    ((count_loop X ls current voluntary as l).dpor_preferred_is_legal_choice =
        l.dpor_preferred_is_legal_choice ∧
      (count_loop X ls current voluntary as l).dpor_preferred_count =
        l.dpor_preferred_count ∧
      ∀ b ∈ as.filter (eligible X ls voluntary), (ls.sched.agents b).tid ≠ t) := by
  have hne : ls.sched.dpor_preferred_tids ≠ [] := by
    intro h
    rw [h] at hlast
    cases hlast
  induction as generalizing l with
  | nil =>
    right
    exact ⟨rfl, rfl, by simp⟩
  | cons a rest ih =>
    simp only [count_loop]
    cases he : eligible X ls voluntary a
    · rw [count_step_not_eligible X ls current voluntary l a he]
      simp only [List.filter_cons, he, Bool.false_eq_true, if_false] at hW ⊢
      exact ih l hW hpref
    · simp only [List.filter_cons, he, if_true, List.length_cons] at hW ⊢
      have hmod : (l.count + 1) % 4294967296 = l.count + 1 :=
        Nat.mod_eq_of_lt (by omega)
      have hstep : count_step X ls current voluntary l a =
          if (ls.sched.agents a).tid = t then
            { l with count := l.count + 1,
                     current_is_legal_choice := l.current_is_legal_choice || (a == current),
                     dpor_preferred_is_legal_choice := true,
                     dpor_preferred_count := l.count + 1,
                     dpor_preference := ls.sched.dpor_preferred_tids.length - 1 }
          else
            { l with count := l.count + 1,
                     current_is_legal_choice :=
                       l.current_is_legal_choice || (a == current) } := by
        rw [count_step_eligible X ls current voluntary l a he,
          dpor_scan_last _ _ t _ 0
            { l with count := (l.count + 1) % 4294967296,
                     current_is_legal_choice := l.current_is_legal_choice || (a == current) }
            hne (by simp) hlast hpref]
        simp only [hmod]
      by_cases hat : (ls.sched.agents a).tid = t
      · rw [if_pos hat] at hstep
        have h1 := ih (count_step X ls current voluntary l a)
          (by rw [hstep]; simp only []; omega) (by rw [hstep])
        left
        rcases h1 with ⟨hleg, p, b, hp, hbt, hdpc⟩ | ⟨hleg, hdpc, _⟩
        · refine ⟨hleg, p + 1, b, by simpa using hp, hbt, ?_⟩
          rw [hdpc, hstep]
          simp only []
          omega
        · refine ⟨by rw [hleg, hstep], 0, a, by simp, hat, ?_⟩
          rw [hdpc, hstep]
      · rw [if_neg hat] at hstep
        have h1 := ih (count_step X ls current voluntary l a)
          (by rw [hstep]; simp only []; omega) (by rw [hstep]; exact hpref)
        rcases h1 with ⟨hleg, p, b, hp, hbt, hdpc⟩ | ⟨hleg, hdpc, hno⟩
        · left
          refine ⟨hleg, p + 1, b, by simpa using hp, hbt, ?_⟩
          rw [hdpc, hstep]
          simp only []
          omega
        · right
          refine ⟨by rw [hleg, hstep], by rw [hdpc, hstep], ?_⟩
          intro b hb
          rcases List.mem_cons.mp hb with hba | hbr
          · subst hba
            exact hat
          · exact hno b hbr

/-- The second loop (no wrap-around of `i`) returns the eligible agent whose index among
the eligible agents still to come is `count - i`. -/
theorem find_choice_index (X : landslide_env) (ls : ls_state) (voluntary : Bool)
    (as : List agent_ptr) (i p : Nat) (b : agent_ptr)
    (hW : i + (as.filter (eligible X ls voluntary)).length < 4294967296)
    (hp : (as.filter (eligible X ls voluntary))[p]? = some b) :
    find_choice X ls voluntary (i + p + 1) i as = some b := by
  induction as generalizing i p with
  | nil => simp at hp
  | cons a rest ih =>
    cases he : eligible X ls voluntary a
    · simp only [List.filter_cons, he, Bool.false_eq_true, if_false] at hW hp
      simp only [find_choice, he, Bool.false_eq_true, if_false]
      exact ih i p hW hp
    · simp only [List.filter_cons, he, if_true, List.length_cons] at hW hp
      have hmod : (i + 1) % 4294967296 = i + 1 := Nat.mod_eq_of_lt (by omega)
      cases p with
      | zero =>
        have hab : a = b := by simpa using hp
        subst hab
        simp [find_choice, he, hmod]
      | succ q =>
        have hq : (rest.filter (eligible X ls voluntary))[q]? = some b := by
          simpa using hp
        have hneq : ¬ (i + 1 = i + (q + 1) + 1) := by omega
        simp only [find_choice, he, if_true, hmod, beq_iff_eq, hneq, if_false]
        have h1 := ih (i + 1) q (by omega) hq
        have harith : i + (q + 1) + 1 = i + 1 + q + 1 := by omega
        rw [harith]
        exact h1

/-- C32: when the current agent is not a legal choice (so the yield path does not select
it), and the most recently pushed DPOR-preferred tid `t` is the tid of the eligible
enumerated agent `a` (and of no other eligible enumerated agent), `arbiter_choose`
returns true with `result = a` and `our_choice = true`, wherever `a` stands in the
enumeration. Assumed: the choice queue is empty, the build does not combine `ICB` with
backward exploration, the assertion of the yield path holds, clearing the current agent's
yield-loop counter leaves the eligibility of the enumerated agents as it is, and fewer
than 2^32 agents are enumerated. -/
theorem arbiter_choose_dpor_preferred (X : landslide_env) (ls : ls_state)
    (current : agent_ptr) (voluntary : Bool) (result : agent_ptr) (our_choice : Bool)
    (t : Nat) (a : agent_ptr)
    (hq : ls.arbiter.choices = [])
    (hb : X.cfg.EXPLORE_BACKWARDS = 0 ∨ X.cfg.ICB = false)
    (hnl : current ∉ ls.sched.runnable ∨ eligible X ls voluntary current = false)
    (hassert : ((X.agent_has_yielded (ls.sched.agents current).user_yield ||
        X.agent_has_xchged ls) &&
        !X.agent_is_user_yield_blocked (ls.sched.agents current).user_yield) = true →
      (ls.sched.agents current).user_yield.blocked = false)
    (helig : ∀ b ∈ ls.sched.runnable,
      eligible X (yield_path_state X ls current) voluntary b = eligible X ls voluntary b)
    (hlen : ls.sched.runnable.length < 4294967296)
    (hlast : ls.sched.dpor_preferred_tids.getLast? = some t)
    (ha : a ∈ ls.sched.runnable)
    (hae : eligible X ls voluntary a = true)
    (hat : (ls.sched.agents a).tid = t)
    (huniq : ∀ b ∈ ls.sched.runnable, eligible X ls voluntary b = true →
      (ls.sched.agents b).tid = t → b = a) :
    ∃ r, arbiter_choose X ls current voluntary result our_choice = some r ∧
      r.ret = true ∧ r.result = a ∧ r.our_choice = true ∧ r.ls.effects = ls.effects := by
  have hflen : (ls.sched.runnable.filter (eligible X ls voluntary)).length < 4294967296 :=
    lt_of_le_of_lt (List.length_filter_le _ _) hlen
  have hcl : (count_loop X ls current voluntary ls.sched.runnable
        { count := 0, current_is_legal_choice := false,
          dpor_preferred_is_legal_choice := false,
          dpor_preferred_count := 0, dpor_preference := 0 }).current_is_legal_choice
          = false := by
    rw [count_loop_current]
    rcases hnl with h | h <;> simp [h]
  have hdpor := count_loop_dpor_last X ls current voluntary t hlast ls.sched.runnable
    { count := 0, current_is_legal_choice := false,
      dpor_preferred_is_legal_choice := false,
      dpor_preferred_count := 0, dpor_preference := 0 }
    (by simpa using hflen) (Nat.zero_le _)
  rcases hdpor with ⟨hleg, p, b, hp, hbt, hdpc⟩ | ⟨_, _, hno⟩
  · have hbmem : b ∈ ls.sched.runnable.filter (eligible X ls voluntary) :=
      List.getElem?_mem hp
    obtain ⟨hb1, hb2⟩ := List.mem_filter.mp hbmem
    have hba : b = a := huniq b hb1 hb2 hbt
    have hcount : chosen_count X (count_loop X ls current voluntary ls.sched.runnable
        { count := 0, current_is_legal_choice := false,
          dpor_preferred_is_legal_choice := false,
          dpor_preferred_count := 0, dpor_preference := 0 }) = 0 + p + 1 := by
      unfold chosen_count
      simp only [hleg, hcl, Bool.not_false, Bool.and_self, if_true, hdpc]
    obtain ⟨hrun, heff, _, _, _⟩ := yield_path_state_frame X ls current
    have hfind : find_choice X (yield_path_state X ls current) voluntary (0 + p + 1) 0
        (yield_path_state X ls current).sched.runnable = some a := by
      rw [hrun, find_choice_congr X ls _ voluntary _ _ 0 helig,
        find_choice_index X ls voluntary ls.sched.runnable 0 p b (by simpa using hflen) hp,
        hba]
    obtain ⟨r, hr, h1, h2, h3, h4, _⟩ :=
      choose_tail_found X (yield_path_state X ls current) voluntary (0 + p + 1) result
        our_choice a hfind
    refine ⟨r, ?_, h1, h2, h3, h4.trans heff⟩
    rw [arbiter_choose_not_legal X ls current voluntary result our_choice hq hb hnl hassert,
      hcount]
    exact hr
  · exact absurd hat (hno a (List.mem_filter.mpr ⟨ha, hae⟩))

/-- Evaluation of C32 on `dpor_state`: the current agent T2 is blocked, DPOR preferred
tid 4 and then tid 6; T3 (tid 6, address 3) is returned although the eligible T1 comes
first in the enumeration. -/
theorem arbiter_choose_dpor_preferred_witness :
    dpor_state.sched.runnable.find? (eligible pebbles_env dpor_state false) = some 1 ∧
    ∃ r, arbiter_choose pebbles_env dpor_state 2 false 0 false = some r ∧
      r.ret = true ∧ r.result = 3 ∧ r.our_choice = true ∧ r.ls.effects = dpor_state.effects :=
  ⟨by decide,
   arbiter_choose_dpor_preferred pebbles_env dpor_state 2 false 0 false 6 3 rfl (Or.inl rfl)
    (Or.inr (by decide)) (by decide) (by decide) (by decide) (by decide) (by decide)
    (by decide) (by decide) (by decide)⟩

/-- C11: on `wedged_both_state` no enumerated agent is eligible and the deadlock-report
conditions hold, so `arbiter_choose` calls `try_avoid_fp_deadlock`; the budget is not
exhausted, no agent is ICB-blocked and the build has no abort sets, so the third
category is reached. The call returns true with T3, and every `user_blocked_on_addr` is
cleared, but T1, which was both blocked on an address and yield-blocked, is still
yield-blocked (and so still `BLOCKED`) on return: the `else if` of the third loop skips
the yield state of an agent whose address was cleared, although the loop is meant to
wake all blocked threads. -/
theorem fp_wake_skips_yield_block :
    (∀ a ∈ wedged_both_state.sched.runnable,
      eligible pebbles_env wedged_both_state false a = false) ∧
    report_deadlock pebbles_env wedged_both_state = true ∧
    wedged_both_state.sched.deadlock_fp_avoidance_count ≠ 128 ∧
    pebbles_env.cfg.HTM_ABORT_SETS = false ∧
    (∀ a ∈ wedged_both_state.sched.runnable,
      pebbles_env.ICB_BLOCKED
        { wedged_both_state.sched with deadlock_fp_avoidance_count := 1 }
        wedged_both_state.icb_bound false a = false) ∧
    (wedged_both_state.sched.agents 1).user_blocked_on_addr ≠ pebbles_env.ADDR_NONE ∧
    pebbles_env.agent_is_user_yield_blocked
      (wedged_both_state.sched.agents 1).user_yield = true ∧
    (∃ r, try_avoid_fp_deadlock pebbles_env wedged_both_state false 0 = some r ∧
      r.ret = true ∧ r.result = 3 ∧
      (∀ a ∈ wedged_both_state.sched.runnable,
        (r.ls.sched.agents a).user_blocked_on_addr = pebbles_env.ADDR_NONE) ∧
      pebbles_env.agent_is_user_yield_blocked (r.ls.sched.agents 1).user_yield = true ∧
      pebbles_env.BLOCKED (r.ls.sched.agents 1) = true) ∧
    (∃ c, arbiter_choose pebbles_env wedged_both_state 3 false 0 false = some c ∧
      c.ret = true ∧ c.result = 3 ∧
      pebbles_env.agent_is_user_yield_blocked (c.ls.sched.agents 1).user_yield = true) :=
  ⟨by decide, by decide, by decide, rfl, by decide, by decide, by decide,
    ⟨_, rfl, rfl, rfl, by decide, by decide, by decide⟩,
    ⟨_, rfl, rfl, rfl, by decide⟩⟩

end Landslide
